import Mathlib

/-! cloudflareGo: the request-validation handler of `backend.go`.

A shallow embedding of `backend.go` (`locationString`, `notFound`, `getCloudflare`
and the router built in `main`) together with the parts of the Go libraries the
handler calls: `http.MaxBytesReader`, `http.Error`, `json.Decoder` (its scanner,
`readValue` and the struct decoding of `decodeState`) and the route matching of
`gorilla/mux`.

Go strings and byte slices are lists of bytes (`List Nat`); `str` turns an ASCII
literal into its bytes.
-/

namespace CloudflareGo

/-! ## Bytes and strings -/

/-- Bytes of an ASCII string literal. -/
def str (s : String) : List Nat := s.toList.map Char.toNat

/-- Lower-case hexadecimal digit of a value below 16. -/
def hexDigit (n : Nat) : Nat := if n < 10 then 48 + n else 87 + n

/-- UTF-8 encoding of a code point, as `utf8.EncodeRune` (surrogates and values
above U+10FFFF are encoded as U+FFFD). -/
def encodeRune (r : Nat) : List Nat :=
  if r < 0x80 then [r]
  else if r < 0x800 then [0xC0 + r / 64, 0x80 + r % 64]
  else if (0xD800 ≤ r ∧ r < 0xE000) ∨ 0x10FFFF < r then [0xEF, 0xBF, 0xBD]
  else if r < 0x10000 then [0xE0 + r / 4096, 0x80 + r / 64 % 64, 0x80 + r % 64]
  else [0xF0 + r / 262144, 0x80 + r / 4096 % 64, 0x80 + r / 64 % 64, 0x80 + r % 64]

/-- Continuation byte of a UTF-8 sequence. -/
def isCont (b : Nat) : Bool := 0x80 ≤ b && b ≤ 0xBF

/-- Length of the well-formed UTF-8 sequence at the head of `s`, following the
acceptance table of `utf8.DecodeRune`; `0` when the head byte does not start a
well-formed sequence (Go then yields `RuneError` with size 1). -/
def utf8Size : List Nat → Nat
  | [] => 0
  | b0 :: rest =>
    if b0 < 0x80 then 1
    else if 0xC2 ≤ b0 ∧ b0 ≤ 0xDF then
      match rest with
      | b1 :: _ => if isCont b1 then 2 else 0
      | _ => 0
    else if 0xE0 ≤ b0 ∧ b0 ≤ 0xEF then
      match rest with
      | b1 :: b2 :: _ =>
        let lo := if b0 = 0xE0 then 0xA0 else 0x80
        let hi := if b0 = 0xED then 0x9F else 0xBF
        if lo ≤ b1 ∧ b1 ≤ hi ∧ isCont b2 then 3 else 0
      | _ => 0
    else if 0xF0 ≤ b0 ∧ b0 ≤ 0xF4 then
      match rest with
      | b1 :: b2 :: b3 :: _ =>
        let lo := if b0 = 0xF0 then 0x90 else 0x80
        let hi := if b0 = 0xF4 then 0x8F else 0xBF
        if lo ≤ b1 ∧ b1 ≤ hi ∧ isCont b2 ∧ isCont b3 then 4 else 0
      | _ => 0
    else 0

/-- The rune and width that `utf8.DecodeRuneInString` returns at the head of a
non-empty `s`: an ill-formed sequence gives `RuneError` (U+FFFD) with width 1. -/
def decodeRune (s : List Nat) : Nat × Nat :=
  match utf8Size s, s with
  | 1, b0 :: _ => (b0, 1)
  | 2, b0 :: b1 :: _ => (b0 % 32 * 64 + b1 % 64, 2)
  | 3, b0 :: b1 :: b2 :: _ => (b0 % 16 * 4096 + b1 % 64 * 64 + b2 % 64, 3)
  | 4, b0 :: b1 :: b2 :: b3 :: _ =>
    (b0 % 8 * 262144 + b1 % 64 * 4096 + b2 % 64 * 64 + b3 % 64, 4)
  | _, _ => (0xFFFD, 1)

/-- Function `strconv.IsPrint`. Up to U+00FF this is the code of Go: the ASCII
characters from the space to `~`, and the Latin-1 characters from U+00A1 on
without the soft hyphen U+00AD. Above U+00FF Go searches the generated tables
`isPrint16`, `isNotPrint16`, `isPrint32` and `isNotPrint32`, which are data of
the Go release and are not reproduced here: such a rune is taken for printable
(as the letters, marks, digits, punctuation and symbols are; the format
characters, the other spaces and the unassigned code points are not). What
`strconvQuote` gives is therefore the text of Go for every string whose runes are
at most U+00FF, and for the printable runes above. -/
def IsPrint (r : Nat) : Bool :=
  if r ≤ 0xFF then (0x20 ≤ r && r ≤ 0x7E) || (0xA1 ≤ r && r != 0xAD)
  else true

/-- Function `appendEscapedRune` of `strconv`, for the quote `"` and without the
ASCII-only and graphic-only modes. -/
def appendEscapedRune (r : Nat) : List Nat :=
  if r = 34 ∨ r = 92 then [92, r]
  else if IsPrint r then encodeRune r
  else if r = 7 then [92, 97]
  else if r = 8 then [92, 98]
  else if r = 12 then [92, 102]
  else if r = 10 then [92, 110]
  else if r = 13 then [92, 114]
  else if r = 9 then [92, 116]
  else if r = 11 then [92, 118]
  else if r < 32 ∨ r = 0x7F then [92, 120, hexDigit (r / 16 % 16), hexDigit (r % 16)]
  else
    let r := if (0xD800 ≤ r ∧ r < 0xE000) ∨ 0x10FFFF < r then 0xFFFD else r
    if r < 0x10000 then
      [92, 117, hexDigit (r / 4096 % 16), hexDigit (r / 256 % 16), hexDigit (r / 16 % 16),
        hexDigit (r % 16)]
    else
      [92, 85, hexDigit (r / 268435456 % 16), hexDigit (r / 16777216 % 16),
        hexDigit (r / 1048576 % 16), hexDigit (r / 65536 % 16), hexDigit (r / 4096 % 16),
        hexDigit (r / 256 % 16), hexDigit (r / 16 % 16), hexDigit (r % 16)]

/-- The loop of `appendQuotedWith` over the runes of the string. `skip` counts the
bytes of the current rune that were consumed together with its first byte. A
byte that begins no well-formed UTF-8 sequence is written as `\x` and two
hexadecimal digits. -/
def quoteLoop : Nat → List Nat → List Nat
  | _, [] => []
  | skip + 1, _ :: rest => quoteLoop skip rest
  | 0, c :: rest =>
    if c < 0x80 then appendEscapedRune c ++ quoteLoop 0 rest
    else if utf8Size (c :: rest) = 0 then
      [92, 120, hexDigit (c / 16 % 16), hexDigit (c % 16)] ++ quoteLoop 0 rest
    else appendEscapedRune (decodeRune (c :: rest)).1 ++ quoteLoop (utf8Size (c :: rest) - 1) rest

/-- The `%q` verb on a string or a byte slice: `strconv.Quote`. -/
def strconvQuote (s : List Nat) : List Nat := [34] ++ quoteLoop 0 s ++ [34]

/-- Decimal rendering of the `%d` verb (non-negative values). -/
def itoa (n : Nat) : List Nat := str (toString n)

/-- Function `strings.HasPrefix`. -/
def HasPrefix : List Nat → List Nat → Bool
  | _, [] => true
  | [], _ :: _ => false
  | a :: s, b :: p => a == b && HasPrefix s p

/-- Function `strings.TrimPrefix`. -/
def TrimPrefix (s p : List Nat) : List Nat :=
  if HasPrefix s p then s.drop p.length else s

/-! ## Errors -/

/-- What the handler can observe of a Go `error` value: the results of
`errors.As` for the two JSON error types, of `errors.Is` for the two `io`
sentinels, of the comparison `err == io.EOF`, and the text of `err.Error()`. -/
structure GoError where
  /-- `errors.As(err, &syntaxError)`: the `Offset` of the `*json.SyntaxError`. -/
  asSyntaxError : Option Nat
  /-- `errors.Is(err, io.ErrUnexpectedEOF)`. -/
  isUnexpectedEOF : Bool
  /-- `errors.As(err, &unmarshalTypeError)`: its `Field` and `Offset`. -/
  asUnmarshalTypeError : Option (List Nat × Nat)
  /-- `err.Error()`. -/
  text : List Nat
  /-- `errors.Is(err, io.EOF)`. -/
  isEOF : Bool
  /-- `err == io.EOF`. -/
  eqEOF : Bool
deriving DecidableEq, Repr

/-- The sentinel `io.EOF`. -/
def ioEOF : GoError :=
  { asSyntaxError := none, isUnexpectedEOF := false, asUnmarshalTypeError := none,
    text := str "EOF", isEOF := true, eqEOF := true }

/-- The sentinel `io.ErrUnexpectedEOF`. -/
def ioErrUnexpectedEOF : GoError :=
  { asSyntaxError := none, isUnexpectedEOF := true, asUnmarshalTypeError := none,
    text := str "unexpected EOF", isEOF := false, eqEOF := false }

/-- The error of `http.MaxBytesReader` once the limit is passed. -/
def MaxBytesError : GoError :=
  { asSyntaxError := none, isUnexpectedEOF := false, asUnmarshalTypeError := none,
    text := str "http: request body too large", isEOF := false, eqEOF := false }

/-- A `*json.SyntaxError` with message `msg` at `Offset`. -/
def SyntaxError (msg : List Nat) (Offset : Nat) : GoError :=
  { asSyntaxError := some Offset, isUnexpectedEOF := false, asUnmarshalTypeError := none,
    text := msg, isEOF := false, eqEOF := false }

/-- A `*json.UnmarshalTypeError` for a JSON `Value` that does not fit the Go type
`Typ`, inside field `Field` of struct `Struct`. -/
def UnmarshalTypeError (Value Typ Struct Field : List Nat) (Offset : Nat) : GoError :=
  { asSyntaxError := none, isUnexpectedEOF := false,
    asUnmarshalTypeError := some (Field, Offset),
    text :=
      if Struct ≠ [] ∨ Field ≠ [] then
        str "json: cannot unmarshal " ++ Value ++ str " into Go struct field " ++ Struct
          ++ str "." ++ Field ++ str " of type " ++ Typ
      else str "json: cannot unmarshal " ++ Value ++ str " into Go value of type " ++ Typ,
    isEOF := false, eqEOF := false }

/-- An error that only carries a text, as made by `errors.New` or by `fmt.Errorf`
without `%w`. -/
def errorString (text : List Nat) : GoError :=
  { asSyntaxError := none, isUnexpectedEOF := false, asUnmarshalTypeError := none,
    text := text, isEOF := false, eqEOF := false }

/-- The error `fmt.Errorf("json: unknown field %q", key)`. -/
def unknownFieldError (key : List Nat) : GoError :=
  errorString (str "json: unknown field " ++ strconvQuote key)

/-! ## The JSON scanner (`encoding/json`, scanner.go) -/

/-- The scan opcodes returned by the scanner's state functions. -/
inductive scanCode where
  | scanContinue | scanBeginLiteral | scanBeginObject | scanObjectKey | scanObjectValue
  | scanEndObject | scanBeginArray | scanArrayValue | scanEndArray | scanSkipSpace
  | scanEnd | scanError
deriving DecidableEq, Repr

/-- The entries of the scanner's parse-state stack. -/
inductive parseKind where
  | parseObjectKey | parseObjectValue | parseArrayValue
deriving DecidableEq, Repr

/-- The scanner's state functions, one constructor for each. -/
inductive stateFn where
  | stateBeginValueOrEmpty | stateBeginValue | stateBeginStringOrEmpty | stateBeginString
  | stateEndValue | stateEndTop | stateInString | stateInStringEsc | stateInStringEscU
  | stateInStringEscU1 | stateInStringEscU12 | stateInStringEscU123 | stateNeg | state1
  | state0 | stateDot | stateDot0 | stateE | stateESign | stateE0 | stateT | stateTr
  | stateTru | stateF | stateFa | stateFal | stateFals | stateN | stateNu | stateNul
  | stateError
deriving DecidableEq, Repr

/-- The scanner: `parseState` keeps the innermost entry at the head. -/
structure scanner where
  step : stateFn
  endTop : Bool
  parseState : List parseKind
  err : Option GoError
  bytes : Nat
deriving DecidableEq, Repr

open scanCode parseKind stateFn

/-- Constant `maxNestingDepth`. -/
def maxNestingDepth : Nat := 10000

/-- A fresh scanner, as in a new `Decoder` or `decodeState`. -/
def scanner.new : scanner :=
  { step := stateBeginValue, endTop := false, parseState := [], err := none, bytes := 0 }

/-- Method `reset`: the byte count is kept. -/
def scanner.reset (s : scanner) : scanner :=
  { s with step := stateBeginValue, parseState := [], err := none, endTop := false }

/-- Function `isSpace`. -/
def isSpace (c : Nat) : Bool := c == 32 || c == 9 || c == 13 || c == 10

/-- Function `quoteChar` of the scanner's error messages. -/
def quoteChar (c : Nat) : List Nat :=
  if c = 39 then [39, 92, 39, 39]
  else if c = 34 then [39, 34, 39]
  else if c < 0x80 then [39] ++ appendEscapedRune c ++ [39]
  else if c ≤ 0xA0 ∨ c = 0xAD then
    [39, 92, 117, 48, 48, hexDigit (c / 16 % 16), hexDigit (c % 16), 39]
  else [39] ++ encodeRune c ++ [39]

/-- Method `error`: records a syntax error at the current byte count. -/
def scanner.error (s : scanner) (c : Nat) (context : List Nat) : scanner × scanCode :=
  ({ s with step := stateError,
            err := some (SyntaxError
              (str "invalid character " ++ quoteChar c ++ str " " ++ context) s.bytes) },
   scanError)

/-- Method `pushParseState`. -/
def scanner.pushParseState (s : scanner) (c : Nat) (newParseState : parseKind)
    (successState : scanCode) : scanner × scanCode :=
  let s1 := { s with parseState := newParseState :: s.parseState }
  if s1.parseState.length ≤ maxNestingDepth then (s1, successState)
  else s1.error c (str "exceeded max depth")

/-- Method `popParseState`. -/
def scanner.popParseState (s : scanner) : scanner :=
  let rest := s.parseState.tail
  if rest.length = 0 then { s with parseState := rest, step := stateEndTop, endTop := true }
  else { s with parseState := rest, step := stateEndValue }

/-- State `stateEndTop`. -/
def stateEndTopFn (s : scanner) (c : Nat) : scanner × scanCode :=
  if !isSpace c then ((s.error c (str "after top-level value")).1, scanEnd)
  else (s, scanEnd)

/-- State `stateEndValue`. -/
def stateEndValueFn (s : scanner) (c : Nat) : scanner × scanCode :=
  match s.parseState with
  | [] => stateEndTopFn { s with step := stateEndTop, endTop := true } c
  | ps :: rest =>
    if isSpace c then ({ s with step := stateEndValue }, scanSkipSpace)
    else
      match ps with
      | parseObjectKey =>
        if c = 58 then
          ({ s with parseState := parseObjectValue :: rest, step := stateBeginValue },
           scanObjectKey)
        else s.error c (str "after object key")
      | parseObjectValue =>
        if c = 44 then
          ({ s with parseState := parseObjectKey :: rest, step := stateBeginString },
           scanObjectValue)
        else if c = 125 then (s.popParseState, scanEndObject)
        else s.error c (str "after object key:value pair")
      | parseArrayValue =>
        if c = 44 then ({ s with step := stateBeginValue }, scanArrayValue)
        else if c = 93 then (s.popParseState, scanEndArray)
        else s.error c (str "after array element")

/-- State `stateBeginValue`. -/
def stateBeginValueFn (s : scanner) (c : Nat) : scanner × scanCode :=
  if isSpace c then (s, scanSkipSpace)
  else if c = 123 then
    scanner.pushParseState { s with step := stateBeginStringOrEmpty } c parseObjectKey
      scanBeginObject
  else if c = 91 then
    scanner.pushParseState { s with step := stateBeginValueOrEmpty } c parseArrayValue
      scanBeginArray
  else if c = 34 then ({ s with step := stateInString }, scanBeginLiteral)
  else if c = 45 then ({ s with step := stateNeg }, scanBeginLiteral)
  else if c = 48 then ({ s with step := state0 }, scanBeginLiteral)
  else if c = 116 then ({ s with step := stateT }, scanBeginLiteral)
  else if c = 102 then ({ s with step := stateF }, scanBeginLiteral)
  else if c = 110 then ({ s with step := stateN }, scanBeginLiteral)
  else if 49 ≤ c ∧ c ≤ 57 then ({ s with step := state1 }, scanBeginLiteral)
  else s.error c (str "looking for beginning of value")

/-- State `stateBeginString`. -/
def stateBeginStringFn (s : scanner) (c : Nat) : scanner × scanCode :=
  if isSpace c then (s, scanSkipSpace)
  else if c = 34 then ({ s with step := stateInString }, scanBeginLiteral)
  else s.error c (str "looking for beginning of object key string")

/-- Hexadecimal digit test of the `\u` escape states. -/
def isHex (c : Nat) : Bool :=
  (48 ≤ c && c ≤ 57) || (97 ≤ c && c ≤ 102) || (65 ≤ c && c ≤ 70)

/-- One of the states that expect the next byte of a keyword (`true`, `false`,
`null`): byte `want` leads to `next`, with `stateEndValue` after the last one. -/
def stateKeyword (s : scanner) (c want : Nat) (next : stateFn) (context : List Nat) :
    scanner × scanCode :=
  if c = want then ({ s with step := next }, scanContinue) else s.error c context

/-- State `state0`: after the leading `0` of a number. -/
def state0Fn (s : scanner) (c : Nat) : scanner × scanCode :=
  if c = 46 then ({ s with step := stateDot }, scanContinue)
  else if c = 101 ∨ c = 69 then ({ s with step := stateE }, scanContinue)
  else stateEndValueFn s c

/-- State `stateESign`: after the sign of an exponent. -/
def stateESignFn (s : scanner) (c : Nat) : scanner × scanCode :=
  if 48 ≤ c ∧ c ≤ 57 then ({ s with step := stateE0 }, scanContinue)
  else s.error c (str "in exponent of numeric literal")

/-- The call `s.step(s, c)`: runs the scanner's current state function on `c`. -/
def scanner.stepFn (s : scanner) (c : Nat) : scanner × scanCode :=
  match s.step with
  | stateBeginValueOrEmpty =>
    if isSpace c then (s, scanSkipSpace)
    else if c = 93 then stateEndValueFn s c
    else stateBeginValueFn s c
  | stateBeginValue => stateBeginValueFn s c
  | stateBeginStringOrEmpty =>
    if isSpace c then (s, scanSkipSpace)
    else if c = 125 then
      stateEndValueFn { s with parseState := parseObjectValue :: s.parseState.tail } c
    else stateBeginStringFn s c
  | stateBeginString => stateBeginStringFn s c
  | stateEndValue => stateEndValueFn s c
  | stateEndTop => stateEndTopFn s c
  | stateInString =>
    if c = 34 then ({ s with step := stateEndValue }, scanContinue)
    else if c = 92 then ({ s with step := stateInStringEsc }, scanContinue)
    else if c < 0x20 then s.error c (str "in string literal")
    else (s, scanContinue)
  | stateInStringEsc =>
    if c = 98 ∨ c = 102 ∨ c = 110 ∨ c = 114 ∨ c = 116 ∨ c = 92 ∨ c = 47 ∨ c = 34 then
      ({ s with step := stateInString }, scanContinue)
    else if c = 117 then ({ s with step := stateInStringEscU }, scanContinue)
    else s.error c (str "in string escape code")
  | stateInStringEscU =>
    if isHex c then ({ s with step := stateInStringEscU1 }, scanContinue)
    else s.error c (str "in \\u hexadecimal character escape")
  | stateInStringEscU1 =>
    if isHex c then ({ s with step := stateInStringEscU12 }, scanContinue)
    else s.error c (str "in \\u hexadecimal character escape")
  | stateInStringEscU12 =>
    if isHex c then ({ s with step := stateInStringEscU123 }, scanContinue)
    else s.error c (str "in \\u hexadecimal character escape")
  | stateInStringEscU123 =>
    if isHex c then ({ s with step := stateInString }, scanContinue)
    else s.error c (str "in \\u hexadecimal character escape")
  | stateNeg =>
    if c = 48 then ({ s with step := state0 }, scanContinue)
    else if 49 ≤ c ∧ c ≤ 57 then ({ s with step := state1 }, scanContinue)
    else s.error c (str "in numeric literal")
  | state1 =>
    if 48 ≤ c ∧ c ≤ 57 then ({ s with step := state1 }, scanContinue)
    else state0Fn s c
  | state0 => state0Fn s c
  | stateDot =>
    if 48 ≤ c ∧ c ≤ 57 then ({ s with step := stateDot0 }, scanContinue)
    else s.error c (str "after decimal point in numeric literal")
  | stateDot0 =>
    if 48 ≤ c ∧ c ≤ 57 then (s, scanContinue)
    else if c = 101 ∨ c = 69 then ({ s with step := stateE }, scanContinue)
    else stateEndValueFn s c
  | stateE =>
    if c = 43 ∨ c = 45 then ({ s with step := stateESign }, scanContinue)
    else stateESignFn s c
  | stateESign => stateESignFn s c
  | stateE0 =>
    if 48 ≤ c ∧ c ≤ 57 then (s, scanContinue)
    else stateEndValueFn s c
  | stateT => stateKeyword s c 114 stateTr (str "in literal true (expecting 'r')")
  | stateTr => stateKeyword s c 117 stateTru (str "in literal true (expecting 'u')")
  | stateTru => stateKeyword s c 101 stateEndValue (str "in literal true (expecting 'e')")
  | stateF => stateKeyword s c 97 stateFa (str "in literal false (expecting 'a')")
  | stateFa => stateKeyword s c 108 stateFal (str "in literal false (expecting 'l')")
  | stateFal => stateKeyword s c 115 stateFals (str "in literal false (expecting 's')")
  | stateFals => stateKeyword s c 101 stateEndValue (str "in literal false (expecting 'e')")
  | stateN => stateKeyword s c 117 stateNu (str "in literal null (expecting 'u')")
  | stateNu => stateKeyword s c 108 stateNul (str "in literal null (expecting 'l')")
  | stateNul => stateKeyword s c 108 stateEndValue (str "in literal null (expecting 'l')")
  | stateError => (s, scanError)

/-- Method `eof`: tells the scanner that the input has ended. -/
def scanner.eof (s : scanner) : scanner × scanCode :=
  if s.err.isSome then (s, scanError)
  else if s.endTop then (s, scanEnd)
  else
    let s1 := (s.stepFn 32).1
    if s1.endTop then (s1, scanEnd)
    else if s1.err.isNone then
      ({ s1 with err := some (SyntaxError (str "unexpected end of JSON input") s1.bytes) },
       scanError)
    else (s1, scanError)

/-! ## Readers and `http.MaxBytesReader` -/

/-- An `io.Reader` over a finite stream: its reads deliver the bytes `data` and
after them fail with `err` (`io.EOF` for a body that was received whole). -/
structure Reader where
  data : List Nat
  err : GoError
deriving DecidableEq, Repr

/-- The reader of `http.MaxBytesReader(w, r, n)`: it delivers at most `n` bytes of
`r` and fails with `MaxBytesError` when `r` holds more. -/
def MaxBytesReader (r : Reader) (n : Nat) : Reader :=
  { data := r.data.take n, err := if n < r.data.length then MaxBytesError else r.err }

/-! ## Decoding into a struct (`encoding/json`, decode.go) -/

/-- A Go struct type whose fields are all of type `string`: the result of
`Name()`, of `String()`, and the field names in declaration order. -/
structure structType where
  name : List Nat
  typeString : List Nat
  fields : List (List Nat)
deriving DecidableEq, Repr

/-- A value of such a struct type: the contents of its fields, by name. -/
abbrev structValue := List (List Nat × List Nat)

/-- Assignment `v.Field(i).SetString(x)` to field `f`. -/
def setField (v : structValue) (f x : List Nat) : structValue :=
  v.map fun p => if p.1 = f then (p.1, x) else p

/-- Value of four hexadecimal digits (`getu4` after its `\u`), or `none`. -/
def hexVal (c : Nat) : Option Nat :=
  if 48 ≤ c ∧ c ≤ 57 then some (c - 48)
  else if 97 ≤ c ∧ c ≤ 102 then some (c - 87)
  else if 65 ≤ c ∧ c ≤ 70 then some (c - 55)
  else none

/-- Function `getu4`: the code unit of a `\uXXXX` escape at the head of `s`. -/
def getu4 : List Nat → Option Nat
  | 92 :: 117 :: a :: b :: c :: d :: _ =>
    match hexVal a, hexVal b, hexVal c, hexVal d with
    | some x, some y, some z, some w => some (((x * 16 + y) * 16 + z) * 16 + w)
    | _, _, _, _ => none
  | _ => none

/-- Function `utf16.IsSurrogate`. -/
def isSurrogate (r : Nat) : Bool := 0xD800 ≤ r && r < 0xE000

/-- Function `utf16.DecodeRune`: the code point of a surrogate pair, or U+FFFD. -/
def utf16DecodeRune (r1 r2 : Nat) : Nat :=
  if 0xD800 ≤ r1 ∧ r1 < 0xDC00 ∧ 0xDC00 ≤ r2 ∧ r2 < 0xE000 then
    (r1 - 0xD800) * 1024 + (r2 - 0xDC00) + 0x10000
  else 0xFFFD

/-- The unquoting loop of `unquoteBytes` over the bytes between the quotation
marks. `skip` counts bytes of the current escape or UTF-8 sequence that were
already consumed together with its first byte. (The loop that `unquoteBytes`
runs first returns the input itself when nothing needs unquoting, which is what
this loop computes for such input.) -/
def unquoteLoop : Nat → List Nat → Option (List Nat)
  | _, [] => some []
  | skip + 1, _ :: rest => unquoteLoop skip rest
  | 0, c :: rest =>
    if c = 92 then
      match rest with
      | [] => none
      | e :: _ =>
        if e = 34 ∨ e = 92 ∨ e = 47 ∨ e = 39 then (unquoteLoop 1 rest).map ([e] ++ ·)
        else if e = 98 then (unquoteLoop 1 rest).map ([8] ++ ·)
        else if e = 102 then (unquoteLoop 1 rest).map ([12] ++ ·)
        else if e = 110 then (unquoteLoop 1 rest).map ([10] ++ ·)
        else if e = 114 then (unquoteLoop 1 rest).map ([13] ++ ·)
        else if e = 116 then (unquoteLoop 1 rest).map ([9] ++ ·)
        else if e = 117 then
          match getu4 (c :: rest) with
          | none => none
          | some rr =>
            if isSurrogate rr then
              let dec := match getu4 (rest.drop 5) with
                | some rr1 => utf16DecodeRune rr rr1
                | none => 0xFFFD
              if dec ≠ 0xFFFD then (unquoteLoop 11 rest).map (encodeRune dec ++ ·)
              else (unquoteLoop 5 rest).map (encodeRune 0xFFFD ++ ·)
            else (unquoteLoop 5 rest).map (encodeRune rr ++ ·)
        else none
    else if c = 34 ∨ c < 32 then none
    else if c < 0x80 then (unquoteLoop 0 rest).map ([c] ++ ·)
    else
      let size := utf8Size (c :: rest)
      if size = 0 then (unquoteLoop 0 rest).map (encodeRune 0xFFFD ++ ·)
      else (unquoteLoop (size - 1) rest).map ((c :: rest).take size ++ ·)

/-- Function `unquoteBytes`: the string denoted by a quoted JSON string literal. -/
def unquoteBytes (s : List Nat) : Option (List Nat) :=
  if s.length < 2 ∨ s.head? ≠ some 34 ∨ s.getLast? ≠ some 34 then none
  else unquoteLoop 0 (s.tail.dropLast)

/-- Function `foldName`: ASCII letters are upper-cased; the two non-ASCII runes
whose case folding is an ASCII letter (U+017F and U+212A) are replaced by it;
every other rune folds to a non-ASCII rune and is kept as it is. -/
def foldName : List Nat → List Nat
  | [] => []
  | 0xC5 :: 0xBF :: rest => 83 :: foldName rest
  | 0xE2 :: 0x84 :: 0xAA :: rest => 75 :: foldName rest
  | c :: rest => (if 97 ≤ c ∧ c ≤ 122 then c - 32 else c) :: foldName rest

/-- The field chosen for an object key: `fields.byExactName`, then
`fields.byFoldedName`. -/
def lookupField (t : structType) (key : List Nat) : Option (List Nat) :=
  match t.fields.find? (· == key) with
  | some f => some f
  | none => t.fields.find? (fun f => foldName f == foldName key)

/-- The state of a `decodeState`. `phasePanic` records that the decoder went out
of step with its input, where Go panics (the input was validated by the scanner
before, so this is not reached from `Decode`). -/
structure decodeState where
  data : List Nat
  off : Nat
  opcode : scanCode
  scan : scanner
  errorStruct : List Nat
  FieldStack : List (List Nat)
  hasErrorContext : Bool
  savedError : Option GoError
  disallowUnknownFields : Bool
  phasePanic : Bool
deriving DecidableEq, Repr

/-- Method `init`: a decode state over `data`. -/
def decodeState.init (data : List Nat) (disallowUnknownFields : Bool) : decodeState :=
  { data := data, off := 0, opcode := scanContinue, scan := scanner.new, errorStruct := [],
    FieldStack := [], hasErrorContext := false, savedError := none,
    disallowUnknownFields := disallowUnknownFields, phasePanic := false }

/-- Method `readIndex`. -/
def decodeState.readIndex (d : decodeState) : Nat := d.off - 1

/-- Method `addErrorContext` followed by `saveError`: the first error is kept; an
`UnmarshalTypeError` receives the struct and field that are being decoded. -/
def decodeState.saveTypeError (d : decodeState) (Value Typ : List Nat) (Offset : Nat) :
    decodeState :=
  if d.savedError.isSome then d
  else if d.hasErrorContext ∧ (d.errorStruct ≠ [] ∨ d.FieldStack ≠ []) then
    { d with savedError := some (UnmarshalTypeError Value Typ d.errorStruct
        ((str ".").intercalate d.FieldStack) Offset) }
  else { d with savedError := some (UnmarshalTypeError Value Typ [] [] Offset) }

/-- Method `saveError` for an error that is not an `UnmarshalTypeError`. -/
def decodeState.saveError (d : decodeState) (e : GoError) : decodeState :=
  if d.savedError.isSome then d else { d with savedError := some e }

/-- The loop of `scanWhile`: steps the scanner from index `i` until an opcode
other than `op` comes out; at the end of the data the scanner is told so. -/
def scanWhileLoop (op : scanCode) (len : Nat) : scanner → List Nat → Nat → scanner × Nat × scanCode
  | s, [], _ => ((s.eof).1, len + 1, (s.eof).2)
  | s, c :: rest, i =>
    if (s.stepFn c).2 ≠ op then ((s.stepFn c).1, i + 1, (s.stepFn c).2)
    else scanWhileLoop op len (s.stepFn c).1 rest (i + 1)

/-- Method `scanWhile`. -/
def decodeState.scanWhile (d : decodeState) (op : scanCode) : decodeState :=
  let r := scanWhileLoop op d.data.length d.scan (d.data.drop d.off) d.off
  { d with scan := r.1, off := r.2.1, opcode := r.2.2 }

/-- Method `scanNext`. -/
def decodeState.scanNext (d : decodeState) : decodeState :=
  match d.data.drop d.off with
  | c :: _ => { d with scan := (d.scan.stepFn c).1, opcode := (d.scan.stepFn c).2, off := d.off + 1 }
  | [] => { d with scan := (d.scan.eof).1, opcode := (d.scan.eof).2, off := d.data.length + 1 }

/-- The string loop of `rescanLiteral`: the index after the closing quotation
mark, counting from index `i` at the head of the list. -/
def rescanString : List Nat → Nat → Nat
  | [], i => i
  | c :: rest, i =>
    if c = 92 then
      match rest with
      | [] => i + 2
      | _ :: rest2 => rescanString rest2 (i + 2)
    else if c = 34 then i + 1
    else rescanString rest (i + 1)

/-- The number loop of `rescanLiteral`. -/
def rescanNumber : List Nat → Nat → Nat
  | [], i => i
  | c :: rest, i =>
    if (48 ≤ c ∧ c ≤ 57) ∨ c = 46 ∨ c = 101 ∨ c = 69 ∨ c = 43 ∨ c = 45 then
      rescanNumber rest (i + 1)
    else i

/-- Method `rescanLiteral`: moves to the end of the literal that begins at index
`off - 1`, without stepping the scanner through it. -/
def decodeState.rescanLiteral (d : decodeState) : decodeState :=
  let first := (d.data.drop (d.off - 1)).headD 0
  let i :=
    if first = 34 then rescanString (d.data.drop d.off) d.off
    else if (48 ≤ first ∧ first ≤ 57) ∨ first = 45 then rescanNumber (d.data.drop d.off) d.off
    else if first = 116 then d.off + 3
    else if first = 102 then d.off + 4
    else if first = 110 then d.off + 3
    else d.off
  match d.data.drop i with
  | c :: _ =>
    { d with scan := (stateEndValueFn d.scan c).1, opcode := (stateEndValueFn d.scan c).2,
             off := i + 1 }
  | [] => { d with opcode := scanEnd, off := i + 1 }

/-- The loop of `skip`: steps the scanner until the parse stack is shorter than
`depth`. Running out of data is Go's index panic, reported as `none`. -/
def skipLoop (depth : Nat) : scanner → List Nat → Nat → Option (scanner × Nat × scanCode)
  | _, [], _ => none
  | s, c :: rest, i =>
    if (s.stepFn c).1.parseState.length < depth then some ((s.stepFn c).1, i + 1, (s.stepFn c).2)
    else skipLoop depth (s.stepFn c).1 rest (i + 1)

/-- Method `skip`: scans to the end of the value that has just begun. -/
def decodeState.skip (d : decodeState) : decodeState :=
  match skipLoop d.scan.parseState.length d.scan (d.data.drop d.off) d.off with
  | some r => { d with scan := r.1, off := r.2.1, opcode := r.2.2 }
  | none => { d with phasePanic := true }

/-- Marks the state as one in which Go panics (`phasePanicMsg` or an index out of
range). -/
def decodeState.panicked (d : decodeState) : decodeState := { d with phasePanic := true }

/-- Method `literalStore` for a target of kind `string` (field `f` of `v`) or of
kind struct (`f = none`, type `typ`): a string literal is stored in a string
field, `null` is ignored, every other literal is a type error. -/
def decodeState.literalStore (d : decodeState) (item : List Nat) (typ : List Nat)
    (f : Option (List Nat)) (v : structValue) : decodeState × structValue :=
  match item with
  | [] => (d.saveError (errorString
            (str "json: invalid use of ,string struct tag, trying to unmarshal "
              ++ strconvQuote item ++ str " into " ++ typ)), v)
  | c :: _ =>
    if c = 110 then (d, v)
    else if c = 116 ∨ c = 102 then (d.saveTypeError (str "bool") typ d.readIndex, v)
    else if c = 34 then
      match unquoteBytes item with
      | none => (d.panicked, v)
      | some t =>
        match f with
        | some name => (d, setField v name t)
        | none => (d.saveTypeError (str "string") typ d.readIndex, v)
    else if c ≠ 45 ∧ (c < 48 ∨ 57 < c) then (d.panicked, v)
    else (d.saveTypeError (str "number") typ d.readIndex, v)

/-- Method `value` for the value of an object member: `f` is the string field the
member was matched to, or `none` for `value(reflect.Value{})`, which only moves
past the value. An array or an object cannot be stored in a string field. -/
def decodeState.valueField (d : decodeState) (f : Option (List Nat)) (v : structValue) :
    decodeState × structValue :=
  match d.opcode with
  | scanBeginArray =>
    match f with
    | some _ => (((d.saveTypeError (str "array") (str "string") d.off).skip).scanNext, v)
    | none => (d.skip.scanNext, v)
  | scanBeginObject =>
    match f with
    | some _ => (((d.saveTypeError (str "object") (str "string") d.off).skip).scanNext, v)
    | none => (d.skip.scanNext, v)
  | scanBeginLiteral =>
    let start := d.readIndex
    let d1 := d.rescanLiteral
    match f with
    | some _ =>
      d1.literalStore ((d1.data.take d1.readIndex).drop start) (str "string") f v
    | none => (d1, v)
  | _ => (d.panicked, v)

/-- The member loop of method `object` for a struct target of type `t`. Every
round reads one member, so `fuel` rounds are enough when `fuel` is the length of
the data. -/
def objectLoop (t : structType) (origStruct : List Nat) (origLen : Nat) :
    Nat → decodeState → structValue → decodeState × structValue
  | 0, d, v => (d.panicked, v)
  | fuel + 1, d, v =>
    let d1 := d.scanWhile scanSkipSpace
    if d1.opcode = scanEndObject then (d1, v)
    else if d1.opcode ≠ scanBeginLiteral then (d1.panicked, v)
    else
      let start := d1.readIndex
      let d2 := d1.rescanLiteral
      match unquoteBytes ((d2.data.take d2.readIndex).drop start) with
      | none => (d2.panicked, v)
      | some key =>
        let f := lookupField t key
        let d3 :=
          match f with
          | some name =>
            { d2 with hasErrorContext := true, FieldStack := d2.FieldStack ++ [name],
                      errorStruct := t.name }
          | none =>
            if d2.disallowUnknownFields then d2.saveError (unknownFieldError key) else d2
        let d4 := if d3.opcode = scanSkipSpace then d3.scanWhile scanSkipSpace else d3
        if d4.opcode ≠ scanObjectKey then (d4.panicked, v)
        else
          let d5 := d4.scanWhile scanSkipSpace
          let r := d5.valueField f v
          let d6 := r.1
          let d7 := if d6.opcode = scanSkipSpace then d6.scanWhile scanSkipSpace else d6
          let d8 :=
            if d7.hasErrorContext then
              { d7 with FieldStack := d7.FieldStack.take origLen, errorStruct := origStruct }
            else d7
          if d8.phasePanic then (d8, r.2)
          else if d8.opcode = scanEndObject then (d8, r.2)
          else if d8.opcode ≠ scanObjectValue then (d8.panicked, r.2)
          else objectLoop t origStruct origLen fuel d8 r.2

/-- Method `object` for a struct target of type `t`. -/
def decodeState.object (d : decodeState) (t : structType) (v : structValue) :
    decodeState × structValue :=
  objectLoop t (if d.hasErrorContext then d.errorStruct else [])
    (if d.hasErrorContext then d.FieldStack.length else 0) d.data.length d v

/-- Method `value` for the top-level value, decoded into a struct of type `t`. -/
def decodeState.value (d : decodeState) (t : structType) (v : structValue) :
    decodeState × structValue :=
  match d.opcode with
  | scanBeginArray => (((d.saveTypeError (str "array") t.typeString d.off).skip).scanNext, v)
  | scanBeginObject => ((d.object t v).1.scanNext, (d.object t v).2)
  | scanBeginLiteral =>
    let start := d.readIndex
    let d1 := d.rescanLiteral
    d1.literalStore ((d1.data.take d1.readIndex).drop start) t.typeString none v
  | _ => (d.panicked, v)

/-- The error a Go panic of the decoder stands for in this model. -/
def phasePanicError : GoError :=
  errorString (str "JSON decoder out of sync - data changing underfoot?")

/-- Method `unmarshal` into a pointer to a struct of type `t` holding `v`. -/
def decodeState.unmarshal (d : decodeState) (t : structType) (v : structValue) :
    structValue × Option GoError :=
  let d1 := ({ d with scan := d.scan.reset }).scanWhile scanSkipSpace
  let r := d1.value t v
  (r.2, if r.1.phasePanic then some phasePanicError else r.1.savedError)

/-! ## The streaming decoder (`encoding/json`, stream.go) -/

/-- A `json.Decoder`: `r` is the input that no `Decode` has consumed yet (the
buffered bytes from `scanp` on, then what the reader still holds, and the error
that ends the reader). -/
structure Decoder where
  r : Reader
  scan : scanner
  err : Option GoError
  disallowUnknownFields : Bool
deriving DecidableEq, Repr

/-- Function `json.NewDecoder`. -/
def NewDecoder (r : Reader) : Decoder :=
  { r := r, scan := scanner.new, err := none, disallowUnknownFields := false }

/-- Method `DisallowUnknownFields`. -/
def Decoder.DisallowUnknownFields (dec : Decoder) : Decoder :=
  { dec with disallowUnknownFields := true }

/-- Function `nonSpace`. -/
def nonSpace (b : List Nat) : Bool := b.any fun c => !isSpace c

/-- The loop of `readValue`. The bytes are scanned one by one, `n` counting those
of the value so far; the error of the last read is only looked at once every
byte that was read has been scanned (`all` is the buffer, `err` that error).
The result is the scanner, the length of the value, and the error. -/
def readValueLoop (err : GoError) (all : List Nat) :
    scanner → List Nat → Nat → scanner × Nat × Option GoError
  | s, [], n =>
    if err.eqEOF then
      if (s.stepFn 32).2 = scanEnd then ((s.stepFn 32).1, n, none)
      else if nonSpace all then ((s.stepFn 32).1, 0, some ioErrUnexpectedEOF)
      else ((s.stepFn 32).1, 0, some err)
    else (s, 0, some err)
  | s, c :: rest, n =>
    let r := ({ s with bytes := s.bytes + 1 }).stepFn c
    match r.2 with
    | scanEnd => ({ r.1 with bytes := r.1.bytes - 1 }, n, none)
    | scanEndObject =>
      if (stateEndValueFn r.1 32).2 = scanEnd then ((stateEndValueFn r.1 32).1, n + 1, none)
      else readValueLoop err all (stateEndValueFn r.1 32).1 rest (n + 1)
    | scanEndArray =>
      if (stateEndValueFn r.1 32).2 = scanEnd then ((stateEndValueFn r.1 32).1, n + 1, none)
      else readValueLoop err all (stateEndValueFn r.1 32).1 rest (n + 1)
    | scanError => (r.1, 0, r.1.err)
    | _ => readValueLoop err all r.1 rest (n + 1)

/-- Method `readValue`: the length of the next JSON value in the input. -/
def Decoder.readValue (dec : Decoder) : scanner × Nat × Option GoError :=
  readValueLoop dec.r.err dec.r.data dec.scan.reset dec.r.data 0

/-- Method `Decode` into a pointer to a struct of type `t` holding `v`: the
decoder afterwards, the struct, and the error returned. (The token state of a
decoder on which `Token` is never called allows a value and is left as it is.) -/
def Decoder.Decode (dec : Decoder) (t : structType) (v : structValue) :
    Decoder × structValue × Option GoError :=
  match dec.err with
  | some e => (dec, v, some e)
  | none =>
    let rv := dec.readValue
    match rv.2.2 with
    | some e => ({ dec with scan := rv.1, err := some e }, v, some e)
    | none =>
      let n := rv.2.1
      let u := (decodeState.init (dec.r.data.take n) dec.disallowUnknownFields).unmarshal t v
      ({ dec with scan := rv.1, r := { dec.r with data := dec.r.data.drop n } }, u.1, u.2)

/-! ## The HTTP response writer (`net/http`) -/

/-- An `http.ResponseWriter` that records what a handler does to it: the header
map, every status passed to `WriteHeader` and every chunk passed to `Write`, in
call order. -/
structure ResponseWriter where
  header : List (List Nat × List Nat)
  wroteHeader : List Nat
  written : List (List Nat)
deriving DecidableEq, Repr

/-- A writer nothing was done to yet. -/
def ResponseWriter.new : ResponseWriter := { header := [], wroteHeader := [], written := [] }

/-- The call `w.Header().Set(key, value)`. -/
def ResponseWriter.HeaderSet (w : ResponseWriter) (key value : List Nat) : ResponseWriter :=
  { w with header := w.header.filter (fun p => p.1 ≠ key) ++ [(key, value)] }

/-- The call `w.Header().Del(key)`. -/
def ResponseWriter.HeaderDel (w : ResponseWriter) (key : List Nat) : ResponseWriter :=
  { w with header := w.header.filter (fun p => p.1 ≠ key) }

/-- The call `w.Header().Get(key)`. -/
def ResponseWriter.HeaderGet (w : ResponseWriter) (key : List Nat) : Option (List Nat) :=
  (w.header.find? (fun p => p.1 = key)).map (·.2)

/-- Method `WriteHeader`. -/
def ResponseWriter.WriteHeader (w : ResponseWriter) (code : Nat) : ResponseWriter :=
  { w with wroteHeader := w.wroteHeader ++ [code] }

/-- Method `Write`: a first write without a status sends status 200. -/
def ResponseWriter.Write (w : ResponseWriter) (b : List Nat) : ResponseWriter :=
  let w1 := if w.wroteHeader = [] then w.WriteHeader 200 else w
  { w1 with written := w1.written ++ [b] }

/-- The status the client receives: that of the first `WriteHeader`, and 200 when
the handler returns without one. -/
def ResponseWriter.status (w : ResponseWriter) : Nat := w.wroteHeader.headD 200

/-- The body the client receives. -/
def ResponseWriter.body (w : ResponseWriter) : List Nat := w.written.flatten

/-- Function `http.Error`. -/
def httpError (w : ResponseWriter) (error : List Nat) (code : Nat) : ResponseWriter :=
  ((((w.HeaderDel (str "Content-Length")).HeaderSet (str "Content-Type")
      (str "text/plain; charset=utf-8")).HeaderSet (str "X-Content-Type-Options")
      (str "nosniff")).WriteHeader code).Write (error ++ [10])

/-- Function `http.StatusText` for the codes used here. -/
def StatusText (code : Nat) : List Nat :=
  if code = 500 then str "Internal Server Error"
  else if code = 400 then str "Bad Request"
  else if code = 404 then str "Not Found"
  else if code = 413 then str "Request Entity Too Large"
  else []

/-- An `http.Request`: method, `URL.Path` and body. -/
structure Request where
  Method : List Nat
  Path : List Nat
  Body : Reader
deriving DecidableEq, Repr

/-- What a handler leaves behind: the response writer and the lines it passed to
`log.Println`. -/
structure Outcome where
  w : ResponseWriter
  log : List (List Nat)
deriving DecidableEq, Repr

/-! ## backend.go -/

/-- The struct `locationString`. -/
structure locationString where
  City : List Nat
deriving DecidableEq, Repr

/-- The reflection data of `locationString`. -/
def locationStringType : structType :=
  { name := str "locationString", typeString := str "main.locationString",
    fields := [str "City"] }

/-- The reflection data of the anonymous `struct{}`. -/
def emptyStructType : structType := { name := [], typeString := str "struct \x7b\x7d", fields := [] }

/-- The fields of a `locationString`, for the decoder. -/
def locationString.toValue (loc : locationString) : structValue := [(str "City", loc.City)]

/-- The `locationString` with the given fields. -/
def locationString.ofValue (v : structValue) : locationString :=
  { City := ((v.find? (fun p => p.1 = str "City")).map (·.2)).getD [] }

/-- Handler `notFound`. -/
def notFound (w : ResponseWriter) (_r : Request) : Outcome :=
  { w := (((w.HeaderSet (str "Content-Type") (str "application/json")).WriteHeader 404).Write
      (str "\x7b\"message\": \"404\"\x7d")),
    log := [] }

/-- The decoder `dec` of `getCloudflare`: over the body capped at 1048576 bytes,
with unknown fields disallowed. -/
def requestDecoder (r : Request) : Decoder :=
  (NewDecoder (MaxBytesReader r.Body 1048576)).DisallowUnknownFields

/-- The call `dec.Decode(&loc)` of `getCloudflare`, with `loc` the zero value. -/
def firstDecode (r : Request) : Decoder × structValue × Option GoError :=
  (requestDecoder r).Decode locationStringType (locationString.toValue { City := [] })

/-- The call `dec.Decode(&struct{}{})` of `getCloudflare`. -/
def secondDecode (r : Request) : Decoder × structValue × Option GoError :=
  (firstDecode r).1.Decode emptyStructType []

/-- The `switch` of `getCloudflare` over a non-nil error of the first `Decode`. -/
def decodeErrorResponse (w : ResponseWriter) (err : GoError) : Outcome :=
  match err.asSyntaxError with
  | some Offset =>
    { w := httpError w (str "Request body contains badly formed JSON (at position "
        ++ itoa Offset ++ str ")") 400, log := [] }
  | none =>
    if err.isUnexpectedEOF then
      { w := httpError w (str "Request body contains badly-formed JSON") 400, log := [] }
    else
      match err.asUnmarshalTypeError with
      | some (Field, Offset) =>
        { w := httpError w (str "Request body contains an invalid value for the "
            ++ strconvQuote Field ++ str " field (at position " ++ itoa Offset ++ str ")") 400,
          log := [] }
      | none =>
        if HasPrefix err.text (str "json: unknown field ") then
          let fieldName := TrimPrefix err.text (str "json: unknown field ")
          { w := httpError w (str "Request body contains and unknown field " ++ fieldName) 400,
            log := [] }
        else if err.isEOF then
          { w := httpError w (str "Request body must not be empty") 400, log := [] }
        else if err.text = str "http: request body too large" then
          { w := httpError w (str "Request body must not be larger than 1MB") 413, log := [] }
        else
          { w := httpError w (StatusText 500) 500, log := [err.text] }

/-- Handler `getCloudflare`. -/
def getCloudflare (w : ResponseWriter) (r : Request) : Outcome :=
  let w := w.HeaderSet (str "Content-Type") (str "application/json")
  match (firstDecode r).2.2 with
  | some err => decodeErrorResponse w err
  | none =>
    match (secondDecode r).2.2 with
    | some err =>
      if !err.eqEOF then
        { w := httpError w (str "Requset body must conatin a single JSON object") 400, log := [] }
      else { w := w, log := [] }
    | none =>
      { w := httpError w (str "Requset body must conatin a single JSON object") 400, log := [] }

/-! ## The router (`gorilla/mux`) and `main` -/

/-- The path elements between the slashes of a path. -/
def splitSlash : List Nat → List (List Nat)
  | [] => [[]]
  | c :: rest =>
    if c = 47 then [] :: splitSlash rest
    else
      match splitSlash rest with
      | [] => [[c]]
      | e :: es => (c :: e) :: es

/-- The elements that `path.Clean` keeps of a rooted path: empty elements and `.`
are dropped, `..` drops the element before it (`kept` is in reverse order). -/
def cleanElements (kept : List (List Nat)) : List (List Nat) → List (List Nat)
  | [] => kept.reverse
  | e :: es =>
    if e = [] ∨ e = [46] then cleanElements kept es
    else if e = [46, 46] then cleanElements kept.tail es
    else cleanElements (e :: kept) es

/-- Function `cleanPath` of mux: `path.Clean` of the rooted path, with the
trailing slash put back. -/
def cleanPath (p : List Nat) : List Nat :=
  if p = [] then [47]
  else
    let p1 := if p.head? ≠ some 47 then 47 :: p else p
    let np := 47 :: [47].intercalate (cleanElements [] (splitSlash p1))
    if p1.getLast? = some 47 ∧ np ≠ [47] then np ++ [47] else np

/-- The errors a route match can leave in `RouteMatch.MatchErr`. -/
inductive MatchErr where
  | ErrMethodMismatch | ErrNotFound
deriving DecidableEq, Repr

/-- A route: a path template without variables, the methods of its `Methods`
matcher (none when it has no such matcher), and its handler. -/
structure Route where
  path : List Nat
  methods : List (List Nat)
  handler : ResponseWriter → Request → Outcome

/-- The fields of `RouteMatch` that decide the handler. -/
structure RouteMatch where
  Handler : Option (ResponseWriter → Request → Outcome)
  MatchErr : Option MatchErr

/-- Method `Route.Match`: the path matcher comes first, then the method matcher. -/
def Route.Match (rt : Route) (req : Request) (m : RouteMatch) : Bool × RouteMatch :=
  if req.Path ≠ rt.path then
    (false, { m with MatchErr := if m.MatchErr = some .ErrNotFound then none else m.MatchErr })
  else
    let m1 : RouteMatch :=
      { m with MatchErr := if m.MatchErr = some .ErrMethodMismatch then none else m.MatchErr }
    if rt.methods ≠ [] ∧ req.Method ∉ rt.methods then
      (false, { m1 with MatchErr := some .ErrMethodMismatch })
    else
      let m2 : RouteMatch :=
        if m1.MatchErr = some .ErrMethodMismatch then
          { Handler := some rt.handler, MatchErr := none }
        else m1
      (true, { m2 with Handler := some (m2.Handler.getD rt.handler) })

/-- Method `Router.Match` for a router without `NotFoundHandler` and without
`MethodNotAllowedHandler`: the first route that matches decides. -/
def routerMatch (req : Request) : List Route → RouteMatch → Bool × RouteMatch
  | [], m =>
    if m.MatchErr = some .ErrMethodMismatch then (false, m)
    else (false, { m with MatchErr := some .ErrNotFound })
  | rt :: rest, m =>
    if (rt.Match req m).1 then (true, (rt.Match req m).2)
    else routerMatch req rest (rt.Match req m).2

/-- What the router does with a request. `redirect clean`: the router itself
answers with status 301 and a `Location` header, which mux makes with
`url.String()` from the URL of the request with its path replaced by the clean
path `clean`; the text of that header (percent-escapes, query string) is not
part of this model. `handled o`: a handler ran and left `o`. -/
inductive Served where
  | redirect (clean : List Nat)
  | handled (o : Outcome)
deriving DecidableEq, Repr

/-- Method `Router.ServeHTTP`: a path that is not clean is redirected; a matched
route runs its handler; a method mismatch is answered with status 405, and
everything else by `http.NotFound`. -/
def ServeHTTP (routes : List Route) (w : ResponseWriter) (req : Request) : Served :=
  if cleanPath req.Path ≠ req.Path then .redirect (cleanPath req.Path)
  else
    let m := routerMatch req routes { Handler := none, MatchErr := none }
    match (if m.1 then m.2.Handler else none) with
    | some handler => .handled (handler w req)
    | none =>
      if m.2.MatchErr = some .ErrMethodMismatch then .handled { w := w.WriteHeader 405, log := [] }
      else .handled { w := httpError w (str "404 page not found") 404, log := [] }

/-- The routes registered in `main`, in order. -/
def routes : List Route :=
  [{ path := str "/cloudflare", methods := [str "POST"], handler := getCloudflare },
   { path := str "/", methods := [], handler := notFound }]

/-- The server of `main`: every request goes through the router `r`. -/
def serve (w : ResponseWriter) (req : Request) : Served := ServeHTTP routes w req

/-! ## The error kinds of the specification -/

/-- The kinds of validation failure the specification names. -/
inductive Kind where
  | MalformedSyntax | TruncatedInput | TypeMismatch | UnknownField | EmptyBody | TooLarge
  | Unclassified | TrailingData
deriving DecidableEq, Repr

/-- The condition under which an error of the first `Decode` belongs to a kind. -/
def Kind.holds (k : Kind) (err : GoError) : Bool :=
  match k with
  | .MalformedSyntax => err.asSyntaxError.isSome
  | .TruncatedInput => err.isUnexpectedEOF
  | .TypeMismatch => err.asUnmarshalTypeError.isSome
  | .UnknownField => HasPrefix err.text (str "json: unknown field ")
  | .EmptyBody => err.isEOF
  | .TooLarge => err.text = str "http: request body too large"
  | .Unclassified => true
  | .TrailingData => false

/-- The priority order of the classification. -/
def Kind.priority : List Kind :=
  [.MalformedSyntax, .TruncatedInput, .TypeMismatch, .UnknownField, .EmptyBody, .TooLarge,
   .Unclassified]

/-- The kind of an error of the first `Decode`: the first kind in priority order
whose condition holds. -/
def classify (err : GoError) : Kind := (Kind.priority.find? (·.holds err)).getD .Unclassified

/-- The status of each kind in the response table of the specification. -/
def Kind.status : Kind → Nat
  | .MalformedSyntax => 400
  | .TruncatedInput => 400
  | .TypeMismatch => 400
  | .UnknownField => 400
  | .EmptyBody => 400
  | .TooLarge => 413
  | .TrailingData => 400
  | .Unclassified => 500

/-- What the branch of `getCloudflare` for kind `k` does on its own: the message
passed to `http.Error`, with the status, and the lines logged. -/
def branchOutcome (k : Kind) (err : GoError) (w : ResponseWriter) : Outcome :=
  match k with
  | .MalformedSyntax =>
    { w := httpError w (str "Request body contains badly formed JSON (at position "
        ++ itoa (err.asSyntaxError.getD 0) ++ str ")") 400, log := [] }
  | .TruncatedInput =>
    { w := httpError w (str "Request body contains badly-formed JSON") 400, log := [] }
  | .TypeMismatch =>
    { w := httpError w (str "Request body contains an invalid value for the "
        ++ strconvQuote (err.asUnmarshalTypeError.getD ([], 0)).1 ++ str " field (at position "
        ++ itoa (err.asUnmarshalTypeError.getD ([], 0)).2 ++ str ")") 400, log := [] }
  | .UnknownField =>
    { w := httpError w (str "Request body contains and unknown field "
        ++ TrimPrefix err.text (str "json: unknown field ")) 400, log := [] }
  | .EmptyBody => { w := httpError w (str "Request body must not be empty") 400, log := [] }
  | .TooLarge =>
    { w := httpError w (str "Request body must not be larger than 1MB") 413, log := [] }
  | .Unclassified => { w := httpError w (StatusText 500) 500, log := [err.text] }
  | .TrailingData =>
    { w := httpError w (str "Requset body must conatin a single JSON object") 400, log := [] }

/-- The kind of failure of a request, if it fails: that of the error of the first
`Decode`, or `TrailingData` when the second `Decode` does not return `io.EOF`. -/
def failureKind (r : Request) : Option Kind :=
  match (firstDecode r).2.2 with
  | some err => some (classify err)
  | none =>
    match (secondDecode r).2.2 with
    | some err => if err.eqEOF then none else some .TrailingData
    | none => some .TrailingData

/-- A request with the given method, path and complete body. -/
def mkRequest (method path body : List Nat) : Request :=
  { Method := method, Path := path, Body := { data := body, err := ioEOF } }

/-- A `POST /cloudflare` request with the given complete body. -/
def post (body : List Nat) : Request := mkRequest (str "POST") (str "/cloudflare") body

/-- A `POST /cloudflare` request whose body cannot be read: the first read fails
with an error of text `text`. -/
def brokenPost (text : List Nat) : Request :=
  { Method := str "POST", Path := str "/cloudflare",
    Body := { data := [], err := errorString text } }

/-! ## The grammar of JSON texts and the reference semantics of decoding -/

/-- One step of the scanner after its byte count was updated by `f` (the identity
in `decodeState`, the successor in `readValue`). -/
def stepB (f : Nat → Nat) (s : scanner) (c : Nat) : scanner × scanCode :=
  ({ s with bytes := f s.bytes }).stepFn c

/-- The scanner after the bytes `bs`. -/
def run (f : Nat → Nat) : scanner → List Nat → scanner
  | s, [] => s
  | s, c :: rest => run f (stepB f s c).1 rest

/-- A step that neither ends the top-level value nor fails, and keeps at least
`k` entries on the parse stack. -/
def okStep (f : Nat → Nat) (k : Nat) (s : scanner) (c : Nat) : Prop :=
  (stepB f s c).1.err = none ∧ (stepB f s c).2 ≠ scanEnd ∧ (stepB f s c).2 ≠ scanError ∧
    k ≤ (stepB f s c).1.parseState.length ∧
    ((stepB f s c).2 = scanEndObject ∨ (stepB f s c).2 = scanEndArray →
      stateEndValueFn (stepB f s c).1 32 = ((stepB f s c).1, scanSkipSpace))

/-- Every step through `bs` is an `okStep`. -/
def Quiet (f : Nat → Nat) (k : Nat) : scanner → List Nat → Prop
  | _, [] => True
  | s, c :: rest => okStep f k s c ∧ Quiet f k (stepB f s c).1 rest

/-- One item of a JSON string literal: an unescaped byte, a two-character escape
(given by its second character), or a `\u` escape (given by its four digits). -/
inductive JChar where
  | raw (c : Nat)
  | esc (e : Nat)
  | uni (a b c d : Nat)
deriving DecidableEq, Repr

/-- The bytes an item is written with. -/
def JChar.text : JChar → List Nat
  | .raw c => [c]
  | .esc e => [92, e]
  | .uni a b c d => [92, 117, a, b, c, d]

/-- Well-formedness of an item: an unescaped byte is not below 0x20 and is neither
`"` nor `\`; the escapes are those of JSON. -/
def JChar.valid : JChar → Bool
  | .raw c => 0x20 ≤ c && c != 34 && c != 92
  | .esc e => e == 34 || e == 92 || e == 47 || e == 98 || e == 102 || e == 110 || e == 114
      || e == 116
  | .uni a b c d => isHex a && isHex b && isHex c && isHex d

/-- The bytes of a string literal with the given items, quotation marks included. -/
def stringText (cs : List JChar) : List Nat := [34] ++ cs.flatMap JChar.text ++ [34]

/-- The scanner is in state `st` with stack `τ` and no error. -/
def St (s : scanner) (st : stateFn) (τ : List parseKind) : Prop :=
  s.step = st ∧ s.parseState = τ ∧ s.err = none

/-- A JSON number literal: optional minus sign, integer part, optional fraction,
optional exponent (its letter, its sign bytes and its digits). -/
structure JNumber where
  neg : Bool
  int : List Nat
  frac : Option (List Nat)
  exp : Option (Nat × List Nat × List Nat)
deriving DecidableEq, Repr

/-- Decimal digit. -/
def isDigit (c : Nat) : Bool := 48 ≤ c && c ≤ 57

/-- The bytes of the integer part with its sign. -/
def intText (neg : Bool) (int : List Nat) : List Nat := (if neg then [45] else []) ++ int

/-- The bytes of the optional fraction. -/
def fracText : Option (List Nat) → List Nat
  | some ds => 46 :: ds
  | none => []

/-- The bytes of the optional exponent. -/
def expText : Option (Nat × List Nat × List Nat) → List Nat
  | some (e, sg, ds) => e :: (sg ++ ds)
  | none => []

/-- The bytes of a number literal. -/
def JNumber.text (n : JNumber) : List Nat :=
  intText n.neg n.int ++ fracText n.frac ++ expText n.exp

/-- The integer part is `0` or starts with a digit from 1 to 9. -/
def intValid : List Nat → Bool
  | [] => false
  | d :: ds => (d == 48 && ds == []) || (49 ≤ d && d ≤ 57 && ds.all isDigit)

/-- A fraction has at least one digit. -/
def fracValid : Option (List Nat) → Bool
  | some ds => ds != [] && ds.all isDigit
  | none => true

/-- An exponent has the letter `e` or `E`, an optional sign and at least one
digit. -/
def expValid : Option (Nat × List Nat × List Nat) → Bool
  | some (e, sg, ds) =>
    (e == 101 || e == 69) && (sg == [] || sg == [43] || sg == [45]) && ds != []
      && ds.all isDigit
  | none => true

/-- Well-formedness of a number literal. -/
def JNumber.valid (n : JNumber) : Bool := intValid n.int && fracValid n.frac && expValid n.exp

/-- The states in which the scanner has read a complete value. -/
def afterValue (st : stateFn) : Bool :=
  st == stateEndValue || st == state0 || st == state1 || st == stateDot0 || st == stateE0

/-- The scanner has just read a complete value inside the stack `τ`. -/
def After (s : scanner) (τ : List parseKind) : Prop :=
  afterValue s.step = true ∧ s.parseState = τ ∧ s.err = none

mutual
/-- A JSON value as it is written: the white space between its tokens is part of
the tree. -/
inductive JValue where
  | null
  | jtrue
  | jfalse
  | number (n : JNumber)
  | string (cs : List JChar)
  | emptyArray (ws : List Nat)
  | array (es : JElems)
  | emptyObject (ws : List Nat)
  | object (ms : JMembers)
/-- The elements of a non-empty array, each with the white space around it. -/
inductive JElems where
  | one (ws1 : List Nat) (v : JValue) (ws2 : List Nat)
  | cons (ws1 : List Nat) (v : JValue) (ws2 : List Nat) (rest : JElems)
/-- The members of a non-empty object: white space, name, white space, colon,
white space, value, white space. -/
inductive JMembers where
  | one (ws1 : List Nat) (key : List JChar) (ws2 ws3 : List Nat) (v : JValue) (ws4 : List Nat)
  | cons (ws1 : List Nat) (key : List JChar) (ws2 ws3 : List Nat) (v : JValue) (ws4 : List Nat)
      (rest : JMembers)
end

mutual
/-- The bytes of a JSON value. -/
def JValue.render : JValue → List Nat
  | .null => [110, 117, 108, 108]
  | .jtrue => [116, 114, 117, 101]
  | .jfalse => [102, 97, 108, 115, 101]
  | .number n => n.text
  | .string cs => stringText cs
  | .emptyArray ws => [91] ++ ws ++ [93]
  | .array es => [91] ++ es.render ++ [93]
  | .emptyObject ws => [123] ++ ws ++ [125]
  | .object ms => [123] ++ ms.render ++ [125]
/-- The bytes of the elements of an array, commas included. -/
def JElems.render : JElems → List Nat
  | .one ws1 v ws2 => ws1 ++ v.render ++ ws2
  | .cons ws1 v ws2 rest => ws1 ++ v.render ++ ws2 ++ [44] ++ rest.render
/-- The bytes of the members of an object, commas included. -/
def JMembers.render : JMembers → List Nat
  | .one ws1 key ws2 ws3 v ws4 => ws1 ++ stringText key ++ ws2 ++ [58] ++ ws3 ++ v.render ++ ws4
  | .cons ws1 key ws2 ws3 v ws4 rest =>
    ws1 ++ stringText key ++ ws2 ++ [58] ++ ws3 ++ v.render ++ ws4 ++ [44] ++ rest.render
end

/-- A list of white-space bytes. -/
def isWhite (ws : List Nat) : Bool := ws.all isSpace

/-- Well-formedness of the items of a string literal. -/
def validChars (cs : List JChar) : Bool := cs.all JChar.valid

mutual
/-- Well-formedness of a JSON value: of its literals and of its white space. -/
def JValue.valid : JValue → Bool
  | .null => true
  | .jtrue => true
  | .jfalse => true
  | .number n => n.valid
  | .string cs => validChars cs
  | .emptyArray ws => isWhite ws
  | .array es => es.valid
  | .emptyObject ws => isWhite ws
  | .object ms => ms.valid
/-- Well-formedness of the elements of an array. -/
def JElems.valid : JElems → Bool
  | .one ws1 v ws2 => isWhite ws1 && v.valid && isWhite ws2
  | .cons ws1 v ws2 rest => isWhite ws1 && v.valid && isWhite ws2 && rest.valid
/-- Well-formedness of the members of an object. -/
def JMembers.valid : JMembers → Bool
  | .one ws1 key ws2 ws3 v ws4 =>
    isWhite ws1 && validChars key && isWhite ws2 && isWhite ws3 && v.valid && isWhite ws4
  | .cons ws1 key ws2 ws3 v ws4 rest =>
    isWhite ws1 && validChars key && isWhite ws2 && isWhite ws3 && v.valid && isWhite ws4
      && rest.valid
end

mutual
/-- Nesting depth of a JSON value: the number of arrays and objects around its
innermost token, itself included. -/
def JValue.depth : JValue → Nat
  | .array es => es.depth + 1
  | .object ms => ms.depth + 1
  | .emptyArray _ => 1
  | .emptyObject _ => 1
  | _ => 0
/-- Largest nesting depth among the elements. -/
def JElems.depth : JElems → Nat
  | .one _ v _ => v.depth
  | .cons _ v _ rest => max v.depth rest.depth
/-- Largest nesting depth among the member values. -/
def JMembers.depth : JMembers → Nat
  | .one _ _ _ _ v _ => v.depth
  | .cons _ _ _ _ v _ rest => max v.depth rest.depth
end

/-- White space is skipped without a change of state. -/
def Skipping (s : scanner) : Prop := ∀ x, isSpace x = true → s.stepFn x = (s, scanSkipSpace)

/-- The bytes that `rescanLiteral` takes for part of a number. -/
def numChar (c : Nat) : Bool :=
  (48 ≤ c && c ≤ 57) || c == 46 || c == 101 || c == 69 || c == 43 || c == 45

/-- The literal values. -/
def JValue.isLiteral : JValue → Bool
  | .null => true
  | .jtrue => true
  | .jfalse => true
  | .number _ => true
  | .string _ => true
  | _ => false

/-- The bytes that can follow a value. -/
def isDelim (c : Nat) : Bool := isSpace c || c == 44 || c == 93 || c == 125

/-- The opcode of the first byte of a value. -/
def firstOp : JValue → scanCode
  | .emptyArray _ => scanBeginArray
  | .array _ => scanBeginArray
  | .emptyObject _ => scanBeginObject
  | .object _ => scanBeginObject
  | _ => scanBeginLiteral

/-- The string that a string literal denotes for the decoder. -/
def stringValue (cs : List JChar) : List Nat := (unquoteBytes (stringText cs)).getD []

/-- The JSON kind named in the type error for a value that cannot be stored in a
string field; `none` for strings and `null`, which can. -/
def typeErrorKind : JValue → Option (List Nat)
  | .null => none
  | .string _ => none
  | .jtrue => some (str "bool")
  | .jfalse => some (str "bool")
  | .number _ => some (str "number")
  | .emptyArray _ => some (str "array")
  | .array _ => some (str "array")
  | .emptyObject _ => some (str "object")
  | .object _ => some (str "object")

/-- The type error of a member value `v` that starts at byte `n` and belongs to
the string field `name` of a struct of type `t`. -/
def fieldError (t : structType) (name : List Nat) (n : Nat) (v : JValue) : Option GoError :=
  match typeErrorKind v with
  | some k =>
    some (UnmarshalTypeError k (str "string") t.name name
      (if v.isLiteral then n + v.render.length else n + 1))
  | none => none

/-- The first of two errors. -/
def firstErr (a b : Option GoError) : Option GoError :=
  match a with
  | some e => some e
  | none => b

/-- The struct after member value `v` was decoded into its string field `name`. -/
def storeField (sv : structValue) (name : List Nat) (v : JValue) : structValue :=
  match v with
  | .string cs => setField sv name (stringValue cs)
  | _ => sv

/-- The type error of member value `v` for the target `f` of the member: a string
field, or nothing when the member name is unknown. -/
def targetError (t : structType) (f : Option (List Nat)) (n : Nat) (v : JValue) :
    Option GoError :=
  match f with
  | some name => fieldError t name n v
  | none => none

/-- The struct after member value `v` was decoded for the target `f`. -/
def targetStore (sv : structValue) (f : Option (List Nat)) (v : JValue) : structValue :=
  match f with
  | some name => storeField sv name v
  | none => sv

/-- The reference result of decoding one object member into a struct of type `t`:
`n` is the position of the first byte of the member value `v`; `sv` and `err`
are the struct and the saved error so far. An unknown member name is an error
when unknown fields are disallowed; a value other than a string or `null` for a
(string) field is a type error; only the first error is kept. -/
def memberDecode (t : structType) (disallow : Bool) (n : Nat) (key : List JChar) (v : JValue)
    (sv : structValue) (err : Option GoError) : structValue × Option GoError :=
  (targetStore sv (lookupField t (stringValue key)) v,
   firstErr
     (firstErr err
       (match lookupField t (stringValue key) with
        | some _ => none
        | none => if disallow then some (unknownFieldError (stringValue key)) else none))
     (targetError t (lookupField t (stringValue key)) n v))

/-- The state of the decoder after one member of an object, when the scanner has
read the separator `sep` that follows the member. -/
def afterMember (d : decodeState) (X : scanner) (sep : Nat) (off : Nat) (err : Option GoError)
    (ctx : Bool) : decodeState :=
  { d with scan := (stateEndValueFn X sep).1, opcode := (stateEndValueFn X sep).2, off := off,
           savedError := err, hasErrorContext := ctx, FieldStack := [], errorStruct := [] }

/-- The bytes of one member, from the white space before its name to the white
space after its value. -/
def memberText (ws1 : List Nat) (key : List JChar) (ws2 ws3 : List Nat) (v : JValue)
    (ws4 : List Nat) : List Nat :=
  ws1 ++ (stringText key ++ (ws2 ++ 58 :: (ws3 ++ (v.render ++ ws4))))

/-- The reference result of decoding the members `ms`, which start at position
`n`, into a struct of type `t`: the members are decoded from left to right. -/
def JMembers.decode (t : structType) (disallow : Bool) :
    JMembers → Nat → structValue → Option GoError → structValue × Option GoError
  | .one ws1 key ws2 ws3 v _, n, sv, err =>
    memberDecode t disallow (n + (ws1 ++ (stringText key ++ (ws2 ++ 58 :: ws3))).length)
      key v sv err
  | .cons ws1 key ws2 ws3 v ws4 rest, n, sv, err =>
    rest.decode t disallow (n + (memberText ws1 key ws2 ws3 v ws4).length + 1)
      (memberDecode t disallow (n + (ws1 ++ (stringText key ++ (ws2 ++ 58 :: ws3))).length)
        key v sv err).1
      (memberDecode t disallow (n + (ws1 ++ (stringText key ++ (ws2 ++ 58 :: ws3))).length)
        key v sv err).2

/-- The number of members. -/
def JMembers.count : JMembers → Nat
  | .one _ _ _ _ _ _ => 1
  | .cons _ _ _ _ _ _ rest => rest.count + 1

/-- The name reported for the members `ms` decoded into a struct of type `t` when
the first member that is in error is one with an unknown name: every member
before it has the name of a field and a string or `null` as its value. -/
def JMembers.firstUnknown (t : structType) : JMembers → Option (List Nat)
  | .one _ key _ _ _ _ =>
    match lookupField t (stringValue key) with
    | none => some (stringValue key)
    | some _ => none
  | .cons _ key _ _ v _ rest =>
    match lookupField t (stringValue key) with
    | none => some (stringValue key)
    | some _ => if (typeErrorKind v).isNone then rest.firstUnknown t else none

/-! ## Invariants of the scanner and of the decoder -/

/-- The error of the scanner `s'` is the given one or a syntax error. -/
def errFrom (e : Option GoError) (s' : scanner) : Prop :=
  s'.err = e ∨ ∃ m o, s'.err = some (SyntaxError m o)

/-- A scanner in state `stateError` holds an error. -/
def wf (s : scanner) : Prop := s.step = stateError → s.err.isSome = true

/-- The result of a step: the new scanner is well formed, and the opcode
`scanError` comes with an error. -/
def stepOK (r : scanner × scanCode) : Prop :=
  wf r.1 ∧ (r.2 = scanError → r.1.err.isSome = true)

/-- The decoder state `d'` extends `d`: a saved error is kept, an error that is
saved anew is not `io.EOF`, and a panic stays. -/
def Ext (d d' : decodeState) : Prop :=
  (d'.savedError = d.savedError ∨
      (d.savedError = none ∧ ∃ e, d'.savedError = some e ∧ e.eqEOF = false)) ∧
    (d.phasePanic = true → d'.phasePanic = true)

/-- The scanner holds no error or a syntax error. -/
def errOK (s : scanner) : Prop := errFrom none s

/-- A decoder state in which an error is saved or a panic has happened. -/
def bad (d : decodeState) : Prop := d.savedError ≠ none ∨ d.phasePanic = true

/-- Where the scanner stands inside a string literal: between two items, or
inside an escape of which some bytes were read. -/
inductive StrMode where
  | plain
  | esc
  | u0
  | u1 (a : Nat)
  | u2 (a b : Nat)
  | u3 (a b c : Nat)

/-- The state of the scanner in a mode. -/
def StrMode.state : StrMode → stateFn
  | .plain => stateInString
  | .esc => stateInStringEsc
  | .u0 => stateInStringEscU
  | .u1 _ => stateInStringEscU1
  | .u2 _ _ => stateInStringEscU12
  | .u3 _ _ _ => stateInStringEscU123

/-- The bytes of the unfinished item of a mode. -/
def StrMode.pre : StrMode → List Nat
  | .plain => []
  | .esc => [92]
  | .u0 => [92, 117]
  | .u1 a => [92, 117, a]
  | .u2 a b => [92, 117, a, b]
  | .u3 a b c => [92, 117, a, b, c]

/-- The digits read so far are hexadecimal. -/
def StrMode.ok : StrMode → Bool
  | .u1 a => isHex a
  | .u2 a b => isHex a && isHex b
  | .u3 a b c => isHex a && isHex b && isHex c
  | _ => true

/-- The opcodes of `stateBeginValue` on a byte that is not white space. -/
def beginOp (r : scanner × scanCode) : Prop :=
  r.2 = scanBeginObject ∨ r.2 = scanBeginArray ∨ r.2 = scanBeginLiteral ∨ r.2 = scanError

/-- The value of a member that a string field accepts: a string or `null`. -/
def JValue.plain : JValue → Bool
  | .null => true
  | .string _ => true
  | _ => false

/-- One member of an object, with the white space around its name and value. -/
structure JMember where
  ws1 : List Nat
  key : List JChar
  ws2 : List Nat
  ws3 : List Nat
  v : JValue
  ws4 : List Nat

/-- The bytes of a member. -/
def JMember.text (m : JMember) : List Nat := memberText m.ws1 m.key m.ws2 m.ws3 m.v m.ws4

/-- Well-formedness of a member whose value is a string or `null`. -/
def JMember.ok (m : JMember) : Bool :=
  isWhite m.ws1 && validChars m.key && isWhite m.ws2 && isWhite m.ws3 && m.v.valid
    && isWhite m.ws4 && m.v.plain

/-- The bytes of members that are each followed by a comma. -/
def renderHead : List JMember → List Nat
  | [] => []
  | m :: ms => m.text ++ 44 :: renderHead ms

/-- Every member value is a string or `null`. -/
def JMembers.plain : JMembers → Bool
  | .one _ _ _ _ v _ => v.plain
  | .cons _ _ _ _ v _ rest => v.plain && rest.plain

/-- The start of a member whose value begins with the byte `c`, which begins
neither a string nor `null`. -/
def BadStart (bs : List Nat) (n N : Nat) (pre : List JMember) : Prop :=
  ∃ (ws1 : List Nat) (key : List JChar) (ws2 ws3 : List Nat) (c : Nat) (junk : List Nat),
    isWhite ws1 = true ∧ validChars key = true ∧ isWhite ws2 = true ∧ isWhite ws3 = true ∧
    isSpace c = false ∧ c ≠ 34 ∧ c ≠ 110 ∧
    bs = renderHead pre ++ (ws1 ++ (stringText key ++ (ws2 ++ 58 :: (ws3 ++ c :: junk)))) ∧
    n + (renderHead pre ++ (ws1 ++ (stringText key ++ (ws2 ++ 58 :: ws3)))).length + 1 ≤ N

/-- What a successful `readValue` loop has read when it stood at the name of a
member of the top-level object: well-formed members with strings and `null`s as
values up to the closing brace, or such members up to one whose value is of
another kind. -/
def FlatOutcome (bs : List Nat) (n N : Nat) : Prop :=
  (∃ (ms : JMembers) (rest : List Nat), ms.valid = true ∧ ms.plain = true ∧
      bs = ms.render ++ 125 :: rest ∧ N = n + ms.render.length + 1) ∨
    (∃ pre : List JMember, (∀ m ∈ pre, m.ok = true) ∧ BadStart bs n N pre)

/-- The rest of a round of the member loop of `object`, behind the value of the
member: `r` is the result of decoding the value. -/
def objectLoopRest (t : structType) (origStruct : List Nat) (origLen fuel : Nat)
    (r : decodeState × structValue) : decodeState × structValue :=
  let d7 := if r.1.opcode = scanSkipSpace then r.1.scanWhile scanSkipSpace else r.1
  let d8 :=
    if d7.hasErrorContext then
      { d7 with FieldStack := d7.FieldStack.take origLen, errorStruct := origStruct }
    else d7
  if d8.phasePanic then (d8, r.2)
  else if d8.opcode = scanEndObject then (d8, r.2)
  else if d8.opcode ≠ scanObjectValue then (d8.panicked, r.2)
  else objectLoop t origStruct origLen fuel d8 r.2

/-- The state of the decoder at the first byte of the value of a member named
`key`: the field of the name is looked up, and an unknown name is an error when
unknown fields are disallowed. -/
def atValue (t : structType) (d : decodeState) (key : List Nat) (scan : scanner)
    (op : scanCode) (off : Nat) : decodeState :=
  { d with scan := scan, opcode := op, off := off,
           hasErrorContext := d.hasErrorContext || (lookupField t key).isSome,
           FieldStack := (match lookupField t key with
             | some name => [name]
             | none => []),
           errorStruct := (match lookupField t key with
             | some _ => t.name
             | none => []),
           savedError := firstErr d.savedError
             (match lookupField t key with
              | some _ => none
              | none => if d.disallowUnknownFields then some (unknownFieldError key) else none) }

/-- What a successful `readValue` has read: a value that may decode without
error (`null`, an empty object, or an object whose member values are strings and
`null`s), or the start of a value that cannot. -/
def ReadShape (D : List Nat) (n : Nat) : Prop :=
  (∃ (ws0 : List Nat) (val : JValue) (rest : List Nat), D = ws0 ++ (val.render ++ rest) ∧
      isWhite ws0 = true ∧ val.valid = true ∧
      (val = .null ∨ (∃ ws, val = .emptyObject ws) ∨ (∃ ms, val = .object ms ∧ ms.plain = true)) ∧
      n = ws0.length + val.render.length) ∨
    (∃ (ws0 : List Nat) (c : Nat) (rest : List Nat), D = ws0 ++ c :: rest ∧ isWhite ws0 = true ∧
      isSpace c = false ∧ c ≠ 123 ∧ c ≠ 110 ∧ ws0.length + 1 ≤ n) ∨
    (∃ (ws0 : List Nat) (pre : List JMember) (bs : List Nat), D = ws0 ++ 123 :: bs ∧
      isWhite ws0 = true ∧ (∀ m ∈ pre, m.ok = true) ∧ BadStart bs (ws0.length + 1) n pre)

/-- Every member name is the name of a field of `t`, as the decoder matches
names. -/
def JMembers.allKnown (t : structType) : JMembers → Bool
  | .one _ key _ _ _ _ => (lookupField t (stringValue key)).isSome
  | .cons _ key _ _ _ _ rest => (lookupField t (stringValue key)).isSome && rest.allKnown t

/-- The values that `Decode` accepts for a struct of type `t` whose fields are
strings, when unknown fields are disallowed: `null`, the empty object, and an
object whose member names are names of fields and whose member values are strings
or `null`. -/
def JValue.accepted (t : structType) : JValue → Bool
  | .null => true
  | .emptyObject _ => true
  | .object ms => ms.plain && ms.allKnown t
  | _ => false

/-! ## The reading of string literals and of member names -/

/-- The UTF-8 encoding of a Unicode scalar value (RFC 3629). -/
def utf8 (r : Nat) : List Nat :=
  if r < 0x80 then [r]
  else if r < 0x800 then [0xC0 + r / 0x40, 0x80 + r % 0x40]
  else if r < 0x10000 then [0xE0 + r / 0x1000, 0x80 + r / 0x40 % 0x40, 0x80 + r % 0x40]
  else [0xF0 + r / 0x40000, 0x80 + r / 0x1000 % 0x40, 0x80 + r / 0x40 % 0x40, 0x80 + r % 0x40]

/-- A Unicode scalar value: a code point that is not a surrogate. -/
def isScalar (r : Nat) : Bool := r < 0xD800 || (0xE000 ≤ r && r ≤ 0x10FFFF)

/-- A hexadecimal digit, of either case. -/
def isHexDigit (c : Nat) : Bool :=
  (48 ≤ c && c ≤ 57) || (65 ≤ c && c ≤ 70) || (97 ≤ c && c ≤ 102)

/-- The value of a hexadecimal digit. -/
def hexValue (c : Nat) : Nat := if c ≤ 57 then c - 48 else if c ≤ 70 then c - 55 else c - 87

/-- The number written with four hexadecimal digits. -/
def hex4 (a b c d : Nat) : Nat :=
  hexValue a * 4096 + hexValue b * 256 + hexValue c * 16 + hexValue d

/-- One item of a JSON string literal, as RFC 8259 reads it: an unescaped
character (given by its code point and written in UTF-8), a two-character
escape (given by its second character), a `\u` escape of a code point that is no
surrogate, a pair of `\u` escapes that are a high and a low surrogate, and the
two things that Go replaces by U+FFFD: a `\u` escape of a surrogate that is not
part of such a pair, and a byte that is not part of well-formed UTF-8. -/
inductive StrItem where
  | char (r : Nat)
  | esc (e : Nat)
  | uni (a b c d : Nat)
  | pair (a b c d e f g h : Nat)
  | lone (a b c d : Nat)
  | stray (c : Nat)
deriving DecidableEq, Repr

/-- The bytes an item is written with. -/
def StrItem.text : StrItem → List Nat
  | .char r => utf8 r
  | .esc e => [92, e]
  | .uni a b c d => [92, 117, a, b, c, d]
  | .pair a b c d e f g h => [92, 117, a, b, c, d, 92, 117, e, f, g, h]
  | .lone a b c d => [92, 117, a, b, c, d]
  | .stray c => [c]

/-- The character that a two-character escape stands for. -/
def escaped (e : Nat) : Nat :=
  if e = 98 then 8 else if e = 102 then 12 else if e = 110 then 10 else if e = 114 then 13
  else if e = 116 then 9 else e

/-- The bytes of the Go string that an item stands for: the character itself, the
escaped character, the code point of a `\u` escape or of a surrogate pair, each
in UTF-8, and U+FFFD for what is ill-formed. -/
def StrItem.value : StrItem → List Nat
  | .char r => utf8 r
  | .esc e => [escaped e]
  | .uni a b c d => utf8 (hex4 a b c d)
  | .pair a b c d e f g h =>
    utf8 (0x10000 + (hex4 a b c d - 0xD800) * 0x400 + (hex4 e f g h - 0xDC00))
  | .lone _ _ _ _ => utf8 0xFFFD
  | .stray _ => utf8 0xFFFD

/-- Well-formedness of an item by itself. An unescaped character is a scalar
value that is no control character and neither `"` nor `\`. -/
def StrItem.ok : StrItem → Bool
  | .char r => 0x20 ≤ r && r != 34 && r != 92 && isScalar r
  | .esc e => e == 34 || e == 92 || e == 47 || e == 98 || e == 102 || e == 110 || e == 114
      || e == 116
  | .uni a b c d =>
    isHexDigit a && isHexDigit b && isHexDigit c && isHexDigit d && isScalar (hex4 a b c d)
  | .pair a b c d e f g h =>
    isHexDigit a && isHexDigit b && isHexDigit c && isHexDigit d
      && isHexDigit e && isHexDigit f && isHexDigit g && isHexDigit h
      && 0xD800 ≤ hex4 a b c d && hex4 a b c d < 0xDC00
      && 0xDC00 ≤ hex4 e f g h && hex4 e f g h < 0xE000
  | .lone a b c d =>
    isHexDigit a && isHexDigit b && isHexDigit c && isHexDigit d && !isScalar (hex4 a b c d)
  | .stray c => 0x80 ≤ c

/-- The items begin with the `\u` escape of a low surrogate. -/
def startsLow : List StrItem → Bool
  | .lone a b c d :: _ => 0xDC00 ≤ hex4 a b c d
  | _ => false

/-- Well-formedness of the items of a string literal: each item is well-formed;
an unpaired high surrogate is not followed by a low one (the two would be a
pair), and a stray byte does not begin the UTF-8 encoding of a scalar value
together with the bytes after it. -/
def wellFormed : List StrItem → Prop
  | [] => True
  | .lone a b c d :: rest =>
    (StrItem.lone a b c d).ok = true ∧ ¬ (hex4 a b c d < 0xDC00 ∧ startsLow rest = true) ∧
      wellFormed rest
  | .stray c :: rest =>
    (StrItem.stray c).ok = true ∧
      (∀ r, isScalar r = true → ¬ (utf8 r <+: c :: rest.flatMap StrItem.text)) ∧
      wellFormed rest
  | x :: rest => x.ok = true ∧ wellFormed rest

/-- The bytes of the string literal with the given items, quotation marks
included. -/
def quoted (items : List StrItem) : List Nat := [34] ++ items.flatMap StrItem.text ++ [34]

/-- The bytes of the Go string that the string literal with the given items
stands for. -/
def denote (items : List StrItem) : List Nat := items.flatMap StrItem.value

/-- The items of the scanner's grammar that an item is made of. -/
def StrItem.chars : StrItem → List JChar
  | .char r => (utf8 r).map JChar.raw
  | .esc e => [.esc e]
  | .uni a b c d => [.uni a b c d]
  | .pair a b c d e f g h => [.uni a b c d, .uni e f g h]
  | .lone a b c d => [.uni a b c d]
  | .stray c => [.raw c]

/-- The upper-case letter of a lower-case ASCII letter; every other byte itself. -/
def upperASCII (c : Nat) : Nat := if 97 ≤ c ∧ c ≤ 122 then c - 32 else c

/-- The name is `City` in some spelling of upper-case and lower-case letters:
the names that Go takes for the field `City`. -/
def isCityName (name : List Nat) : Bool := name.map upperASCII == str "CITY"

/-- A member of an object together with the comma behind it, for a member whose
name is a spelling of `City` and whose value is a string or `null`. -/
structure CityMember where
  ws1 : List Nat
  key : List StrItem
  ws2 : List Nat
  ws3 : List Nat
  v : JValue
  ws4 : List Nat

/-- The bytes of the member and of the comma behind it. -/
def CityMember.text (m : CityMember) : List Nat :=
  m.ws1 ++ quoted m.key ++ m.ws2 ++ [58] ++ m.ws3 ++ m.v.render ++ m.ws4 ++ [44]

/-- Well-formedness of the member: its name is a spelling of `City`, its value a
well-formed string literal or `null`. -/
def CityMember.ok (m : CityMember) : Prop :=
  isWhite m.ws1 = true ∧ wellFormed m.key ∧ isCityName (denote m.key) = true ∧
    isWhite m.ws2 = true ∧ isWhite m.ws3 = true ∧ m.v.valid = true ∧ m.v.plain = true ∧
    isWhite m.ws4 = true

/-- The members `pre` in front of the members `ms`. -/
def consMembers : List CityMember → JMembers → JMembers
  | [], ms => ms
  | m :: pre, ms =>
    .cons m.ws1 (m.key.flatMap StrItem.chars) m.ws2 m.ws3 m.v m.ws4 (consMembers pre ms)

/-! ## Theorems -/

theorem decodeErrorResponse_eq_branch (w : ResponseWriter) (err : GoError) :
    decodeErrorResponse w err = branchOutcome (classify err) err w := by
  obtain ⟨a, b, c, t, e, q⟩ := err
  unfold decodeErrorResponse classify
  cases a with
  | some off => simp [Kind.priority, Kind.holds, branchOutcome]
  | none =>
    cases b with
    | true => simp [Kind.priority, Kind.holds, branchOutcome]
    | false =>
      cases c with
      | some fo => obtain ⟨f, o⟩ := fo; simp [Kind.priority, Kind.holds, branchOutcome]
      | none =>
        by_cases h1 : HasPrefix t (str "json: unknown field ") = true
        · simp [Kind.priority, Kind.holds, branchOutcome, h1]
        · cases e with
          | true => simp [Kind.priority, Kind.holds, branchOutcome, h1]
          | false =>
            by_cases h2 : t = str "http: request body too large"
            · subst h2
              simp [Kind.priority, Kind.holds, branchOutcome, h1]
            · simp [Kind.priority, Kind.holds, branchOutcome, h1, h2]

theorem branchOutcome_counts (k : Kind) (err : GoError) (w : ResponseWriter) :
    (branchOutcome k err w).w.wroteHeader = w.wroteHeader ++ [k.status] ∧
    (branchOutcome k err w).w.written.length = w.written.length + 1 := by
  cases k <;>
    simp [branchOutcome, httpError, ResponseWriter.Write, ResponseWriter.WriteHeader,
      ResponseWriter.HeaderSet, ResponseWriter.HeaderDel, Kind.status]

theorem classify_ne_trailing (err : GoError) : classify err ≠ .TrailingData := by
  unfold classify
  intro h
  have hmem : ∀ k, Kind.priority.find? (·.holds err) = some k → k ≠ .TrailingData := by
    intro k hk
    have := List.mem_of_find?_eq_some hk
    intro hk2
    subst hk2
    simp [Kind.priority] at this
  cases hf : Kind.priority.find? (·.holds err) with
  | none => simp [hf] at h
  | some k => simp [hf] at h; exact hmem k hf h

/-- C2: for every non-nil error of the first `Decode`, `getCloudflare` does what
the single branch of the first kind in priority order whose condition holds does
(which is never the trailing-data check), and so writes exactly one status and
one error message. -/
theorem C2_first_matching_branch_runs (w : ResponseWriter) (r : Request) (err : GoError)
    (h : (firstDecode r).2.2 = some err) :
    getCloudflare w r
        = branchOutcome (classify err) err
            (w.HeaderSet (str "Content-Type") (str "application/json")) ∧
      Kind.priority.find? (·.holds err) = some (classify err) ∧
      classify err ≠ .TrailingData ∧
      (getCloudflare w r).w.wroteHeader.length = w.wroteHeader.length + 1 ∧
      (getCloudflare w r).w.written.length = w.written.length + 1 := by
  have hg : getCloudflare w r
      = branchOutcome (classify err) err
          (w.HeaderSet (str "Content-Type") (str "application/json")) := by
    unfold getCloudflare
    simp only [h]
    exact decodeErrorResponse_eq_branch _ err
  have hc := branchOutcome_counts (classify err) err
    (w.HeaderSet (str "Content-Type") (str "application/json"))
  refine ⟨hg, ?_, classify_ne_trailing err, ?_, ?_⟩
  · unfold classify
    cases hf : Kind.priority.find? (·.holds err) with
    | none => simp [Kind.priority, Kind.holds] at hf
    | some k => simp
  · rw [hg, hc.1]; simp [ResponseWriter.HeaderSet]
  · rw [hg, hc.2]; simp [ResponseWriter.HeaderSet]

theorem C2_first_matching_branch_runs_witness :
    (firstDecode (post [])).2.2 = some ioEOF ∧
    (getCloudflare ResponseWriter.new (post [])
        = branchOutcome (classify ioEOF) ioEOF
            (ResponseWriter.new.HeaderSet (str "Content-Type") (str "application/json")) ∧
      Kind.priority.find? (·.holds ioEOF) = some (classify ioEOF) ∧
      classify ioEOF ≠ .TrailingData ∧
      (getCloudflare ResponseWriter.new (post [])).w.wroteHeader.length
        = ResponseWriter.new.wroteHeader.length + 1 ∧
      (getCloudflare ResponseWriter.new (post [])).w.written.length
        = ResponseWriter.new.written.length + 1) :=
  ⟨by decide, C2_first_matching_branch_runs ResponseWriter.new (post []) ioEOF (by decide)⟩

theorem getCloudflare_wroteHeader (w : ResponseWriter) (r : Request) :
    (getCloudflare w r).w.wroteHeader
      = w.wroteHeader ++ (match failureKind r with
          | some k => [k.status]
          | none => []) := by
  unfold getCloudflare failureKind
  cases h1 : (firstDecode r).2.2 with
  | some err =>
    simp only []
    rw [decodeErrorResponse_eq_branch, (branchOutcome_counts _ _ _).1]
    simp [ResponseWriter.HeaderSet]
  | none =>
    cases h2 : (secondDecode r).2.2 with
    | none =>
      simp [httpError, ResponseWriter.Write, ResponseWriter.WriteHeader,
        ResponseWriter.HeaderSet, ResponseWriter.HeaderDel, Kind.status]
    | some err =>
      cases he : err.eqEOF <;>
        simp [he, httpError, ResponseWriter.Write, ResponseWriter.WriteHeader,
          ResponseWriter.HeaderSet, ResponseWriter.HeaderDel, Kind.status]

/-- C8: the statuses `getCloudflare` writes are fixed by the kind of failure alone:
none when the request is valid, and otherwise the one status of the table, which
is 413 for TooLarge, 500 for Unclassified and 400 for every other kind. -/
theorem C8_status_fixed_by_kind (w : ResponseWriter) (r : Request) :
    (getCloudflare w r).w.wroteHeader
        = w.wroteHeader ++ (match failureKind r with
            | some k => [k.status]
            | none => []) ∧
      (∀ k : Kind, k.status = if k = .TooLarge then 413 else if k = .Unclassified then 500
        else 400) ∧
      (∀ code ∈ (getCloudflare w r).w.wroteHeader,
        code ∈ w.wroteHeader ∨ code = 400 ∨ code = 413 ∨ code = 500) := by
  refine ⟨getCloudflare_wroteHeader w r, ?_, ?_⟩
  · intro k; cases k <;> rfl
  · intro code hcode
    rw [getCloudflare_wroteHeader] at hcode
    rcases List.mem_append.mp hcode with h | h
    · exact Or.inl h
    · right
      cases hk : failureKind r with
      | none => simp [hk] at h
      | some k => cases k <;> simp [hk, Kind.status] at h <;> simp [h]

/-- C9: two errors of the first `Decode` that both fall into the Unclassified
branch get the same response, status 500 with the text of `http.StatusText(500)`,
whatever their own texts are; the text of each error only goes to the log. -/
theorem C9_unclassified_response_is_generic (w : ResponseWriter) (r1 r2 : Request)
    (e1 e2 : GoError)
    (h1 : (firstDecode r1).2.2 = some e1) (h2 : (firstDecode r2).2.2 = some e2)
    (c1 : classify e1 = .Unclassified) (c2 : classify e2 = .Unclassified) :
    (getCloudflare w r1).w = (getCloudflare w r2).w ∧
      (getCloudflare w r1).w
        = httpError (w.HeaderSet (str "Content-Type") (str "application/json"))
            (str "Internal Server Error") 500 ∧
      (getCloudflare w r1).w.wroteHeader = w.wroteHeader ++ [500] ∧
      (getCloudflare w r1).w.written = w.written ++ [str "Internal Server Error\n"] ∧
      (getCloudflare w r1).log = [e1.text] ∧ (getCloudflare w r2).log = [e2.text] := by
  have g1 : getCloudflare w r1 = branchOutcome .Unclassified e1
      (w.HeaderSet (str "Content-Type") (str "application/json")) := by
    unfold getCloudflare; simp only [h1]; rw [decodeErrorResponse_eq_branch, c1]
  have g2 : getCloudflare w r2 = branchOutcome .Unclassified e2
      (w.HeaderSet (str "Content-Type") (str "application/json")) := by
    unfold getCloudflare; simp only [h2]; rw [decodeErrorResponse_eq_branch, c2]
  have hs : StatusText 500 = str "Internal Server Error" := by decide
  have hn : str "Internal Server Error" ++ [10] = str "Internal Server Error\n" := by decide
  rw [g1, g2]
  simp only [branchOutcome, hs]
  refine ⟨trivial, trivial, ?_, ?_, trivial, trivial⟩
  · simp [httpError, ResponseWriter.Write, ResponseWriter.WriteHeader,
      ResponseWriter.HeaderSet, ResponseWriter.HeaderDel]
  · simp [httpError, ResponseWriter.Write, ResponseWriter.WriteHeader,
      ResponseWriter.HeaderSet, ResponseWriter.HeaderDel, hn]

theorem C9_unclassified_response_is_generic_witness :
    (firstDecode (brokenPost (str "read tcp: connection reset by peer"))).2.2
        = some (errorString (str "read tcp: connection reset by peer")) ∧
      (firstDecode (brokenPost (str "i/o timeout"))).2.2
        = some (errorString (str "i/o timeout")) ∧
      (getCloudflare ResponseWriter.new
          (brokenPost (str "read tcp: connection reset by peer"))).w
        = (getCloudflare ResponseWriter.new (brokenPost (str "i/o timeout"))).w ∧
      (getCloudflare ResponseWriter.new
          (brokenPost (str "read tcp: connection reset by peer"))).log
        = [str "read tcp: connection reset by peer"] :=
  have h := C9_unclassified_response_is_generic ResponseWriter.new
    (brokenPost (str "read tcp: connection reset by peer")) (brokenPost (str "i/o timeout"))
    (errorString (str "read tcp: connection reset by peer")) (errorString (str "i/o timeout"))
    (by decide) (by decide) (by decide) (by decide)
  ⟨by decide, by decide, h.1, h.2.2.2.2.1⟩

/-- C6: the request with the zero-byte body makes the first `Decode` fail with
`io.EOF`, which is the EmptyBody kind; the response is status 400 with the message
"Request body must not be empty", and `loc` is left at its zero value. -/
theorem C6_empty_body (w : ResponseWriter) (method path : List Nat) :
    (firstDecode (mkRequest method path [])).2.2 = some ioEOF ∧
      classify ioEOF = .EmptyBody ∧
      getCloudflare w (mkRequest method path [])
        = { w := httpError (w.HeaderSet (str "Content-Type") (str "application/json"))
                  (str "Request body must not be empty") 400,
            log := [] } ∧
      (getCloudflare ResponseWriter.new (mkRequest method path [])).w.status = 400 ∧
      (getCloudflare ResponseWriter.new (mkRequest method path [])).w.body
        = str "Request body must not be empty\n" ∧
      locationString.ofValue (firstDecode (mkRequest method path [])).2.1 = { City := [] } :=
  ⟨rfl, by decide, rfl, rfl, rfl, rfl⟩

/-- C3: on the body of two consecutive objects the first `Decode` succeeds and the
second does not return `io.EOF`; the response is status 400, but its message is
the misspelt "Requset body must conatin a single JSON object" and not the message
of the specification. -/
theorem C3_trailing_data_message_misspelt :
    (firstDecode (post (str "\x7b\"City\": \"Paris\"\x7d\x7b\"City\": \"London\"\x7d"))).2.2
        = none ∧
      (secondDecode (post (str "\x7b\"City\": \"Paris\"\x7d\x7b\"City\": \"London\"\x7d"))).2.2
        ≠ some ioEOF ∧
      (getCloudflare ResponseWriter.new
          (post (str "\x7b\"City\": \"Paris\"\x7d\x7b\"City\": \"London\"\x7d"))).w.status
        = 400 ∧
      (getCloudflare ResponseWriter.new
          (post (str "\x7b\"City\": \"Paris\"\x7d\x7b\"City\": \"London\"\x7d"))).w.body
        = str "Requset body must conatin a single JSON object\n" ∧
      (getCloudflare ResponseWriter.new
          (post (str "\x7b\"City\": \"Paris\"\x7d\x7b\"City\": \"London\"\x7d"))).w.body
        ≠ str "Request body must contain a single JSON object\n" := by
  refine ⟨by decide!, by decide!, by decide!, by decide!, by decide!⟩

/-- C10, as stated, fails: `GET /foo` is not the registered endpoint, and the
router answers it with `http.NotFound` (status 404, plain text "404 page not
found"), not with the JSON response of `notFound`. -/
theorem C10_unmatched_path_counterexample :
    (mkRequest (str "GET") (str "/foo") []).Path ≠ str "/cloudflare" ∧
      serve ResponseWriter.new (mkRequest (str "GET") (str "/foo") [])
        = .handled { w := httpError ResponseWriter.new (str "404 page not found") 404,
                     log := [] } ∧
      (httpError ResponseWriter.new (str "404 page not found") 404).status = 404 ∧
      (httpError ResponseWriter.new (str "404 page not found") 404).HeaderGet
          (str "Content-Type") = some (str "text/plain; charset=utf-8") ∧
      (httpError ResponseWriter.new (str "404 page not found") 404).body
        = str "404 page not found\n" ∧
      (httpError ResponseWriter.new (str "404 page not found") 404).body
        ≠ str "\x7b\"message\": \"404\"\x7d" ∧
      serve ResponseWriter.new (mkRequest (str "GET") (str "/foo") [])
        ≠ .handled (notFound ResponseWriter.new (mkRequest (str "GET") (str "/foo") [])) := by
  refine ⟨by decide, by decide, by decide, by decide, by decide, by decide, by decide⟩

/-- C10, amended: every request whose path is exactly `/`, with any method and
any body, is answered by the handler `notFound`, whose response is status 404,
the header `Content-Type: application/json` and the body `{"message": "404"}`,
and does not depend on the request. -/
theorem C10_root_path_answered_by_notFound (w : ResponseWriter) (req : Request)
    (hp : req.Path = str "/") :
    serve w req = .handled (notFound w req) ∧
      notFound w req
        = { w := ((w.HeaderSet (str "Content-Type") (str "application/json")).WriteHeader
              404).Write (str "\x7b\"message\": \"404\"\x7d"),
            log := [] } ∧
      (notFound ResponseWriter.new req).w.status = 404 ∧
      (notFound ResponseWriter.new req).w.HeaderGet (str "Content-Type")
        = some (str "application/json") ∧
      (notFound ResponseWriter.new req).w.body = str "\x7b\"message\": \"404\"\x7d" := by
  have hclean : cleanPath (str "/") = str "/" := by decide
  have hne : str "/" ≠ str "/cloudflare" := by decide
  refine ⟨?_, rfl, rfl, rfl, rfl⟩
  simp [serve, ServeHTTP, routes, routerMatch, Route.Match, hp, hclean, hne]

/-- C10 (amended) at the request `DELETE /`. -/
theorem C10_root_path_answered_by_notFound_witness :
    serve ResponseWriter.new (mkRequest (str "DELETE") (str "/") [])
        = .handled (notFound ResponseWriter.new (mkRequest (str "DELETE") (str "/") [])) ∧
      (notFound ResponseWriter.new (mkRequest (str "DELETE") (str "/") [])).w.status = 404 :=
  have h := C10_root_path_answered_by_notFound ResponseWriter.new
    (mkRequest (str "DELETE") (str "/") []) rfl
  ⟨h.1, h.2.2.1⟩

/-- C4, as stated, fails: a body of 1,048,577 bytes whose first byte is `x` is
answered with status 400 and the MalformedSyntax message, not with 413. -/
theorem C4_malformed_large_body_counterexample :
    1048576 < (120 :: List.replicate 1048576 32).length ∧
      (getCloudflare ResponseWriter.new (post (120 :: List.replicate 1048576 32))).w.status
        = 400 ∧
      (getCloudflare ResponseWriter.new (post (120 :: List.replicate 1048576 32))).w.body
        = str "Request body contains badly formed JSON (at position 1)\n" := by
  refine ⟨by rw [List.length_cons, List.length_replicate]; omega, by decide, by decide⟩

/-- C5, as stated, fails: the object `{"City": 5, "Country": "France"}` has the
member `Country`, which is not a field of `locationString`, yet the decoder
reports the type error of `City` that it met first, and the response is the
TypeMismatch one. -/
theorem C5_type_error_first_counterexample :
    (firstDecode (post (str "\x7b\"City\": 5, \"Country\": \"France\"\x7d"))).2.2
        = some (UnmarshalTypeError (str "number") (str "string") (str "locationString")
            (str "City") 10) ∧
      classify (UnmarshalTypeError (str "number") (str "string") (str "locationString")
            (str "City") 10) = .TypeMismatch ∧
      (getCloudflare ResponseWriter.new
          (post (str "\x7b\"City\": 5, \"Country\": \"France\"\x7d"))).w.body
        = str "Request body contains an invalid value for the \"City\" field (at position 10)\n"
      := by
  refine ⟨by decide!, by decide!, by decide!⟩

/-- C7, as stated, fails: the body `null` passes both `Decode` calls and no error
response is written, although its one JSON value is not an object. -/
theorem C7_null_body_counterexample :
    (firstDecode (post (str "null"))).2.2 = none ∧
      (secondDecode (post (str "null"))).2.2 = some ioEOF ∧
      getCloudflare ResponseWriter.new (post (str "null"))
        = { w := ResponseWriter.new.HeaderSet (str "Content-Type") (str "application/json"),
            log := [] } ∧
      (getCloudflare ResponseWriter.new (post (str "null"))).w.wroteHeader = [] ∧
      (str "null").head? ≠ some 123 := by
  refine ⟨by decide!, by decide!, by decide!, by decide!, by decide⟩

/-! ## The scanner and the decoder on well-formed JSON texts -/

theorem run_append (f : Nat → Nat) (a b : List Nat) (s : scanner) :
    run f s (a ++ b) = run f (run f s a) b := by
  induction a generalizing s with
  | nil => rfl
  | cons c a ih => simp [run, ih]

theorem Quiet_append (f : Nat → Nat) (k : Nat) (a b : List Nat) (s : scanner) :
    Quiet f k s (a ++ b) ↔ Quiet f k s a ∧ Quiet f k (run f s a) b := by
  induction a generalizing s with
  | nil => simp [Quiet, run]
  | cons c a ih => simp [Quiet, run, ih, and_assoc]

theorem Quiet_mono (f : Nat → Nat) {k j : Nat} (h : j ≤ k) (bs : List Nat) (s : scanner)
    (hq : Quiet f k s bs) : Quiet f j s bs := by
  induction bs generalizing s with
  | nil => trivial
  | cons c a ih =>
    obtain ⟨⟨h1, h2, h3, h4, h5⟩, hr⟩ := hq
    exact ⟨⟨h1, h2, h3, by omega, h5⟩, ih _ hr⟩

theorem readValueLoop_quiet (err : GoError) (all : List Nat) (bs rest : List Nat) :
    ∀ (s : scanner) (n : Nat), Quiet (· + 1) 0 s bs →
      readValueLoop err all s (bs ++ rest) n
        = readValueLoop err all (run (· + 1) s bs) rest (n + bs.length) := by
  induction bs with
  | nil => intro s n _; simp [run]
  | cons c bs ih =>
    intro s n hq
    obtain ⟨⟨h1, h2, h3, h4, h5⟩, hr⟩ := hq
    have hstep : ({ s with bytes := s.bytes + 1 }).stepFn c = stepB (· + 1) s c := rfl
    have hlen : n + (c :: bs).length = n + 1 + bs.length := by simp; omega
    rw [hlen]
    simp only [List.cons_append, readValueLoop, hstep, run]
    cases hop : (stepB (· + 1) s c).2 with
    | scanEnd => exact absurd hop h2
    | scanError => exact absurd hop h3
    | scanEndObject =>
      have := h5 (Or.inl hop)
      simp only [stepB] at this hop hr ⊢
      simp [this]
      exact ih _ (n+1) hr
    | scanEndArray =>
      have := h5 (Or.inr hop)
      simp only [stepB] at this hop hr ⊢
      simp [this]
      exact ih _ (n+1) hr
    | _ => simp [ih _ (n+1) hr]

theorem St_bytes {s : scanner} {st : stateFn} {τ : List parseKind} (b : Nat)
    (h : St s st τ) : St { s with bytes := b } st τ := h

theorem Quiet_jchar (f : Nat → Nat) (k : Nat) (τ : List parseKind) (hk : k ≤ τ.length)
    (x : JChar) (hx : x.valid = true) (s : scanner) (hs : St s stateInString τ) :
    Quiet f k s x.text ∧ St (run f s x.text) stateInString τ := by
  obtain ⟨h1, h2, h3⟩ := hs
  cases x with
  | raw c =>
    simp [JChar.valid] at hx
    obtain ⟨⟨hx1, hx2⟩, hx3⟩ := hx
    have : ¬ c < 32 := by omega
    simp [JChar.text, Quiet, run, okStep, stepB, scanner.stepFn, h1, h2, h3, St, hk, hx2, hx3, this]
  | esc e =>
    simp [JChar.valid] at hx
    have he : e ≠ 117 := by rcases hx with h | h | h | h | h | h | h | h <;> omega
    have he2 : e = 98 ∨ e = 102 ∨ e = 110 ∨ e = 114 ∨ e = 116 ∨ e = 92 ∨ e = 47 ∨ e = 34 := by
      omega
    simp [JChar.text, Quiet, run, okStep, stepB, scanner.stepFn, h1, h2, h3, St, hk, he2]
  | uni a b c d =>
    simp [JChar.valid] at hx
    obtain ⟨⟨⟨ha, hb⟩, hc⟩, hd⟩ := hx
    simp [JChar.text, Quiet, run, okStep, stepB, scanner.stepFn, h1, h2, h3, St, hk, ha, hb, hc, hd]

theorem Quiet_jchars (f : Nat → Nat) (k : Nat) (τ : List parseKind) (hk : k ≤ τ.length)
    (cs : List JChar) (hcs : ∀ x ∈ cs, x.valid = true) :
    ∀ s, St s stateInString τ →
      Quiet f k s (cs.flatMap JChar.text) ∧ St (run f s (cs.flatMap JChar.text)) stateInString τ := by
  induction cs with
  | nil => intro s hs; exact ⟨trivial, hs⟩
  | cons x cs ih =>
    intro s hs
    have hx := Quiet_jchar f k τ hk x (hcs x (by simp)) s hs
    have hr := ih (fun y hy => hcs y (by simp [hy])) _ hx.2
    simp only [List.flatMap_cons, Quiet_append, run_append]
    exact ⟨⟨hx.1, hr.1⟩, hr.2⟩

/-- Scanning a string literal from a state that expects a value. -/
theorem Quiet_stringText (f : Nat → Nat) (k : Nat) (τ : List parseKind) (hk : k ≤ τ.length)
    (cs : List JChar) (hcs : ∀ x ∈ cs, x.valid = true) (s : scanner) (st : stateFn)
    (hst : st = stateBeginValue ∨ st = stateBeginString ∨ st = stateBeginValueOrEmpty
      ∨ st = stateBeginStringOrEmpty)
    (hs : St s st τ) :
    Quiet f k s (stringText cs) ∧ St (run f s (stringText cs)) stateEndValue τ := by
  obtain ⟨h1, h2, h3⟩ := hs
  have hopen : okStep f k s 34 ∧ St (stepB f s 34).1 stateInString τ := by
    rcases hst with h | h | h | h <;> subst h <;>
      simp [okStep, stepB, scanner.stepFn, stateBeginValueFn, stateBeginStringFn, h1, h2, h3,
        St, hk, isSpace]
  have hbody := Quiet_jchars f k τ hk cs hcs _ hopen.2
  have hclose : ∀ s', St s' stateInString τ →
      Quiet f k s' [34] ∧ St (run f s' [34]) stateEndValue τ := by
    intro s' ⟨g1, g2, g3⟩
    simp [Quiet, run, okStep, stepB, scanner.stepFn, g1, g2, g3, St, hk]
  have hc := hclose _ hbody.2
  have htext : stringText cs = 34 :: (cs.flatMap JChar.text ++ [34]) := by simp [stringText]
  rw [htext]
  simp only [Quiet, run, Quiet_append, run_append]
  exact ⟨⟨hopen.1, hbody.1, hc.1⟩, hc.2⟩

theorem Quiet_digits (f : Nat → Nat) (k : Nat) (τ : List parseKind) (hk : k ≤ τ.length)
    (st : stateFn) (hst : st = state1 ∨ st = stateDot0 ∨ st = stateE0) (ds : List Nat)
    (hds : ds.all isDigit = true) :
    ∀ s, St s st τ → Quiet f k s ds ∧ St (run f s ds) st τ := by
  induction ds with
  | nil => intro s hs; exact ⟨trivial, hs⟩
  | cons d ds ih =>
    intro s ⟨h1, h2, h3⟩
    simp [isDigit] at hds
    obtain ⟨⟨hd1, hd2⟩, hds⟩ := hds
    have hstep : okStep f k s d ∧ St (stepB f s d).1 st τ := by
      rcases hst with h | h | h <;> subst h <;>
        simp [okStep, stepB, scanner.stepFn, h1, h2, h3, St, hk, hd1, hd2]
    have hr := ih (by simpa [isDigit] using hds) _ hstep.2
    exact ⟨⟨hstep.1, hr.1⟩, hr.2⟩

theorem St_After {s : scanner} {st : stateFn} {τ : List parseKind} (h : St s st τ)
    (hst : afterValue st = true) : After s τ := ⟨by rw [h.1]; exact hst, h.2.1, h.2.2⟩

theorem Quiet_number_int (f : Nat → Nat) (k : Nat) (τ : List parseKind) (hk : k ≤ τ.length)
    (neg : Bool) (int : List Nat) (hint : intValid int = true)
    (s : scanner) (st : stateFn)
    (hst : st = stateBeginValue ∨ st = stateBeginValueOrEmpty) (hs : St s st τ) :
    ∃ st', (st' = state0 ∨ st' = state1) ∧
      Quiet f k s (intText neg int) ∧ St (run f s (intText neg int)) st' τ := by
  obtain ⟨h1, h2, h3⟩ := hs
  unfold intText
  -- the state after the optional sign
  have hsign : ∃ s1 st1, (st1 = st ∨ st1 = stateNeg) ∧ St s1 st1 τ ∧
      (∀ rest, Quiet f k s ((if neg then [45] else []) ++ rest) ↔ Quiet f k s1 rest) ∧
      (∀ rest, run f s ((if neg then [45] else []) ++ rest) = run f s1 rest) := by
    cases neg with
    | false => exact ⟨s, st, Or.inl rfl, ⟨h1, h2, h3⟩, fun _ => by simp, fun _ => by simp⟩
    | true =>
      refine ⟨(stepB f s 45).1, stateNeg, Or.inr rfl, ?_, ?_, ?_⟩
      · rcases hst with h | h <;> subst h <;>
          simp [stepB, scanner.stepFn, stateBeginValueFn, h1, h2, h3, St, isSpace]
      · intro rest
        have : okStep f k s 45 := by
          rcases hst with h | h <;> subst h <;>
            simp [okStep, stepB, scanner.stepFn, stateBeginValueFn, h1, h2, h3, hk, isSpace]
        simp [Quiet, this]
      · intro rest; simp [run]
  obtain ⟨s1, st1, hst1, ⟨g1, g2, g3⟩, hq, hr⟩ := hsign
  rw [hq, hr]
  cases int with
  | nil => simp [intValid] at hint
  | cons d ds =>
    simp only [intValid, Bool.or_eq_true, Bool.and_eq_true, beq_iff_eq, decide_eq_true_eq] at hint
    rcases hint with ⟨h0, hnil⟩ | ⟨⟨hd1, hd2⟩, hds⟩
    · subst h0; subst hnil
      refine ⟨state0, Or.inl rfl, ?_⟩
      rcases hst1 with h | h
      · rcases hst with h' | h' <;> subst h <;> subst h' <;>
          simp [Quiet, run, okStep, stepB, scanner.stepFn, stateBeginValueFn, g1, g2, g3, St, hk,
            isSpace]
      · subst h
        simp [Quiet, run, okStep, stepB, scanner.stepFn, g1, g2, g3, St, hk]
    · refine ⟨state1, Or.inr rfl, ?_⟩
      have hfirst : okStep f k s1 d ∧ St (stepB f s1 d).1 state1 τ := by
        have e1 : d ≠ 123 := by omega
        have e2 : d ≠ 91 := by omega
        have e3 : d ≠ 34 := by omega
        have e4 : d ≠ 45 := by omega
        have e5 : d ≠ 48 := by omega
        have e6 : d ≠ 116 := by omega
        have e7 : d ≠ 102 := by omega
        have e8 : d ≠ 110 := by omega
        have e9 : d ≠ 93 := by omega
        have e10 : isSpace d = false := by simp [isSpace]; omega
        rcases hst1 with h | h
        · rcases hst with h' | h' <;> subst h <;> subst h' <;>
            simp [okStep, stepB, scanner.stepFn, stateBeginValueFn, g1, g2, g3, St, hk,
              e1, e2, e3, e4, e5, e6, e7, e8, e9, e10, hd1, hd2]
        · subst h
          simp [okStep, stepB, scanner.stepFn, g1, g2, g3, St, hk, e5, hd1, hd2]
      have hrest := Quiet_digits f k τ hk state1 (Or.inl rfl) ds hds _ hfirst.2
      exact ⟨⟨hfirst.1, hrest.1⟩, hrest.2⟩

theorem Quiet_number_frac (f : Nat → Nat) (k : Nat) (τ : List parseKind) (hk : k ≤ τ.length)
    (frac : Option (List Nat)) (hfrac : fracValid frac = true)
    (s : scanner) (st : stateFn) (hst : st = state0 ∨ st = state1) (hs : St s st τ) :
    ∃ st', (st' = state0 ∨ st' = state1 ∨ st' = stateDot0) ∧
      Quiet f k s (fracText frac) ∧ St (run f s (fracText frac)) st' τ := by
  obtain ⟨h1, h2, h3⟩ := hs
  cases frac with
  | none =>
    exact ⟨st, by rcases hst with h | h <;> simp [h], trivial, ⟨h1, h2, h3⟩⟩
  | some ds =>
    cases ds with
    | nil => simp [fracValid] at hfrac
    | cons d ds =>
      simp [fracValid, isDigit] at hfrac
      obtain ⟨⟨hd1, hd2⟩, hds⟩ := hfrac
      refine ⟨stateDot0, Or.inr (Or.inr rfl), ?_⟩
      have hdot : okStep f k s 46 ∧ St (stepB f s 46).1 stateDot τ := by
        rcases hst with h | h <;> subst h <;>
          simp [okStep, stepB, scanner.stepFn, state0Fn, h1, h2, h3, St, hk]
      have hfirst : ∀ s1, St s1 stateDot τ → okStep f k s1 d ∧
          St (stepB f s1 d).1 stateDot0 τ := by
        intro s1 ⟨g1, g2, g3⟩
        simp [okStep, stepB, scanner.stepFn, g1, g2, g3, St, hk, hd1, hd2]
      have hfirst := hfirst _ hdot.2
      have hrest := Quiet_digits f k τ hk stateDot0 (Or.inr (Or.inl rfl)) ds
        (by simpa [isDigit] using hds) _ hfirst.2
      exact ⟨⟨hdot.1, hfirst.1, hrest.1⟩, hrest.2⟩

theorem Quiet_number_exp (f : Nat → Nat) (k : Nat) (τ : List parseKind) (hk : k ≤ τ.length)
    (exp : Option (Nat × List Nat × List Nat)) (hexp : expValid exp = true)
    (s : scanner) (st : stateFn) (hst : st = state0 ∨ st = state1 ∨ st = stateDot0)
    (hs : St s st τ) :
    Quiet f k s (expText exp) ∧ After (run f s (expText exp)) τ := by
  obtain ⟨h1, h2, h3⟩ := hs
  cases exp with
  | none =>
    exact ⟨trivial, St_After ⟨h1, h2, h3⟩ (by rcases hst with h | h | h <;> subst h <;> rfl)⟩
  | some p =>
    obtain ⟨e, sg, ds⟩ := p
    cases ds with
    | nil => simp [expValid] at hexp
    | cons d ds =>
      simp [expValid, isDigit] at hexp
      obtain ⟨⟨he, hsg⟩, ⟨hd1, hd2⟩, hds⟩ := hexp
      have hE : okStep f k s e ∧ St (stepB f s e).1 stateE τ := by
        have e1 : e ≠ 46 := by omega
        have e2 : ¬ (48 ≤ e ∧ e ≤ 57) := by omega
        rcases hst with h | h | h <;> subst h <;>
          simp [okStep, stepB, scanner.stepFn, state0Fn, h1, h2, h3, St, hk, he, e1, e2]
      have hsign : ∀ s1, St s1 stateE τ →
          Quiet f k s1 (sg ++ d :: ds) ∧ After (run f s1 (sg ++ d :: ds)) τ := by
        intro s1 ⟨g1, g2, g3⟩
        have hdig : ∀ s2 st2, (st2 = stateE ∨ st2 = stateESign) → St s2 st2 τ →
            Quiet f k s2 (d :: ds) ∧ After (run f s2 (d :: ds)) τ := by
          intro s2 st2 hst2 ⟨q1, q2, q3⟩
          have e1 : d ≠ 43 := by omega
          have e2 : d ≠ 45 := by omega
          have hfirst : okStep f k s2 d ∧ St (stepB f s2 d).1 stateE0 τ := by
            rcases hst2 with h | h <;> subst h <;>
              simp [okStep, stepB, scanner.stepFn, stateESignFn, q1, q2, q3, St, hk, hd1, hd2,
                e1, e2]
          have hrest := Quiet_digits f k τ hk stateE0 (Or.inr (Or.inr rfl)) ds
            (by simpa [isDigit] using hds) _ hfirst.2
          exact ⟨⟨hfirst.1, hrest.1⟩, St_After hrest.2 rfl⟩
        rcases hsg with (h | h) | h
        · subst h; simpa using hdig s1 stateE (Or.inl rfl) ⟨g1, g2, g3⟩
        · subst h
          have hs : okStep f k s1 43 ∧ St (stepB f s1 43).1 stateESign τ := by
            simp [okStep, stepB, scanner.stepFn, g1, g2, g3, St, hk]
          have := hdig _ stateESign (Or.inr rfl) hs.2
          exact ⟨⟨hs.1, this.1⟩, this.2⟩
        · subst h
          have hs : okStep f k s1 45 ∧ St (stepB f s1 45).1 stateESign τ := by
            simp [okStep, stepB, scanner.stepFn, g1, g2, g3, St, hk]
          have := hdig _ stateESign (Or.inr rfl) hs.2
          exact ⟨⟨hs.1, this.1⟩, this.2⟩
      have := hsign _ hE.2
      exact ⟨⟨hE.1, this.1⟩, this.2⟩

theorem Quiet_number (f : Nat → Nat) (k : Nat) (τ : List parseKind) (hk : k ≤ τ.length)
    (n : JNumber) (hn : n.valid = true) (s : scanner) (st : stateFn)
    (hst : st = stateBeginValue ∨ st = stateBeginValueOrEmpty) (hs : St s st τ) :
    Quiet f k s n.text ∧ After (run f s n.text) τ := by
  simp only [JNumber.valid, Bool.and_eq_true] at hn
  obtain ⟨⟨hint, hfrac⟩, hexp⟩ := hn
  obtain ⟨st1, hst1, q1, r1⟩ := Quiet_number_int f k τ hk n.neg n.int hint s st hst hs
  obtain ⟨st2, hst2, q2, r2⟩ := Quiet_number_frac f k τ hk n.frac hfrac _ st1 hst1 r1
  have h3 := Quiet_number_exp f k τ hk n.exp hexp _ st2 hst2 r2
  simp only [JNumber.text]
  simp only [Quiet_append, run_append]
  exact ⟨⟨⟨q1, q2⟩, h3.1⟩, h3.2⟩

theorem Quiet_ws_begin (f : Nat → Nat) (k : Nat) (τ : List parseKind) (hk : k ≤ τ.length)
    (st : stateFn)
    (hst : st = stateBeginValue ∨ st = stateBeginValueOrEmpty ∨ st = stateBeginString
      ∨ st = stateBeginStringOrEmpty)
    (ws : List Nat) (hws : isWhite ws = true) :
    ∀ s, St s st τ → Quiet f k s ws ∧ St (run f s ws) st τ := by
  induction ws with
  | nil => intro s hs; exact ⟨trivial, hs⟩
  | cons c ws ih =>
    intro s ⟨h1, h2, h3⟩
    simp only [isWhite, List.all_cons, Bool.and_eq_true] at hws
    have hstep : okStep f k s c ∧ St (stepB f s c).1 st τ := by
      rcases hst with h | h | h | h <;> subst h <;>
        simp [okStep, stepB, scanner.stepFn, stateBeginValueFn, stateBeginStringFn, h1, h2, h3,
          St, hk, hws.1]
    have hr := ih hws.2 _ hstep.2
    exact ⟨⟨hstep.1, hr.1⟩, hr.2⟩

theorem After_cases {s : scanner} {τ : List parseKind} (h : After s τ) :
    s.step = stateEndValue ∨ s.step = state0 ∨ s.step = state1 ∨ s.step = stateDot0
      ∨ s.step = stateE0 := by
  have := h.1
  simp [afterValue] at this
  tauto

/-- After a complete value, a byte that cannot continue a number is handled by
`stateEndValue`. -/
theorem After_step (f : Nat → Nat) {s : scanner} {τ : List parseKind} (h : After s τ) (c : Nat)
    (hc : isSpace c = true ∨ c = 44 ∨ c = 93 ∨ c = 125 ∨ c = 58) :
    stepB f s c = stateEndValueFn { s with bytes := f s.bytes } c := by
  have e1 : c ≠ 46 := by simp [isSpace] at hc; omega
  have e2 : c ≠ 101 := by simp [isSpace] at hc; omega
  have e3 : c ≠ 69 := by simp [isSpace] at hc; omega
  have e4 : ¬ (48 ≤ c ∧ c ≤ 57) := by simp [isSpace] at hc; omega
  rcases After_cases h with g | g | g | g | g <;>
    simp [stepB, scanner.stepFn, state0Fn, g, e1, e2, e3, e4]

theorem Quiet_ws_after (f : Nat → Nat) (k : Nat) (p : parseKind) (τ : List parseKind)
    (hk : k ≤ τ.length + 1) (ws : List Nat) (hws : isWhite ws = true) :
    ∀ s, After s (p :: τ) → Quiet f k s ws ∧ After (run f s ws) (p :: τ) := by
  induction ws with
  | nil => intro s hs; exact ⟨trivial, hs⟩
  | cons c ws ih =>
    intro s hs
    simp only [isWhite, List.all_cons, Bool.and_eq_true] at hws
    have hst := After_step f hs c (Or.inl hws.1)
    obtain ⟨h1, h2, h3⟩ := hs
    have hstep : okStep f k s c ∧ After (stepB f s c).1 (p :: τ) := by
      rw [okStep, hst]
      simp [stateEndValueFn, h2, h3, hws.1, After, afterValue, hk]
    have hr := ih hws.2 _ hstep.2
    exact ⟨⟨hstep.1, hr.1⟩, hr.2⟩

theorem Quiet_keyword (f : Nat → Nat) (k : Nat) (τ : List parseKind) (hk : k ≤ τ.length)
    (s : scanner) (st : stateFn)
    (hst : st = stateBeginValue ∨ st = stateBeginValueOrEmpty) (hs : St s st τ)
    (w : List Nat)
    (hw : w = [110, 117, 108, 108] ∨ w = [116, 114, 117, 101] ∨ w = [102, 97, 108, 115, 101]) :
    Quiet f k s w ∧ After (run f s w) τ := by
  obtain ⟨h1, h2, h3⟩ := hs
  rcases hw with h | h | h <;> subst h <;> rcases hst with g | g <;> subst g <;>
    simp [Quiet, run, okStep, stepB, scanner.stepFn, stateBeginValueFn, stateKeyword, h1, h2, h3,
      After, afterValue, hk, isSpace]

theorem After_comma_array (f : Nat → Nat) (k : Nat) (τ : List parseKind) (hk : k ≤ τ.length + 1)
    (s : scanner) (hs : After s (parseArrayValue :: τ)) :
    okStep f k s 44 ∧ St (stepB f s 44).1 stateBeginValue (parseArrayValue :: τ) ∧
      (stepB f s 44).2 = scanArrayValue := by
  rw [okStep, After_step f hs 44 (by simp)]
  obtain ⟨h1, h2, h3⟩ := hs
  simp [stateEndValueFn, h2, h3, St, hk, isSpace]

theorem After_comma_object (f : Nat → Nat) (k : Nat) (τ : List parseKind)
    (hk : k ≤ τ.length + 1) (s : scanner) (hs : After s (parseObjectValue :: τ)) :
    okStep f k s 44 ∧ St (stepB f s 44).1 stateBeginString (parseObjectKey :: τ) ∧
      (stepB f s 44).2 = scanObjectValue := by
  rw [okStep, After_step f hs 44 (by simp)]
  obtain ⟨h1, h2, h3⟩ := hs
  simp [stateEndValueFn, h2, h3, St, hk, isSpace]

theorem After_colon (f : Nat → Nat) (k : Nat) (τ : List parseKind) (hk : k ≤ τ.length + 1)
    (s : scanner) (hs : After s (parseObjectKey :: τ)) :
    okStep f k s 58 ∧ St (stepB f s 58).1 stateBeginValue (parseObjectValue :: τ) ∧
      (stepB f s 58).2 = scanObjectKey := by
  rw [okStep, After_step f hs 58 (by simp)]
  obtain ⟨h1, h2, h3⟩ := hs
  simp [stateEndValueFn, h2, h3, St, hk, isSpace]

theorem After_close (f : Nat → Nat) (k : Nat) (p : parseKind) (q : parseKind)
    (τ : List parseKind)
    (hk : k ≤ τ.length + 1) (s : scanner) (c : Nat)
    (hc : (p = parseArrayValue ∧ c = 93) ∨ (p = parseObjectValue ∧ c = 125))
    (hs : After s (p :: q :: τ)) :
    okStep f k s c ∧ St (stepB f s c).1 stateEndValue (q :: τ) ∧
      ((stepB f s c).2 = scanEndArray ∨ (stepB f s c).2 = scanEndObject) := by
  rw [okStep, After_step f hs c (by rcases hc with ⟨_, h⟩ | ⟨_, h⟩ <;> simp [h])]
  obtain ⟨h1, h2, h3⟩ := hs
  rcases hc with ⟨hp, hc⟩ | ⟨hp, hc⟩ <;> subst hp <;> subst hc <;>
    simp [stateEndValueFn, scanner.popParseState, h2, h3, St, hk, isSpace]

theorem open_array (f : Nat → Nat) (k : Nat) (τ : List parseKind) (hk : k ≤ τ.length + 1)
    (hd : τ.length + 1 ≤ maxNestingDepth) (s : scanner) (st : stateFn)
    (hst : st = stateBeginValue ∨ st = stateBeginValueOrEmpty) (hs : St s st τ) :
    okStep f k s 91 ∧ St (stepB f s 91).1 stateBeginValueOrEmpty (parseArrayValue :: τ) ∧
      (stepB f s 91).2 = scanBeginArray := by
  obtain ⟨h1, h2, h3⟩ := hs
  rcases hst with h | h <;> subst h <;>
    simp [okStep, stepB, scanner.stepFn, stateBeginValueFn, scanner.pushParseState, h1, h2, h3,
      St, hk, hd, isSpace]

theorem open_object (f : Nat → Nat) (k : Nat) (τ : List parseKind) (hk : k ≤ τ.length + 1)
    (hd : τ.length + 1 ≤ maxNestingDepth) (s : scanner) (st : stateFn)
    (hst : st = stateBeginValue ∨ st = stateBeginValueOrEmpty) (hs : St s st τ) :
    okStep f k s 123 ∧ St (stepB f s 123).1 stateBeginStringOrEmpty (parseObjectKey :: τ) ∧
      (stepB f s 123).2 = scanBeginObject := by
  obtain ⟨h1, h2, h3⟩ := hs
  rcases hst with h | h <;> subst h <;>
    simp [okStep, stepB, scanner.stepFn, stateBeginValueFn, scanner.pushParseState, h1, h2, h3,
      St, hk, hd, isSpace]

theorem close_empty (f : Nat → Nat) (k : Nat) (q : parseKind) (τ : List parseKind)
    (hk : k ≤ τ.length + 1) (s : scanner) (c : Nat) (p : parseKind) (st : stateFn)
    (hc : (p = parseArrayValue ∧ c = 93 ∧ st = stateBeginValueOrEmpty) ∨
      (p = parseObjectKey ∧ c = 125 ∧ st = stateBeginStringOrEmpty))
    (hs : St s st (p :: q :: τ)) :
    okStep f k s c ∧ St (stepB f s c).1 stateEndValue (q :: τ) ∧
      ((stepB f s c).2 = scanEndArray ∨ (stepB f s c).2 = scanEndObject) := by
  obtain ⟨h1, h2, h3⟩ := hs
  rcases hc with ⟨hp, hc, hst⟩ | ⟨hp, hc, hst⟩ <;> subst hp <;> subst hc <;> subst hst <;>
    simp [okStep, stepB, scanner.stepFn, stateEndValueFn, scanner.popParseState, h1, h2, h3, St,
      hk, isSpace]

mutual
/-- The scanner steps through a well-formed value that is nested in an array or an
object, without an error and without leaving the enclosing array or object. -/
theorem Quiet_value (f : Nat → Nat) (k : Nat) :
    (v : JValue) → v.valid = true → (q : parseKind) → (τ : List parseKind) →
    k ≤ τ.length + 1 → τ.length + 1 + v.depth ≤ maxNestingDepth →
    (s : scanner) → (st : stateFn) → (st = stateBeginValue ∨ st = stateBeginValueOrEmpty) →
    St s st (q :: τ) → Quiet f k s v.render ∧ After (run f s v.render) (q :: τ)
  | .null, _, q, τ, hk, _, s, st, hst, hs =>
    Quiet_keyword f k (q :: τ) (by simpa using hk) s st hst hs _ (Or.inl rfl)
  | .jtrue, _, q, τ, hk, _, s, st, hst, hs =>
    Quiet_keyword f k (q :: τ) (by simpa using hk) s st hst hs _ (Or.inr (Or.inl rfl))
  | .jfalse, _, q, τ, hk, _, s, st, hst, hs =>
    Quiet_keyword f k (q :: τ) (by simpa using hk) s st hst hs _ (Or.inr (Or.inr rfl))
  | .number n, hv, q, τ, hk, _, s, st, hst, hs =>
    Quiet_number f k (q :: τ) (by simpa using hk) n (by simpa [JValue.valid] using hv) s st hst hs
  | .string cs, hv, q, τ, hk, _, s, st, hst, hs => by
    have := Quiet_stringText f k (q :: τ) (by simpa using hk) cs
      (by simpa [JValue.valid, validChars] using hv) s st
      (by rcases hst with h | h <;> simp [h]) hs
    exact ⟨this.1, St_After this.2 rfl⟩
  | .emptyArray ws, hv, q, τ, hk, hd, s, st, hst, hs => by
    have h1 := open_array f k (q :: τ) (by simp; omega) (by simp [JValue.depth] at hd ⊢; omega)
      s st hst hs
    have h2 := Quiet_ws_begin f k (parseArrayValue :: q :: τ) (by simp; omega)
      stateBeginValueOrEmpty (by simp) ws (by simpa [JValue.valid] using hv) _ h1.2.1
    have h3 := close_empty f k q τ hk _ 93 parseArrayValue stateBeginValueOrEmpty
      (Or.inl ⟨rfl, rfl, rfl⟩) h2.2
    have htext : (JValue.emptyArray ws).render = 91 :: (ws ++ [93]) := by simp [JValue.render]
    rw [htext]
    simp only [Quiet, run, Quiet_append, run_append]
    exact ⟨⟨h1.1, h2.1, h3.1, trivial⟩, St_After h3.2.1 rfl⟩
  | .emptyObject ws, hv, q, τ, hk, hd, s, st, hst, hs => by
    have h1 := open_object f k (q :: τ) (by simp; omega) (by simp [JValue.depth] at hd ⊢; omega)
      s st hst hs
    have h2 := Quiet_ws_begin f k (parseObjectKey :: q :: τ) (by simp; omega)
      stateBeginStringOrEmpty (by simp) ws (by simpa [JValue.valid] using hv) _ h1.2.1
    have h3 := close_empty f k q τ hk _ 125 parseObjectKey stateBeginStringOrEmpty
      (Or.inr ⟨rfl, rfl, rfl⟩) h2.2
    have htext : (JValue.emptyObject ws).render = 123 :: (ws ++ [125]) := by
      simp [JValue.render]
    rw [htext]
    simp only [Quiet, run, Quiet_append, run_append]
    exact ⟨⟨h1.1, h2.1, h3.1, trivial⟩, St_After h3.2.1 rfl⟩
  | .array es, hv, q, τ, hk, hd, s, st, hst, hs => by
    have h1 := open_array f k (q :: τ) (by simp; omega) (by simp [JValue.depth] at hd ⊢; omega)
      s st hst hs
    have h2 := Quiet_elems f k es (by simpa [JValue.valid] using hv) (q :: τ) (by simp; omega)
      (by simp [JValue.depth] at hd ⊢; omega) _ stateBeginValueOrEmpty (Or.inr rfl) h1.2.1
    have h3 := After_close f k parseArrayValue q τ hk _ 93 (Or.inl ⟨rfl, rfl⟩) h2.2
    have htext : (JValue.array es).render = 91 :: (es.render ++ [93]) := by simp [JValue.render]
    rw [htext]
    simp only [Quiet, run, Quiet_append, run_append]
    exact ⟨⟨h1.1, h2.1, h3.1, trivial⟩, St_After h3.2.1 rfl⟩
  | .object ms, hv, q, τ, hk, hd, s, st, hst, hs => by
    have h1 := open_object f k (q :: τ) (by simp; omega) (by simp [JValue.depth] at hd ⊢; omega)
      s st hst hs
    have h2 := Quiet_members f k ms (by simpa [JValue.valid] using hv) (q :: τ) (by simp; omega)
      (by simp [JValue.depth] at hd ⊢; omega) _ stateBeginStringOrEmpty (Or.inr rfl) h1.2.1
    have h3 := After_close f k parseObjectValue q τ hk _ 125 (Or.inr ⟨rfl, rfl⟩) h2.2
    have htext : (JValue.object ms).render = 123 :: (ms.render ++ [125]) := by
      simp [JValue.render]
    rw [htext]
    simp only [Quiet, run, Quiet_append, run_append]
    exact ⟨⟨h1.1, h2.1, h3.1, trivial⟩, St_After h3.2.1 rfl⟩
/-- The scanner steps through the elements of an array. -/
theorem Quiet_elems (f : Nat → Nat) (k : Nat) :
    (es : JElems) → es.valid = true → (τ : List parseKind) →
    k ≤ τ.length + 1 → τ.length + 1 + es.depth ≤ maxNestingDepth →
    (s : scanner) → (st : stateFn) → (st = stateBeginValue ∨ st = stateBeginValueOrEmpty) →
    St s st (parseArrayValue :: τ) →
    Quiet f k s es.render ∧ After (run f s es.render) (parseArrayValue :: τ)
  | .one ws1 v ws2, hv, τ, hk, hd, s, st, hst, hs => by
    simp only [JElems.valid, Bool.and_eq_true] at hv
    obtain ⟨⟨hw1, hv⟩, hw2⟩ := hv
    have h1 := Quiet_ws_begin f k (parseArrayValue :: τ) (by simpa using hk) st
      (by rcases hst with h | h <;> simp [h]) ws1 hw1 _ hs
    have h2 := Quiet_value f k v hv parseArrayValue τ hk (by simpa [JElems.depth] using hd)
      _ st hst h1.2
    have h3 := Quiet_ws_after f k parseArrayValue τ hk ws2 hw2 _ h2.2
    simp only [JElems.render, Quiet_append, run_append]
    exact ⟨⟨⟨h1.1, h2.1⟩, h3.1⟩, h3.2⟩
  | .cons ws1 v ws2 rest, hv, τ, hk, hd, s, st, hst, hs => by
    simp only [JElems.valid, Bool.and_eq_true] at hv
    obtain ⟨⟨⟨hw1, hv⟩, hw2⟩, hrest⟩ := hv
    simp only [JElems.depth] at hd
    have h1 := Quiet_ws_begin f k (parseArrayValue :: τ) (by simpa using hk) st
      (by rcases hst with h | h <;> simp [h]) ws1 hw1 _ hs
    have h2 := Quiet_value f k v hv parseArrayValue τ hk (by omega) _ st hst h1.2
    have h3 := Quiet_ws_after f k parseArrayValue τ hk ws2 hw2 _ h2.2
    have h4 := After_comma_array f k τ hk _ h3.2
    have h5 := Quiet_elems f k rest hrest τ hk (by omega) _ stateBeginValue (Or.inl rfl) h4.2.1
    simp only [JElems.render, Quiet_append, run_append, Quiet, run]
    exact ⟨⟨⟨⟨⟨h1.1, h2.1⟩, h3.1⟩, h4.1, trivial⟩, h5.1⟩, h5.2⟩
/-- The scanner steps through the members of an object. -/
theorem Quiet_members (f : Nat → Nat) (k : Nat) :
    (ms : JMembers) → ms.valid = true → (τ : List parseKind) →
    k ≤ τ.length + 1 → τ.length + 1 + ms.depth ≤ maxNestingDepth →
    (s : scanner) → (st : stateFn) → (st = stateBeginString ∨ st = stateBeginStringOrEmpty) →
    St s st (parseObjectKey :: τ) →
    Quiet f k s ms.render ∧ After (run f s ms.render) (parseObjectValue :: τ)
  | .one ws1 key ws2 ws3 v ws4, hv, τ, hk, hd, s, st, hst, hs => by
    simp only [JMembers.valid, Bool.and_eq_true] at hv
    obtain ⟨⟨⟨⟨⟨hw1, hkey⟩, hw2⟩, hw3⟩, hv⟩, hw4⟩ := hv
    have h1 := Quiet_ws_begin f k (parseObjectKey :: τ) (by simpa using hk) st
      (by rcases hst with h | h <;> simp [h]) ws1 hw1 _ hs
    have h2 := Quiet_stringText f k (parseObjectKey :: τ) (by simpa using hk) key
      (by simpa [validChars] using hkey) _ st (by rcases hst with h | h <;> simp [h]) h1.2
    have h3 := Quiet_ws_after f k parseObjectKey τ hk ws2 hw2 _ (St_After h2.2 rfl)
    have h4 := After_colon f k τ hk _ h3.2
    have h5 := Quiet_ws_begin f k (parseObjectValue :: τ) (by simpa using hk) stateBeginValue
      (by simp) ws3 hw3 _ h4.2.1
    have h6 := Quiet_value f k v hv parseObjectValue τ hk (by simpa [JMembers.depth] using hd)
      _ stateBeginValue (Or.inl rfl) h5.2
    have h7 := Quiet_ws_after f k parseObjectValue τ hk ws4 hw4 _ h6.2
    simp only [JMembers.render, Quiet_append, run_append, Quiet, run]
    exact ⟨⟨⟨⟨⟨⟨⟨h1.1, h2.1⟩, h3.1⟩, h4.1, trivial⟩, h5.1⟩, h6.1⟩, h7.1⟩, h7.2⟩
  | .cons ws1 key ws2 ws3 v ws4 rest, hv, τ, hk, hd, s, st, hst, hs => by
    simp only [JMembers.valid, Bool.and_eq_true] at hv
    obtain ⟨⟨⟨⟨⟨⟨hw1, hkey⟩, hw2⟩, hw3⟩, hv⟩, hw4⟩, hrest⟩ := hv
    simp only [JMembers.depth] at hd
    have h1 := Quiet_ws_begin f k (parseObjectKey :: τ) (by simpa using hk) st
      (by rcases hst with h | h <;> simp [h]) ws1 hw1 _ hs
    have h2 := Quiet_stringText f k (parseObjectKey :: τ) (by simpa using hk) key
      (by simpa [validChars] using hkey) _ st (by rcases hst with h | h <;> simp [h]) h1.2
    have h3 := Quiet_ws_after f k parseObjectKey τ hk ws2 hw2 _ (St_After h2.2 rfl)
    have h4 := After_colon f k τ hk _ h3.2
    have h5 := Quiet_ws_begin f k (parseObjectValue :: τ) (by simpa using hk) stateBeginValue
      (by simp) ws3 hw3 _ h4.2.1
    have h6 := Quiet_value f k v hv parseObjectValue τ hk (by omega)
      _ stateBeginValue (Or.inl rfl) h5.2
    have h7 := Quiet_ws_after f k parseObjectValue τ hk ws4 hw4 _ h6.2
    have h8 := After_comma_object f k τ hk _ h7.2
    have h9 := Quiet_members f k rest hrest τ hk (by omega) _ stateBeginString (Or.inl rfl)
      h8.2.1
    simp only [JMembers.render, Quiet_append, run_append, Quiet, run]
    exact ⟨⟨⟨⟨⟨⟨⟨⟨⟨h1.1, h2.1⟩, h3.1⟩, h4.1, trivial⟩, h5.1⟩, h6.1⟩, h7.1⟩, h8.1, trivial⟩,
      h9.1⟩, h9.2⟩
end

theorem stepB_id (s : scanner) (c : Nat) : stepB id s c = s.stepFn c := rfl

theorem stateEndValueFn_step (s : scanner) (x : stateFn) (c : Nat) :
    stateEndValueFn { s with step := x } c = stateEndValueFn s c := by
  unfold stateEndValueFn
  cases h : s.parseState with
  | nil => simp [h, stateEndTopFn, scanner.error]
  | cons p τ =>
    simp only [h]
    by_cases hsp : isSpace c = true
    · simp [hsp]
    · simp only [hsp]
      cases p <;> simp [scanner.error, scanner.popParseState, h]

theorem Skipping_begin {s : scanner} {st : stateFn} {τ : List parseKind} (hs : St s st τ)
    (hst : st = stateBeginValue ∨ st = stateBeginValueOrEmpty ∨ st = stateBeginString
      ∨ st = stateBeginStringOrEmpty) : Skipping s := by
  intro x hx
  obtain ⟨h1, h2, h3⟩ := hs
  rcases hst with h | h | h | h <;> subst h <;>
    simp [scanner.stepFn, stateBeginValueFn, stateBeginStringFn, h1, hx]

theorem Skipping_end {s : scanner} {p : parseKind} {τ : List parseKind}
    (hs : St s stateEndValue (p :: τ)) : Skipping s := by
  intro x hx
  obtain ⟨h1, h2, h3⟩ := hs
  obtain ⟨st, et, ps, e, n⟩ := s
  simp only at h1 h2 h3
  subst h1; subst h2; subst h3
  simp [scanner.stepFn, stateEndValueFn, hx]

theorem scanWhileLoop_ws (len : Nat) (s : scanner) (hs : Skipping s) (c : Nat)
    (hc : (s.stepFn c).2 ≠ scanSkipSpace) (post : List Nat) :
    ∀ (ws : List Nat) (i : Nat), isWhite ws = true →
      scanWhileLoop scanSkipSpace len s (ws ++ c :: post) i
        = ((s.stepFn c).1, i + ws.length + 1, (s.stepFn c).2) := by
  intro ws
  induction ws with
  | nil => intro i _; simp [scanWhileLoop, hc]
  | cons x ws ih =>
    intro i hws
    simp only [isWhite, List.all_cons, Bool.and_eq_true] at hws
    rw [List.cons_append, scanWhileLoop, hs x hws.1]
    simp only [ne_eq, not_true_eq_false, ite_false, List.length_cons]
    rw [ih (i + 1) hws.2]
    simp; omega

theorem scanWhile_ws (d : decodeState) (pre ws : List Nat) (c : Nat) (post : List Nat)
    (hdata : d.data = pre ++ (ws ++ c :: post)) (hoff : d.off = pre.length)
    (hws : isWhite ws = true) (hs : Skipping d.scan) (hc : (d.scan.stepFn c).2 ≠ scanSkipSpace) :
    d.scanWhile scanSkipSpace
      = { d with scan := (d.scan.stepFn c).1, off := pre.length + ws.length + 1,
                 opcode := (d.scan.stepFn c).2 } := by
  unfold decodeState.scanWhile
  have hdrop : d.data.drop d.off = ws ++ c :: post := by
    rw [hdata, hoff]; simp
  rw [hoff] at hdrop
  simp only [hoff, hdrop, scanWhileLoop_ws _ _ hs c hc post ws _ hws]

theorem rescanString_cons (c : Nat) (rest : List Nat) (i : Nat) :
    rescanString (c :: rest) i =
      if c = 92 then
        match rest with
        | [] => i + 2
        | _ :: rest2 => rescanString rest2 (i + 2)
      else if c = 34 then i + 1
      else rescanString rest (i + 1) := by
  rw [rescanString.eq_def]

theorem rescanString_plain (c : Nat) (rest : List Nat) (i : Nat) (h1 : c ≠ 92) (h2 : c ≠ 34) :
    rescanString (c :: rest) i = rescanString rest (i + 1) := by
  rw [rescanString_cons]; simp [h1, h2]

theorem rescanString_chars (post : List Nat) :
    ∀ (cs : List JChar), validChars cs = true → ∀ i,
      rescanString (cs.flatMap JChar.text ++ 34 :: post) i
        = i + (cs.flatMap JChar.text).length + 1 := by
  intro cs
  induction cs with
  | nil => intro _ i; rw [List.flatMap_nil, List.nil_append, rescanString_cons]; simp
  | cons x cs ih =>
    intro hcs i
    simp only [validChars, List.all_cons, Bool.and_eq_true] at hcs
    have ih' := ih hcs.2
    rw [List.flatMap_cons, List.append_assoc, List.length_append]
    cases x with
    | raw c =>
      have hx := hcs.1
      simp [JChar.valid] at hx
      simp only [JChar.text, List.singleton_append, List.length_singleton]
      rw [rescanString_plain _ _ _ hx.2 hx.1.2, ih']
      omega
    | esc e =>
      simp only [JChar.text, List.cons_append, List.nil_append, List.length_cons,
        List.length_nil]
      rw [rescanString_cons]
      simp only [ite_true]
      rw [ih']
      omega
    | uni a b c d =>
      have hx := hcs.1
      simp [JChar.valid, isHex] at hx
      obtain ⟨⟨⟨ha, hb⟩, hc⟩, hd⟩ := hx
      simp only [JChar.text, List.cons_append, List.nil_append, List.length_cons,
        List.length_nil]
      rw [rescanString_cons]
      simp only [ite_true]
      rw [rescanString_plain _ _ _ (by omega) (by omega),
        rescanString_plain _ _ _ (by omega) (by omega),
        rescanString_plain _ _ _ (by omega) (by omega),
        rescanString_plain _ _ _ (by omega) (by omega), ih']
      omega

theorem rescanNumber_chars (c : Nat) (hc : numChar c = false) (post : List Nat) :
    ∀ (t : List Nat), t.all numChar = true → ∀ i,
      rescanNumber (t ++ c :: post) i = i + t.length := by
  intro t
  induction t with
  | nil =>
    intro _ i
    simp [numChar] at hc
    simp [rescanNumber]
    omega
  | cons x t ih =>
    intro ht i
    simp only [List.all_cons, Bool.and_eq_true] at ht
    have hx := ht.1
    simp [numChar] at hx
    have : (48 ≤ x ∧ x ≤ 57) ∨ x = 46 ∨ x = 101 ∨ x = 69 ∨ x = 43 ∨ x = 45 := by omega
    simp [rescanNumber, this, ih ht.2]
    omega

theorem all_numChar_of_digits {ds : List Nat} (h : ds.all isDigit = true) :
    ds.all numChar = true := by
  simp only [List.all_eq_true] at h ⊢
  intro x hx
  have := h x hx
  simp [isDigit] at this
  simp [numChar]; omega

theorem JNumber.text_numChars (n : JNumber) (hn : n.valid = true) :
    n.text.all numChar = true ∧
      ∃ c t, n.text = c :: t ∧ ((48 ≤ c ∧ c ≤ 57) ∨ c = 45) := by
  simp only [JNumber.valid, Bool.and_eq_true] at hn
  obtain ⟨⟨hint, hfrac⟩, hexp⟩ := hn
  have h1 : (intText n.neg n.int).all numChar = true ∧
      ∃ c t, intText n.neg n.int = c :: t ∧ ((48 ≤ c ∧ c ≤ 57) ∨ c = 45) := by
    cases hi : n.int with
    | nil => simp [hi, intValid] at hint
    | cons d ds =>
      rw [hi] at hint
      simp only [intValid, Bool.or_eq_true, Bool.and_eq_true, beq_iff_eq,
        decide_eq_true_eq] at hint
      have hd : (48 ≤ d ∧ d ≤ 57) ∧ ds.all isDigit = true := by
        rcases hint with ⟨h0, hnil⟩ | ⟨⟨hd1, hd2⟩, hds⟩
        · subst h0; subst hnil; simp
        · exact ⟨⟨by omega, hd2⟩, hds⟩
      have hdn : numChar d = true := by simp [numChar]; omega
      cases n.neg with
      | false =>
        simp only [intText, Bool.false_eq_true, ite_false, List.nil_append, List.all_cons, hdn,
          all_numChar_of_digits hd.2, Bool.and_self, true_and]
        exact ⟨d, ds, rfl, Or.inl hd.1⟩
      | true =>
        simp only [intText, ite_true, List.cons_append, List.nil_append, List.all_cons, hdn,
          all_numChar_of_digits hd.2, Bool.and_self, true_and]
        exact ⟨by simp [numChar], 45, d :: ds, rfl, Or.inr rfl⟩
  have h2 : (fracText n.frac).all numChar = true := by
    cases hf : n.frac with
    | none => simp [fracText]
    | some ds =>
      rw [hf] at hfrac
      simp only [fracValid, Bool.and_eq_true] at hfrac
      simp [fracText, numChar]
      simpa [numChar] using all_numChar_of_digits hfrac.2
  have h3 : (expText n.exp).all numChar = true := by
    cases he : n.exp with
    | none => simp [expText]
    | some p =>
      obtain ⟨e, sg, ds⟩ := p
      rw [he] at hexp
      simp only [expValid, Bool.and_eq_true, Bool.or_eq_true, beq_iff_eq] at hexp
      obtain ⟨⟨⟨he, hsg⟩, _⟩, hds⟩ := hexp
      have hds' := all_numChar_of_digits hds
      simp only [expText, List.all_cons, List.all_append, Bool.and_eq_true]
      refine ⟨by rcases he with h | h <;> simp [numChar, h], ?_, hds'⟩
      rcases hsg with (h | h) | h <;> simp [h, numChar]
  obtain ⟨c, t, hct, hc⟩ := h1.2
  refine ⟨by simp [JNumber.text, List.all_append, h1.1, h2, h3], c, t ++ fracText n.frac
    ++ expText n.exp, by simp [JNumber.text, hct], hc⟩

theorem numChar_of_delim {c : Nat} (h : isDelim c = true) : numChar c = false := by
  simp [isDelim, isSpace] at h
  simp [numChar]
  omega

theorem rescanLiteral_literal (d : decodeState) (pre : List Nat) (v : JValue)
    (hv : v.valid = true) (hl : v.isLiteral = true) (c : Nat) (post : List Nat)
    (hdata : d.data = pre ++ (v.render ++ c :: post)) (hoff : d.off = pre.length + 1)
    (hc : numChar c = false) :
    d.rescanLiteral
      = { d with scan := (stateEndValueFn d.scan c).1, opcode := (stateEndValueFn d.scan c).2,
                 off := pre.length + v.render.length + 1 } := by
  have key : ∀ (x : Nat) (t : List Nat) (i : Nat), v.render = x :: t →
      (i = pre.length + 1 + t.length) →
      ((if x = 34 then rescanString (t ++ c :: post) (pre.length + 1)
        else if (48 ≤ x ∧ x ≤ 57) ∨ x = 45 then rescanNumber (t ++ c :: post) (pre.length + 1)
        else if x = 116 then pre.length + 1 + 3
        else if x = 102 then pre.length + 1 + 4
        else if x = 110 then pre.length + 1 + 3
        else pre.length + 1) = i) →
      d.rescanLiteral
        = { d with scan := (stateEndValueFn d.scan c).1,
                   opcode := (stateEndValueFn d.scan c).2,
                   off := pre.length + v.render.length + 1 } := by
    intro x t i hr hi hcomp
    unfold decodeState.rescanLiteral
    have h1 : d.data.drop (pre.length + 1 - 1) = x :: (t ++ c :: post) := by
      rw [hdata, hr, Nat.add_sub_cancel, List.drop_left' rfl]; simp
    have h2 : d.data.drop (pre.length + 1) = t ++ c :: post := by
      rw [hdata, hr]
      have : pre ++ (x :: t ++ c :: post) = (pre ++ [x]) ++ (t ++ c :: post) := by simp
      rw [this, List.drop_left' (by simp)]
    simp only [hoff, h1, h2, List.headD_cons, hcomp]
    subst hi
    have h3 : d.data.drop (pre.length + 1 + t.length) = c :: post := by
      rw [hdata, hr]
      have : pre ++ (x :: t ++ c :: post) = (pre ++ x :: t) ++ (c :: post) := by simp
      rw [this, List.drop_left' (by simp; omega)]
    simp only [h3, hr, List.length_cons]
    congr 1
    omega
  cases v with
  | null => exact key 110 [117, 108, 108] _ rfl rfl (by simp)
  | jtrue => exact key 116 [114, 117, 101] _ rfl rfl (by simp)
  | jfalse => exact key 102 [97, 108, 115, 101] _ rfl rfl (by simp)
  | number n =>
    obtain ⟨hall, x, t, hxt, hx⟩ := n.text_numChars (by simpa [JValue.valid] using hv)
    have hx34 : x ≠ 34 := by omega
    rw [hxt] at hall
    simp only [List.all_cons, Bool.and_eq_true] at hall
    refine key x t _ (by simpa [JValue.render] using hxt) rfl ?_
    simp only [hx34, ite_false, hx, ite_true]
    rw [rescanNumber_chars c hc post t hall.2]
  | string cs =>
    refine key 34 (cs.flatMap JChar.text ++ [34]) _ (by simp [JValue.render, stringText]) rfl ?_
    simp only [ite_true, List.append_assoc, List.singleton_append]
    rw [rescanString_chars _ cs (by simpa [JValue.valid] using hv)]
    simp; omega
  | emptyArray _ => simp [JValue.isLiteral] at hl
  | array _ => simp [JValue.isLiteral] at hl
  | emptyObject _ => simp [JValue.isLiteral] at hl
  | object _ => simp [JValue.isLiteral] at hl

theorem skipLoop_quiet (depth : Nat) (rest : List Nat) :
    ∀ (bs : List Nat) (s : scanner) (i : Nat), Quiet id depth s bs →
      skipLoop depth s (bs ++ rest) i = skipLoop depth (run id s bs) rest (i + bs.length) := by
  intro bs
  induction bs with
  | nil => intro s i _; simp [run]
  | cons c bs ih =>
    intro s i hq
    obtain ⟨⟨h1, h2, h3, h4, h5⟩, hr⟩ := hq
    rw [stepB_id] at h4
    have hlt : ¬ (s.stepFn c).1.parseState.length < depth := by omega
    rw [List.cons_append, skipLoop]
    simp only [hlt, ite_false]
    rw [stepB_id] at hr
    rw [ih _ _ hr]
    simp only [run, stepB_id, List.length_cons]
    congr 1
    omega

theorem JNumber.text_first (n : JNumber) (hn : n.valid = true) :
    ∃ c t, n.text = c :: t ∧ ((49 ≤ c ∧ c ≤ 57) ∨ c = 45 ∨ c = 48) := by
  simp only [JNumber.valid, Bool.and_eq_true] at hn
  obtain ⟨⟨hint, _⟩, _⟩ := hn
  cases hi : n.int with
  | nil => simp [hi, intValid] at hint
  | cons d ds =>
    rw [hi] at hint
    simp only [intValid, Bool.or_eq_true, Bool.and_eq_true, beq_iff_eq,
      decide_eq_true_eq] at hint
    have hd : (49 ≤ d ∧ d ≤ 57) ∨ d = 48 := by
      rcases hint with ⟨h0, _⟩ | ⟨⟨hd1, hd2⟩, _⟩
      · exact Or.inr h0
      · exact Or.inl ⟨hd1, hd2⟩
    cases hneg : n.neg with
    | false =>
      refine ⟨d, ds ++ fracText n.frac ++ expText n.exp, by simp [JNumber.text, intText, hi, hneg],
        ?_⟩
      rcases hd with h | h
      · exact Or.inl h
      · exact Or.inr (Or.inr h)
    | true =>
      exact ⟨45, d :: ds ++ fracText n.frac ++ expText n.exp,
        by simp [JNumber.text, intText, hi, hneg], Or.inr (Or.inl rfl)⟩

/-- The first byte of a value, read in `stateBeginValue`: it is not white space,
gives the opcode `firstOp`, and enters the array or object it opens. -/
theorem first_step (v : JValue) (hv : v.valid = true) (q : parseKind) (τ : List parseKind)
    (hd : τ.length + 1 + v.depth ≤ maxNestingDepth) (s : scanner)
    (hs : St s stateBeginValue (q :: τ)) :
    ∃ c t, v.render = c :: t ∧ isSpace c = false ∧ (s.stepFn c).2 = firstOp v ∧
      (s.stepFn c).1.err = none ∧
      (v.isLiteral = true → (s.stepFn c).1.parseState = q :: τ) ∧
      (v.isLiteral = false → ∃ p st, St (s.stepFn c).1 st (p :: q :: τ) ∧
        ((st = stateBeginValueOrEmpty ∧ p = parseArrayValue ∧ firstOp v = scanBeginArray) ∨
         (st = stateBeginStringOrEmpty ∧ p = parseObjectKey ∧ firstOp v = scanBeginObject))) := by
  obtain ⟨h1, h2, h3⟩ := hs
  cases v with
  | null =>
    exact ⟨110, [117, 108, 108], rfl, by decide,
      by simp [scanner.stepFn, stateBeginValueFn, h1, isSpace, firstOp],
      by simp [scanner.stepFn, stateBeginValueFn, h1, h3, isSpace],
      by simp [scanner.stepFn, stateBeginValueFn, h1, h2, isSpace],
      by simp [JValue.isLiteral]⟩
  | jtrue =>
    exact ⟨116, [114, 117, 101], rfl, by decide,
      by simp [scanner.stepFn, stateBeginValueFn, h1, isSpace, firstOp],
      by simp [scanner.stepFn, stateBeginValueFn, h1, h3, isSpace],
      by simp [scanner.stepFn, stateBeginValueFn, h1, h2, isSpace],
      by simp [JValue.isLiteral]⟩
  | jfalse =>
    exact ⟨102, [97, 108, 115, 101], rfl, by decide,
      by simp [scanner.stepFn, stateBeginValueFn, h1, isSpace, firstOp],
      by simp [scanner.stepFn, stateBeginValueFn, h1, h3, isSpace],
      by simp [scanner.stepFn, stateBeginValueFn, h1, h2, isSpace],
      by simp [JValue.isLiteral]⟩
  | string cs =>
    exact ⟨34, cs.flatMap JChar.text ++ [34], by simp [JValue.render, stringText], by decide,
      by simp [scanner.stepFn, stateBeginValueFn, h1, isSpace, firstOp],
      by simp [scanner.stepFn, stateBeginValueFn, h1, h3, isSpace],
      by simp [scanner.stepFn, stateBeginValueFn, h1, h2, isSpace],
      by simp [JValue.isLiteral]⟩
  | number n =>
    obtain ⟨c, t, hct, hc⟩ := n.text_first (by simpa [JValue.valid] using hv)
    have hsp : isSpace c = false := by simp [isSpace]; omega
    refine ⟨c, t, by simpa [JValue.render] using hct, hsp, ?_, ?_, ?_,
      by simp [JValue.isLiteral]⟩
    · rcases hc with h | h | h
      · have e1 : c ≠ 123 := by omega
        have e2 : c ≠ 91 := by omega
        have e3 : c ≠ 34 := by omega
        have e4 : c ≠ 45 := by omega
        have e5 : c ≠ 48 := by omega
        have e6 : c ≠ 116 := by omega
        have e7 : c ≠ 102 := by omega
        have e8 : c ≠ 110 := by omega
        simp [scanner.stepFn, stateBeginValueFn, h1, hsp, firstOp, e1, e2, e3, e4, e5, e6, e7, e8,
          h]
      · subst h; simp [scanner.stepFn, stateBeginValueFn, h1, isSpace, firstOp]
      · subst h; simp [scanner.stepFn, stateBeginValueFn, h1, isSpace, firstOp]
    · rcases hc with h | h | h
      · have e1 : c ≠ 123 := by omega
        have e2 : c ≠ 91 := by omega
        have e3 : c ≠ 34 := by omega
        have e4 : c ≠ 45 := by omega
        have e5 : c ≠ 48 := by omega
        have e6 : c ≠ 116 := by omega
        have e7 : c ≠ 102 := by omega
        have e8 : c ≠ 110 := by omega
        simp [scanner.stepFn, stateBeginValueFn, h1, h3, hsp, e1, e2, e3, e4, e5, e6, e7, e8, h]
      · subst h; simp [scanner.stepFn, stateBeginValueFn, h1, h3, isSpace]
      · subst h; simp [scanner.stepFn, stateBeginValueFn, h1, h3, isSpace]
    · intro _
      rcases hc with h | h | h
      · have e1 : c ≠ 123 := by omega
        have e2 : c ≠ 91 := by omega
        have e3 : c ≠ 34 := by omega
        have e4 : c ≠ 45 := by omega
        have e5 : c ≠ 48 := by omega
        have e6 : c ≠ 116 := by omega
        have e7 : c ≠ 102 := by omega
        have e8 : c ≠ 110 := by omega
        simp [scanner.stepFn, stateBeginValueFn, h1, h2, hsp, e1, e2, e3, e4, e5, e6, e7, e8, h]
      · subst h; simp [scanner.stepFn, stateBeginValueFn, h1, h2, isSpace]
      · subst h; simp [scanner.stepFn, stateBeginValueFn, h1, h2, isSpace]
  | emptyArray ws =>
    have hd' : τ.length + 1 + 1 ≤ maxNestingDepth := by simpa [JValue.depth] using hd
    have h := open_array id 0 (q :: τ) (by simp) (by simpa using hd') s stateBeginValue
      (Or.inl rfl) ⟨h1, h2, h3⟩
    rw [stepB_id] at h
    exact ⟨91, ws ++ [93], by simp [JValue.render], by decide, by simpa [firstOp] using h.2.2,
      h.2.1.2.2, by simp [JValue.isLiteral],
      fun _ => ⟨_, _, h.2.1, Or.inl ⟨rfl, rfl, rfl⟩⟩⟩
  | array es =>
    have hd' : τ.length + 1 + 1 ≤ maxNestingDepth := by
      simp [JValue.depth] at hd; omega
    have h := open_array id 0 (q :: τ) (by simp) (by simpa using hd') s stateBeginValue
      (Or.inl rfl) ⟨h1, h2, h3⟩
    rw [stepB_id] at h
    exact ⟨91, es.render ++ [93], by simp [JValue.render], by decide,
      by simpa [firstOp] using h.2.2,
      h.2.1.2.2, by simp [JValue.isLiteral],
      fun _ => ⟨_, _, h.2.1, Or.inl ⟨rfl, rfl, rfl⟩⟩⟩
  | emptyObject ws =>
    have hd' : τ.length + 1 + 1 ≤ maxNestingDepth := by simpa [JValue.depth] using hd
    have h := open_object id 0 (q :: τ) (by simp) (by simpa using hd') s stateBeginValue
      (Or.inl rfl) ⟨h1, h2, h3⟩
    rw [stepB_id] at h
    exact ⟨123, ws ++ [125], by simp [JValue.render], by decide, by simpa [firstOp] using h.2.2,
      h.2.1.2.2, by simp [JValue.isLiteral],
      fun _ => ⟨_, _, h.2.1, Or.inr ⟨rfl, rfl, rfl⟩⟩⟩
  | object ms =>
    have hd' : τ.length + 1 + 1 ≤ maxNestingDepth := by
      simp [JValue.depth] at hd; omega
    have h := open_object id 0 (q :: τ) (by simp) (by simpa using hd') s stateBeginValue
      (Or.inl rfl) ⟨h1, h2, h3⟩
    rw [stepB_id] at h
    exact ⟨123, ms.render ++ [125], by simp [JValue.render], by decide,
      by simpa [firstOp] using h.2.2,
      h.2.1.2.2, by simp [JValue.isLiteral],
      fun _ => ⟨_, _, h.2.1, Or.inr ⟨rfl, rfl, rfl⟩⟩⟩

theorem flatMap_head_raw (cs : List JChar) (b : Nat) (r : List Nat)
    (h : cs.flatMap JChar.text = b :: r) (hb : b ≠ 92) :
    ∃ cs', cs = JChar.raw b :: cs' ∧ r = cs'.flatMap JChar.text := by
  cases cs with
  | nil => simp at h
  | cons x cs' =>
    cases x with
    | raw c =>
      simp [JChar.text] at h
      exact ⟨cs', by rw [h.1], h.2.symm⟩
    | esc e => simp [JChar.text] at h; exact absurd h.1.symm hb
    | uni a b' c d => simp [JChar.text] at h; exact absurd h.1.symm hb

theorem utf8Size_cases (c : Nat) (rest : List Nat) (hc : 0x80 ≤ c) :
    utf8Size (c :: rest) = 0 ∨
    (utf8Size (c :: rest) = 2 ∧ ∃ b1 r, rest = b1 :: r ∧ 0x80 ≤ b1) ∨
    (utf8Size (c :: rest) = 3 ∧ ∃ b1 b2 r, rest = b1 :: b2 :: r ∧ 0x80 ≤ b1 ∧ 0x80 ≤ b2) ∨
    (utf8Size (c :: rest) = 4 ∧ ∃ b1 b2 b3 r, rest = b1 :: b2 :: b3 :: r ∧ 0x80 ≤ b1 ∧ 0x80 ≤ b2
      ∧ 0x80 ≤ b3) := by
  have h0 : ¬ c < 0x80 := by omega
  have hcont : ∀ b, isCont b = true → 0x80 ≤ b := by
    intro b hb; simp [isCont] at hb; omega
  unfold utf8Size
  dsimp only
  rw [if_neg h0]
  by_cases h1 : 0xC2 ≤ c ∧ c ≤ 0xDF
  · rw [if_pos h1]
    cases rest with
    | nil => exact Or.inl rfl
    | cons b1 r =>
      by_cases hb : isCont b1 = true
      · exact Or.inr (Or.inl ⟨by simp only [hb, ite_true], b1, r, rfl, hcont b1 hb⟩)
      · exact Or.inl (by simp only [hb]; rfl)
  · rw [if_neg h1]
    by_cases h2 : 0xE0 ≤ c ∧ c ≤ 0xEF
    · rw [if_pos h2]
      match rest with
      | [] => exact Or.inl rfl
      | [_] => exact Or.inl rfl
      | b1 :: b2 :: r =>
        by_cases h4 : (if c = 0xE0 then 0xA0 else 0x80) ≤ b1 ∧
            b1 ≤ (if c = 0xED then 0x9F else 0xBF) ∧ isCont b2 = true
        · refine Or.inr (Or.inr (Or.inl ⟨if_pos h4, b1, b2, r, rfl, ?_, hcont b2 h4.2.2⟩))
          have := h4.1
          split_ifs at this <;> omega
        · exact Or.inl (if_neg h4)
    · rw [if_neg h2]
      by_cases h3 : 0xF0 ≤ c ∧ c ≤ 0xF4
      · rw [if_pos h3]
        match rest with
        | [] => exact Or.inl rfl
        | [_] => exact Or.inl rfl
        | [_, _] => exact Or.inl rfl
        | b1 :: b2 :: b3 :: r =>
          by_cases h4 : (if c = 0xF0 then 0x90 else 0x80) ≤ b1 ∧
              b1 ≤ (if c = 0xF4 then 0x8F else 0xBF) ∧ isCont b2 = true ∧ isCont b3 = true
          · refine Or.inr (Or.inr (Or.inr ⟨if_pos h4, b1, b2, b3, r, rfl, ?_, hcont b2 h4.2.2.1,
              hcont b3 h4.2.2.2⟩))
            have := h4.1
            split_ifs at this <;> omega
          · exact Or.inl (if_neg h4)
      · rw [if_neg h3]
        exact Or.inl rfl

theorem getu4_some_iff (s : List Nat) (rr : Nat) (h : getu4 s = some rr) :
    ∃ a b c d r, s = 92 :: 117 :: a :: b :: c :: d :: r := by
  unfold getu4 at h
  split at h
  · exact ⟨_, _, _, _, _, rfl⟩
  · simp at h

theorem hexVal_isSome {c : Nat} (h : isHex c = true) : ∃ x, hexVal c = some x := by
  simp [isHex] at h
  unfold hexVal
  split_ifs <;> first | exact ⟨_, rfl⟩ | omega

theorem getu4_uni (a b c d : Nat) (r : List Nat) (h : (JChar.uni a b c d).valid = true) :
    ∃ rr, getu4 (92 :: 117 :: a :: b :: c :: d :: r) = some rr := by
  simp [JChar.valid] at h
  obtain ⟨⟨⟨ha, hb⟩, hc⟩, hd⟩ := h
  obtain ⟨x, hx⟩ := hexVal_isSome ha
  obtain ⟨y, hy⟩ := hexVal_isSome hb
  obtain ⟨z, hz⟩ := hexVal_isSome hc
  obtain ⟨w, hw⟩ := hexVal_isSome hd
  exact ⟨((x * 16 + y) * 16 + z) * 16 + w, by simp [getu4, hx, hy, hz, hw]⟩

theorem unquoteLoop_succ (k c : Nat) (rest : List Nat) :
    unquoteLoop (k + 1) (c :: rest) = unquoteLoop k rest := by
  rw [unquoteLoop.eq_def]

theorem unquoteLoop_zero (c : Nat) (rest : List Nat) :
    unquoteLoop 0 (c :: rest) =
      if c = 92 then
        match rest with
        | [] => none
        | e :: _ =>
          if e = 34 ∨ e = 92 ∨ e = 47 ∨ e = 39 then (unquoteLoop 1 rest).map ([e] ++ ·)
          else if e = 98 then (unquoteLoop 1 rest).map ([8] ++ ·)
          else if e = 102 then (unquoteLoop 1 rest).map ([12] ++ ·)
          else if e = 110 then (unquoteLoop 1 rest).map ([10] ++ ·)
          else if e = 114 then (unquoteLoop 1 rest).map ([13] ++ ·)
          else if e = 116 then (unquoteLoop 1 rest).map ([9] ++ ·)
          else if e = 117 then
            match getu4 (c :: rest) with
            | none => none
            | some rr =>
              if isSurrogate rr then
                let dec := match getu4 (rest.drop 5) with
                  | some rr1 => utf16DecodeRune rr rr1
                  | none => 0xFFFD
                if dec ≠ 0xFFFD then (unquoteLoop 11 rest).map (encodeRune dec ++ ·)
                else (unquoteLoop 5 rest).map (encodeRune 0xFFFD ++ ·)
              else (unquoteLoop 5 rest).map (encodeRune rr ++ ·)
          else none
      else if c = 34 ∨ c < 32 then none
      else if c < 0x80 then (unquoteLoop 0 rest).map ([c] ++ ·)
      else
        let size := utf8Size (c :: rest)
        if size = 0 then (unquoteLoop 0 rest).map (encodeRune 0xFFFD ++ ·)
        else (unquoteLoop (size - 1) rest).map ((c :: rest).take size ++ ·) := by
  rw [unquoteLoop.eq_def]

theorem flatMap_head_uni (cs : List JChar) (hcs : validChars cs = true) (a b c d : Nat)
    (r : List Nat) (h : cs.flatMap JChar.text = 92 :: 117 :: a :: b :: c :: d :: r) :
    ∃ cs', cs = JChar.uni a b c d :: cs' ∧ r = cs'.flatMap JChar.text := by
  cases cs with
  | nil => simp at h
  | cons x cs' =>
    simp only [validChars, List.all_cons, Bool.and_eq_true] at hcs
    cases x with
    | raw c0 =>
      have := hcs.1
      simp [JChar.valid] at this
      simp [JChar.text] at h
      exact absurd h.1 this.2
    | esc e =>
      have := hcs.1
      simp [JChar.valid] at this
      simp [JChar.text] at h
      omega
    | uni a' b' c' d' =>
      simp [JChar.text] at h
      obtain ⟨rfl, rfl, rfl, rfl, hr⟩ := h
      exact ⟨cs', rfl, hr.symm⟩

/-- The unquoting loop succeeds on the items of a well-formed string literal. -/
theorem unquoteLoop_isSome :
    ∀ (body : List Nat) (skip : Nat) (cs : List JChar), validChars cs = true →
      body.drop skip = cs.flatMap JChar.text → (unquoteLoop skip body).isSome = true := by
  intro body
  induction body with
  | nil => intro skip cs _ _; simp [unquoteLoop]
  | cons c rest ih =>
    intro skip cs hcs hdrop
    cases skip with
    | succ k =>
      rw [unquoteLoop_succ]
      exact ih k cs hcs (by simpa using hdrop)
    | zero =>
      simp only [List.drop_zero] at hdrop
      cases cs with
      | nil => simp at hdrop
      | cons x cs' =>
        simp only [validChars, List.all_cons, Bool.and_eq_true] at hcs
        obtain ⟨hx, hcs'⟩ := hcs
        have hcs'' : validChars cs' = true := hcs'
        cases x with
        | raw c' =>
          simp only [List.flatMap_cons, JChar.text, List.singleton_append, List.cons.injEq] at hdrop
          obtain ⟨rfl, hrest⟩ := hdrop
          simp [JChar.valid] at hx
          obtain ⟨⟨hx1, hx2⟩, hx3⟩ := hx
          have hlt : ¬ c < 32 := by omega
          rw [unquoteLoop_zero]
          simp only [hx3, ite_false, hx2, hlt, or_self]
          by_cases h80 : c < 0x80
          · simp only [h80, ite_true, Option.isSome_map']
            exact ih 0 cs' hcs'' (by simpa using hrest)
          · simp only [h80, ite_false]
            rcases utf8Size_cases c rest (by omega) with h0 | ⟨h2, b1, r, hr, hb1⟩
                | ⟨h3, b1, b2, r, hr, hb1, hb2⟩ | ⟨h4, b1, b2, b3, r, hr, hb1, hb2, hb3⟩
            · simp only [h0, ite_true, Option.isSome_map']
              exact ih 0 cs' hcs'' (by simpa using hrest)
            · simp only [h2, OfNat.ofNat_ne_zero, ite_false, Option.isSome_map']
              rw [hr] at hrest
              obtain ⟨cs2, hc2, hr2⟩ := flatMap_head_raw cs' b1 r hrest.symm (by omega)
              subst hc2
              simp only [validChars, List.all_cons, Bool.and_eq_true] at hcs''
              exact ih 1 cs2 hcs''.2 (by rw [hr]; simpa using hr2)
            · simp only [h3, OfNat.ofNat_ne_zero, ite_false, Option.isSome_map']
              rw [hr] at hrest
              obtain ⟨cs2, hc2, hr2⟩ := flatMap_head_raw cs' b1 _ hrest.symm (by omega)
              subst hc2
              obtain ⟨cs3, hc3, hr3⟩ := flatMap_head_raw cs2 b2 _ hr2.symm (by omega)
              subst hc3
              simp only [validChars, List.all_cons, Bool.and_eq_true] at hcs''
              exact ih 2 cs3 hcs''.2.2 (by rw [hr]; simpa using hr3)
            · simp only [h4, OfNat.ofNat_ne_zero, ite_false, Option.isSome_map']
              rw [hr] at hrest
              obtain ⟨cs2, hc2, hr2⟩ := flatMap_head_raw cs' b1 _ hrest.symm (by omega)
              subst hc2
              obtain ⟨cs3, hc3, hr3⟩ := flatMap_head_raw cs2 b2 _ hr2.symm (by omega)
              subst hc3
              obtain ⟨cs4, hc4, hr4⟩ := flatMap_head_raw cs3 b3 _ hr3.symm (by omega)
              subst hc4
              simp only [validChars, List.all_cons, Bool.and_eq_true] at hcs''
              exact ih 3 cs4 hcs''.2.2.2 (by rw [hr]; simpa using hr4)
        | esc e =>
          simp only [List.flatMap_cons, JChar.text, List.cons_append, List.nil_append,
            List.cons.injEq] at hdrop
          obtain ⟨rfl, hrest⟩ := hdrop
          have he := hx
          simp [JChar.valid] at he
          subst hrest
          have hin := ih 1 cs' hcs'' rfl
          rw [unquoteLoop_zero]
          have he' : e = 34 ∨ e = 92 ∨ e = 47 ∨ e = 98 ∨ e = 102 ∨ e = 110 ∨ e = 114 ∨ e = 116 := by
            omega
          rcases he' with h | h | h | h | h | h | h | h <;> subst h <;>
            simpa using hin
        | uni a b c' d =>
          simp only [List.flatMap_cons, JChar.text, List.cons_append, List.nil_append,
            List.cons.injEq] at hdrop
          obtain ⟨rfl, hrest⟩ := hdrop
          obtain ⟨rr, hrr⟩ := getu4_uni a b c' d (cs'.flatMap JChar.text) hx
          subst hrest
          have h5 := ih 5 cs' hcs'' rfl
          rw [unquoteLoop_zero]
          simp only [ite_true, List.cons_ne_nil, OfNat.ofNat_ne_one, false_or, or_self,
            OfNat.ofNat_eq_ofNat, Nat.reduceEqDiff, ite_false, hrr]
          by_cases hsur : isSurrogate rr = true
          · simp only [hsur, ite_true]
            cases hg : getu4 (List.drop 5 (117 :: a :: b :: c' :: d :: cs'.flatMap JChar.text)) with
            | none => simpa using h5
            | some rr1 =>
              by_cases hdec : utf16DecodeRune rr rr1 ≠ 0xFFFD
              · simp only [hdec, ne_eq, not_false_eq_true, ite_true, Option.isSome_map']
                obtain ⟨a2, b2, c2, d2, r2, hr2⟩ := getu4_some_iff _ _ hg
                simp only [List.drop_succ_cons, List.drop_zero] at hr2
                obtain ⟨cs2, hcs2, hr3⟩ := flatMap_head_uni cs' hcs'' a2 b2 c2 d2 r2 hr2
                subst hcs2
                simp only [validChars, List.all_cons, Bool.and_eq_true] at hcs''
                refine ih 11 cs2 hcs''.2 ?_
                simp only [List.drop_succ_cons, List.drop_zero]
                rw [hr2]
                simpa using hr3
              · simp only [hdec, ite_false]
                simpa using h5
          · simp only [hsur]
            simpa using h5

theorem unquoteBytes_stringText (cs : List JChar) (h : validChars cs = true) :
    unquoteBytes (stringText cs) = some (stringValue cs) := by
  have h1 : (unquoteBytes (stringText cs)).isSome = true := by
    unfold unquoteBytes
    have hlast : (stringText cs).getLast? = some 34 := by
      unfold stringText
      exact List.getLast?_concat _
    have hlen : ¬ ((stringText cs).length < 2 ∨ (stringText cs).head? ≠ some 34
        ∨ (stringText cs).getLast? ≠ some 34) := by
      rw [hlast]
      simp [stringText]
    rw [if_neg hlen]
    have hbody : (stringText cs).tail.dropLast = cs.flatMap JChar.text := by
      simp [stringText]
    rw [hbody]
    exact unquoteLoop_isSome _ 0 cs h rfl
  unfold stringValue
  cases hq : unquoteBytes (stringText cs) with
  | none => simp [hq] at h1
  | some r => rfl

theorem take_drop_mid (pre r post : List Nat) :
    ((pre ++ (r ++ post)).take (pre.length + r.length)).drop pre.length = r := by
  rw [← List.append_assoc, List.take_left' (by simp), List.drop_left' rfl]

theorem saveTypeError_field (d : decodeState) (t : structType) (name Value Typ : List Nat)
    (Offset : Nat) (hctx : d.hasErrorContext = true) (hfs : d.FieldStack = [name])
    (hst : d.errorStruct = t.name) :
    d.saveTypeError Value Typ Offset
      = { d with savedError :=
            (firstErr d.savedError (some (UnmarshalTypeError Value Typ t.name name Offset))) } := by
  unfold decodeState.saveTypeError firstErr
  cases h : d.savedError with
  | some e =>
    simp only [h, Option.isSome_some, ite_true]
    cases d
    simp_all
  | none => simp [h, hctx, hfs, hst, List.intercalate]

theorem firstErr_none (a : Option GoError) : firstErr a none = a := by
  cases a <;> rfl

theorem valueField_literal (t : structType) (d : decodeState) (pre : List Nat) (v : JValue)
    (hv : v.valid = true) (hl : v.isLiteral = true) (c : Nat) (post : List Nat)
    (hdata : d.data = pre ++ (v.render ++ c :: post)) (hoff : d.off = pre.length + 1)
    (hc : isDelim c = true) (hop : d.opcode = scanBeginLiteral)
    (f : Option (List Nat)) (sv : structValue)
    (hctx : ∀ name, f = some name →
      d.hasErrorContext = true ∧ d.FieldStack = [name] ∧ d.errorStruct = t.name) :
    d.valueField f sv
      = ({ d with scan := (stateEndValueFn d.scan c).1, opcode := (stateEndValueFn d.scan c).2,
                  off := pre.length + v.render.length + 1,
                  savedError := firstErr d.savedError (targetError t f pre.length v) },
         targetStore sv f v) := by
  have hres := rescanLiteral_literal d pre v hv hl c post hdata hoff (numChar_of_delim hc)
  unfold decodeState.valueField
  simp only [hop]
  cases f with
  | none => simp only [hres, targetError, targetStore, firstErr_none]
  | some name =>
    obtain ⟨h1, h2, h3⟩ := hctx name rfl
    have g1 : d.rescanLiteral.hasErrorContext = true := by rw [hres]; exact h1
    have g2 : d.rescanLiteral.FieldStack = [name] := by rw [hres]; exact h2
    have g3 : d.rescanLiteral.errorStruct = t.name := by rw [hres]; exact h3
    have g4 : d.rescanLiteral.readIndex = pre.length + v.render.length := by
      rw [hres]; simp [decodeState.readIndex]
    have g5 : d.rescanLiteral.data = pre ++ (v.render ++ c :: post) := by rw [hres]; exact hdata
    have hitem : (d.rescanLiteral.data.take d.rescanLiteral.readIndex).drop d.readIndex
        = v.render := by
      rw [g4, g5]
      simp only [decodeState.readIndex, hoff, Nat.add_sub_cancel]
      exact take_drop_mid _ _ _
    simp only [hitem, targetError, targetStore]
    have hsave : ∀ Value, d.rescanLiteral.saveTypeError Value (str "string")
          d.rescanLiteral.readIndex
        = { d with scan := (stateEndValueFn d.scan c).1,
                   opcode := (stateEndValueFn d.scan c).2,
                   off := pre.length + v.render.length + 1,
                   savedError :=
                     (firstErr d.savedError (some (UnmarshalTypeError Value (str "string")
                       t.name name (pre.length + v.render.length)))) } := by
      intro Value
      rw [saveTypeError_field _ t name _ _ _ g1 g2 g3, g4, hres]
    cases v with
    | null =>
      simp only [JValue.render, decodeState.literalStore, fieldError, typeErrorKind, storeField,
        firstErr_none, ite_true, hres]
    | jtrue =>
      have := hsave (str "bool")
      simp only [JValue.render, decodeState.literalStore, fieldError, typeErrorKind, storeField,
        JValue.isLiteral, ite_true] at this ⊢
      simp [this]
    | jfalse =>
      have := hsave (str "bool")
      simp only [JValue.render, decodeState.literalStore, fieldError, typeErrorKind, storeField,
        JValue.isLiteral, ite_true] at this ⊢
      simp [this]
    | number n =>
      obtain ⟨x, r, hxr, hx⟩ := n.text_first (by simpa [JValue.valid] using hv)
      have e1 : x ≠ 110 := by omega
      have e2 : ¬ (x = 116 ∨ x = 102) := by omega
      have e3 : x ≠ 34 := by omega
      have e4 : ¬ (x ≠ 45 ∧ (x < 48 ∨ 57 < x)) := by omega
      have := hsave (str "number")
      simp only [JValue.render, fieldError, typeErrorKind, storeField, hxr,
        decodeState.literalStore, e1, e2, e3, e4, ite_false, JValue.isLiteral, ite_true] at this ⊢
      simp [this]
    | string cs =>
      have hu := unquoteBytes_stringText cs (by simpa [JValue.valid] using hv)
      have hst : stringText cs = 34 :: (cs.flatMap JChar.text ++ [34]) := by simp [stringText]
      simp only [JValue.render, fieldError, typeErrorKind, storeField]
      unfold decodeState.literalStore
      rw [hst] at hu ⊢
      simp only [hu]
      simp [firstErr_none, hres, JValue.render, hst]
    | emptyArray _ => simp [JValue.isLiteral] at hl
    | array _ => simp [JValue.isLiteral] at hl
    | emptyObject _ => simp [JValue.isLiteral] at hl
    | object _ => simp [JValue.isLiteral] at hl

theorem skip_core (d : decodeState) (pre : List Nat) (x : Nat) (inner : List Nat) (close : Nat)
    (post : List Nat) (hdata : d.data = pre ++ (x :: (inner ++ close :: post)))
    (hoff : d.off = pre.length + 1)
    (hq : Quiet id d.scan.parseState.length d.scan inner)
    (hclose : ((run id d.scan inner).stepFn close).1.parseState.length
      < d.scan.parseState.length) :
    d.skip = { d with scan := ((run id d.scan inner).stepFn close).1,
                      off := pre.length + 1 + inner.length + 1,
                      opcode := ((run id d.scan inner).stepFn close).2 } := by
  unfold decodeState.skip
  have hdrop : d.data.drop d.off = inner ++ close :: post := by
    rw [hdata, hoff]
    have : pre ++ x :: (inner ++ close :: post) = (pre ++ [x]) ++ (inner ++ close :: post) := by
      simp
    rw [this, List.drop_left' (by simp)]
  rw [hdrop, skipLoop_quiet _ _ _ _ _ hq, skipLoop]
  simp only [hclose, ite_true, hoff]

theorem skip_composite (d : decodeState) (pre : List Nat) (v : JValue) (hv : v.valid = true)
    (hl : v.isLiteral = false) (post : List Nat)
    (hdata : d.data = pre ++ (v.render ++ post)) (hoff : d.off = pre.length + 1)
    (q : parseKind) (τ : List parseKind) (p : parseKind) (st : stateFn)
    (hs : St d.scan st (p :: q :: τ))
    (hps : (st = stateBeginValueOrEmpty ∧ p = parseArrayValue ∧ firstOp v = scanBeginArray) ∨
      (st = stateBeginStringOrEmpty ∧ p = parseObjectKey ∧ firstOp v = scanBeginObject))
    (hd : τ.length + 1 + v.depth ≤ maxNestingDepth) :
    ∃ S op, d.skip = { d with scan := S, off := pre.length + v.render.length, opcode := op } ∧
      St S stateEndValue (q :: τ) := by
  have hdepth : d.scan.parseState.length = τ.length + 2 := by rw [hs.2.1]; simp
  cases v with
  | null => simp [JValue.isLiteral] at hl
  | jtrue => simp [JValue.isLiteral] at hl
  | jfalse => simp [JValue.isLiteral] at hl
  | number _ => simp [JValue.isLiteral] at hl
  | string _ => simp [JValue.isLiteral] at hl
  | emptyArray ws =>
    have hst : st = stateBeginValueOrEmpty ∧ p = parseArrayValue := by
      rcases hps with ⟨h1, h2, _⟩ | ⟨_, _, h3⟩
      · exact ⟨h1, h2⟩
      · simp [firstOp] at h3
    obtain ⟨rfl, rfl⟩ := hst
    have h2 := Quiet_ws_begin id (τ.length + 2) (parseArrayValue :: q :: τ) (by simp)
      stateBeginValueOrEmpty (by simp) ws (by simpa [JValue.valid] using hv) _ hs
    have h3 := close_empty id (τ.length + 1) q τ (by omega) _ 93 parseArrayValue
      stateBeginValueOrEmpty (Or.inl ⟨rfl, rfl, rfl⟩) h2.2
    rw [stepB_id] at h3
    refine ⟨((run id d.scan ws).stepFn 93).1, ((run id d.scan ws).stepFn 93).2,
      ?_, h3.2.1⟩
    rw [skip_core d pre 91 ws 93 post (by rw [hdata]; simp [JValue.render]) hoff
      (by rw [hdepth]; exact h2.1) (by rw [hdepth, h3.2.1.2.1]; simp)]
    congr 1
    simp [JValue.render]; omega
  | emptyObject ws =>
    have hst : st = stateBeginStringOrEmpty ∧ p = parseObjectKey := by
      rcases hps with ⟨_, _, h3⟩ | ⟨h1, h2, _⟩
      · simp [firstOp] at h3
      · exact ⟨h1, h2⟩
    obtain ⟨rfl, rfl⟩ := hst
    have h2 := Quiet_ws_begin id (τ.length + 2) (parseObjectKey :: q :: τ) (by simp)
      stateBeginStringOrEmpty (by simp) ws (by simpa [JValue.valid] using hv) _ hs
    have h3 := close_empty id (τ.length + 1) q τ (by omega) _ 125 parseObjectKey
      stateBeginStringOrEmpty (Or.inr ⟨rfl, rfl, rfl⟩) h2.2
    rw [stepB_id] at h3
    refine ⟨((run id d.scan ws).stepFn 125).1, ((run id d.scan ws).stepFn 125).2,
      ?_, h3.2.1⟩
    rw [skip_core d pre 123 ws 125 post (by rw [hdata]; simp [JValue.render]) hoff
      (by rw [hdepth]; exact h2.1) (by rw [hdepth, h3.2.1.2.1]; simp)]
    congr 1
    simp [JValue.render]; omega
  | array es =>
    have hst : st = stateBeginValueOrEmpty ∧ p = parseArrayValue := by
      rcases hps with ⟨h1, h2, _⟩ | ⟨_, _, h3⟩
      · exact ⟨h1, h2⟩
      · simp [firstOp] at h3
    obtain ⟨rfl, rfl⟩ := hst
    have h2 := Quiet_elems id (τ.length + 2) es (by simpa [JValue.valid] using hv) (q :: τ)
      (by simp) (by simp [JValue.depth] at hd ⊢; omega) _ stateBeginValueOrEmpty (Or.inr rfl) hs
    have h3 := After_close id (τ.length + 1) parseArrayValue q τ (by omega) _ 93
      (Or.inl ⟨rfl, rfl⟩) h2.2
    rw [stepB_id] at h3
    refine ⟨((run id d.scan es.render).stepFn 93).1, ((run id d.scan es.render).stepFn 93).2,
      ?_, h3.2.1⟩
    rw [skip_core d pre 91 es.render 93 post (by rw [hdata]; simp [JValue.render]) hoff
      (by rw [hdepth]; exact h2.1) (by rw [hdepth, h3.2.1.2.1]; simp)]
    congr 1
    simp [JValue.render]; omega
  | object ms =>
    have hst : st = stateBeginStringOrEmpty ∧ p = parseObjectKey := by
      rcases hps with ⟨_, _, h3⟩ | ⟨h1, h2, _⟩
      · simp [firstOp] at h3
      · exact ⟨h1, h2⟩
    obtain ⟨rfl, rfl⟩ := hst
    have h2 := Quiet_members id (τ.length + 2) ms (by simpa [JValue.valid] using hv) (q :: τ)
      (by simp) (by simp [JValue.depth] at hd ⊢; omega) _ stateBeginStringOrEmpty (Or.inr rfl) hs
    have h3 := After_close id (τ.length + 1) parseObjectValue q τ (by omega) _ 125
      (Or.inr ⟨rfl, rfl⟩) h2.2
    rw [stepB_id] at h3
    refine ⟨((run id d.scan ms.render).stepFn 125).1, ((run id d.scan ms.render).stepFn 125).2,
      ?_, h3.2.1⟩
    rw [skip_core d pre 123 ms.render 125 post (by rw [hdata]; simp [JValue.render]) hoff
      (by rw [hdepth]; exact h2.1) (by rw [hdepth, h3.2.1.2.1]; simp)]
    congr 1
    simp [JValue.render]; omega

theorem scanNext_cons (d : decodeState) (pre : List Nat) (c : Nat) (post : List Nat)
    (hdata : d.data = pre ++ c :: post) (hoff : d.off = pre.length) :
    d.scanNext = { d with scan := (d.scan.stepFn c).1, opcode := (d.scan.stepFn c).2,
                          off := pre.length + 1 } := by
  unfold decodeState.scanNext
  have : d.data.drop d.off = c :: post := by rw [hdata, hoff, List.drop_left' rfl]
  rw [this]
  simp only [hoff]

theorem stepFn_endValue (s : scanner) (c : Nat) (h : s.step = stateEndValue) :
    s.stepFn c = stateEndValueFn s c := by
  simp [scanner.stepFn, h]

theorem valueField_composite (t : structType) (d : decodeState) (pre : List Nat) (v : JValue)
    (hv : v.valid = true) (hl : v.isLiteral = false) (c : Nat) (post : List Nat)
    (hdata : d.data = pre ++ (v.render ++ c :: post)) (hoff : d.off = pre.length + 1)
    (hop : d.opcode = firstOp v)
    (q : parseKind) (τ : List parseKind) (p : parseKind) (st : stateFn)
    (hs : St d.scan st (p :: q :: τ))
    (hps : (st = stateBeginValueOrEmpty ∧ p = parseArrayValue ∧ firstOp v = scanBeginArray) ∨
      (st = stateBeginStringOrEmpty ∧ p = parseObjectKey ∧ firstOp v = scanBeginObject))
    (hd : τ.length + 1 + v.depth ≤ maxNestingDepth)
    (f : Option (List Nat)) (sv : structValue)
    (hctx : ∀ name, f = some name →
      d.hasErrorContext = true ∧ d.FieldStack = [name] ∧ d.errorStruct = t.name) :
    ∃ X : scanner, X.parseState = q :: τ ∧ X.err = none ∧
      d.valueField f sv
        = ({ d with scan := (stateEndValueFn X c).1, opcode := (stateEndValueFn X c).2,
                    off := pre.length + v.render.length + 1,
                    savedError := firstErr d.savedError (targetError t f pre.length v) },
           targetStore sv f v) := by
  -- the state in which `skip` is called: `d`, possibly with a saved type error
  have hskip : ∀ d0 : decodeState, d0.data = d.data → d0.off = d.off → d0.scan = d.scan →
      ∃ X : scanner, X.parseState = q :: τ ∧ X.err = none ∧
        d0.skip.scanNext = { d0 with scan := (stateEndValueFn X c).1,
                                     opcode := (stateEndValueFn X c).2,
                                     off := pre.length + v.render.length + 1 } := by
    intro d0 h1 h2 h3
    obtain ⟨S, op, hS, hSt⟩ := skip_composite d0 pre v hv hl (c :: post) (by rw [h1, hdata])
      (by rw [h2, hoff]) q τ p st (by rw [h3]; exact hs) hps hd
    refine ⟨S, hSt.2.1, hSt.2.2, ?_⟩
    rw [hS, scanNext_cons _ (pre ++ v.render) c post (by simp [h1, hdata]) (by simp)]
    simp [stepFn_endValue S c hSt.1]
  have hstore : targetStore sv f v = sv := by
    cases f with
    | none => rfl
    | some name => cases v <;> simp [JValue.isLiteral] at hl <;> rfl
  rw [hstore]
  unfold decodeState.valueField
  cases f with
  | none =>
    obtain ⟨X, hX1, hX2, hX3⟩ := hskip d rfl rfl rfl
    refine ⟨X, hX1, hX2, ?_⟩
    rcases hps with ⟨_, _, h⟩ | ⟨_, _, h⟩ <;>
      simp only [hop, h, hX3, targetError, firstErr_none]
  | some name =>
    obtain ⟨c1, c2, c3⟩ := hctx name rfl
    have hkind : ∀ k, d.saveTypeError k (str "string") d.off
        = { d with savedError := (firstErr d.savedError
              (some (UnmarshalTypeError k (str "string") t.name name (pre.length + 1)))) } := by
      intro k
      rw [saveTypeError_field d t name _ _ _ c1 c2 c3, hoff]
    rcases hps with ⟨_, _, h⟩ | ⟨_, _, h⟩
    · obtain ⟨X, hX1, hX2, hX3⟩ := hskip (d.saveTypeError (str "array") (str "string") d.off)
        (by rw [hkind]) (by rw [hkind]) (by rw [hkind])
      refine ⟨X, hX1, hX2, ?_⟩
      have hk : typeErrorKind v = some (str "array") := by
        cases v <;> simp [firstOp] at h <;> rfl
      simp only [hop, h, hX3, targetError, fieldError, hk, hl, Bool.false_eq_true, ite_false]
      rw [hkind]
    · obtain ⟨X, hX1, hX2, hX3⟩ := hskip (d.saveTypeError (str "object") (str "string") d.off)
        (by rw [hkind]) (by rw [hkind]) (by rw [hkind])
      refine ⟨X, hX1, hX2, ?_⟩
      have hk : typeErrorKind v = some (str "object") := by
        cases v <;> simp [firstOp] at h <;> rfl
      simp only [hop, h, hX3, targetError, fieldError, hk, hl, Bool.false_eq_true, ite_false]
      rw [hkind]

theorem stateEndValueFn_op_ne_skip (X : scanner) (c : Nat) (hc : isSpace c = false) :
    (stateEndValueFn X c).2 ≠ scanSkipSpace := by
  unfold stateEndValueFn
  cases h : X.parseState with
  | nil => simp [stateEndTopFn, hc]
  | cons p τ =>
    simp only [hc]
    cases p <;> simp <;> split_ifs <;> simp [scanner.error]

theorem stateEndValueFn_space (X : scanner) (p : parseKind) (τ : List parseKind)
    (hX : X.parseState = p :: τ) (c : Nat) (hc : isSpace c = true) :
    stateEndValueFn X c = ({ X with step := stateEndValue }, scanSkipSpace) := by
  unfold stateEndValueFn
  simp [hX, hc]

theorem head_tail_sep (ws : List Nat) (sep : Nat) (post : List Nat) :
    ws ++ sep :: post = (ws ++ [sep]).headD 0 :: (ws ++ sep :: post).tail := by
  cases ws <;> simp

/-- After a value, the white space up to the next separator is skipped and the
separator is handled by `stateEndValue`. -/
theorem after_delim (d : decodeState) (X : scanner) (p : parseKind) (τ : List parseKind)
    (hX : X.parseState = p :: τ) (hXe : X.err = none) (pre ws : List Nat) (sep : Nat)
    (post : List Nat) (hdata : d.data = pre ++ (ws ++ sep :: post)) (hoff : d.off = pre.length + 1)
    (hws : isWhite ws = true) (hsep : isSpace sep = false)
    (hscan : d.scan = (stateEndValueFn X ((ws ++ [sep]).headD 0)).1)
    (hop : d.opcode = (stateEndValueFn X ((ws ++ [sep]).headD 0)).2) :
    (if d.opcode = scanSkipSpace then d.scanWhile scanSkipSpace else d)
      = { d with scan := (stateEndValueFn X sep).1, opcode := (stateEndValueFn X sep).2,
                 off := pre.length + ws.length + 1 } := by
  cases ws with
  | nil =>
    simp only [List.nil_append, List.headD_cons] at hscan hop
    have hne : d.opcode ≠ scanSkipSpace := by rw [hop]; exact stateEndValueFn_op_ne_skip X sep hsep
    rw [if_neg hne]
    cases d
    simp_all
  | cons w ws' =>
    simp only [isWhite, List.all_cons, Bool.and_eq_true] at hws
    simp only [List.cons_append, List.headD_cons] at hscan hop
    rw [stateEndValueFn_space X p τ hX w hws.1] at hscan hop
    simp only at hscan hop
    rw [if_pos hop]
    have hsk : Skipping d.scan := by
      rw [hscan]
      exact Skipping_end (p := p) (τ := τ) ⟨rfl, hX, hXe⟩
    have hstep : d.scan.stepFn sep = stateEndValueFn X sep := by
      rw [hscan, stepFn_endValue _ _ rfl, stateEndValueFn_step]
    have hne : (d.scan.stepFn sep).2 ≠ scanSkipSpace := by
      rw [hstep]; exact stateEndValueFn_op_ne_skip X sep hsep
    rw [scanWhile_ws d (pre ++ [w]) ws' sep post (by rw [hdata]; simp) (by rw [hoff]; simp)
      hws.2 hsk hne, hstep]
    congr 1
    simp; omega

theorem step_quote (s : scanner) (st : stateFn) (τ : List parseKind)
    (hst : st = stateBeginString ∨ st = stateBeginStringOrEmpty ∨ st = stateBeginValue)
    (hs : St s st τ) :
    (s.stepFn 34).2 = scanBeginLiteral ∧ St (s.stepFn 34).1 stateInString τ := by
  obtain ⟨h1, h2, h3⟩ := hs
  rcases hst with h | h | h <;> subst h <;>
    simp [scanner.stepFn, stateBeginStringFn, stateBeginValueFn, h1, h2, h3, St, isSpace]

theorem stateEndValueFn_colon (X : scanner) (τ : List parseKind)
    (hX : X.parseState = parseObjectKey :: τ) (hXe : X.err = none) :
    (stateEndValueFn X 58).2 = scanObjectKey ∧
      St (stateEndValueFn X 58).1 stateBeginValue (parseObjectValue :: τ) := by
  simp [stateEndValueFn, hX, hXe, St, isSpace]

theorem stateEndValueFn_comma (X : scanner) (τ : List parseKind)
    (hX : X.parseState = parseObjectValue :: τ) (hXe : X.err = none) :
    (stateEndValueFn X 44).2 = scanObjectValue ∧
      St (stateEndValueFn X 44).1 stateBeginString (parseObjectKey :: τ) := by
  simp [stateEndValueFn, hX, hXe, St, isSpace]

theorem stateEndValueFn_brace (X : scanner) (τ : List parseKind)
    (hX : X.parseState = parseObjectValue :: τ) (hXe : X.err = none) :
    (stateEndValueFn X 125).2 = scanEndObject ∧
      (stateEndValueFn X 125).1.parseState = τ ∧ (stateEndValueFn X 125).1.err = none := by
  simp [stateEndValueFn, hX, hXe, isSpace, scanner.popParseState]
  split_ifs <;> simp [hXe]

/-- One round of the member loop, with the intermediate states named. -/
theorem objectLoop_step (t : structType) (origStruct : List Nat) (origLen fuel : Nat)
    (d : decodeState) (v : structValue) (d1 d2 : decodeState) (key : List Nat)
    (d3 d4 d5 : decodeState) (r : decodeState × structValue) (d7 d8 : decodeState)
    (h1 : d.scanWhile scanSkipSpace = d1) (ho1 : d1.opcode = scanBeginLiteral)
    (h2 : d1.rescanLiteral = d2)
    (hk : unquoteBytes ((d2.data.take d2.readIndex).drop d1.readIndex) = some key)
    (h3s : ∀ name, lookupField t key = some name →
      d3 = { d2 with hasErrorContext := true, FieldStack := d2.FieldStack ++ [name],
                     errorStruct := t.name })
    (h3n : lookupField t key = none →
      d3 = if d2.disallowUnknownFields then d2.saveError (unknownFieldError key) else d2)
    (h4 : (if d3.opcode = scanSkipSpace then d3.scanWhile scanSkipSpace else d3) = d4)
    (ho4 : d4.opcode = scanObjectKey)
    (h5 : d4.scanWhile scanSkipSpace = d5)
    (h6 : d5.valueField (lookupField t key) v = r)
    (h7 : (if r.1.opcode = scanSkipSpace then r.1.scanWhile scanSkipSpace else r.1) = d7)
    (h8 : (if d7.hasErrorContext then
        { d7 with FieldStack := d7.FieldStack.take origLen, errorStruct := origStruct }
      else d7) = d8)
    (hp : d8.phasePanic = false) :
    objectLoop t origStruct origLen (fuel + 1) d v
      = if d8.opcode = scanEndObject then (d8, r.2)
        else if d8.opcode ≠ scanObjectValue then (d8.panicked, r.2)
        else objectLoop t origStruct origLen fuel d8 r.2 := by
  cases hf : lookupField t key with
  | some name =>
    have h3 := h3s name hf
    rw [hf] at h6
    subst h8 h7 h6 h5 h4 h3 h2 h1
    rw [objectLoop]
    simp only [ho1, hk, hf]
    simp only [ho4, hp]
    simp
  | none =>
    have h3 := h3n hf
    rw [hf] at h6
    subst h8 h7 h6 h5 h4 h3 h2 h1
    rw [objectLoop]
    simp only [ho1, hk, hf]
    simp only [ho4, hp]
    simp

set_option maxHeartbeats 1000000 in
/-- One round of the member loop of `object`. -/
theorem objectLoop_member (t : structType) (d : decodeState) (pre ws1 : List Nat)
    (key : List JChar) (ws2 ws3 : List Nat) (v : JValue) (ws4 : List Nat) (sep : Nat)
    (post : List Nat) (τ : List parseKind) (st : stateFn) (sv : structValue) (fuel : Nat)
    (hdata : d.data = pre ++ (ws1 ++ (stringText key ++ (ws2 ++ 58 :: (ws3 ++ (v.render
      ++ (ws4 ++ sep :: post)))))))
    (hoff : d.off = pre.length)
    (hst : st = stateBeginString ∨ st = stateBeginStringOrEmpty)
    (hs : St d.scan st (parseObjectKey :: τ))
    (hw1 : isWhite ws1 = true) (hkey : validChars key = true) (hw2 : isWhite ws2 = true)
    (hw3 : isWhite ws3 = true) (hv : v.valid = true) (hw4 : isWhite ws4 = true)
    (hsep : sep = 44 ∨ sep = 125)
    (hd : τ.length + 1 + v.depth ≤ maxNestingDepth)
    (hfs : d.FieldStack = []) (hes : d.errorStruct = []) (hpanic : d.phasePanic = false) :
    ∃ X : scanner, X.parseState = parseObjectValue :: τ ∧ X.err = none ∧
      objectLoop t [] 0 (fuel + 1) d sv =
        (if sep = 125 then
          (afterMember d X sep
            (pre.length + (ws1 ++ (stringText key ++ (ws2 ++ 58 :: (ws3 ++ (v.render
              ++ ws4))))).length + 1)
            (memberDecode t d.disallowUnknownFields
              (pre.length + (ws1 ++ (stringText key ++ (ws2 ++ 58 :: ws3))).length) key v sv
              d.savedError).2
            (d.hasErrorContext || (lookupField t (stringValue key)).isSome),
           (memberDecode t d.disallowUnknownFields
              (pre.length + (ws1 ++ (stringText key ++ (ws2 ++ 58 :: ws3))).length) key v sv
              d.savedError).1)
        else
          objectLoop t [] 0 fuel
            (afterMember d X sep
              (pre.length + (ws1 ++ (stringText key ++ (ws2 ++ 58 :: (ws3 ++ (v.render
                ++ ws4))))).length + 1)
              (memberDecode t d.disallowUnknownFields
                (pre.length + (ws1 ++ (stringText key ++ (ws2 ++ 58 :: ws3))).length) key v sv
                d.savedError).2
              (d.hasErrorContext || (lookupField t (stringValue key)).isSome))
            (memberDecode t d.disallowUnknownFields
              (pre.length + (ws1 ++ (stringText key ++ (ws2 ++ 58 :: ws3))).length) key v sv
              d.savedError).1) := by
  have hst34 : stringText key = 34 :: (key.flatMap JChar.text ++ [34]) := by
    simp [stringText]
  have hsepsp : isSpace sep = false := by rcases hsep with h | h <;> subst h <;> decide
  obtain ⟨R4, hR4⟩ : ∃ R, R = ws4 ++ sep :: post := ⟨_, rfl⟩
  obtain ⟨R3, hR3⟩ : ∃ R, R = ws3 ++ (v.render ++ R4) := ⟨_, rfl⟩
  obtain ⟨R2, hR2⟩ : ∃ R, R = ws2 ++ 58 :: R3 := ⟨_, rfl⟩
  rw [← hR4, ← hR3, ← hR2] at hdata
  -- d1: white space and the opening quotation mark of the name
  have hq := step_quote d.scan st (parseObjectKey :: τ)
    (by rcases hst with h | h <;> simp [h]) hs
  obtain ⟨s1, hs1⟩ : ∃ s1, s1 = (d.scan.stepFn 34).1 := ⟨_, rfl⟩
  rw [← hs1] at hq
  have e1 : d.scanWhile scanSkipSpace
      = { d with scan := s1, off := pre.length + ws1.length + 1, opcode := scanBeginLiteral } := by
    rw [scanWhile_ws d pre ws1 34 (key.flatMap JChar.text ++ [34] ++ R2)
      (by rw [hdata, hst34]; simp) hoff hw1
      (Skipping_begin hs (by rcases hst with h | h <;> simp [h]))
      (by rw [(step_quote d.scan st (parseObjectKey :: τ)
        (by rcases hst with h | h <;> simp [h]) hs).1]; simp),
      (step_quote d.scan st (parseObjectKey :: τ)
        (by rcases hst with h | h <;> simp [h]) hs).1, ← hs1]
  -- d2: the name
  obtain ⟨c2, hc2⟩ : ∃ c, c = (ws2 ++ [58]).headD 0 := ⟨_, rfl⟩
  have hR2' : R2 = c2 :: R2.tail := by rw [hR2, hc2]; exact head_tail_sep ws2 58 R3
  have hnum2 : numChar c2 = false := by
    rw [hc2]
    cases ws2 with
    | nil => decide
    | cons w ws =>
      simp only [isWhite, List.all_cons, Bool.and_eq_true] at hw2
      have := hw2.1
      simp [isSpace] at this
      simp [numChar]; omega
  have e2 : ({ d with scan := s1, off := pre.length + ws1.length + 1,
                      opcode := scanBeginLiteral } : decodeState).rescanLiteral
      = { d with scan := (stateEndValueFn s1 c2).1, opcode := (stateEndValueFn s1 c2).2,
                 off := pre.length + ws1.length + (stringText key).length + 1 } := by
    rw [rescanLiteral_literal _ (pre ++ ws1) (.string key) (by simpa [JValue.valid] using hkey)
      rfl c2 R2.tail (by simp only [hdata, JValue.render]; rw [← hR2']; simp)
      (by simp) hnum2]
    simp [JValue.render]
  have e_item : List.drop (pre.length + ws1.length + 1 - 1)
      (List.take (pre.length + ws1.length + (stringText key).length + 1 - 1) d.data)
      = stringText key := by
    rw [hdata]
    simp only [Nat.add_sub_cancel]
    have := take_drop_mid (pre ++ ws1) (stringText key) R2
    simpa [List.append_assoc] using this
  have hu := unquoteBytes_stringText key hkey
  -- the states of the round
  obtain ⟨f, hf⟩ : ∃ f, f = lookupField t (stringValue key) := ⟨_, rfl⟩
  obtain ⟨P2, hP2⟩ : ∃ P, P = pre ++ (ws1 ++ stringText key) := ⟨_, rfl⟩
  obtain ⟨P3, hP3⟩ : ∃ P, P = P2 ++ (ws2 ++ [58]) := ⟨_, rfl⟩
  obtain ⟨P4, hP4⟩ : ∃ P, P = P3 ++ ws3 := ⟨_, rfl⟩
  obtain ⟨P5, hP5⟩ : ∃ P, P = P4 ++ v.render := ⟨_, rfl⟩
  have hdata2 : d.data = P2 ++ (ws2 ++ 58 :: R3) := by
    rw [hdata, hP2, hR2]; simp
  have hdata3 : d.data = P3 ++ (ws3 ++ (v.render ++ R4)) := by
    rw [hdata2, hP3, hR3]; simp
  have hdata4 : d.data = P4 ++ (v.render ++ R4) := by
    rw [hdata3, hP4]; simp
  have hdata5 : d.data = P5 ++ (ws4 ++ sep :: post) := by
    rw [hdata4, hP5, hR4]; simp
  obtain ⟨S3, hS3⟩ : ∃ S, S = firstErr d.savedError
      (match f with
       | some _ => none
       | none =>
         if d.disallowUnknownFields then some (unknownFieldError (stringValue key))
         else none) := ⟨_, rfl⟩
  obtain ⟨C3, hC3⟩ : ∃ C, C = (d.hasErrorContext || f.isSome) := ⟨_, rfl⟩
  obtain ⟨F3, hF3⟩ : ∃ F : List (List Nat), F = (match f with
      | some name => [name] | none => []) := ⟨_, rfl⟩
  obtain ⟨E3, hE3⟩ : ∃ E : List Nat, E = (match f with
      | some _ => t.name | none => []) := ⟨_, rfl⟩
  -- d4: the colon
  obtain ⟨s4, hs4⟩ : ∃ s, s = (stateEndValueFn s1 58).1 := ⟨_, rfl⟩
  have hcolon := stateEndValueFn_colon s1 τ hq.2.2.1 hq.2.2.2
  rw [← hs4] at hcolon
  -- d5: the first byte of the value
  obtain ⟨c0, t0, hvr, hc0, hop5, herr5, hlit5, hcomp5⟩ :=
    first_step v hv parseObjectValue τ hd s4 hcolon.2
  obtain ⟨s5, hs5⟩ : ∃ s, s = (s4.stepFn c0).1 := ⟨_, rfl⟩
  rw [← hs5] at herr5 hlit5 hcomp5
  -- d6: the value
  obtain ⟨c4, hc4⟩ : ∃ c, c = (ws4 ++ [sep]).headD 0 := ⟨_, rfl⟩
  have hR4' : R4 = c4 :: R4.tail := by rw [hR4, hc4]; exact head_tail_sep ws4 sep post
  have hdelim4 : isDelim c4 = true := by
    rw [hc4]
    cases ws4 with
    | nil => rcases hsep with h | h <;> subst h <;> decide
    | cons w ws =>
      simp only [isWhite, List.all_cons, Bool.and_eq_true] at hw4
      simp [isDelim, hw4.1]
  have hctx5 : ∀ name, f = some name → C3 = true ∧ F3 = [name] ∧ E3 = t.name := by
    intro name h
    subst h
    simp [hC3, hF3, hE3]
  obtain ⟨X, hX1, hX2, e6⟩ : ∃ X : scanner, X.parseState = parseObjectValue :: τ ∧ X.err = none ∧
      ({ d with scan := s5, opcode := firstOp v, off := P4.length + 1,
                hasErrorContext := C3, FieldStack := F3, errorStruct := E3,
                savedError := S3 } : decodeState).valueField f sv
        = ({ d with scan := (stateEndValueFn X c4).1, opcode := (stateEndValueFn X c4).2,
                    off := P4.length + v.render.length + 1,
                    hasErrorContext := C3, FieldStack := F3, errorStruct := E3,
                    savedError := firstErr S3 (targetError t f P4.length v) },
           targetStore sv f v) := by
    cases hl : v.isLiteral with
    | true =>
      refine ⟨s5, hlit5 hl, herr5, ?_⟩
      rw [valueField_literal t _ P4 v hv hl c4 R4.tail (by rw [← hR4']; exact hdata4) rfl
        hdelim4 (by show firstOp v = scanBeginLiteral; cases v <;> simp [JValue.isLiteral] at hl <;> rfl) f sv hctx5]
    | false =>
      obtain ⟨p, st5, hst5, hps5⟩ := hcomp5 hl
      obtain ⟨X, hX1, hX2, hX3⟩ := valueField_composite t
        ({ d with scan := s5, opcode := firstOp v, off := P4.length + 1,
                  hasErrorContext := C3, FieldStack := F3, errorStruct := E3,
                  savedError := S3 } : decodeState) P4 v hv hl c4 R4.tail
        (by rw [← hR4']; exact hdata4) rfl rfl parseObjectValue τ p st5 hst5 hps5 hd f sv hctx5
      exact ⟨X, hX1, hX2, hX3⟩
  refine ⟨X, hX1, hX2, ?_⟩
  have hk : unquoteBytes (List.drop
      ({ d with scan := s1, off := pre.length + ws1.length + 1,
                opcode := scanBeginLiteral } : decodeState).readIndex
      (List.take
        ({ d with scan := (stateEndValueFn s1 c2).1, opcode := (stateEndValueFn s1 c2).2,
                  off := pre.length + ws1.length + (stringText key).length + 1 }
          : decodeState).readIndex
        ({ d with scan := (stateEndValueFn s1 c2).1, opcode := (stateEndValueFn s1 c2).2,
                  off := pre.length + ws1.length + (stringText key).length + 1 }
          : decodeState).data))
      = some (stringValue key) := by
    simp only [decodeState.readIndex, e_item, hu]
  have h3s : ∀ name, lookupField t (stringValue key) = some name →
      ({ d with scan := (stateEndValueFn s1 c2).1, opcode := (stateEndValueFn s1 c2).2,
                off := pre.length + ws1.length + (stringText key).length + 1,
                hasErrorContext := C3, FieldStack := F3, errorStruct := E3,
                savedError := S3 } : decodeState)
      = { ({ d with scan := (stateEndValueFn s1 c2).1, opcode := (stateEndValueFn s1 c2).2,
                    off := pre.length + ws1.length + (stringText key).length + 1 } : decodeState)
          with hasErrorContext := true,
               FieldStack := d.FieldStack ++ [name],
               errorStruct := t.name } := by
    intro name h
    rw [← hf] at h
    subst h
    simp [hC3, hF3, hE3, hS3, hfs, firstErr_none]
  have h3n : lookupField t (stringValue key) = none →
      ({ d with scan := (stateEndValueFn s1 c2).1, opcode := (stateEndValueFn s1 c2).2,
                off := pre.length + ws1.length + (stringText key).length + 1,
                hasErrorContext := C3, FieldStack := F3, errorStruct := E3,
                savedError := S3 } : decodeState)
      = if d.disallowUnknownFields then
          ({ d with scan := (stateEndValueFn s1 c2).1, opcode := (stateEndValueFn s1 c2).2,
                    off := pre.length + ws1.length + (stringText key).length + 1 }
                : decodeState).saveError (unknownFieldError (stringValue key))
        else
          { d with scan := (stateEndValueFn s1 c2).1, opcode := (stateEndValueFn s1 c2).2,
                   off := pre.length + ws1.length + (stringText key).length + 1 } := by
    intro h
    rw [← hf] at h
    subst h
    cases hdis : d.disallowUnknownFields
    · simp [hC3, hF3, hE3, hS3, hfs, hes, firstErr_none, hdis]
    · cases hse : d.savedError <;>
        simp [hC3, hF3, hE3, hS3, hfs, hes, firstErr, hdis, hse, decodeState.saveError]
  have h4 := after_delim
    ({ d with scan := (stateEndValueFn s1 c2).1, opcode := (stateEndValueFn s1 c2).2,
              off := pre.length + ws1.length + (stringText key).length + 1,
              hasErrorContext := C3, FieldStack := F3, errorStruct := E3,
              savedError := S3 } : decodeState)
    s1 parseObjectKey τ hq.2.2.1 hq.2.2.2 P2 ws2 58 R3 hdata2
    (by rw [hP2]; simp; omega) hw2 (by decide) (by rw [hc2]) (by rw [hc2])
  rw [← hs4, hcolon.1] at h4
  have h5 := scanWhile_ws
    ({ d with scan := s4, opcode := scanObjectKey, off := P2.length + ws2.length + 1,
              hasErrorContext := C3, FieldStack := F3, errorStruct := E3,
              savedError := S3 } : decodeState)
    P3 ws3 c0 (t0 ++ R4) (by rw [hdata3, hvr]; simp) (by rw [hP3]; simp; omega) hw3
    (Skipping_begin hcolon.2 (Or.inl rfl))
    (by show (s4.stepFn c0).2 ≠ scanSkipSpace
        rw [hop5]; cases v <;> simp [firstOp])
  have h7 := after_delim
    ({ d with scan := (stateEndValueFn X c4).1, opcode := (stateEndValueFn X c4).2,
              off := P4.length + v.render.length + 1,
              hasErrorContext := C3, FieldStack := F3, errorStruct := E3,
              savedError := firstErr S3 (targetError t f P4.length v) } : decodeState)
    X parseObjectValue τ hX1 hX2 P5 ws4 sep post hdata5
    (by rw [hP5]; simp) hw4 hsepsp (by rw [hc4]) (by rw [hc4])
  have hstep := objectLoop_step t [] 0 fuel d sv
    ({ d with scan := s1, off := pre.length + ws1.length + 1, opcode := scanBeginLiteral })
    ({ d with scan := (stateEndValueFn s1 c2).1, opcode := (stateEndValueFn s1 c2).2,
              off := pre.length + ws1.length + (stringText key).length + 1 })
    (stringValue key)
    ({ d with scan := (stateEndValueFn s1 c2).1, opcode := (stateEndValueFn s1 c2).2,
              off := pre.length + ws1.length + (stringText key).length + 1,
              hasErrorContext := C3, FieldStack := F3, errorStruct := E3,
              savedError := S3 })
    ({ d with scan := s4, opcode := scanObjectKey, off := P2.length + ws2.length + 1,
              hasErrorContext := C3, FieldStack := F3, errorStruct := E3,
              savedError := S3 })
    ({ d with scan := s5, opcode := firstOp v, off := P4.length + 1,
              hasErrorContext := C3, FieldStack := F3, errorStruct := E3,
              savedError := S3 })
    ({ d with scan := (stateEndValueFn X c4).1, opcode := (stateEndValueFn X c4).2,
              off := P4.length + v.render.length + 1,
              hasErrorContext := C3, FieldStack := F3, errorStruct := E3,
              savedError := firstErr S3 (targetError t f P4.length v) },
      targetStore sv f v)
    ({ d with scan := (stateEndValueFn X sep).1, opcode := (stateEndValueFn X sep).2,
              off := P5.length + ws4.length + 1,
              hasErrorContext := C3, FieldStack := F3, errorStruct := E3,
              savedError := firstErr S3 (targetError t f P4.length v) })
    ({ d with scan := (stateEndValueFn X sep).1, opcode := (stateEndValueFn X sep).2,
              off := P5.length + ws4.length + 1,
              hasErrorContext := C3, FieldStack := [], errorStruct := [],
              savedError := firstErr S3 (targetError t f P4.length v) })
    e1 rfl e2 hk h3s h3n h4 rfl
    (by rw [h5, hop5, ← hs5, hP4]; simp)
    (by rw [← hf]; exact e6) h7
    (by
      cases hC : C3
      · have : f = none := by
          cases f with
          | none => rfl
          | some n => simp [hC3] at hC
        subst this
        simp [hF3, hE3]
      · simp)
    hpanic
  rw [hstep]
  have hlen : P5.length + ws4.length + 1
      = pre.length + (ws1 ++ (stringText key ++ (ws2 ++ 58 :: (ws3 ++ (v.render
          ++ ws4))))).length + 1 := by
    rw [hP5, hP4, hP3, hP2]; simp; omega
  have hlen4 : P4.length
      = pre.length + (ws1 ++ (stringText key ++ (ws2 ++ 58 :: ws3))).length := by
    rw [hP4, hP3, hP2]; simp
  have hD8 :
    ({ d with scan := (stateEndValueFn X sep).1, opcode := (stateEndValueFn X sep).2,
              off := P5.length + ws4.length + 1,
              hasErrorContext := C3, FieldStack := [], errorStruct := [],
              savedError := firstErr S3 (targetError t f P4.length v) } : decodeState)
      = afterMember d X sep
          (pre.length + (ws1 ++ (stringText key ++ (ws2 ++ 58 :: (ws3 ++ (v.render
              ++ ws4))))).length + 1)
          (memberDecode t d.disallowUnknownFields
              (pre.length + (ws1 ++ (stringText key ++ (ws2 ++ 58 :: ws3))).length) key v sv
              d.savedError).2
          (d.hasErrorContext || (lookupField t (stringValue key)).isSome) := by
    rw [← hlen, ← hlen4, hC3, hS3, hf]
    rfl
  have hSV : targetStore sv f v
      = (memberDecode t d.disallowUnknownFields
              (pre.length + (ws1 ++ (stringText key ++ (ws2 ++ 58 :: ws3))).length) key v sv
              d.savedError).1 := by
    rw [hf]; rfl
  simp only [hD8, hSV]
  rcases hsep with h | h
  · subst h
    have := (stateEndValueFn_comma X τ hX1 hX2).1
    simp [afterMember, this]
  · subst h
    have := (stateEndValueFn_brace X τ hX1 hX2).1
    simp [afterMember, this]

theorem JMembers.count_le_length : (ms : JMembers) → ms.count ≤ ms.render.length
  | .one ws1 key ws2 ws3 v ws4 => by
    simp [JMembers.count, JMembers.render]; omega
  | .cons ws1 key ws2 ws3 v ws4 rest => by
    have := JMembers.count_le_length rest
    simp [JMembers.count, JMembers.render]; omega

theorem JMembers.render_one (ws1 : List Nat) (key : List JChar) (ws2 ws3 : List Nat) (v : JValue)
    (ws4 : List Nat) :
    (JMembers.one ws1 key ws2 ws3 v ws4).render = memberText ws1 key ws2 ws3 v ws4 := by
  simp [JMembers.render, memberText]

theorem JMembers.render_cons (ws1 : List Nat) (key : List JChar) (ws2 ws3 : List Nat)
    (v : JValue) (ws4 : List Nat) (rest : JMembers) :
    (JMembers.cons ws1 key ws2 ws3 v ws4 rest).render
      = memberText ws1 key ws2 ws3 v ws4 ++ 44 :: rest.render := by
  simp [JMembers.render, memberText]

/-- The member loop of `object` on the members of a well-formed object: the result
is the reference result `JMembers.decode`, and the decoder stands behind the
closing brace. -/
theorem objectLoop_members (t : structType) :
    (ms : JMembers) → ms.valid = true → (d : decodeState) → (pre post : List Nat) →
    (τ : List parseKind) → (st : stateFn) → (sv : structValue) → (fuel : Nat) →
    d.data = pre ++ (ms.render ++ 125 :: post) → d.off = pre.length →
    (st = stateBeginString ∨ st = stateBeginStringOrEmpty) →
    St d.scan st (parseObjectKey :: τ) →
    τ.length + 1 + ms.depth ≤ maxNestingDepth →
    d.FieldStack = [] → d.errorStruct = [] → d.phasePanic = false →
    ms.count ≤ fuel →
    ∃ d' : decodeState,
      objectLoop t [] 0 fuel d sv
        = (d', (ms.decode t d.disallowUnknownFields pre.length sv d.savedError).1) ∧
      d'.savedError = (ms.decode t d.disallowUnknownFields pre.length sv d.savedError).2 ∧
      d'.phasePanic = false ∧ d'.data = d.data ∧ d'.off = pre.length + ms.render.length + 1 ∧
      d'.opcode = scanEndObject ∧ d'.scan.parseState = τ ∧ d'.scan.err = none
  | .one ws1 key ws2 ws3 v ws4, hv, d, pre, post, τ, st, sv, fuel, hdata, hoff, hst, hs, hd,
      hfs, hes, hp, hfuel => by
    simp only [JMembers.valid, Bool.and_eq_true] at hv
    obtain ⟨⟨⟨⟨⟨hw1, hkey⟩, hw2⟩, hw3⟩, hv⟩, hw4⟩ := hv
    obtain ⟨fuel, rfl⟩ : ∃ k, fuel = k + 1 := ⟨fuel - 1, by simp [JMembers.count] at hfuel; omega⟩
    obtain ⟨X, hX1, hX2, hloop⟩ := objectLoop_member t d pre ws1 key ws2 ws3 v ws4 125 post τ st
      sv fuel (by rw [hdata, JMembers.render_one]; simp [memberText]) hoff hst hs hw1 hkey hw2 hw3
      hv hw4 (Or.inr rfl) (by simpa [JMembers.depth] using hd) hfs hes hp
    have hb := stateEndValueFn_brace X τ hX1 hX2
    rw [if_pos rfl] at hloop
    refine ⟨_, hloop, rfl, hp, rfl, ?_, hb.1, hb.2.1, hb.2.2⟩
    simp [afterMember, JMembers.render_one, memberText]
  | .cons ws1 key ws2 ws3 v ws4 rest, hv, d, pre, post, τ, st, sv, fuel, hdata, hoff, hst, hs, hd,
      hfs, hes, hp, hfuel => by
    simp only [JMembers.valid, Bool.and_eq_true] at hv
    obtain ⟨⟨⟨⟨⟨⟨hw1, hkey⟩, hw2⟩, hw3⟩, hv⟩, hw4⟩, hrest⟩ := hv
    obtain ⟨fuel, rfl⟩ : ∃ k, fuel = k + 1 := ⟨fuel - 1, by simp [JMembers.count] at hfuel; omega⟩
    simp only [JMembers.depth] at hd
    obtain ⟨X, hX1, hX2, hloop⟩ := objectLoop_member t d pre ws1 key ws2 ws3 v ws4 44
      (rest.render ++ 125 :: post) τ st
      sv fuel (by rw [hdata, JMembers.render_cons]; simp [memberText]) hoff hst hs hw1 hkey hw2 hw3
      hv hw4 (Or.inl rfl) (by omega) hfs hes hp
    have hc := stateEndValueFn_comma X τ hX1 hX2
    rw [if_neg (by decide)] at hloop
    obtain ⟨d', h1, h2, h3, h4, h5, h6, h7, h8⟩ := objectLoop_members t rest hrest
      (afterMember d X 44
        (pre.length + (ws1 ++ (stringText key ++ (ws2 ++ 58 :: (ws3 ++ (v.render
          ++ ws4))))).length + 1)
        (memberDecode t d.disallowUnknownFields
          (pre.length + (ws1 ++ (stringText key ++ (ws2 ++ 58 :: ws3))).length) key v sv
          d.savedError).2
        (d.hasErrorContext || (lookupField t (stringValue key)).isSome))
      (pre ++ (memberText ws1 key ws2 ws3 v ws4 ++ [44])) post τ stateBeginString
      (memberDecode t d.disallowUnknownFields
          (pre.length + (ws1 ++ (stringText key ++ (ws2 ++ 58 :: ws3))).length) key v sv
          d.savedError).1
      fuel (by simp [afterMember, hdata, JMembers.render_cons])
      (by simp [afterMember, memberText]; omega) (Or.inl rfl) hc.2 (by omega) rfl rfl hp
      (by simp [JMembers.count] at hfuel; omega)
    have hpos : (pre ++ (memberText ws1 key ws2 ws3 v ws4 ++ [44])).length
        = pre.length + (memberText ws1 key ws2 ws3 v ws4).length + 1 := by
      simp only [List.length_append, List.length_singleton]; omega
    rw [hpos] at h1 h2 h5
    refine ⟨d', ?_, ?_, h3, h4, ?_, h6, h7, h8⟩
    · rw [hloop]
      exact h1
    · exact h2
    · rw [h5, JMembers.render_cons]
      simp only [List.length_append, List.length_cons]; omega

theorem scanNext_savedError (d : decodeState) : d.scanNext.savedError = d.savedError := by
  unfold decodeState.scanNext; split <;> rfl

theorem scanNext_phasePanic (d : decodeState) : d.scanNext.phasePanic = d.phasePanic := by
  unfold decodeState.scanNext; split <;> rfl

theorem St_new_reset : St scanner.new.reset stateBeginValue [] := ⟨rfl, rfl, rfl⟩

/-- The state of `unmarshal` when `value` is called, for data that begin with white
space and the first byte `c` of a value. -/
theorem unmarshal_start (data : List Nat) (dis : Bool) (ws0 : List Nat) (c : Nat)
    (rest : List Nat) (hdata : data = ws0 ++ c :: rest) (hws : isWhite ws0 = true)
    (hc : (scanner.new.reset.stepFn c).2 ≠ scanSkipSpace) :
    ({ decodeState.init data dis with scan := (decodeState.init data dis).scan.reset }
      : decodeState).scanWhile scanSkipSpace
      = { decodeState.init data dis with
            scan := (scanner.new.reset.stepFn c).1, off := ws0.length + 1,
            opcode := (scanner.new.reset.stepFn c).2 } := by
  rw [scanWhile_ws _ [] ws0 c rest (by simp [decodeState.init, hdata]) rfl hws
    (Skipping_begin St_new_reset (Or.inl rfl)) hc]
  simp [decodeState.init]

/-- Method `unmarshal` on a well-formed non-empty object gives the reference result
`JMembers.decode`. -/
theorem unmarshal_object (t : structType) (dis : Bool) (ws0 : List Nat) (ms : JMembers)
    (sv : structValue) (hws : isWhite ws0 = true) (hv : ms.valid = true)
    (hd : ms.depth + 1 ≤ maxNestingDepth) :
    (decodeState.init (ws0 ++ (JValue.object ms).render) dis).unmarshal t sv
      = ms.decode t dis (ws0.length + 1) sv none := by
  have hopen := open_object id 0 [] (by simp) (by simp [maxNestingDepth]) scanner.new.reset
    stateBeginValue (Or.inl rfl) St_new_reset
  rw [stepB_id] at hopen
  obtain ⟨-, hst, hop⟩ := hopen
  have hstart := unmarshal_start (ws0 ++ (JValue.object ms).render) dis ws0 123
    (ms.render ++ [125]) (by simp [JValue.render]) hws (by rw [hop]; decide)
  obtain ⟨d', h1, h2, h3, -, -, -, -, -⟩ := objectLoop_members t ms hv
    ({ decodeState.init (ws0 ++ (JValue.object ms).render) dis with
            scan := (scanner.new.reset.stepFn 123).1, off := ws0.length + 1,
            opcode := (scanner.new.reset.stepFn 123).2 })
    (ws0 ++ [123]) [] [] stateBeginStringOrEmpty sv
    (ws0 ++ (JValue.object ms).render).length
    (by simp [decodeState.init, JValue.render]) (by simp) (Or.inr rfl) hst
    (by simpa using (by omega : 0 + 1 + ms.depth ≤ maxNestingDepth)) rfl rfl rfl
    (by have := ms.count_le_length; simp [JValue.render]; omega)
  unfold decodeState.unmarshal
  simp only [hstart, decodeState.value, hop, decodeState.object]
  simp only [decodeState.init] at h1 h2 h3 ⊢
  simp only [List.length_append, List.length_singleton, hop] at h1 h2
  simp [h1, scanNext_savedError, scanNext_phasePanic, h2, h3]

/-- Method `readValue` finds the end of a well-formed non-empty object at its
closing brace. -/
theorem readValueLoop_object (err : GoError) (all : List Nat) (s : scanner)
    (hs : St s stateBeginValue []) (ws0 : List Nat) (ms : JMembers) (rest : List Nat)
    (hws : isWhite ws0 = true) (hv : ms.valid = true) (hd : ms.depth + 1 ≤ maxNestingDepth) :
    ∃ S : scanner, readValueLoop err all s (ws0 ++ ((JValue.object ms).render ++ rest)) 0
      = (S, ws0.length + (JValue.object ms).render.length, none) := by
  have h1 := Quiet_ws_begin (· + 1) 0 [] (by simp) stateBeginValue (Or.inl rfl) ws0 hws s hs
  have h2 := open_object (· + 1) 0 [] (by simp) (by simp [maxNestingDepth]) _ stateBeginValue
    (Or.inl rfl) h1.2
  have h3 := Quiet_members (· + 1) 0 ms hv [] (by simp)
    (by simpa using (by omega : 0 + 1 + ms.depth ≤ maxNestingDepth)) _ stateBeginStringOrEmpty
    (Or.inr rfl) h2.2.1
  have hq : Quiet (· + 1) 0 s (ws0 ++ (123 :: ms.render)) := by
    rw [Quiet_append]
    exact ⟨h1.1, h2.1, h3.1⟩
  have hrun : run (· + 1) s (ws0 ++ (123 :: ms.render))
      = run (· + 1) (stepB (· + 1) (run (· + 1) s ws0) 123).1 ms.render := by
    rw [run_append]; rfl
  have hdata : ws0 ++ ((JValue.object ms).render ++ rest)
      = (ws0 ++ (123 :: ms.render)) ++ (125 :: rest) := by simp [JValue.render]
  rw [hdata, readValueLoop_quiet err all _ _ s 0 hq, hrun]
  obtain ⟨S, hS⟩ : ∃ S, S = run (· + 1) (stepB (· + 1) (run (· + 1) s ws0) 123).1 ms.render :=
    ⟨_, rfl⟩
  rw [← hS] at h3 ⊢
  have hstep := After_step (· + 1) h3.2 125 (by simp)
  obtain ⟨a1, a2, a3⟩ := h3.2
  have hstep2 : ({ S with bytes := S.bytes + 1 } : scanner).stepFn 125
      = stateEndValueFn { S with bytes := S.bytes + 1 } 125 := hstep
  have hfin : ∀ n, readValueLoop err all S (125 :: rest) n
      = ((stateEndValueFn (stateEndValueFn { S with bytes := S.bytes + 1 } 125).1 32).1,
          n + 1, none) := by
    intro n
    rw [readValueLoop]
    simp only [hstep2]
    simp [stateEndValueFn, a2, a3, isSpace, scanner.popParseState, stateEndTopFn]
  refine ⟨(stateEndValueFn (stateEndValueFn { S with bytes := S.bytes + 1 } 125).1 32).1, ?_⟩
  rw [hfin]
  simp [JValue.render]
  omega

theorem St_reset (s : scanner) : St s.reset stateBeginValue [] := ⟨rfl, rfl, rfl⟩

theorem nonSpace_white (ws : List Nat) (h : isWhite ws = true) : nonSpace ws = false := by
  induction ws with
  | nil => rfl
  | cons c ws ih =>
    simp only [isWhite, List.all_cons, Bool.and_eq_true] at h
    have := ih h.2
    simp only [nonSpace, List.any_cons] at this ⊢
    simp [h.1, this]

/-- A `Decode` that finds only white space before the end of a complete input
returns the error of the reader, `io.EOF`. -/
theorem Decode_white (dec : Decoder) (t : structType) (v : structValue)
    (herr : dec.err = none) (hws : isWhite dec.r.data = true) (he : dec.r.err.eqEOF = true) :
    (dec.Decode t v).2.2 = some dec.r.err := by
  have h1 := Quiet_ws_begin (· + 1) 0 [] (by simp) stateBeginValue (Or.inl rfl) dec.r.data hws
    dec.scan.reset (St_reset _)
  have h2 := readValueLoop_quiet dec.r.err dec.r.data dec.r.data [] dec.scan.reset 0 h1.1
  rw [List.append_nil] at h2
  obtain ⟨a1, a2, a3⟩ := h1.2
  have hstep : ((run (· + 1) dec.scan.reset dec.r.data).stepFn 32).2 = scanSkipSpace := by
    simp [scanner.stepFn, a1, stateBeginValueFn, isSpace]
  unfold Decoder.Decode
  simp only [herr, Decoder.readValue, h2]
  rw [readValueLoop]
  simp [he, hstep, nonSpace_white _ hws]

/-- A `Decode` of input that begins with a well-formed non-empty object: the object
is decoded as `JMembers.decode` says, and the input behind it is left. -/
theorem Decode_object (dec : Decoder) (t : structType) (v : structValue) (ws0 : List Nat)
    (ms : JMembers) (rest : List Nat) (herr : dec.err = none)
    (hdata : dec.r.data = ws0 ++ ((JValue.object ms).render ++ rest))
    (hws : isWhite ws0 = true) (hv : ms.valid = true) (hd : ms.depth + 1 ≤ maxNestingDepth) :
    (dec.Decode t v).2 = ms.decode t dec.disallowUnknownFields (ws0.length + 1) v none ∧
      (dec.Decode t v).1.r = { dec.r with data := rest } ∧ (dec.Decode t v).1.err = none ∧
      (dec.Decode t v).1.disallowUnknownFields = dec.disallowUnknownFields := by
  obtain ⟨S, hS⟩ := readValueLoop_object dec.r.err dec.r.data dec.scan.reset (St_reset _) ws0 ms
    rest hws hv hd
  have hun := unmarshal_object t dec.disallowUnknownFields ws0 ms v hws hv hd
  have htake : dec.r.data.take (ws0.length + (JValue.object ms).render.length)
      = ws0 ++ (JValue.object ms).render := by
    rw [hdata, ← List.append_assoc, ← List.length_append, List.take_left]
  have hdrop : dec.r.data.drop (ws0.length + (JValue.object ms).render.length) = rest := by
    rw [hdata, ← List.append_assoc, ← List.length_append, List.drop_left]
  rw [← hdata] at hS
  unfold Decoder.Decode
  simp only [herr, Decoder.readValue, hS, htake, hdrop, hun]
  exact ⟨trivial, trivial, trivial, trivial⟩

theorem MaxBytesReader_small (r : Reader) (n : Nat) (h : r.data.length ≤ n) :
    MaxBytesReader r n = r := by
  cases r
  simp only [MaxBytesReader] at h ⊢
  simp [List.take_of_length_le h, Nat.not_lt.mpr h]

theorem requestDecoder_small (r : Request) (h : r.Body.data.length ≤ 1048576) :
    requestDecoder r
      = { r := r.Body, scan := scanner.new, err := none, disallowUnknownFields := true } := by
  simp [requestDecoder, NewDecoder, Decoder.DisallowUnknownFields, MaxBytesReader_small _ _ h]

/-- The first `Decode` of `getCloudflare` on a body of at most 1048576 bytes that
begins with a well-formed non-empty object. -/
theorem firstDecode_object (r : Request) (ws0 : List Nat) (ms : JMembers) (rest : List Nat)
    (hdata : r.Body.data = ws0 ++ ((JValue.object ms).render ++ rest))
    (hlen : r.Body.data.length ≤ 1048576)
    (hws : isWhite ws0 = true) (hv : ms.valid = true) (hd : ms.depth + 1 ≤ maxNestingDepth) :
    (firstDecode r).2
        = ms.decode locationStringType true (ws0.length + 1)
            (locationString.toValue { City := [] }) none ∧
      (firstDecode r).1.r = { r.Body with data := rest } ∧ (firstDecode r).1.err = none := by
  have h := Decode_object (requestDecoder r) locationStringType
    (locationString.toValue { City := [] }) ws0 ms rest
    (by rw [requestDecoder_small r hlen]) (by rw [requestDecoder_small r hlen]; exact hdata)
    hws hv hd
  obtain ⟨g1, g2, g3, -⟩ := h
  have e : (requestDecoder r).r = r.Body := by rw [requestDecoder_small r hlen]
  rw [e] at g2
  exact ⟨g1, g2, g3⟩

theorem memberDecode_err (t : structType) (dis : Bool) (n : Nat) (key : List JChar) (v : JValue)
    (sv : structValue) (e : GoError) :
    (memberDecode t dis n key v sv (some e)).2 = some e := rfl

theorem JMembers.decode_err (t : structType) (dis : Bool) (e : GoError) :
    (ms : JMembers) → (n : Nat) → (sv : structValue) →
    (ms.decode t dis n sv (some e)).2 = some e
  | .one _ _ _ _ _ _, _, _ => rfl
  | .cons _ _ _ _ _ _ rest, _, _ => by
    simp only [JMembers.decode, memberDecode_err]
    exact JMembers.decode_err t dis e rest _ _

theorem JMembers.decode_firstUnknown (t : structType) (k : List Nat) :
    (ms : JMembers) → (n : Nat) → (sv : structValue) → ms.firstUnknown t = some k →
    (ms.decode t true n sv none).2 = some (unknownFieldError k)
  | .one _ key _ _ v _, n, sv, h => by
    simp only [JMembers.firstUnknown] at h
    cases hf : lookupField t (stringValue key) with
    | some f => simp [hf] at h
    | none =>
      simp only [hf, Option.some.injEq] at h
      subst h
      simp [JMembers.decode, memberDecode, hf, firstErr, targetError]
  | .cons _ key _ _ v _ rest, n, sv, h => by
    simp only [JMembers.firstUnknown] at h
    cases hf : lookupField t (stringValue key) with
    | none =>
      simp only [hf, Option.some.injEq] at h
      subst h
      simp only [JMembers.decode]
      have : ∀ m, (memberDecode t true m key v sv none).2
          = some (unknownFieldError (stringValue key)) := by
        intro m
        simp [memberDecode, hf, firstErr, targetError]
      rw [this]
      exact JMembers.decode_err t true _ rest _ _
    | some f =>
      simp only [hf] at h
      cases hk : typeErrorKind v with
      | some x => simp [hk] at h
      | none =>
        simp only [hk, Option.isNone_none, if_true] at h
        simp only [JMembers.decode]
        have : ∀ m, (memberDecode t true m key v sv none).2 = none := by
          intro m
          simp [memberDecode, hf, firstErr, targetError, fieldError, hk]
        rw [this]
        exact JMembers.decode_firstUnknown t k rest _ _ h

theorem HasPrefix_append (p s : List Nat) : HasPrefix (p ++ s) p = true := by
  induction p with
  | nil => cases s <;> rfl
  | cons a p ih => simp [HasPrefix, ih]

theorem TrimPrefix_append (p s : List Nat) : TrimPrefix (p ++ s) p = s := by
  simp [TrimPrefix, HasPrefix_append]

/-- The first `Decode` of `getCloudflare` on a body that begins with a well-formed
non-empty object which ends within the first 1048576 bytes. -/
theorem firstDecode_object_head (r : Request) (ws0 : List Nat) (ms : JMembers)
    (rest : List Nat) (hdata : r.Body.data = ws0 ++ ((JValue.object ms).render ++ rest))
    (hfit : ws0.length + (JValue.object ms).render.length ≤ 1048576)
    (hws : isWhite ws0 = true) (hv : ms.valid = true) (hd : ms.depth + 1 ≤ maxNestingDepth) :
    (firstDecode r).2
        = ms.decode locationStringType true (ws0.length + 1)
            (locationString.toValue { City := [] }) none := by
  have hd' : (requestDecoder r).r.data
      = ws0 ++ ((JValue.object ms).render
          ++ rest.take (1048576 - (ws0.length + (JValue.object ms).render.length))) := by
    show r.Body.data.take 1048576 = _
    rw [hdata, ← List.append_assoc, List.take_append_eq_append_take,
      List.take_of_length_le (by simpa using hfit), List.length_append, List.append_assoc]
  exact (Decode_object (requestDecoder r) locationStringType
    (locationString.toValue { City := [] }) ws0 ms _ rfl hd' hws hv hd).1

theorem classify_unknownFieldError (k : List Nat) :
    classify (unknownFieldError k) = .UnknownField := by
  simp [classify, Kind.priority, Kind.holds, unknownFieldError, errorString, HasPrefix_append]

theorem classify_MaxBytesError : classify MaxBytesError = .TooLarge := by decide

theorem isWhite_replicate (n : Nat) : isWhite (List.replicate n 32) = true := by
  induction n with
  | zero => rfl
  | succ n ih =>
    simp only [isWhite, List.replicate_succ, List.all_cons, Bool.and_eq_true] at ih ⊢
    exact ⟨by decide, ih⟩

/-! ## What a successful decode says about the input -/

theorem errFrom_error (s : scanner) (c : Nat) (ctx : List Nat) (e : Option GoError) :
    errFrom e (s.error c ctx).1 :=
  Or.inr ⟨_, _, rfl⟩

theorem errFrom_ite {e : Option GoError} {p : Prop} [Decidable p] {a b : scanner × scanCode}
    (ha : errFrom e a.1) (hb : errFrom e b.1) : errFrom e (if p then a else b).1 := by
  split_ifs <;> assumption

theorem popParseState_err (s : scanner) : s.popParseState.err = s.err := by
  simp only [scanner.popParseState]
  split_ifs <;> rfl

theorem stateEndTopFn_errFrom (s : scanner) (c : Nat) : errFrom s.err (stateEndTopFn s c).1 := by
  unfold stateEndTopFn
  exact errFrom_ite (errFrom_error _ _ _ _) (Or.inl rfl)

theorem stateEndValueFn_errFrom (s : scanner) (c : Nat) :
    errFrom s.err (stateEndValueFn s c).1 := by
  unfold stateEndValueFn
  split
  · exact stateEndTopFn_errFrom { s with step := stateEndTop, endTop := true } _
  · refine errFrom_ite (Or.inl rfl) ?_
    split
    · exact errFrom_ite (Or.inl rfl) (errFrom_error _ _ _ _)
    · exact errFrom_ite (Or.inl rfl)
        (errFrom_ite (Or.inl (popParseState_err s)) (errFrom_error _ _ _ _))
    · exact errFrom_ite (Or.inl rfl)
        (errFrom_ite (Or.inl (popParseState_err s)) (errFrom_error _ _ _ _))

theorem pushParseState_errFrom (s : scanner) (c : Nat) (p : parseKind) (op : scanCode) :
    errFrom s.err (s.pushParseState c p op).1 := by
  unfold scanner.pushParseState
  exact errFrom_ite (Or.inl rfl) (errFrom_error _ _ _ _)

theorem stateBeginValueFn_errFrom (s : scanner) (c : Nat) :
    errFrom s.err (stateBeginValueFn s c).1 := by
  unfold stateBeginValueFn
  refine errFrom_ite (Or.inl rfl) (errFrom_ite
    (pushParseState_errFrom { s with step := stateBeginStringOrEmpty } _ _ _) (errFrom_ite
    (pushParseState_errFrom { s with step := stateBeginValueOrEmpty } _ _ _) ?_))
  exact errFrom_ite (Or.inl rfl) (errFrom_ite (Or.inl rfl) (errFrom_ite (Or.inl rfl)
    (errFrom_ite (Or.inl rfl) (errFrom_ite (Or.inl rfl) (errFrom_ite (Or.inl rfl)
    (errFrom_ite (Or.inl rfl) (errFrom_error _ _ _ _)))))))

theorem stateBeginStringFn_errFrom (s : scanner) (c : Nat) :
    errFrom s.err (stateBeginStringFn s c).1 := by
  unfold stateBeginStringFn
  exact errFrom_ite (Or.inl rfl) (errFrom_ite (Or.inl rfl) (errFrom_error _ _ _ _))

theorem stateKeyword_errFrom (s : scanner) (c w : Nat) (n : stateFn) (ctx : List Nat) :
    errFrom s.err (stateKeyword s c w n ctx).1 := by
  unfold stateKeyword
  exact errFrom_ite (Or.inl rfl) (errFrom_error _ _ _ _)

theorem state0Fn_errFrom (s : scanner) (c : Nat) : errFrom s.err (state0Fn s c).1 := by
  unfold state0Fn
  exact errFrom_ite (Or.inl rfl) (errFrom_ite (Or.inl rfl) (stateEndValueFn_errFrom _ _))

theorem stateESignFn_errFrom (s : scanner) (c : Nat) : errFrom s.err (stateESignFn s c).1 := by
  unfold stateESignFn
  exact errFrom_ite (Or.inl rfl) (errFrom_error _ _ _ _)

theorem stepFn_errFrom (s : scanner) (c : Nat) : errFrom s.err (s.stepFn c).1 := by
  unfold scanner.stepFn
  cases s.step <;> simp only []
  case stateBeginValueOrEmpty =>
    exact errFrom_ite (Or.inl rfl) (errFrom_ite (stateEndValueFn_errFrom _ _)
      (stateBeginValueFn_errFrom _ _))
  case stateBeginValue => exact stateBeginValueFn_errFrom _ _
  case stateBeginStringOrEmpty =>
    exact errFrom_ite (Or.inl rfl) (errFrom_ite
      (stateEndValueFn_errFrom { s with parseState := parseObjectValue :: s.parseState.tail } c)
      (stateBeginStringFn_errFrom _ _))
  case stateBeginString => exact stateBeginStringFn_errFrom _ _
  case stateEndValue => exact stateEndValueFn_errFrom _ _
  case stateEndTop => exact stateEndTopFn_errFrom _ _
  case stateInString =>
    exact errFrom_ite (Or.inl rfl) (errFrom_ite (Or.inl rfl)
      (errFrom_ite (errFrom_error _ _ _ _) (Or.inl rfl)))
  case stateInStringEsc =>
    exact errFrom_ite (Or.inl rfl) (errFrom_ite (Or.inl rfl) (errFrom_error _ _ _ _))
  case stateInStringEscU => exact errFrom_ite (Or.inl rfl) (errFrom_error _ _ _ _)
  case stateInStringEscU1 => exact errFrom_ite (Or.inl rfl) (errFrom_error _ _ _ _)
  case stateInStringEscU12 => exact errFrom_ite (Or.inl rfl) (errFrom_error _ _ _ _)
  case stateInStringEscU123 => exact errFrom_ite (Or.inl rfl) (errFrom_error _ _ _ _)
  case stateNeg =>
    exact errFrom_ite (Or.inl rfl) (errFrom_ite (Or.inl rfl) (errFrom_error _ _ _ _))
  case state1 => exact errFrom_ite (Or.inl rfl) (state0Fn_errFrom _ _)
  case state0 => exact state0Fn_errFrom _ _
  case stateDot => exact errFrom_ite (Or.inl rfl) (errFrom_error _ _ _ _)
  case stateDot0 =>
    exact errFrom_ite (Or.inl rfl) (errFrom_ite (Or.inl rfl) (stateEndValueFn_errFrom _ _))
  case stateE => exact errFrom_ite (Or.inl rfl) (stateESignFn_errFrom _ _)
  case stateESign => exact stateESignFn_errFrom _ _
  case stateE0 => exact errFrom_ite (Or.inl rfl) (stateEndValueFn_errFrom _ _)
  case stateError => exact Or.inl rfl
  all_goals exact stateKeyword_errFrom _ _ _ _ _

theorem stepOK_error (s : scanner) (c : Nat) (ctx : List Nat) : stepOK (s.error c ctx) :=
  ⟨fun _ => rfl, fun _ => rfl⟩

theorem stepOK_ite {p : Prop} [Decidable p] {a b : scanner × scanCode}
    (ha : stepOK a) (hb : stepOK b) : stepOK (if p then a else b) := by
  split_ifs <;> assumption

theorem stepOK_mk (s : scanner) (op : scanCode) (h1 : s.step ≠ stateError)
    (h2 : op ≠ scanError) : stepOK (s, op) :=
  ⟨fun h => absurd h h1, fun h => absurd h h2⟩

theorem stepOK_same (s : scanner) (op : scanCode) (h1 : wf s) (h2 : op ≠ scanError) :
    stepOK (s, op) :=
  ⟨h1, fun h => absurd h h2⟩

theorem popParseState_step (s : scanner) : s.popParseState.step ≠ stateError := by
  simp only [scanner.popParseState]
  split_ifs <;> simp

theorem stateEndTopFn_stepOK (s : scanner) (c : Nat) (h : wf s) : stepOK (stateEndTopFn s c) := by
  unfold stateEndTopFn
  exact stepOK_ite ⟨fun _ => rfl, fun _ => rfl⟩ (stepOK_same _ _ h (by decide))

theorem stateEndValueFn_stepOK (s : scanner) (c : Nat) : stepOK (stateEndValueFn s c) := by
  unfold stateEndValueFn
  split
  · exact stateEndTopFn_stepOK _ _ (fun h => by cases h)
  · refine stepOK_ite (stepOK_mk _ _ (by simp) (by decide)) ?_
    split
    · exact stepOK_ite (stepOK_mk _ _ (by simp) (by decide)) (stepOK_error _ _ _)
    · exact stepOK_ite (stepOK_mk _ _ (by simp) (by decide))
        (stepOK_ite (stepOK_mk _ _ (popParseState_step s) (by decide)) (stepOK_error _ _ _))
    · exact stepOK_ite (stepOK_mk _ _ (by simp) (by decide))
        (stepOK_ite (stepOK_mk _ _ (popParseState_step s) (by decide)) (stepOK_error _ _ _))

theorem pushParseState_stepOK (s : scanner) (c : Nat) (p : parseKind) (op : scanCode)
    (h1 : s.step ≠ stateError) (h2 : op ≠ scanError) : stepOK (s.pushParseState c p op) := by
  unfold scanner.pushParseState
  exact stepOK_ite (stepOK_mk _ _ h1 h2) (stepOK_error _ _ _)

theorem stateBeginValueFn_stepOK (s : scanner) (c : Nat) (h : wf s) :
    stepOK (stateBeginValueFn s c) := by
  unfold stateBeginValueFn
  refine stepOK_ite (stepOK_same _ _ h (by decide)) (stepOK_ite
    (pushParseState_stepOK _ _ _ _ (by simp) (by decide)) (stepOK_ite
    (pushParseState_stepOK _ _ _ _ (by simp) (by decide)) ?_))
  exact stepOK_ite (stepOK_mk _ _ (by simp) (by decide)) (stepOK_ite
    (stepOK_mk _ _ (by simp) (by decide)) (stepOK_ite (stepOK_mk _ _ (by simp) (by decide))
    (stepOK_ite (stepOK_mk _ _ (by simp) (by decide)) (stepOK_ite
    (stepOK_mk _ _ (by simp) (by decide)) (stepOK_ite (stepOK_mk _ _ (by simp) (by decide))
    (stepOK_ite (stepOK_mk _ _ (by simp) (by decide)) (stepOK_error _ _ _)))))))

theorem stateBeginStringFn_stepOK (s : scanner) (c : Nat) (h : wf s) :
    stepOK (stateBeginStringFn s c) := by
  unfold stateBeginStringFn
  exact stepOK_ite (stepOK_same _ _ h (by decide))
    (stepOK_ite (stepOK_mk _ _ (by simp) (by decide)) (stepOK_error _ _ _))

theorem stateKeyword_stepOK (s : scanner) (c w : Nat) (n : stateFn) (ctx : List Nat)
    (hn : n ≠ stateError) : stepOK (stateKeyword s c w n ctx) := by
  unfold stateKeyword
  exact stepOK_ite (stepOK_mk _ _ hn (by decide)) (stepOK_error _ _ _)

theorem state0Fn_stepOK (s : scanner) (c : Nat) : stepOK (state0Fn s c) := by
  unfold state0Fn
  exact stepOK_ite (stepOK_mk _ _ (by simp) (by decide))
    (stepOK_ite (stepOK_mk _ _ (by simp) (by decide)) (stateEndValueFn_stepOK _ _))

theorem stateESignFn_stepOK (s : scanner) (c : Nat) : stepOK (stateESignFn s c) := by
  unfold stateESignFn
  exact stepOK_ite (stepOK_mk _ _ (by simp) (by decide)) (stepOK_error _ _ _)

theorem stepFn_stepOK (s : scanner) (c : Nat) (h : wf s) : stepOK (s.stepFn c) := by
  unfold scanner.stepFn
  cases hs : s.step <;> simp only []
  case stateBeginValueOrEmpty =>
    exact stepOK_ite (stepOK_same _ _ h (by decide)) (stepOK_ite (stateEndValueFn_stepOK _ _)
      (stateBeginValueFn_stepOK _ _ h))
  case stateBeginValue => exact stateBeginValueFn_stepOK _ _ h
  case stateBeginStringOrEmpty =>
    exact stepOK_ite (stepOK_same _ _ h (by decide)) (stepOK_ite
      (stateEndValueFn_stepOK _ _) (stateBeginStringFn_stepOK _ _ h))
  case stateBeginString => exact stateBeginStringFn_stepOK _ _ h
  case stateEndValue => exact stateEndValueFn_stepOK _ _
  case stateEndTop => exact stateEndTopFn_stepOK _ _ h
  case stateInString =>
    exact stepOK_ite (stepOK_mk _ _ (by simp) (by decide)) (stepOK_ite
      (stepOK_mk _ _ (by simp) (by decide))
      (stepOK_ite (stepOK_error _ _ _) (stepOK_same _ _ h (by decide))))
  case stateInStringEsc =>
    exact stepOK_ite (stepOK_mk _ _ (by simp) (by decide))
      (stepOK_ite (stepOK_mk _ _ (by simp) (by decide)) (stepOK_error _ _ _))
  case stateInStringEscU =>
    exact stepOK_ite (stepOK_mk _ _ (by simp) (by decide)) (stepOK_error _ _ _)
  case stateInStringEscU1 =>
    exact stepOK_ite (stepOK_mk _ _ (by simp) (by decide)) (stepOK_error _ _ _)
  case stateInStringEscU12 =>
    exact stepOK_ite (stepOK_mk _ _ (by simp) (by decide)) (stepOK_error _ _ _)
  case stateInStringEscU123 =>
    exact stepOK_ite (stepOK_mk _ _ (by simp) (by decide)) (stepOK_error _ _ _)
  case stateNeg =>
    exact stepOK_ite (stepOK_mk _ _ (by simp) (by decide))
      (stepOK_ite (stepOK_mk _ _ (by simp) (by decide)) (stepOK_error _ _ _))
  case state1 => exact stepOK_ite (stepOK_mk _ _ (by simp) (by decide)) (state0Fn_stepOK _ _)
  case state0 => exact state0Fn_stepOK _ _
  case stateDot => exact stepOK_ite (stepOK_mk _ _ (by simp) (by decide)) (stepOK_error _ _ _)
  case stateDot0 =>
    exact stepOK_ite (stepOK_same _ _ h (by decide))
      (stepOK_ite (stepOK_mk _ _ (by simp) (by decide)) (stateEndValueFn_stepOK _ _))
  case stateE =>
    exact stepOK_ite (stepOK_mk _ _ (by simp) (by decide)) (stateESignFn_stepOK _ _)
  case stateESign => exact stateESignFn_stepOK _ _
  case stateE0 => exact stepOK_ite (stepOK_same _ _ h (by decide)) (stateEndValueFn_stepOK _ _)
  case stateError =>
    exact ⟨h, fun _ => h hs⟩
  all_goals exact stateKeyword_stepOK _ _ _ _ _ (by decide)

theorem Ext.refl (d : decodeState) : Ext d d := ⟨Or.inl rfl, id⟩

theorem Ext.trans {a b c : decodeState} (h1 : Ext a b) (h2 : Ext b c) : Ext a c := by
  obtain ⟨h1e, h1p⟩ := h1
  obtain ⟨h2e, h2p⟩ := h2
  refine ⟨?_, fun h => h2p (h1p h)⟩
  rcases h1e with h1e | ⟨ha, e, he, hq⟩
  · rcases h2e with h2e | ⟨hb, e, he, hq⟩
    · exact Or.inl (h2e.trans h1e)
    · exact Or.inr ⟨h1e ▸ hb, e, he, hq⟩
  · rcases h2e with h2e | ⟨hb, e', he', hq'⟩
    · exact Or.inr ⟨ha, e, h2e.trans he, hq⟩
    · rw [he] at hb; cases hb

theorem Ext.of_eq {d d' : decodeState} (h1 : d'.savedError = d.savedError)
    (h2 : d'.phasePanic = d.phasePanic) : Ext d d' := ⟨Or.inl h1, fun h => h2 ▸ h⟩

theorem Ext_ite {d : decodeState} {p : Prop} [Decidable p] {a b : decodeState}
    (ha : Ext d a) (hb : Ext d b) : Ext d (if p then a else b) := by
  split_ifs <;> assumption

theorem Ext_ite1 {d : decodeState} {p : Prop} [Decidable p] {a b : decodeState × structValue}
    (ha : Ext d a.1) (hb : Ext d b.1) : Ext d (if p then a else b).1 := by
  split_ifs <;> assumption

theorem Ext_scanWhile (d : decodeState) (op : scanCode) : Ext d (d.scanWhile op) :=
  Ext.of_eq rfl rfl

theorem Ext_scanNext (d : decodeState) : Ext d d.scanNext := by
  unfold decodeState.scanNext
  split <;> exact Ext.of_eq rfl rfl

theorem Ext_rescanLiteral (d : decodeState) : Ext d d.rescanLiteral := by
  unfold decodeState.rescanLiteral
  simp only []
  split <;> exact Ext.of_eq rfl rfl

theorem Ext_skip (d : decodeState) : Ext d d.skip := by
  unfold decodeState.skip
  split
  · exact Ext.of_eq rfl rfl
  · exact ⟨Or.inl rfl, fun _ => rfl⟩

theorem Ext_panicked (d : decodeState) : Ext d d.panicked := ⟨Or.inl rfl, fun _ => rfl⟩

theorem Ext_saveError (d : decodeState) (e : GoError) (he : e.eqEOF = false) :
    Ext d (d.saveError e) := by
  unfold decodeState.saveError
  cases h : d.savedError with
  | some x => simp only [Option.isSome_some, if_true]; exact Ext.refl d
  | none =>
    simp only [Option.isSome_none, Bool.false_eq_true, if_false]
    exact ⟨Or.inr ⟨h, e, rfl, he⟩, id⟩

theorem Ext_saveTypeError (d : decodeState) (Value Typ : List Nat) (Offset : Nat) :
    Ext d (d.saveTypeError Value Typ Offset) := by
  unfold decodeState.saveTypeError
  cases h : d.savedError with
  | some x => simp only [Option.isSome_some, if_true]; exact Ext.refl d
  | none =>
    simp only [Option.isSome_none, Bool.false_eq_true, if_false]
    split_ifs
    · exact ⟨Or.inr ⟨h, _, rfl, rfl⟩, id⟩
    · exact ⟨Or.inr ⟨h, _, rfl, rfl⟩, id⟩

theorem Ext_literalStore (d : decodeState) (item typ : List Nat) (f : Option (List Nat))
    (v : structValue) : Ext d (d.literalStore item typ f v).1 := by
  unfold decodeState.literalStore
  split
  · exact Ext_saveError _ _ rfl
  · refine Ext_ite1 (Ext.refl d) (Ext_ite1 (Ext_saveTypeError _ _ _ _) (Ext_ite1 ?_
      (Ext_ite1 (Ext_panicked d) (Ext_saveTypeError _ _ _ _))))
    split
    · exact Ext_panicked d
    · split
      · exact Ext.refl d
      · exact Ext_saveTypeError _ _ _ _

theorem Ext_valueField (d : decodeState) (f : Option (List Nat)) (v : structValue) :
    Ext d (d.valueField f v).1 := by
  unfold decodeState.valueField
  split
  · split
    · exact ((Ext_saveTypeError d _ _ _).trans (Ext_skip _)).trans (Ext_scanNext _)
    · exact (Ext_skip d).trans (Ext_scanNext _)
  · split
    · exact ((Ext_saveTypeError d _ _ _).trans (Ext_skip _)).trans (Ext_scanNext _)
    · exact (Ext_skip d).trans (Ext_scanNext _)
  · simp only []
    split
    · exact (Ext_rescanLiteral d).trans (Ext_literalStore _ _ _ _ _)
    · exact Ext_rescanLiteral d
  · exact Ext_panicked d

/-- The rest of a round of the member loop, from the state `d3` in which the
name of the member has been looked up. -/
theorem Ext_objectLoop_tail (t : structType) (os : List Nat) (ol fuel : Nat)
    (ih : ∀ d v, Ext d (objectLoop t os ol fuel d v).1)
    (d d3 : decodeState) (h3 : Ext d d3) (f : Option (List Nat)) (v : structValue) :
    Ext d
      (if (if d3.opcode = scanSkipSpace then d3.scanWhile scanSkipSpace else d3).opcode
            ≠ scanObjectKey then
          ((if d3.opcode = scanSkipSpace then d3.scanWhile scanSkipSpace else d3).panicked, v)
        else
          let d5 := (if d3.opcode = scanSkipSpace then d3.scanWhile scanSkipSpace
            else d3).scanWhile scanSkipSpace
          let r := d5.valueField f v
          let d6 := r.1
          let d7 := if d6.opcode = scanSkipSpace then d6.scanWhile scanSkipSpace else d6
          let d8 :=
            if d7.hasErrorContext then
              { d7 with FieldStack := d7.FieldStack.take ol, errorStruct := os }
            else d7
          if d8.phasePanic then (d8, r.2)
          else if d8.opcode = scanEndObject then (d8, r.2)
          else if d8.opcode ≠ scanObjectValue then (d8.panicked, r.2)
          else objectLoop t os ol fuel d8 r.2).1 := by
  have h4 : Ext d (if d3.opcode = scanSkipSpace then d3.scanWhile scanSkipSpace else d3) :=
    h3.trans (Ext_ite (Ext_scanWhile _ _) (Ext.refl _))
  generalize (if d3.opcode = scanSkipSpace then d3.scanWhile scanSkipSpace else d3) = d4 at h4 ⊢
  refine Ext_ite1 (h4.trans (Ext_panicked _)) ?_
  simp only []
  have h5 : Ext d (d4.scanWhile scanSkipSpace) := h4.trans (Ext_scanWhile _ _)
  generalize d4.scanWhile scanSkipSpace = d5 at h5 ⊢
  have h6 : Ext d (d5.valueField f v).1 := h5.trans (Ext_valueField _ _ _)
  generalize d5.valueField f v = r at h6 ⊢
  have h7 : Ext d (if r.1.opcode = scanSkipSpace then r.1.scanWhile scanSkipSpace else r.1) :=
    h6.trans (Ext_ite (Ext_scanWhile _ _) (Ext.refl _))
  generalize (if r.1.opcode = scanSkipSpace then r.1.scanWhile scanSkipSpace else r.1) = d7
    at h7 ⊢
  have h8 : Ext d (if d7.hasErrorContext then
      { d7 with FieldStack := d7.FieldStack.take ol, errorStruct := os } else d7) :=
    h7.trans (Ext_ite (Ext.of_eq rfl rfl) (Ext.refl _))
  generalize (if d7.hasErrorContext then
      { d7 with FieldStack := d7.FieldStack.take ol, errorStruct := os } else d7) = d8 at h8 ⊢
  exact Ext_ite1 h8 (Ext_ite1 h8 (Ext_ite1 (h8.trans (Ext_panicked _)) (h8.trans (ih _ _))))

theorem Ext_objectLoop (t : structType) (os : List Nat) (ol : Nat) :
    ∀ (fuel : Nat) (d : decodeState) (v : structValue), Ext d (objectLoop t os ol fuel d v).1 := by
  intro fuel
  induction fuel with
  | zero => intro d v; exact Ext_panicked d
  | succ fuel ih =>
    intro d v
    rw [objectLoop]
    simp only []
    have h1 : Ext d (d.scanWhile scanSkipSpace) := Ext_scanWhile _ _
    generalize d.scanWhile scanSkipSpace = d1 at h1 ⊢
    refine Ext_ite1 h1 (Ext_ite1 (h1.trans (Ext_panicked _)) ?_)
    have h2 : Ext d d1.rescanLiteral := h1.trans (Ext_rescanLiteral _)
    generalize d1.rescanLiteral = d2 at h2 ⊢
    split
    · exact h2.trans (Ext_panicked _)
    · rename_i key _
      have := Ext_objectLoop_tail t os ol fuel ih d
      cases hf : lookupField t key with
      | some name =>
        simp only []
        exact this
          { d2 with hasErrorContext := true, FieldStack := d2.FieldStack ++ [name],
                    errorStruct := t.name }
          (h2.trans (Ext.of_eq rfl rfl)) (some name) v
      | none =>
        simp only []
        exact this
          (if d2.disallowUnknownFields then d2.saveError (unknownFieldError key) else d2)
          (h2.trans (Ext_ite (Ext_saveError _ _ rfl) (Ext.refl _))) none v

/-- A list of bytes splits into its leading white space and a rest that is empty
or begins with a byte that is not white space. -/
theorem ws_split (bs : List Nat) :
    ∃ ws rest, bs = ws ++ rest ∧ isWhite ws = true ∧
      (rest = [] ∨ ∃ c t, rest = c :: t ∧ isSpace c = false) := by
  induction bs with
  | nil => exact ⟨[], [], rfl, rfl, Or.inl rfl⟩
  | cons b bs ih =>
    by_cases hb : isSpace b = true
    · obtain ⟨ws, rest, h1, h2, h3⟩ := ih
      refine ⟨b :: ws, rest, by rw [h1]; rfl, ?_, h3⟩
      simp only [isWhite, List.all_cons, Bool.and_eq_true] at h2 ⊢
      exact ⟨hb, h2⟩
    · exact ⟨[], b :: bs, rfl, rfl, Or.inr ⟨b, bs, rfl, by simpa using hb⟩⟩

theorem wf_bytes (s : scanner) (b : Nat) (h : wf s) : wf { s with bytes := b } := h

/-- A successful `readValue` loop never counts down. -/
theorem readValueLoop_ge (err : GoError) (all : List Nat) :
    ∀ (bs : List Nat) (s : scanner) (n : Nat) (S : scanner) (N : Nat), wf s →
      readValueLoop err all s bs n = (S, N, none) → n ≤ N := by
  intro bs
  induction bs with
  | nil =>
    intro s n S N _ h
    rw [readValueLoop] at h
    split_ifs at h <;> simp only [Prod.mk.injEq] at h
    · omega
    all_goals exact absurd h.2.2 (by simp)
  | cons c bs ih =>
    intro s n S N hw h
    have hok := stepFn_stepOK _ c (wf_bytes s (s.bytes + 1) hw)
    have hok2 := stateEndValueFn_stepOK (({ s with bytes := s.bytes + 1 } : scanner).stepFn c).1 32
    rw [readValueLoop] at h
    simp only [] at h
    split at h
    · simp only [Prod.mk.injEq] at h; omega
    · split_ifs at h
      · simp only [Prod.mk.injEq] at h; omega
      · have := ih _ _ _ _ hok2.1 h; omega
    · split_ifs at h
      · simp only [Prod.mk.injEq] at h; omega
      · have := ih _ _ _ _ hok2.1 h; omega
    · rename_i hop
      have := hok.2 hop
      simp only [Prod.mk.injEq] at h
      rw [h.2.2] at this
      cases this
    · have := ih _ _ _ _ hok.1 h; omega

theorem errOK_step {s s' : scanner} (h : errOK s) (h' : errFrom s.err s') : errOK s' := by
  rcases h' with h' | h'
  · rcases h with h | h
    · exact Or.inl (h'.trans h)
    · exact Or.inr (by rw [h']; exact h)
  · exact Or.inr h'

/-- An error of the `readValue` loop that is `io.EOF` is the error of the reader,
met when only white space was read. -/
theorem readValueLoop_eof (err : GoError) (all : List Nat) :
    ∀ (bs : List Nat) (s : scanner) (n : Nat) (e : GoError), errOK s →
      (readValueLoop err all s bs n).2.2 = some e → e.eqEOF = true →
      err.eqEOF = true ∧ nonSpace all = false := by
  intro bs
  induction bs with
  | nil =>
    intro s n e _ h he
    rw [readValueLoop] at h
    split_ifs at h with h1 h2 h3 <;> simp only [Option.some.injEq, reduceCtorEq] at h
    · subst h; cases he
    · subst h; exact ⟨h1, by simpa using h3⟩
    · subst h; exact absurd he h1
  | cons c bs ih =>
    intro s n e hs h he
    have hf := stepFn_errFrom ({ s with bytes := s.bytes + 1 } : scanner) c
    have hs1 : errOK (({ s with bytes := s.bytes + 1 } : scanner).stepFn c).1 := errOK_step hs hf
    have hs2 := errOK_step hs1
      (stateEndValueFn_errFrom (({ s with bytes := s.bytes + 1 } : scanner).stepFn c).1 32)
    rw [readValueLoop] at h
    simp only [] at h
    split at h
    · simp at h
    · split_ifs at h
      exact ih _ _ _ hs2 h he
    · split_ifs at h
      exact ih _ _ _ hs2 h he
    · simp only [] at h
      rcases hs1 with h1 | ⟨m, o, h1⟩
      · rw [h1] at h; cases h
      · rw [h1] at h
        simp only [Option.some.injEq] at h
        subst h; cases he
    · exact ih _ _ _ hs1 h he

theorem Ext_object (d : decodeState) (t : structType) (v : structValue) :
    Ext d (d.object t v).1 := Ext_objectLoop _ _ _ _ _ _

theorem Ext_value (d : decodeState) (t : structType) (v : structValue) :
    Ext d (d.value t v).1 := by
  unfold decodeState.value
  split
  · exact ((Ext_saveTypeError d _ _ _).trans (Ext_skip _)).trans (Ext_scanNext _)
  · exact (Ext_object d t v).trans (Ext_scanNext _)
  · exact (Ext_rescanLiteral d).trans (Ext_literalStore _ _ _ _ _)
  · exact Ext_panicked d

theorem Ext.bad {d d' : decodeState} (h : Ext d d') (hb : bad d) : bad d' := by
  rcases hb with hb | hb
  · rcases h.1 with h1 | ⟨h1, _⟩
    · exact Or.inl (by rw [h1]; exact hb)
    · exact absurd h1 hb
  · exact Or.inr (h.2 hb)

/-- Method `unmarshal` returns an error when the state after `value` is `bad`. -/
theorem unmarshal_of_bad (d : decodeState) (t : structType) (v : structValue)
    (h : bad ((({ d with scan := d.scan.reset } : decodeState).scanWhile scanSkipSpace).value
      t v).1) :
    (d.unmarshal t v).2 ≠ none := by
  unfold decodeState.unmarshal
  simp only []
  rcases h with h | h
  · split_ifs
    · simp
    · exact h
  · rw [if_pos h]; simp

/-- An error of `unmarshal` is not `io.EOF`. -/
theorem unmarshal_not_eof (data : List Nat) (dis : Bool) (t : structType) (v : structValue)
    (e : GoError) (h : ((decodeState.init data dis).unmarshal t v).2 = some e) :
    e.eqEOF = false := by
  unfold decodeState.unmarshal at h
  simp only [] at h
  have hext : Ext (decodeState.init data dis)
      ((({ decodeState.init data dis with scan := (decodeState.init data dis).scan.reset }
        : decodeState).scanWhile scanSkipSpace).value t v).1 :=
    (Ext.trans (Ext.of_eq rfl rfl) (Ext_scanWhile _ _)).trans (Ext_value _ _ _)
  split_ifs at h
  · simp only [Option.some.injEq] at h
    subst h; rfl
  · rcases hext.1 with h1 | ⟨_, e', h1, h2⟩
    · rw [h1] at h; cases h
    · rw [h1] at h
      simp only [Option.some.injEq] at h
      subst h; exact h2

theorem isWhite_of_nonSpace (bs : List Nat) (h : nonSpace bs = false) : isWhite bs = true := by
  induction bs with
  | nil => rfl
  | cons c bs ih =>
    simp only [nonSpace, List.any_cons, Bool.or_eq_false_iff] at h
    simp only [isWhite, List.all_cons, Bool.and_eq_true]
    exact ⟨by simpa using h.1, ih (by simpa [nonSpace] using h.2)⟩

/-- A `Decode` that returns `io.EOF` found only white space before the end of the
input, and the error of the reader is `io.EOF`. -/
theorem Decode_eof (dec : Decoder) (t : structType) (v : structValue) (e : GoError)
    (herr : dec.err = none) (h : (dec.Decode t v).2.2 = some e) (he : e.eqEOF = true) :
    dec.r.err.eqEOF = true ∧ isWhite dec.r.data = true := by
  unfold Decoder.Decode at h
  simp only [herr] at h
  split at h
  · rename_i e' he'
    simp only [Option.some.injEq] at h
    subst h
    have := readValueLoop_eof dec.r.err dec.r.data dec.r.data dec.scan.reset 0 _
      (Or.inl rfl) he' he
    exact ⟨this.1, isWhite_of_nonSpace _ this.2⟩
  · simp only [] at h
    have := unmarshal_not_eof _ _ _ _ _ h
    rw [this] at he; cases he

theorem readValueLoop_nil_fail (err : GoError) (all : List Nat) (s S : scanner) (n N : Nat)
    (h : (s.stepFn 32).2 ≠ scanEnd) : readValueLoop err all s [] n ≠ (S, N, none) := by
  rw [readValueLoop]
  split_ifs <;> simp

theorem readValueLoop_error (err : GoError) (all : List Nat) (s S : scanner) (c : Nat)
    (rest : List Nat) (n N : Nat) (ctx : List Nat)
    (h : ({ s with bytes := s.bytes + 1 } : scanner).stepFn c
      = ({ s with bytes := s.bytes + 1 } : scanner).error c ctx) :
    readValueLoop err all s (c :: rest) n ≠ (S, N, none) := by
  rw [readValueLoop]
  simp [h, scanner.error]

theorem readValueLoop_continue (err : GoError) (all : List Nat) (s s' : scanner) (c : Nat)
    (rest : List Nat) (n : Nat) (op : scanCode)
    (h : ({ s with bytes := s.bytes + 1 } : scanner).stepFn c = (s', op))
    (h1 : op ≠ scanEnd) (h2 : op ≠ scanEndObject) (h3 : op ≠ scanEndArray)
    (h4 : op ≠ scanError) :
    readValueLoop err all s (c :: rest) n = readValueLoop err all s' rest (n + 1) := by
  rw [readValueLoop]
  simp only [h]

theorem ok_and3 {a b c : Nat} (h : (isHex a && isHex b && isHex c) = true) :
    isHex a = true ∧ isHex b = true ∧ isHex c = true := by
  simp only [Bool.and_eq_true] at h
  exact ⟨h.1.1, h.1.2, h.2⟩

set_option maxHeartbeats 1000000 in
/-- The scanner inside a string literal: when the `readValue` loop succeeds, the
bytes up to the closing quotation mark are well-formed items. -/
theorem string_inv (err : GoError) (all : List Nat) (σ : List parseKind) (S : scanner) (N : Nat) :
    ∀ (bs : List Nat) (m : StrMode) (s : scanner) (n : Nat),
      s.step = m.state → s.parseState = σ → s.err = none → m.ok = true →
      readValueLoop err all s bs n = (S, N, none) →
      ∃ (cs : List JChar) (bs1 rest : List Nat) (s' : scanner),
        validChars cs = true ∧ bs = bs1 ++ rest ∧ m.pre ++ bs1 = cs.flatMap JChar.text ++ [34] ∧
        St s' stateEndValue σ ∧
        readValueLoop err all s' rest (n + bs1.length) = (S, N, none) := by
  intro bs
  induction bs with
  | nil =>
    intro m s n h1 h2 h3 _ h
    exfalso
    refine readValueLoop_nil_fail err all s S n N ?_ h
    cases m <;> simp [scanner.stepFn, h1, StrMode.state, scanner.error, isHex]
  | cons c bs ih =>
    intro m s n h1 h2 h3 hok h
    cases m with
    | plain =>
      by_cases hq : c = 34
      · subst hq
        have hr : ({ s with bytes := s.bytes + 1 } : scanner).stepFn 34
            = ({ s with bytes := s.bytes + 1, step := stateEndValue }, scanContinue) := by
          simp [scanner.stepFn, h1, StrMode.state]
        rw [readValueLoop_continue err all s _ 34 bs n _ hr (by decide) (by decide) (by decide)
          (by decide)] at h
        exact ⟨[], [34], bs, ({ s with bytes := s.bytes + 1, step := stateEndValue }), rfl, rfl, rfl, ⟨rfl, h2, h3⟩, h⟩
      · by_cases hb : c = 92
        · subst hb
          have hr : ({ s with bytes := s.bytes + 1 } : scanner).stepFn 92
              = ({ s with bytes := s.bytes + 1, step := stateInStringEsc }, scanContinue) := by
            simp [scanner.stepFn, h1, StrMode.state]
          rw [readValueLoop_continue err all s _ 92 bs n _ hr (by decide) (by decide) (by decide)
            (by decide)] at h
          obtain ⟨cs, bs1, rest, s', g1, g2, g3, g4, g5⟩ := ih .esc ({ s with bytes := s.bytes + 1, step := stateInStringEsc }) (n + 1) rfl h2 h3 rfl h
          refine ⟨cs, 92 :: bs1, rest, s', g1, by rw [g2]; rfl, g3, g4, ?_⟩
          rw [← g5]; congr 1; simp; omega
        · by_cases hc : c < 0x20
          · exfalso
            refine readValueLoop_error err all s S c bs n N (str "in string literal") ?_ h
            simp [scanner.stepFn, h1, StrMode.state, hq, hb, hc]
          · have hr : ({ s with bytes := s.bytes + 1 } : scanner).stepFn c
                = ({ s with bytes := s.bytes + 1 }, scanContinue) := by
              simp [scanner.stepFn, h1, StrMode.state, hq, hb, hc]
            rw [readValueLoop_continue err all s _ c bs n _ hr (by decide) (by decide)
              (by decide) (by decide)] at h
            obtain ⟨cs, bs1, rest, s', g1, g2, g3, g4, g5⟩ := ih .plain ({ s with bytes := s.bytes + 1 }) (n + 1) h1 h2 h3 rfl h
            refine ⟨.raw c :: cs, c :: bs1, rest, s', ?_, by rw [g2]; rfl, ?_, g4, ?_⟩
            · simp only [validChars, List.all_cons, Bool.and_eq_true] at g1 ⊢
              refine ⟨?_, g1⟩
              simp [JChar.valid, hq, hb]; omega
            · simp only [StrMode.pre, List.nil_append] at g3 ⊢
              simp [JChar.text, g3]
            · rw [← g5]; congr 1; simp; omega
    | esc =>
      by_cases he : c = 98 ∨ c = 102 ∨ c = 110 ∨ c = 114 ∨ c = 116 ∨ c = 92 ∨ c = 47 ∨ c = 34
      · have hr : ({ s with bytes := s.bytes + 1 } : scanner).stepFn c
            = ({ s with bytes := s.bytes + 1, step := stateInString }, scanContinue) := by
          simp [scanner.stepFn, h1, StrMode.state, he]
        rw [readValueLoop_continue err all s _ c bs n _ hr (by decide) (by decide)
          (by decide) (by decide)] at h
        obtain ⟨cs, bs1, rest, s', g1, g2, g3, g4, g5⟩ := ih .plain ({ s with bytes := s.bytes + 1, step := stateInString }) (n + 1) rfl h2 h3 rfl h
        refine ⟨.esc c :: cs, c :: bs1, rest, s', ?_, by rw [g2]; rfl, ?_, g4, ?_⟩
        · simp only [validChars, List.all_cons, Bool.and_eq_true] at g1 ⊢
          refine ⟨?_, g1⟩
          simp [JChar.valid]; omega
        · simp only [StrMode.pre, List.nil_append] at g3 ⊢
          simp [JChar.text, g3]
        · rw [← g5]; congr 1; simp; omega
      · by_cases hu : c = 117
        · subst hu
          have hr : ({ s with bytes := s.bytes + 1 } : scanner).stepFn 117
              = ({ s with bytes := s.bytes + 1, step := stateInStringEscU }, scanContinue) := by
            simp [scanner.stepFn, h1, StrMode.state]
          rw [readValueLoop_continue err all s _ 117 bs n _ hr (by decide) (by decide)
            (by decide) (by decide)] at h
          obtain ⟨cs, bs1, rest, s', g1, g2, g3, g4, g5⟩ := ih .u0 ({ s with bytes := s.bytes + 1, step := stateInStringEscU }) (n + 1) rfl h2 h3 rfl h
          refine ⟨cs, 117 :: bs1, rest, s', g1, by rw [g2]; rfl, g3, g4, ?_⟩
          rw [← g5]; congr 1; simp; omega
        · exfalso
          refine readValueLoop_error err all s S c bs n N (str "in string escape code") ?_ h
          simp [scanner.stepFn, h1, StrMode.state, he, hu]
    | u0 =>
      by_cases hx : isHex c = true
      · have hr : ({ s with bytes := s.bytes + 1 } : scanner).stepFn c
            = ({ s with bytes := s.bytes + 1, step := stateInStringEscU1 }, scanContinue) := by
          simp [scanner.stepFn, h1, StrMode.state, hx]
        rw [readValueLoop_continue err all s _ c bs n _ hr (by decide) (by decide)
          (by decide) (by decide)] at h
        obtain ⟨cs, bs1, rest, s', g1, g2, g3, g4, g5⟩ := ih (.u1 c) ({ s with bytes := s.bytes + 1, step := stateInStringEscU1 }) (n + 1) rfl h2 h3 hx h
        refine ⟨cs, c :: bs1, rest, s', g1, by rw [g2]; rfl, g3, g4, ?_⟩
        rw [← g5]; congr 1; simp; omega
      · exfalso
        refine readValueLoop_error err all s S c bs n N
          (str "in \\u hexadecimal character escape") ?_ h
        simp [scanner.stepFn, h1, StrMode.state, hx]
    | u1 a =>
      by_cases hx : isHex c = true
      · have hr : ({ s with bytes := s.bytes + 1 } : scanner).stepFn c
            = ({ s with bytes := s.bytes + 1, step := stateInStringEscU12 }, scanContinue) := by
          simp [scanner.stepFn, h1, StrMode.state, hx]
        rw [readValueLoop_continue err all s _ c bs n _ hr (by decide) (by decide)
          (by decide) (by decide)] at h
        obtain ⟨cs, bs1, rest, s', g1, g2, g3, g4, g5⟩ := ih (.u2 a c) ({ s with bytes := s.bytes + 1, step := stateInStringEscU12 }) (n + 1) rfl h2 h3
          (by simp only [StrMode.ok] at hok ⊢; simp [hok, hx]) h
        refine ⟨cs, c :: bs1, rest, s', g1, by rw [g2]; rfl, by simpa [StrMode.pre] using g3,
          g4, ?_⟩
        rw [← g5]; congr 1; simp; omega
      · exfalso
        refine readValueLoop_error err all s S c bs n N
          (str "in \\u hexadecimal character escape") ?_ h
        simp [scanner.stepFn, h1, StrMode.state, hx]
    | u2 a b =>
      by_cases hx : isHex c = true
      · have hr : ({ s with bytes := s.bytes + 1 } : scanner).stepFn c
            = ({ s with bytes := s.bytes + 1, step := stateInStringEscU123 }, scanContinue) := by
          simp [scanner.stepFn, h1, StrMode.state, hx]
        rw [readValueLoop_continue err all s _ c bs n _ hr (by decide) (by decide)
          (by decide) (by decide)] at h
        obtain ⟨cs, bs1, rest, s', g1, g2, g3, g4, g5⟩ := ih (.u3 a b c) ({ s with bytes := s.bytes + 1, step := stateInStringEscU123 }) (n + 1) rfl h2 h3
          (by simp only [StrMode.ok] at hok ⊢; simp [hok, hx]) h
        refine ⟨cs, c :: bs1, rest, s', g1, by rw [g2]; rfl, by simpa [StrMode.pre] using g3,
          g4, ?_⟩
        rw [← g5]; congr 1; simp; omega
      · exfalso
        refine readValueLoop_error err all s S c bs n N
          (str "in \\u hexadecimal character escape") ?_ h
        simp [scanner.stepFn, h1, StrMode.state, hx]
    | u3 a b c3 =>
      by_cases hx : isHex c = true
      · have hr : ({ s with bytes := s.bytes + 1 } : scanner).stepFn c
            = ({ s with bytes := s.bytes + 1, step := stateInString }, scanContinue) := by
          simp [scanner.stepFn, h1, StrMode.state, hx]
        rw [readValueLoop_continue err all s _ c bs n _ hr (by decide) (by decide)
          (by decide) (by decide)] at h
        obtain ⟨cs, bs1, rest, s', g1, g2, g3, g4, g5⟩ := ih .plain ({ s with bytes := s.bytes + 1, step := stateInString }) (n + 1) rfl h2 h3 rfl h
        obtain ⟨ha, hb, hc3⟩ := ok_and3 hok
        refine ⟨.uni a b c3 c :: cs, c :: bs1, rest, s', ?_, by rw [g2]; rfl, ?_, g4, ?_⟩
        · simp only [validChars, List.all_cons, Bool.and_eq_true] at g1 ⊢
          refine ⟨?_, g1⟩
          simp [JChar.valid, ha, hb, hc3, hx]
        · simp only [StrMode.pre, List.nil_append] at g3 ⊢
          simp [JChar.text, g3]
        · rw [← g5]; congr 1; simp; omega
      · exfalso
        refine readValueLoop_error err all s S c bs n N
          (str "in \\u hexadecimal character escape") ?_ h
        simp [scanner.stepFn, h1, StrMode.state, hx]

/-- The `readValue` loop over white space in front of a value or a name. -/
theorem readValueLoop_ws_begin (err : GoError) (all : List Nat) (σ : List parseKind)
    (st : stateFn)
    (hst : st = stateBeginValue ∨ st = stateBeginValueOrEmpty ∨ st = stateBeginString
      ∨ st = stateBeginStringOrEmpty)
    (ws rest : List Nat) (hws : isWhite ws = true) (s : scanner) (n : Nat) (hs : St s st σ) :
    ∃ s', St s' st σ ∧
      readValueLoop err all s (ws ++ rest) n = readValueLoop err all s' rest (n + ws.length) := by
  have h := Quiet_ws_begin (· + 1) 0 σ (Nat.zero_le _) st hst ws hws s hs
  exact ⟨_, h.2, readValueLoop_quiet err all ws rest s n h.1⟩

/-- The `readValue` loop over white space behind a value or a name. -/
theorem readValueLoop_ws_end (err : GoError) (all : List Nat) (p : parseKind)
    (τ : List parseKind) (rest : List Nat) :
    ∀ (ws : List Nat), isWhite ws = true → ∀ (s : scanner) (n : Nat),
      St s stateEndValue (p :: τ) →
      ∃ s', St s' stateEndValue (p :: τ) ∧
        readValueLoop err all s (ws ++ rest) n
          = readValueLoop err all s' rest (n + ws.length) := by
  intro ws
  induction ws with
  | nil => intro _ s n hs; exact ⟨s, hs, rfl⟩
  | cons c ws ih =>
    intro hws s n ⟨h1, h2, h3⟩
    simp only [isWhite, List.all_cons, Bool.and_eq_true] at hws
    have hr : ({ s with bytes := s.bytes + 1 } : scanner).stepFn c
        = ({ s with bytes := s.bytes + 1, step := stateEndValue }, scanSkipSpace) := by
      simp [scanner.stepFn, h1, stateEndValueFn, h2, hws.1]
    obtain ⟨s', g1, g2⟩ := ih hws.2 ({ s with bytes := s.bytes + 1, step := stateEndValue })
      (n + 1) ⟨rfl, h2, h3⟩
    refine ⟨s', g1, ?_⟩
    rw [List.cons_append, readValueLoop_continue err all s _ c _ n _ hr (by decide) (by decide)
      (by decide) (by decide), g2]
    congr 1; simp; omega

/-- The scanner inside the literal `null`, behind its first byte. -/
theorem null_inv (err : GoError) (all : List Nat) (σ : List parseKind) (S : scanner) (N : Nat)
    (bs : List Nat) (s : scanner) (n : Nat) (h1 : s.step = stateN) (h2 : s.parseState = σ)
    (h3 : s.err = none) (h : readValueLoop err all s bs n = (S, N, none)) :
    ∃ (rest : List Nat) (s' : scanner), bs = 117 :: 108 :: 108 :: rest ∧
      St s' stateEndValue σ ∧ readValueLoop err all s' rest (n + 3) = (S, N, none) := by
  have key : ∀ (bs : List Nat) (s : scanner) (n : Nat) (st next : stateFn) (want : Nat)
      (ctx : List Nat), s.step = st →
      (∀ (s0 : scanner) (c : Nat), s0.step = st → s0.stepFn c = stateKeyword s0 c want next ctx) →
      readValueLoop err all s bs n = (S, N, none) →
      ∃ rest, bs = want :: rest ∧
        readValueLoop err all ({ s with bytes := s.bytes + 1, step := next }) rest (n + 1)
          = (S, N, none) := by
    intro bs s n st next want ctx hst hfn h
    cases bs with
    | nil =>
      exfalso
      refine readValueLoop_nil_fail err all s S n N ?_ h
      rw [hfn s 32 hst]
      unfold stateKeyword scanner.error
      split_ifs <;> simp
    | cons c bs =>
      by_cases hc : c = want
      · subst hc
        have hr : ({ s with bytes := s.bytes + 1 } : scanner).stepFn c
            = ({ s with bytes := s.bytes + 1, step := next }, scanContinue) := by
          rw [hfn ({ s with bytes := s.bytes + 1 }) c hst]; simp [stateKeyword]
        rw [readValueLoop_continue err all s _ c bs n _ hr (by decide) (by decide) (by decide)
          (by decide)] at h
        exact ⟨bs, rfl, h⟩
      · exfalso
        refine readValueLoop_error err all s S c bs n N ctx ?_ h
        rw [hfn ({ s with bytes := s.bytes + 1 }) c hst]; simp [stateKeyword, hc]
  obtain ⟨r1, e1, g1⟩ := key bs s n stateN stateNu 117
    (str "in literal null (expecting 'u')") h1
    (fun s0 c h0 => by simp [scanner.stepFn, h0]) h
  obtain ⟨r2, e2, g2⟩ := key r1 _ _ stateNu stateNul 108
    (str "in literal null (expecting 'l')") rfl
    (fun s0 c h0 => by simp [scanner.stepFn, h0]) g1
  obtain ⟨r3, e3, g3⟩ := key r2 _ _ stateNul stateEndValue 108
    (str "in literal null (expecting 'l')") rfl
    (fun s0 c h0 => by simp [scanner.stepFn, h0]) g2
  refine ⟨r3, _, ?_, ?_, g3⟩
  · rw [e1, e2, e3]
  · exact ⟨rfl, h2, h3⟩

theorem beginOp_ite {p : Prop} [Decidable p] {a b : scanner × scanCode}
    (ha : beginOp a) (hb : beginOp b) : beginOp (if p then a else b) := by
  split_ifs <;> assumption

theorem pushParseState_beginOp (s : scanner) (c : Nat) (p : parseKind) (op : scanCode)
    (h : op = scanBeginObject ∨ op = scanBeginArray) : beginOp (s.pushParseState c p op) := by
  unfold scanner.pushParseState
  refine beginOp_ite ?_ (Or.inr (Or.inr (Or.inr rfl)))
  rcases h with h | h
  · exact Or.inl h
  · exact Or.inr (Or.inl h)

theorem stateBeginValueFn_beginOp (s : scanner) (c : Nat) (hc : isSpace c = false) :
    beginOp (stateBeginValueFn s c) := by
  unfold stateBeginValueFn
  rw [if_neg (by simp [hc])]
  refine beginOp_ite (pushParseState_beginOp _ _ _ _ (Or.inl rfl)) (beginOp_ite
    (pushParseState_beginOp _ _ _ _ (Or.inr rfl)) ?_)
  have lit : ∀ x : scanner, beginOp (x, scanBeginLiteral) := fun _ => Or.inr (Or.inr (Or.inl rfl))
  exact beginOp_ite (lit _) (beginOp_ite (lit _) (beginOp_ite (lit _) (beginOp_ite (lit _)
    (beginOp_ite (lit _) (beginOp_ite (lit _) (beginOp_ite (lit _)
    (Or.inr (Or.inr (Or.inr rfl)))))))))

/-- In front of a value, a byte that is not white space is counted when the
`readValue` loop succeeds. -/
theorem readValueLoop_begin_count (err : GoError) (all : List Nat) (s S : scanner) (c : Nat)
    (rest : List Nat) (n N : Nat) (σ : List parseKind) (hs : St s stateBeginValue σ)
    (hc : isSpace c = false) (h : readValueLoop err all s (c :: rest) n = (S, N, none)) :
    n + 1 ≤ N := by
  have hstep : ({ s with bytes := s.bytes + 1 } : scanner).stepFn c
      = stateBeginValueFn { s with bytes := s.bytes + 1 } c := by
    simp [scanner.stepFn, hs.1]
  have hwf : wf ({ s with bytes := s.bytes + 1 } : scanner) := fun h0 => by
    rw [show ({ s with bytes := s.bytes + 1 } : scanner).step = s.step from rfl, hs.1] at h0
    cases h0
  have hok := stepFn_stepOK _ c hwf
  have hop := stateBeginValueFn_beginOp ({ s with bytes := s.bytes + 1 }) c hc
  rw [← hstep] at hop
  obtain ⟨s1, op, hr⟩ : ∃ s1 op, ({ s with bytes := s.bytes + 1 } : scanner).stepFn c = (s1, op) :=
    ⟨_, _, rfl⟩
  rw [hr] at hop hok
  rcases hop with h1 | h1 | h1 | h1 <;> simp only [] at h1 <;> subst h1
  · rw [readValueLoop_continue err all s _ c rest n _ hr (by decide) (by decide) (by decide)
      (by decide)] at h
    exact readValueLoop_ge err all _ _ _ _ _ hok.1 h
  · rw [readValueLoop_continue err all s _ c rest n _ hr (by decide) (by decide) (by decide)
      (by decide)] at h
    exact readValueLoop_ge err all _ _ _ _ _ hok.1 h
  · rw [readValueLoop_continue err all s _ c rest n _ hr (by decide) (by decide) (by decide)
      (by decide)] at h
    exact readValueLoop_ge err all _ _ _ _ _ hok.1 h
  · have he := hok.2 rfl
    rw [readValueLoop] at h
    simp only [hr, Prod.mk.injEq] at h
    rw [h.2.2] at he
    cases he

/-- The closing brace of the top-level object, behind a member. -/
theorem readValueLoop_close (err : GoError) (all : List Nat) (s S : scanner) (rest : List Nat)
    (n N : Nat) (hs : St s stateEndValue [parseObjectValue])
    (h : readValueLoop err all s (125 :: rest) n = (S, N, none)) : N = n + 1 := by
  obtain ⟨h1, h2, h3⟩ := hs
  rw [readValueLoop] at h
  simp [scanner.stepFn, h1, stateEndValueFn, h2, isSpace, scanner.popParseState,
    stateEndTopFn] at h
  omega

/-- The closing brace of the empty top-level object. -/
theorem readValueLoop_close_empty (err : GoError) (all : List Nat) (s S : scanner)
    (rest : List Nat) (n N : Nat) (hs : St s stateBeginStringOrEmpty [parseObjectKey])
    (h : readValueLoop err all s (125 :: rest) n = (S, N, none)) : N = n + 1 := by
  obtain ⟨h1, h2, h3⟩ := hs
  rw [readValueLoop] at h
  simp [scanner.stepFn, h1, stateEndValueFn, h2, isSpace, scanner.popParseState,
    stateEndTopFn] at h
  omega

set_option maxHeartbeats 2000000 in
/-- The scanner at the value of a member of the top-level object: when the
`readValue` loop succeeds, the value is a string or `null` followed by a comma or
the closing brace, or it begins with a byte `c` of another kind of value. -/
theorem value_inv (err : GoError) (all : List Nat) (S : scanner) (N : Nat) (bs : List Nat)
    (s : scanner) (n : Nat) (hs : St s stateBeginValue [parseObjectValue])
    (h : readValueLoop err all s bs n = (S, N, none)) :
    (∃ (ws3 : List Nat) (v : JValue) (ws4 : List Nat) (sep : Nat) (rest : List Nat),
        isWhite ws3 = true ∧ v.valid = true ∧ v.plain = true ∧
        isWhite ws4 = true ∧ bs = ws3 ++ (v.render ++ (ws4 ++ sep :: rest)) ∧
        ((sep = 125 ∧ N = n + (ws3 ++ (v.render ++ ws4)).length + 1) ∨
         (sep = 44 ∧ ∃ s', St s' stateBeginString [parseObjectKey] ∧
            readValueLoop err all s' rest (n + (ws3 ++ (v.render ++ ws4)).length + 1)
              = (S, N, none)))) ∨
      (∃ (ws3 : List Nat) (c : Nat) (junk : List Nat), isWhite ws3 = true ∧ isSpace c = false ∧ c ≠ 34 ∧ c ≠ 110 ∧
        bs = ws3 ++ c :: junk ∧ n + ws3.length + 1 ≤ N) := by
  obtain ⟨ws3, r4, rfl, hw3, hr4⟩ := ws_split bs
  obtain ⟨s5, hs5, e5⟩ := readValueLoop_ws_begin err all _ stateBeginValue (Or.inl rfl) ws3 r4 hw3
    s n hs
  rw [e5] at h
  rcases hr4 with rfl | ⟨c, junk, rfl, hc⟩
  · exfalso
    refine readValueLoop_nil_fail err all s5 S _ N ?_ h
    simp [scanner.stepFn, hs5.1, stateBeginValueFn, isSpace]
  -- the value behind the white space, when it is a string or `null`
  have hafter : ∀ (v : JValue) (r5 : List Nat) (s6 : scanner), v.valid = true →
      v.plain = true → junk = v.render.tail ++ r5 → v.render = c :: v.render.tail →
      St s6 stateEndValue [parseObjectValue] →
      readValueLoop err all s6 r5 (n + ws3.length + v.render.length) = (S, N, none) →
      ∃ (w3 : List Nat) (v : JValue) (ws4 : List Nat) (sep : Nat) (rest : List Nat),
        isWhite w3 = true ∧ v.valid = true ∧ v.plain = true ∧
        isWhite ws4 = true ∧ ws3 ++ c :: junk = w3 ++ (v.render ++ (ws4 ++ sep :: rest)) ∧
        ((sep = 125 ∧ N = n + (w3 ++ (v.render ++ ws4)).length + 1) ∨
         (sep = 44 ∧ ∃ s', St s' stateBeginString [parseObjectKey] ∧
            readValueLoop err all s' rest (n + (w3 ++ (v.render ++ ws4)).length + 1)
              = (S, N, none))) := by
    intro v r5 s6 hv hp hjunk hrender hs6 h6
    obtain ⟨ws4, r6, rfl, hw4, hr6⟩ := ws_split r5
    obtain ⟨s7, hs7, e7⟩ := readValueLoop_ws_end err all parseObjectValue [] r6 ws4 hw4 s6 _ hs6
    rw [e7] at h6
    rcases hr6 with rfl | ⟨sep, rest, rfl, hsep⟩
    · exfalso
      refine readValueLoop_nil_fail err all s7 S _ N ?_ h6
      simp [scanner.stepFn, hs7.1, stateEndValueFn, hs7.2.1, isSpace]
    have hbytes : ws3 ++ c :: junk = ws3 ++ (v.render ++ (ws4 ++ sep :: rest)) := by
      rw [hjunk, hrender]; simp
    have hcount : n + ws3.length + v.render.length + ws4.length
        = n + (ws3 ++ (v.render ++ ws4)).length := by
      simp only [List.length_append]; omega
    rw [hcount] at h6
    by_cases h44 : sep = 44
    · subst h44
      have hr : ({ s7 with bytes := s7.bytes + 1 } : scanner).stepFn 44
          = ({ s7 with bytes := s7.bytes + 1, parseState := [parseObjectKey],
                       step := stateBeginString }, scanObjectValue) := by
        simp [scanner.stepFn, hs7.1, stateEndValueFn, hs7.2.1, isSpace]
      rw [readValueLoop_continue err all s7 _ 44 rest _ _ hr (by decide) (by decide) (by decide)
        (by decide)] at h6
      exact ⟨ws3, v, ws4, 44, rest, hw3, hv, hp, hw4, hbytes, Or.inr ⟨rfl,
        { s7 with bytes := s7.bytes + 1, parseState := [parseObjectKey],
                  step := stateBeginString },
        ⟨rfl, rfl, hs7.2.2⟩, h6⟩⟩
    · by_cases h125 : sep = 125
      · subst h125
        have := readValueLoop_close err all s7 S rest _ N hs7 h6
        exact ⟨ws3, v, ws4, 125, rest, hw3, hv, hp, hw4, hbytes, Or.inl ⟨rfl, this⟩⟩
      · exfalso
        refine readValueLoop_error err all s7 S sep rest _ N
          (str "after object key:value pair") ?_ h6
        simp [scanner.stepFn, hs7.1, stateEndValueFn, hs7.2.1, hsep, h44, h125]
  by_cases hq : c = 34
  · left
    subst hq
    have hr : ({ s5 with bytes := s5.bytes + 1 } : scanner).stepFn 34
        = ({ s5 with bytes := s5.bytes + 1, step := stateInString }, scanBeginLiteral) := by
      simp [scanner.stepFn, hs5.1, stateBeginValueFn, isSpace]
    rw [readValueLoop_continue err all s5 _ 34 junk _ _ hr (by decide) (by decide) (by decide)
      (by decide)] at h
    obtain ⟨cs, b2, r5, s6, g1, g2, g3, g4, g5⟩ := string_inv err all _ S N junk .plain
      ({ s5 with bytes := s5.bytes + 1, step := stateInString }) _ rfl hs5.2.1 hs5.2.2 rfl h
    simp only [StrMode.pre, List.nil_append] at g3
    have hrender : (JValue.string cs).render = 34 :: b2 := by
      simp [JValue.render, stringText, g3]
    refine hafter (.string cs) r5 s6 (by simpa [JValue.valid] using g1) rfl
      (by rw [hrender]; exact g2) (by rw [hrender]; rfl) g4 ?_
    rw [← g5, hrender]; congr 1; simp; omega
  · by_cases hn : c = 110
    · left
      subst hn
      have hr : ({ s5 with bytes := s5.bytes + 1 } : scanner).stepFn 110
          = ({ s5 with bytes := s5.bytes + 1, step := stateN }, scanBeginLiteral) := by
        simp [scanner.stepFn, hs5.1, stateBeginValueFn, isSpace]
      rw [readValueLoop_continue err all s5 _ 110 junk _ _ hr (by decide) (by decide)
        (by decide) (by decide)] at h
      obtain ⟨r5, s6, g1, g2, g3⟩ := null_inv err all _ S N junk
        ({ s5 with bytes := s5.bytes + 1, step := stateN }) _ rfl hs5.2.1 hs5.2.2 h
      refine hafter .null r5 s6 rfl rfl (by rw [g1]; rfl) rfl g2 ?_
      rw [← g3]; congr 1
    · right
      exact ⟨ws3, c, junk, hw3, hc, hq, hn, rfl,
        readValueLoop_begin_count err all s5 S c junk _ N _ hs5 hc h⟩

set_option maxHeartbeats 2000000 in
/-- The scanner at the name of a member of the top-level object: when the
`readValue` loop succeeds, the object is closed at once (only where it may be
empty), or a well-formed name and a colon follow. -/
theorem key_inv (err : GoError) (all : List Nat) (S : scanner) (N : Nat) (bs : List Nat)
    (s : scanner) (n : Nat) (st : stateFn)
    (hst : st = stateBeginString ∨ st = stateBeginStringOrEmpty)
    (hs : St s st [parseObjectKey])
    (h : readValueLoop err all s bs n = (S, N, none)) :
    (st = stateBeginStringOrEmpty ∧ ∃ (ws rest : List Nat), isWhite ws = true ∧
        bs = ws ++ 125 :: rest ∧ N = n + ws.length + 1) ∨
      (∃ (ws1 : List Nat) (key : List JChar) (ws2 rest : List Nat) (s' : scanner),
        isWhite ws1 = true ∧ validChars key = true ∧ isWhite ws2 = true ∧
        bs = ws1 ++ (stringText key ++ (ws2 ++ 58 :: rest)) ∧
        St s' stateBeginValue [parseObjectValue] ∧
        readValueLoop err all s' rest (n + (ws1 ++ (stringText key ++ ws2)).length + 1)
          = (S, N, none)) := by
  obtain ⟨ws1, r1, rfl, hw1, hr1⟩ := ws_split bs
  obtain ⟨s1, hs1, e1⟩ := readValueLoop_ws_begin err all _ st
    (by rcases hst with h | h <;> simp [h]) ws1 r1 hw1 s n hs
  rw [e1] at h
  rcases hr1 with rfl | ⟨c1, t1, rfl, hc1⟩
  · exfalso
    refine readValueLoop_nil_fail err all s1 S _ N ?_ h
    rcases hst with h0 | h0 <;> subst h0 <;>
      simp [scanner.stepFn, hs1.1, stateBeginStringFn, isSpace]
  by_cases hq : c1 = 34
  · right
    subst hq
    have hr : ({ s1 with bytes := s1.bytes + 1 } : scanner).stepFn 34
        = ({ s1 with bytes := s1.bytes + 1, step := stateInString }, scanBeginLiteral) := by
      rcases hst with h0 | h0 <;> subst h0 <;>
        simp [scanner.stepFn, hs1.1, stateBeginStringFn, isSpace]
    rw [readValueLoop_continue err all s1 _ 34 t1 _ _ hr (by decide) (by decide) (by decide)
      (by decide)] at h
    obtain ⟨key, b1, r2, s2, g1, g2, g3, g4, g5⟩ := string_inv err all _ S N t1 .plain
      ({ s1 with bytes := s1.bytes + 1, step := stateInString }) _ rfl hs1.2.1 hs1.2.2 rfl h
    simp only [StrMode.pre, List.nil_append] at g3
    have hkey : stringText key = 34 :: b1 := by simp [stringText, g3]
    subst g2
    obtain ⟨ws2, r3, rfl, hw2, hr3⟩ := ws_split r2
    obtain ⟨s3, hs3, e3⟩ := readValueLoop_ws_end err all parseObjectKey [] r3 ws2 hw2 s2 _ g4
    rw [e3] at g5
    rcases hr3 with rfl | ⟨c3, t3, rfl, hc3⟩
    · exfalso
      refine readValueLoop_nil_fail err all s3 S _ N ?_ g5
      simp [scanner.stepFn, hs3.1, stateEndValueFn, hs3.2.1, isSpace]
    by_cases hcolon : c3 = 58
    · subst hcolon
      have hr3 : ({ s3 with bytes := s3.bytes + 1 } : scanner).stepFn 58
          = ({ s3 with bytes := s3.bytes + 1, parseState := [parseObjectValue],
                       step := stateBeginValue }, scanObjectKey) := by
        simp [scanner.stepFn, hs3.1, stateEndValueFn, hs3.2.1, isSpace]
      rw [readValueLoop_continue err all s3 _ 58 t3 _ _ hr3 (by decide) (by decide) (by decide)
        (by decide)] at g5
      refine ⟨ws1, key, ws2, t3,
        { s3 with bytes := s3.bytes + 1, parseState := [parseObjectValue],
                  step := stateBeginValue },
        hw1, g1, hw2, by rw [hkey]; simp, ⟨rfl, rfl, hs3.2.2⟩, ?_⟩
      rw [← g5]; congr 1
      rw [hkey]; simp only [List.length_append, List.length_cons]; omega
    · exfalso
      refine readValueLoop_error err all s3 S c3 t3 _ N (str "after object key") ?_ g5
      simp [scanner.stepFn, hs3.1, stateEndValueFn, hs3.2.1, hc3, hcolon]
  · rcases hst with h0 | h0
    · exfalso
      subst h0
      refine readValueLoop_error err all s1 S c1 t1 _ N
        (str "looking for beginning of object key string") ?_ h
      simp [scanner.stepFn, hs1.1, stateBeginStringFn, hc1, hq]
    · subst h0
      by_cases hb : c1 = 125
      · left
        subst hb
        exact ⟨rfl, ws1, t1, hw1, rfl, readValueLoop_close_empty err all s1 S t1 _ N hs1 h⟩
      · exfalso
        refine readValueLoop_error err all s1 S c1 t1 _ N
          (str "looking for beginning of object key string") ?_ h
        simp [scanner.stepFn, hs1.1, stateBeginStringFn, hc1, hq, hb]

/-- One member, read by a successful `readValue` loop. -/
theorem member_step (err : GoError) (all : List Nat) (S : scanner) (N : Nat) (bs : List Nat)
    (s : scanner) (n : Nat) (st : stateFn)
    (hst : st = stateBeginString ∨ st = stateBeginStringOrEmpty)
    (hs : St s st [parseObjectKey])
    (h : readValueLoop err all s bs n = (S, N, none)) :
    (st = stateBeginStringOrEmpty ∧ ∃ (ws rest : List Nat), isWhite ws = true ∧
        bs = ws ++ 125 :: rest ∧ N = n + ws.length + 1) ∨
      (∃ (m : JMember) (rest : List Nat), m.ok = true ∧ bs = m.text ++ 125 :: rest ∧
        N = n + m.text.length + 1) ∨
      (∃ (m : JMember) (rest : List Nat) (s' : scanner), m.ok = true ∧
        bs = m.text ++ 44 :: rest ∧ St s' stateBeginString [parseObjectKey] ∧
        readValueLoop err all s' rest (n + m.text.length + 1) = (S, N, none)) ∨
      BadStart bs n N [] := by
  rcases key_inv err all S N bs s n st hst hs h with
    h1 | ⟨ws1, key, ws2, r, s', hw1, hkey, hw2, hbs, hs', h'⟩
  · exact Or.inl h1
  right
  rcases value_inv err all S N r s' _ hs' h' with
    ⟨ws3, v, ws4, sep, rest, hw3, hv, hp, hw4, hr, hsep⟩ | ⟨ws3, c, junk, hw3, hc, hq, hn, hr, hN⟩
  · have hok : (JMember.mk ws1 key ws2 ws3 v ws4).ok = true := by
      simp [JMember.ok, hw1, hkey, hw2, hw3, hv, hw4, hp]
    have hbytes : bs = (JMember.mk ws1 key ws2 ws3 v ws4).text ++ sep :: rest := by
      rw [hbs, hr]; simp [JMember.text, memberText]
    have hcount : n + (ws1 ++ (stringText key ++ ws2)).length + 1
          + (ws3 ++ (v.render ++ ws4)).length + 1
        = n + (JMember.mk ws1 key ws2 ws3 v ws4).text.length + 1 := by
      simp only [JMember.text, memberText, List.length_append, List.length_cons]; omega
    rcases hsep with ⟨rfl, hN⟩ | ⟨rfl, s'', hs'', h''⟩
    · exact Or.inl ⟨_, rest, hok, hbytes, by rw [hN, hcount]⟩
    · exact Or.inr (Or.inl ⟨_, rest, s'', hok, hbytes, hs'', by rw [← hcount]; exact h''⟩)
  · refine Or.inr (Or.inr ⟨ws1, key, ws2, ws3, c, junk, hw1, hkey, hw2, hw3, hc, hq, hn, ?_, ?_⟩)
    · rw [hbs, hr]; rfl
    · simp only [renderHead, List.nil_append, List.length_append, List.length_cons] at hN ⊢
      omega

theorem BadStart_cons (m : JMember) (rest : List Nat) (n N : Nat) (pre : List JMember)
    (h : BadStart rest (n + m.text.length + 1) N pre) :
    BadStart (m.text ++ 44 :: rest) n N (m :: pre) := by
  obtain ⟨ws1, key, ws2, ws3, c, junk, h1, h2, h3, h4, h5, h6, h7, h8, h9⟩ := h
  refine ⟨ws1, key, ws2, ws3, c, junk, h1, h2, h3, h4, h5, h6, h7, ?_, ?_⟩
  · rw [h8]; simp [renderHead]
  · simp only [renderHead, List.length_append, List.length_cons] at h9 ⊢
    omega

theorem FlatOutcome_last (m : JMember) (rest : List Nat) (n N : Nat) (hok : m.ok = true)
    (hN : N = n + m.text.length + 1) : FlatOutcome (m.text ++ 125 :: rest) n N := by
  simp only [JMember.ok, Bool.and_eq_true] at hok
  obtain ⟨⟨⟨⟨⟨⟨h1, h2⟩, h3⟩, h4⟩, h5⟩, h6⟩, h7⟩ := hok
  refine Or.inl ⟨.one m.ws1 m.key m.ws2 m.ws3 m.v m.ws4, rest, ?_, h7, ?_, ?_⟩
  · simp [JMembers.valid, h1, h2, h3, h4, h5, h6]
  · rw [JMembers.render_one]; rfl
  · rw [JMembers.render_one]; exact hN

theorem FlatOutcome_cons (m : JMember) (rest : List Nat) (n N : Nat) (hok : m.ok = true)
    (h : FlatOutcome rest (n + m.text.length + 1) N) :
    FlatOutcome (m.text ++ 44 :: rest) n N := by
  rcases h with ⟨ms, r, g1, g2, g3, g4⟩ | ⟨pre, g1, g2⟩
  · simp only [JMember.ok, Bool.and_eq_true] at hok
    obtain ⟨⟨⟨⟨⟨⟨h1, h2⟩, h3⟩, h4⟩, h5⟩, h6⟩, h7⟩ := hok
    refine Or.inl ⟨.cons m.ws1 m.key m.ws2 m.ws3 m.v m.ws4 ms, r, ?_, ?_, ?_, ?_⟩
    · simp [JMembers.valid, h1, h2, h3, h4, h5, h6, g1]
    · simp [JMembers.plain, h7, g2]
    · rw [JMembers.render_cons, g3]; simp [JMember.text]
    · rw [JMembers.render_cons, g4]
      simp only [JMember.text, List.length_append, List.length_cons]; omega
  · refine Or.inr ⟨m :: pre, ?_, BadStart_cons m rest n N pre g2⟩
    intro x hx
    rcases List.mem_cons.mp hx with rfl | hx
    · exact hok
    · exact g1 x hx

/-- The members of the top-level object behind a comma, read by a successful
`readValue` loop. -/
theorem members_inv (err : GoError) (all : List Nat) (S : scanner) (N : Nat) :
    ∀ (L : Nat) (bs : List Nat), bs.length ≤ L → ∀ (s : scanner) (n : Nat),
      St s stateBeginString [parseObjectKey] →
      readValueLoop err all s bs n = (S, N, none) → FlatOutcome bs n N := by
  intro L
  induction L with
  | zero =>
    intro bs hbs s n hs h
    rcases member_step err all S N bs s n _ (Or.inl rfl) hs h with
      ⟨h0, _⟩ | ⟨m, rest, hok, hb, hN⟩ | ⟨m, rest, s', hok, hb, hs', h'⟩ | hbad
    · cases h0
    · rw [hb]; exact FlatOutcome_last m rest n N hok hN
    · rw [hb] at hbs; simp at hbs
    · exact Or.inr ⟨[], by simp, hbad⟩
  | succ L ih =>
    intro bs hbs s n hs h
    rcases member_step err all S N bs s n _ (Or.inl rfl) hs h with
      ⟨h0, _⟩ | ⟨m, rest, hok, hb, hN⟩ | ⟨m, rest, s', hok, hb, hs', h'⟩ | hbad
    · cases h0
    · rw [hb]; exact FlatOutcome_last m rest n N hok hN
    · rw [hb]
      refine FlatOutcome_cons m rest n N hok (ih rest ?_ s' _ hs' h')
      rw [hb] at hbs
      simp only [List.length_append, List.length_cons] at hbs
      omega
    · exact Or.inr ⟨[], by simp, hbad⟩

/-- The top-level object behind its opening brace, read by a successful
`readValue` loop: an empty object, or members as in `FlatOutcome`. -/
theorem object_inv (err : GoError) (all : List Nat) (S : scanner) (N : Nat) (bs : List Nat)
    (s : scanner) (n : Nat) (hs : St s stateBeginStringOrEmpty [parseObjectKey])
    (h : readValueLoop err all s bs n = (S, N, none)) :
    (∃ (ws rest : List Nat), isWhite ws = true ∧ bs = ws ++ 125 :: rest ∧ N = n + ws.length + 1) ∨
      FlatOutcome bs n N := by
  rcases member_step err all S N bs s n _ (Or.inr rfl) hs h with
    ⟨_, h0⟩ | ⟨m, rest, hok, hb, hN⟩ | ⟨m, rest, s', hok, hb, hs', h'⟩ | hbad
  · exact Or.inl h0
  · right; rw [hb]; exact FlatOutcome_last m rest n N hok hN
  · right; rw [hb]
    exact FlatOutcome_cons m rest n N hok
      (members_inv err all S N rest.length rest (Nat.le_refl _) s' _ hs' h')
  · exact Or.inr (Or.inr ⟨[], by simp, hbad⟩)

theorem Ext_objectLoopRest (t : structType) (os : List Nat) (ol fuel : Nat)
    (r : decodeState × structValue) : Ext r.1 (objectLoopRest t os ol fuel r).1 := by
  unfold objectLoopRest
  simp only []
  have h7 : Ext r.1 (if r.1.opcode = scanSkipSpace then r.1.scanWhile scanSkipSpace else r.1) :=
    Ext_ite (Ext_scanWhile _ _) (Ext.refl _)
  generalize (if r.1.opcode = scanSkipSpace then r.1.scanWhile scanSkipSpace else r.1) = d7
    at h7 ⊢
  have h8 : Ext r.1 (if d7.hasErrorContext then
      { d7 with FieldStack := d7.FieldStack.take ol, errorStruct := os } else d7) :=
    h7.trans (Ext_ite (Ext.of_eq rfl rfl) (Ext.refl _))
  generalize (if d7.hasErrorContext then
      { d7 with FieldStack := d7.FieldStack.take ol, errorStruct := os } else d7) = d8 at h8 ⊢
  exact Ext_ite1 h8 (Ext_ite1 h8 (Ext_ite1 (h8.trans (Ext_panicked _))
    (h8.trans (Ext_objectLoop _ _ _ _ _ _))))

/-- One round of the member loop up to the value of the member, with the
intermediate states named. -/
theorem objectLoop_key (t : structType) (origStruct : List Nat) (origLen fuel : Nat)
    (d : decodeState) (v : structValue) (d1 d2 : decodeState) (key : List Nat)
    (d3 d4 d5 : decodeState)
    (h1 : d.scanWhile scanSkipSpace = d1) (ho1 : d1.opcode = scanBeginLiteral)
    (h2 : d1.rescanLiteral = d2)
    (hk : unquoteBytes ((d2.data.take d2.readIndex).drop d1.readIndex) = some key)
    (h3s : ∀ name, lookupField t key = some name →
      d3 = { d2 with hasErrorContext := true, FieldStack := d2.FieldStack ++ [name],
                     errorStruct := t.name })
    (h3n : lookupField t key = none →
      d3 = if d2.disallowUnknownFields then d2.saveError (unknownFieldError key) else d2)
    (h4 : (if d3.opcode = scanSkipSpace then d3.scanWhile scanSkipSpace else d3) = d4)
    (ho4 : d4.opcode = scanObjectKey)
    (h5 : d4.scanWhile scanSkipSpace = d5) :
    objectLoop t origStruct origLen (fuel + 1) d v
      = objectLoopRest t origStruct origLen fuel (d5.valueField (lookupField t key) v) := by
  cases hf : lookupField t key with
  | some name =>
    have h3 := h3s name hf
    subst h5 h4 h3 h2 h1
    rw [objectLoop]
    simp only [ho1, hk, hf]
    simp only [ho4, objectLoopRest]
    simp
  | none =>
    have h3 := h3n hf
    subst h5 h4 h3 h2 h1
    rw [objectLoop]
    simp only [ho1, hk, hf]
    simp only [ho4, objectLoopRest]
    simp

set_option maxHeartbeats 1000000 in
/-- One round of the member loop of `object` up to the value of the member. -/
theorem objectLoop_to_value (t : structType) (d : decodeState) (pre ws1 : List Nat)
    (key : List JChar) (ws2 ws3 : List Nat) (c : Nat) (junk : List Nat) (τ : List parseKind)
    (st : stateFn) (sv : structValue) (fuel : Nat)
    (hdata : d.data = pre ++ (ws1 ++ (stringText key ++ (ws2 ++ 58 :: (ws3 ++ c :: junk)))))
    (hoff : d.off = pre.length)
    (hst : st = stateBeginString ∨ st = stateBeginStringOrEmpty)
    (hs : St d.scan st (parseObjectKey :: τ))
    (hw1 : isWhite ws1 = true) (hkey : validChars key = true) (hw2 : isWhite ws2 = true)
    (hw3 : isWhite ws3 = true) (hc : isSpace c = false)
    (hfs : d.FieldStack = []) (hes : d.errorStruct = []) :
    ∃ s4 : scanner, St s4 stateBeginValue (parseObjectValue :: τ) ∧
      objectLoop t [] 0 (fuel + 1) d sv
        = objectLoopRest t [] 0 fuel
            ((atValue t d (stringValue key) (s4.stepFn c).1 (s4.stepFn c).2
              (pre.length + (ws1 ++ (stringText key ++ (ws2 ++ 58 :: ws3))).length + 1)).valueField
              (lookupField t (stringValue key)) sv) := by
  have hst34 : stringText key = 34 :: (key.flatMap JChar.text ++ [34]) := by
    simp [stringText]
  obtain ⟨R3, hR3⟩ : ∃ R, R = ws3 ++ c :: junk := ⟨_, rfl⟩
  obtain ⟨R2, hR2⟩ : ∃ R, R = ws2 ++ 58 :: R3 := ⟨_, rfl⟩
  rw [← hR3, ← hR2] at hdata
  -- d1: white space and the opening quotation mark of the name
  have hq := step_quote d.scan st (parseObjectKey :: τ)
    (by rcases hst with h | h <;> simp [h]) hs
  obtain ⟨s1, hs1⟩ : ∃ s1, s1 = (d.scan.stepFn 34).1 := ⟨_, rfl⟩
  rw [← hs1] at hq
  have e1 : d.scanWhile scanSkipSpace
      = { d with scan := s1, off := pre.length + ws1.length + 1, opcode := scanBeginLiteral } := by
    rw [scanWhile_ws d pre ws1 34 (key.flatMap JChar.text ++ [34] ++ R2)
      (by rw [hdata, hst34]; simp) hoff hw1
      (Skipping_begin hs (by rcases hst with h | h <;> simp [h]))
      (by rw [(step_quote d.scan st (parseObjectKey :: τ)
        (by rcases hst with h | h <;> simp [h]) hs).1]; simp),
      (step_quote d.scan st (parseObjectKey :: τ)
        (by rcases hst with h | h <;> simp [h]) hs).1, ← hs1]
  -- d2: the name
  obtain ⟨c2, hc2⟩ : ∃ c, c = (ws2 ++ [58]).headD 0 := ⟨_, rfl⟩
  have hR2' : R2 = c2 :: R2.tail := by rw [hR2, hc2]; exact head_tail_sep ws2 58 R3
  have hnum2 : numChar c2 = false := by
    rw [hc2]
    cases ws2 with
    | nil => decide
    | cons w ws =>
      simp only [isWhite, List.all_cons, Bool.and_eq_true] at hw2
      have := hw2.1
      simp [isSpace] at this
      simp [numChar]; omega
  have e2 : ({ d with scan := s1, off := pre.length + ws1.length + 1,
                      opcode := scanBeginLiteral } : decodeState).rescanLiteral
      = { d with scan := (stateEndValueFn s1 c2).1, opcode := (stateEndValueFn s1 c2).2,
                 off := pre.length + ws1.length + (stringText key).length + 1 } := by
    rw [rescanLiteral_literal _ (pre ++ ws1) (.string key) (by simpa [JValue.valid] using hkey)
      rfl c2 R2.tail (by simp only [hdata, JValue.render]; rw [← hR2']; simp)
      (by simp) hnum2]
    simp [JValue.render]
  have e_item : List.drop (pre.length + ws1.length + 1 - 1)
      (List.take (pre.length + ws1.length + (stringText key).length + 1 - 1) d.data)
      = stringText key := by
    rw [hdata]
    simp only [Nat.add_sub_cancel]
    have := take_drop_mid (pre ++ ws1) (stringText key) R2
    simpa [List.append_assoc] using this
  have hu := unquoteBytes_stringText key hkey
  obtain ⟨P2, hP2⟩ : ∃ P, P = pre ++ (ws1 ++ stringText key) := ⟨_, rfl⟩
  obtain ⟨P3, hP3⟩ : ∃ P, P = P2 ++ (ws2 ++ [58]) := ⟨_, rfl⟩
  have hdata2 : d.data = P2 ++ (ws2 ++ 58 :: R3) := by
    rw [hdata, hP2, hR2]; simp
  have hdata3 : d.data = P3 ++ (ws3 ++ c :: junk) := by
    rw [hdata2, hP3, hR3]; simp
  -- d4: the colon
  obtain ⟨s4, hs4⟩ : ∃ s, s = (stateEndValueFn s1 58).1 := ⟨_, rfl⟩
  have hcolon := stateEndValueFn_colon s1 τ hq.2.2.1 hq.2.2.2
  rw [← hs4] at hcolon
  refine ⟨s4, hcolon.2, ?_⟩
  have hk : unquoteBytes (List.drop
      ({ d with scan := s1, off := pre.length + ws1.length + 1,
                opcode := scanBeginLiteral } : decodeState).readIndex
      (List.take
        ({ d with scan := (stateEndValueFn s1 c2).1, opcode := (stateEndValueFn s1 c2).2,
                  off := pre.length + ws1.length + (stringText key).length + 1 }
          : decodeState).readIndex
        ({ d with scan := (stateEndValueFn s1 c2).1, opcode := (stateEndValueFn s1 c2).2,
                  off := pre.length + ws1.length + (stringText key).length + 1 }
          : decodeState).data))
      = some (stringValue key) := by
    simp only [decodeState.readIndex, e_item, hu]
  have h3s : ∀ name, lookupField t (stringValue key) = some name →
      atValue t d (stringValue key) (stateEndValueFn s1 c2).1 (stateEndValueFn s1 c2).2
        (pre.length + ws1.length + (stringText key).length + 1)
      = { ({ d with scan := (stateEndValueFn s1 c2).1, opcode := (stateEndValueFn s1 c2).2,
                    off := pre.length + ws1.length + (stringText key).length + 1 } : decodeState)
          with hasErrorContext := true,
               FieldStack := d.FieldStack ++ [name],
               errorStruct := t.name } := by
    intro name h
    simp [atValue, h, hfs, firstErr_none]
  have h3n : lookupField t (stringValue key) = none →
      atValue t d (stringValue key) (stateEndValueFn s1 c2).1 (stateEndValueFn s1 c2).2
        (pre.length + ws1.length + (stringText key).length + 1)
      = if d.disallowUnknownFields then
          ({ d with scan := (stateEndValueFn s1 c2).1, opcode := (stateEndValueFn s1 c2).2,
                    off := pre.length + ws1.length + (stringText key).length + 1 }
                : decodeState).saveError (unknownFieldError (stringValue key))
        else
          { d with scan := (stateEndValueFn s1 c2).1, opcode := (stateEndValueFn s1 c2).2,
                   off := pre.length + ws1.length + (stringText key).length + 1 } := by
    intro h
    cases hdis : d.disallowUnknownFields
    · simp [atValue, h, hfs, hes, firstErr_none, hdis]
    · cases hse : d.savedError <;>
        simp [atValue, h, hfs, hes, firstErr, hdis, hse, decodeState.saveError]
  have h4 := after_delim
    (atValue t d (stringValue key) (stateEndValueFn s1 c2).1 (stateEndValueFn s1 c2).2
        (pre.length + ws1.length + (stringText key).length + 1))
    s1 parseObjectKey τ hq.2.2.1 hq.2.2.2 P2 ws2 58 R3 hdata2
    (by rw [hP2]; simp [atValue]; omega) hw2 (by decide) (by rw [hc2]; rfl) (by rw [hc2]; rfl)
  rw [← hs4, hcolon.1] at h4
  have hne : (s4.stepFn c).2 ≠ scanSkipSpace := by
    have := stateBeginValueFn_beginOp s4 c hc
    have hstep : s4.stepFn c = stateBeginValueFn s4 c := by simp [scanner.stepFn, hcolon.2.1]
    rw [hstep]
    rcases this with h | h | h | h <;> rw [h] <;> decide
  have h5 := scanWhile_ws
    ({ atValue t d (stringValue key) (stateEndValueFn s1 c2).1 (stateEndValueFn s1 c2).2
        (pre.length + ws1.length + (stringText key).length + 1)
       with scan := s4, opcode := scanObjectKey, off := P2.length + ws2.length + 1 })
    P3 ws3 c junk hdata3 (by rw [hP3]; simp; omega) hw3
    (Skipping_begin hcolon.2 (Or.inl rfl)) hne
  have hstep := objectLoop_key t [] 0 fuel d sv _ _ (stringValue key) _ _ _
    e1 rfl e2 hk h3s h3n h4 rfl h5
  rw [hstep]
  congr 2
  simp only [atValue, hP3, hP2]
  congr 1
  simp only [List.length_append, List.length_cons, List.length_nil]
  omega

theorem saveError_bad (d : decodeState) (e : GoError) : bad (d.saveError e) := by
  unfold decodeState.saveError
  cases h : d.savedError with
  | some x => simp only [Option.isSome_some, if_true]; exact Or.inl (by rw [h]; simp)
  | none => simp only [Option.isSome_none, Bool.false_eq_true, if_false]; exact Or.inl (by simp)

theorem saveTypeError_bad (d : decodeState) (Value Typ : List Nat) (Offset : Nat) :
    bad (d.saveTypeError Value Typ Offset) := by
  unfold decodeState.saveTypeError
  cases h : d.savedError with
  | some x => simp only [Option.isSome_some, if_true]; exact Or.inl (by rw [h]; simp)
  | none =>
    simp only [Option.isSome_none, Bool.false_eq_true, if_false]
    split_ifs <;> exact Or.inl (by simp)

theorem bad_ite1 {p : Prop} [Decidable p] {a b : decodeState × structValue}
    (ha : bad a.1) (hb : bad b.1) : bad (if p then a else b).1 := by
  split_ifs <;> assumption

/-- Storing a literal that is neither a string nor `null` is an error. -/
theorem literalStore_bad (d : decodeState) (item typ : List Nat) (f : Option (List Nat))
    (v : structValue) (h34 : item.head? ≠ some 34) (h110 : item.head? ≠ some 110) :
    bad (d.literalStore item typ f v).1 := by
  unfold decodeState.literalStore
  split
  · exact saveError_bad _ _
  · rename_i c rest
    simp only [List.head?_cons, ne_eq, Option.some.injEq] at h34 h110
    rw [if_neg h110]
    refine bad_ite1 (saveTypeError_bad _ _ _ _) ?_
    rw [if_neg h34]
    exact bad_ite1 (Or.inr rfl) (saveTypeError_bad _ _ _ _)

theorem rescanLiteral_data (d : decodeState) : d.rescanLiteral.data = d.data := by
  unfold decodeState.rescanLiteral
  simp only []
  split <;> rfl

theorem head_drop_take (data : List Nat) (k m c : Nat)
    (h : (data.drop k).head? = some c) (x : Nat)
    (hx : ((data.take m).drop k).head? = some x) : x = c := by
  rw [List.drop_take] at hx
  cases hd : data.drop k with
  | nil => rw [hd] at h; cases h
  | cons y ys =>
    rw [hd] at h hx
    cases hm : m - k with
    | zero => rw [hm] at hx; cases hx
    | succ j =>
      rw [hm] at hx
      simp only [List.take_succ_cons, List.head?_cons, Option.some.injEq] at hx h
      omega

/-- The value of a member that begins with neither a string nor `null` leaves the
decoder with an error, when an unknown name was an error already. -/
theorem valueField_bad (d : decodeState) (f : Option (List Nat)) (v : structValue) (c : Nat)
    (hhead : (d.data.drop (d.off - 1)).head? = some c) (h34 : c ≠ 34) (h110 : c ≠ 110)
    (hf : f = none → d.savedError ≠ none) : bad (d.valueField f v).1 := by
  have hnone : f = none → ∀ d' : decodeState, Ext d d' → bad d' :=
    fun h d' hext => hext.bad (Or.inl (hf h))
  unfold decodeState.valueField
  split
  · split
    · exact ((Ext_skip _).trans (Ext_scanNext _)).bad (saveTypeError_bad _ _ _ _)
    · exact hnone rfl _ ((Ext_skip _).trans (Ext_scanNext _))
  · split
    · exact ((Ext_skip _).trans (Ext_scanNext _)).bad (saveTypeError_bad _ _ _ _)
    · exact hnone rfl _ ((Ext_skip _).trans (Ext_scanNext _))
  · simp only []
    split
    · refine literalStore_bad _ _ _ _ _ ?_ ?_
      · intro hx
        rw [rescanLiteral_data] at hx
        exact h34 (head_drop_take d.data _ _ c hhead 34 hx).symm
      · intro hx
        rw [rescanLiteral_data] at hx
        exact h110 (head_drop_take d.data _ _ c hhead 110 hx).symm
    · exact hnone rfl _ (Ext_rescanLiteral _)
  · exact Or.inr rfl

/-- One round of the member loop on a member whose value begins with neither a
string nor `null`: the loop ends with an error. -/
theorem objectLoop_bad_member (t : structType) (d : decodeState) (pre ws1 : List Nat)
    (key : List JChar) (ws2 ws3 : List Nat) (c : Nat) (junk : List Nat) (τ : List parseKind)
    (st : stateFn) (sv : structValue) (fuel : Nat)
    (hdata : d.data = pre ++ (ws1 ++ (stringText key ++ (ws2 ++ 58 :: (ws3 ++ c :: junk)))))
    (hoff : d.off = pre.length)
    (hst : st = stateBeginString ∨ st = stateBeginStringOrEmpty)
    (hs : St d.scan st (parseObjectKey :: τ))
    (hw1 : isWhite ws1 = true) (hkey : validChars key = true) (hw2 : isWhite ws2 = true)
    (hw3 : isWhite ws3 = true) (hc : isSpace c = false) (h34 : c ≠ 34) (h110 : c ≠ 110)
    (hfs : d.FieldStack = []) (hes : d.errorStruct = [])
    (hdis : d.disallowUnknownFields = true) :
    bad (objectLoop t [] 0 (fuel + 1) d sv).1 := by
  obtain ⟨s4, _, e⟩ := objectLoop_to_value t d pre ws1 key ws2 ws3 c junk τ st sv fuel hdata hoff
    hst hs hw1 hkey hw2 hw3 hc hfs hes
  rw [e]
  refine (Ext_objectLoopRest _ _ _ _ _).bad (valueField_bad _ _ _ c ?_ h34 h110 ?_)
  · simp only [atValue, Nat.add_sub_cancel, hdata]
    rw [show pre ++ (ws1 ++ (stringText key ++ (ws2 ++ 58 :: (ws3 ++ c :: junk))))
      = (pre ++ (ws1 ++ (stringText key ++ (ws2 ++ 58 :: ws3)))) ++ c :: junk by simp,
      ← List.length_append, List.drop_left]
    rfl
  · intro hf
    simp only [atValue, hf, hdis, if_true]
    cases d.savedError <;> simp [firstErr]

theorem plain_depth (v : JValue) (h : v.plain = true) : v.depth = 0 := by
  cases v <;> simp [JValue.plain] at h <;> rfl

theorem renderHead_length (ps : List JMember) : ps.length ≤ (renderHead ps).length := by
  induction ps with
  | nil => simp
  | cons m ps ih => simp only [renderHead, List.length_cons, List.length_append]; omega

/-- The member loop on members with strings and `null`s as values that are
followed by a member whose value is of another kind: the loop ends with an
error. -/
theorem objectLoop_bad_head (t : structType) (ws1 : List Nat) (key : List JChar)
    (ws2 ws3 : List Nat) (c : Nat) (junk : List Nat) (τ : List parseKind)
    (hτ : τ.length + 1 ≤ maxNestingDepth)
    (hw1 : isWhite ws1 = true) (hkey : validChars key = true) (hw2 : isWhite ws2 = true)
    (hw3 : isWhite ws3 = true) (hc : isSpace c = false) (h34 : c ≠ 34) (h110 : c ≠ 110) :
    ∀ (ps : List JMember), (∀ m ∈ ps, m.ok = true) →
    ∀ (d : decodeState) (pre : List Nat) (st : stateFn) (sv : structValue) (fuel : Nat),
      d.data = pre ++ (renderHead ps
        ++ (ws1 ++ (stringText key ++ (ws2 ++ 58 :: (ws3 ++ c :: junk))))) →
      d.off = pre.length → (st = stateBeginString ∨ st = stateBeginStringOrEmpty) →
      St d.scan st (parseObjectKey :: τ) → d.FieldStack = [] → d.errorStruct = [] →
      d.phasePanic = false → d.disallowUnknownFields = true → ps.length + 1 ≤ fuel →
      bad (objectLoop t [] 0 fuel d sv).1 := by
  intro ps
  induction ps with
  | nil =>
    intro _ d pre st sv fuel hdata hoff hst hs hfs hes _ hdis hfuel
    obtain ⟨fuel, rfl⟩ : ∃ k, fuel = k + 1 := ⟨fuel - 1, by simp at hfuel; omega⟩
    exact objectLoop_bad_member t d pre ws1 key ws2 ws3 c junk τ st sv fuel
      (by simpa [renderHead] using hdata) hoff hst hs hw1 hkey hw2 hw3 hc h34 h110 hfs hes hdis
  | cons m ps ih =>
    intro hok d pre st sv fuel hdata hoff hst hs hfs hes hp hdis hfuel
    obtain ⟨fuel, rfl⟩ : ∃ k, fuel = k + 1 := ⟨fuel - 1, by simp at hfuel; omega⟩
    have hm := hok m (List.mem_cons_self _ _)
    simp only [JMember.ok, Bool.and_eq_true] at hm
    obtain ⟨⟨⟨⟨⟨⟨g1, g2⟩, g3⟩, g4⟩, g5⟩, g6⟩, g7⟩ := hm
    obtain ⟨X, hX1, hX2, hloop⟩ := objectLoop_member t d pre m.ws1 m.key m.ws2 m.ws3 m.v m.ws4 44
      (renderHead ps ++ (ws1 ++ (stringText key ++ (ws2 ++ 58 :: (ws3 ++ c :: junk)))))
      τ st sv fuel
      (by rw [hdata]; simp [renderHead, JMember.text, memberText]) hoff hst hs g1 g2 g3 g4 g5 g6
      (Or.inl rfl) (by rw [plain_depth _ g7]; omega) hfs hes hp
    rw [if_neg (by decide)] at hloop
    rw [hloop]
    have hc44 := stateEndValueFn_comma X τ hX1 hX2
    refine ih (fun x hx => hok x (List.mem_cons_of_mem _ hx)) _
      (pre ++ (m.text ++ [44])) stateBeginString _ fuel ?_ ?_ (Or.inl rfl) hc44.2 rfl rfl hp hdis
      (by simp at hfuel; omega)
    · simp [afterMember, hdata, renderHead]
    · simp [afterMember, JMember.text, memberText]; omega

/-- Method `unmarshal` on an object in which a member value is of another kind
than string and `null`, behind members whose values are of these kinds, returns
an error. -/
theorem unmarshal_bad_object (t : structType) (ws0 : List Nat) (ps : List JMember)
    (ws1 : List Nat) (key : List JChar) (ws2 ws3 : List Nat) (c : Nat) (junk : List Nat)
    (sv : structValue) (hws : isWhite ws0 = true) (hok : ∀ m ∈ ps, m.ok = true)
    (hw1 : isWhite ws1 = true) (hkey : validChars key = true) (hw2 : isWhite ws2 = true)
    (hw3 : isWhite ws3 = true) (hc : isSpace c = false) (h34 : c ≠ 34) (h110 : c ≠ 110) :
    ((decodeState.init (ws0 ++ 123 :: (renderHead ps
        ++ (ws1 ++ (stringText key ++ (ws2 ++ 58 :: (ws3 ++ c :: junk)))))) true).unmarshal t sv).2
      ≠ none := by
  have hopen := open_object id 0 [] (by simp) (by simp [maxNestingDepth]) scanner.new.reset
    stateBeginValue (Or.inl rfl) St_new_reset
  rw [stepB_id] at hopen
  obtain ⟨-, hst, hop⟩ := hopen
  have hstart := unmarshal_start (ws0 ++ 123 :: (renderHead ps
      ++ (ws1 ++ (stringText key ++ (ws2 ++ 58 :: (ws3 ++ c :: junk)))))) true ws0 123
    (renderHead ps ++ (ws1 ++ (stringText key ++ (ws2 ++ 58 :: (ws3 ++ c :: junk)))))
    rfl hws (by rw [hop]; decide)
  apply unmarshal_of_bad
  rw [hstart]
  unfold decodeState.value
  simp only [hop]
  refine (Ext_scanNext _).bad ?_
  unfold decodeState.object
  refine objectLoop_bad_head t ws1 key ws2 ws3 c junk [] (by simp [maxNestingDepth]) hw1 hkey
    hw2 hw3 hc h34 h110 ps hok _ (ws0 ++ [123]) stateBeginStringOrEmpty sv _ ?_ ?_ (Or.inr rfl) hst
    rfl rfl rfl rfl ?_
  · simp [decodeState.init]
  · simp [decodeState.init]
  · have := renderHead_length ps
    simp [decodeState.init]
    omega

/-- Behind a complete top-level value the `readValue` loop reads no further. -/
theorem readValueLoop_top_end (err : GoError) (all : List Nat) (s S : scanner) (bs : List Nat)
    (n N : Nat) (hs : St s stateEndValue [])
    (h : readValueLoop err all s bs n = (S, N, none)) : N = n := by
  obtain ⟨h1, h2, h3⟩ := hs
  cases bs with
  | nil =>
    rw [readValueLoop] at h
    split_ifs at h <;> simp only [Prod.mk.injEq] at h
    · omega
    all_goals exact absurd h.2.2 (by simp)
  | cons c bs =>
    rw [readValueLoop] at h
    have hop : (({ s with bytes := s.bytes + 1 } : scanner).stepFn c).2 = scanEnd := by
      simp only [scanner.stepFn, h1, stateEndValueFn, h2, stateEndTopFn]
      split_ifs <;> rfl
    simp only [hop, Prod.mk.injEq] at h
    omega

theorem notObj_ite {p : Prop} [Decidable p] {a b : scanner × scanCode}
    (ha : a.2 ≠ scanBeginObject) (hb : b.2 ≠ scanBeginObject) :
    (if p then a else b).2 ≠ scanBeginObject := by
  split_ifs <;> assumption

/-- Only an opening brace gives the opcode `scanBeginObject`. -/
theorem stateBeginValueFn_notObject (s : scanner) (c : Nat) (hc : isSpace c = false)
    (h123 : c ≠ 123) : (stateBeginValueFn s c).2 ≠ scanBeginObject := by
  unfold stateBeginValueFn
  rw [if_neg (by simp [hc]), if_neg h123]
  have lit : ∀ x : scanner, (x, scanBeginLiteral).2 ≠ scanBeginObject := fun _ => by simp
  refine notObj_ite ?_ (notObj_ite (lit _) (notObj_ite (lit _) (notObj_ite (lit _)
    (notObj_ite (lit _) (notObj_ite (lit _) (notObj_ite (lit _) (notObj_ite (lit _) ?_)))))))
  · unfold scanner.pushParseState
    exact notObj_ite (by simp) (by simp [scanner.error])
  · simp [scanner.error]

/-- Storing a literal other than `null` in a struct is an error. -/
theorem literalStore_bad_none (d : decodeState) (item typ : List Nat) (v : structValue)
    (h110 : item.head? ≠ some 110) : bad (d.literalStore item typ none v).1 := by
  unfold decodeState.literalStore
  split
  · exact saveError_bad _ _
  · rename_i c rest
    simp only [List.head?_cons, ne_eq, Option.some.injEq] at h110
    rw [if_neg h110]
    refine bad_ite1 (saveTypeError_bad _ _ _ _) (bad_ite1 ?_
      (bad_ite1 (Or.inr rfl) (saveTypeError_bad _ _ _ _)))
    split
    · exact Or.inr rfl
    · exact saveTypeError_bad _ _ _ _

/-- A top-level value that is neither an object nor `null` is an error. -/
theorem value_bad (d : decodeState) (t : structType) (v : structValue) (c : Nat)
    (hhead : (d.data.drop (d.off - 1)).head? = some c) (h110 : c ≠ 110)
    (hop : d.opcode ≠ scanBeginObject) : bad (d.value t v).1 := by
  unfold decodeState.value
  split
  · exact ((Ext_skip _).trans (Ext_scanNext _)).bad (saveTypeError_bad _ _ _ _)
  · rename_i h; exact absurd h hop
  · simp only []
    refine literalStore_bad_none _ _ _ _ ?_
    intro hx
    rw [rescanLiteral_data] at hx
    exact h110 (head_drop_take d.data _ _ c hhead 110 hx).symm
  · exact Or.inr rfl

/-- Method `unmarshal` on data whose first byte behind the white space begins
neither an object nor `null` returns an error. -/
theorem unmarshal_bad_start (t : structType) (dis : Bool) (ws0 : List Nat) (c : Nat)
    (rest : List Nat) (sv : structValue) (hws : isWhite ws0 = true) (hc : isSpace c = false)
    (h123 : c ≠ 123) (h110 : c ≠ 110) :
    ((decodeState.init (ws0 ++ c :: rest) dis).unmarshal t sv).2 ≠ none := by
  have hstep : scanner.new.reset.stepFn c = stateBeginValueFn scanner.new.reset c := by
    simp [scanner.stepFn, scanner.reset]
  have hne : (scanner.new.reset.stepFn c).2 ≠ scanSkipSpace := by
    rw [hstep]
    rcases stateBeginValueFn_beginOp scanner.new.reset c hc with h | h | h | h <;> rw [h] <;>
      decide
  have hstart := unmarshal_start (ws0 ++ c :: rest) dis ws0 c rest rfl hws hne
  apply unmarshal_of_bad
  rw [hstart]
  refine value_bad _ t sv c ?_ h110 ?_
  · simp [decodeState.init]
  · simp only []
    rw [hstep]
    exact stateBeginValueFn_notObject _ c hc h123

set_option maxHeartbeats 1000000 in
/-- The shape of the input of which `readValue` has found the first value. -/
theorem readValue_shape (err : GoError) (all : List Nat) (D : List Nat) (s0 S : scanner)
    (n : Nat) (hs0 : St s0 stateBeginValue [])
    (h : readValueLoop err all s0 D 0 = (S, n, none)) : ReadShape D n := by
  obtain ⟨ws0, r0, rfl, hw0, hr0⟩ := ws_split D
  obtain ⟨s1, hs1, e1⟩ := readValueLoop_ws_begin err all _ stateBeginValue (Or.inl rfl) ws0 r0 hw0
    s0 0 hs0
  rw [e1, Nat.zero_add] at h
  rcases hr0 with rfl | ⟨c, t0, rfl, hc⟩
  · exfalso
    refine readValueLoop_nil_fail err all s1 S _ n ?_ h
    simp [scanner.stepFn, hs1.1, stateBeginValueFn, isSpace]
  by_cases h123 : c = 123
  · subst h123
    have hr : ({ s1 with bytes := s1.bytes + 1 } : scanner).stepFn 123
        = ({ s1 with bytes := s1.bytes + 1, step := stateBeginStringOrEmpty,
                     parseState := [parseObjectKey] }, scanBeginObject) := by
      simp [scanner.stepFn, hs1.1, stateBeginValueFn, isSpace, scanner.pushParseState, hs1.2.1,
        maxNestingDepth]
    rw [readValueLoop_continue err all s1 _ 123 t0 _ _ hr (by decide) (by decide) (by decide)
      (by decide)] at h
    rcases object_inv err all S n t0
      ({ s1 with bytes := s1.bytes + 1, step := stateBeginStringOrEmpty,
                 parseState := [parseObjectKey] }) _ ⟨rfl, rfl, hs1.2.2⟩ h with
      ⟨ws, rest, hw, rfl, hn⟩ | ⟨ms, rest, hv, hp, rfl, hn⟩ | ⟨pre, hok, hbad⟩
    · refine Or.inl ⟨ws0, .emptyObject ws, rest, by simp [JValue.render], hw0,
        by simpa [JValue.valid] using hw, Or.inr (Or.inl ⟨ws, rfl⟩), ?_⟩
      rw [hn]; simp [JValue.render]; omega
    · refine Or.inl ⟨ws0, .object ms, rest, by simp [JValue.render], hw0,
        by simpa [JValue.valid] using hv, Or.inr (Or.inr ⟨ms, rfl, hp⟩), ?_⟩
      rw [hn]; simp [JValue.render]; omega
    · exact Or.inr (Or.inr ⟨ws0, pre, t0, rfl, hw0, hok, hbad⟩)
  · by_cases h110 : c = 110
    · subst h110
      have hr : ({ s1 with bytes := s1.bytes + 1 } : scanner).stepFn 110
          = ({ s1 with bytes := s1.bytes + 1, step := stateN }, scanBeginLiteral) := by
        simp [scanner.stepFn, hs1.1, stateBeginValueFn, isSpace]
      rw [readValueLoop_continue err all s1 _ 110 t0 _ _ hr (by decide) (by decide) (by decide)
        (by decide)] at h
      obtain ⟨r5, s6, g1, g2, g3⟩ := null_inv err all _ S n t0
        ({ s1 with bytes := s1.bytes + 1, step := stateN }) _ rfl hs1.2.1 hs1.2.2 h
      have hn := readValueLoop_top_end err all s6 S r5 _ n g2 g3
      refine Or.inl ⟨ws0, .null, r5, by rw [g1]; rfl, hw0, rfl, Or.inl rfl, ?_⟩
      rw [hn]; simp [JValue.render]
    · exact Or.inr (Or.inl ⟨ws0, c, t0, rfl, hw0, hc, h123, h110,
        readValueLoop_begin_count err all s1 S c t0 _ n _ hs1 hc h⟩)

theorem memberDecode_none (t : structType) (n : Nat) (key : List JChar) (v : JValue)
    (sv : structValue) (h : (memberDecode t true n key v sv none).2 = none) :
    (lookupField t (stringValue key)).isSome = true := by
  cases hf : lookupField t (stringValue key) with
  | some f => rfl
  | none => simp [memberDecode, hf, firstErr] at h

theorem JMembers.decode_none (t : structType) :
    (ms : JMembers) → (n : Nat) → (sv : structValue) →
    (ms.decode t true n sv none).2 = none → ms.allKnown t = true
  | .one _ key _ _ v _, n, sv, h => by
    simp only [JMembers.decode] at h
    simpa [JMembers.allKnown] using memberDecode_none t _ key v sv h
  | .cons _ key _ _ v _ rest, n, sv, h => by
    simp only [JMembers.decode] at h
    cases hm : (memberDecode t true
        (n + (_ ++ (stringText key ++ (_ ++ 58 :: _))).length) key v sv none).2 with
    | some e =>
      rw [hm, JMembers.decode_err] at h
      cases h
    | none =>
      rw [hm] at h
      simp only [JMembers.allKnown, Bool.and_eq_true]
      exact ⟨memberDecode_none t _ key v sv hm, JMembers.decode_none t rest _ _ h⟩

theorem JMembers.depth_of_plain : (ms : JMembers) → ms.plain = true → ms.depth = 0
  | .one _ _ _ _ v _, h => by
    simp only [JMembers.plain] at h
    simp [JMembers.depth, CloudflareGo.plain_depth v h]
  | .cons _ _ _ _ v _ rest, h => by
    simp only [JMembers.plain, Bool.and_eq_true] at h
    simp [JMembers.depth, CloudflareGo.plain_depth v h.1, JMembers.depth_of_plain rest h.2]

theorem take_append_cons (A : List Nat) (c : Nat) (rest : List Nat) (n : Nat)
    (h : A.length + 1 ≤ n) :
    (A ++ c :: rest).take n = A ++ c :: rest.take (n - (A.length + 1)) := by
  obtain ⟨k, rfl⟩ : ∃ k, n = A.length + 1 + k := ⟨n - (A.length + 1), by omega⟩
  rw [List.take_append_eq_append_take, List.take_of_length_le (by omega)]
  have : A.length + 1 + k - A.length = k + 1 := by omega
  rw [this, List.take_succ_cons]
  simp

set_option maxHeartbeats 1000000 in
/-- A `Decode` that returns no error, with unknown fields disallowed: the input
begins with white space and a value that `Decode` accepts, and what follows the
value is left in the input. -/
theorem Decode_ok_inv (dec : Decoder) (t : structType) (v : structValue)
    (herr : dec.err = none) (hdis : dec.disallowUnknownFields = true)
    (h : (dec.Decode t v).2.2 = none) :
    ∃ (ws0 : List Nat) (val : JValue) (rest : List Nat),
      dec.r.data = ws0 ++ (val.render ++ rest) ∧ isWhite ws0 = true ∧ val.valid = true ∧
      val.accepted t = true ∧ (dec.Decode t v).1.r = { dec.r with data := rest } ∧
      (dec.Decode t v).1.err = none := by
  obtain ⟨S, n, eo, hrv⟩ : ∃ S n eo, dec.readValue = (S, n, eo) := ⟨_, _, _, rfl⟩
  unfold Decoder.Decode at h ⊢
  simp only [herr, hrv] at h ⊢
  cases eo with
  | some e => simp at h
  | none =>
    simp only [hdis] at h ⊢
    have hshape := readValue_shape dec.r.err dec.r.data dec.r.data dec.scan.reset S n
      (St_reset _) hrv
    rcases hshape with ⟨ws0, val, rest, hD, hw0, hv, hkind, hn⟩ |
      ⟨ws0, c, rest, hD, hw0, hc, h123, h110, hn⟩ | ⟨ws0, pre, bs, hD, hw0, hok, hbad⟩
    · have htake : dec.r.data.take n = ws0 ++ val.render := by
        rw [hD, hn, ← List.append_assoc, ← List.length_append, List.take_left]
      have hdrop : dec.r.data.drop n = rest := by
        rw [hD, hn, ← List.append_assoc, ← List.length_append, List.drop_left]
      refine ⟨ws0, val, rest, hD, hw0, hv, ?_, by rw [hdrop], trivial⟩
      rcases hkind with rfl | ⟨ws, rfl⟩ | ⟨ms, rfl, hp⟩
      · rfl
      · rfl
      · rw [htake, unmarshal_object t true ws0 ms v hw0 (by simpa [JValue.valid] using hv)
          (by rw [JMembers.depth_of_plain ms hp]; simp [maxNestingDepth])] at h
        simp [JValue.accepted, hp, JMembers.decode_none t ms _ _ h]
    · exfalso
      rw [hD, take_append_cons ws0 c rest n hn] at h
      exact unmarshal_bad_start t true ws0 c _ v hw0 hc h123 h110 h
    · exfalso
      obtain ⟨ws1, key, ws2, ws3, c, junk, g1, g2, g3, g4, g5, g6, g7, g8, g9⟩ := hbad
      have hD' : dec.r.data
          = (ws0 ++ 123 :: (renderHead pre ++ (ws1 ++ (stringText key ++ (ws2 ++ 58 :: ws3)))))
            ++ c :: junk := by
        rw [hD, g8]; simp
      rw [hD', take_append_cons _ c junk n
        (by simp only [List.length_append, List.length_cons] at g9 ⊢; omega)] at h
      refine unmarshal_bad_object t ws0 pre ws1 key ws2 ws3 c
        (junk.take (n - ((ws0 ++ 123 :: (renderHead pre
          ++ (ws1 ++ (stringText key ++ (ws2 ++ 58 :: ws3))))).length + 1)))
        v hw0 hok g1 g2 g3 g4 g5 g6 g7 ?_
      rw [← h]; congr 3; simp

/-- C7, amended: whenever the first `Decode` of `getCloudflare` returns nil and
the second returns `io.EOF` (so that no error response is written), the body is
no longer than 1,048,576 bytes and consists of exactly one JSON value with
optional white space around it; that value is the literal `null`, or a JSON
object (possibly empty) in which every member name is a name that the decoder
matches to a field of `locationString` and every member value is a string or
`null`. -/
theorem C7_success_shape (r : Request) (e : GoError)
    (h1 : (firstDecode r).2.2 = none) (h2 : (secondDecode r).2.2 = some e)
    (he : e.eqEOF = true) :
    r.Body.data.length ≤ 1048576 ∧
      ∃ (ws0 : List Nat) (val : JValue) (ws1 : List Nat),
        r.Body.data = ws0 ++ (val.render ++ ws1) ∧ isWhite ws0 = true ∧ isWhite ws1 = true ∧
        val.valid = true ∧ val.accepted locationStringType = true := by
  obtain ⟨ws0, val, rest, hD, hw0, hv, hacc, hr1, he1⟩ := Decode_ok_inv (requestDecoder r)
    locationStringType (locationString.toValue { City := [] }) rfl rfl h1
  have h2' := Decode_eof (firstDecode r).1 emptyStructType [] e he1 h2 he
  have hr1' : (firstDecode r).1.r = { (requestDecoder r).r with data := rest } := hr1
  rw [hr1'] at h2'
  obtain ⟨hE, hwr⟩ := h2'
  have hlen : r.Body.data.length ≤ 1048576 := by
    by_contra hcon
    have hlt : 1048576 < r.Body.data.length := by omega
    have : (requestDecoder r).r.err = MaxBytesError := by
      show (MaxBytesReader r.Body 1048576).err = MaxBytesError
      simp [MaxBytesReader, hlt]
    simp only [this] at hE
    cases hE
  have hdata : (requestDecoder r).r.data = r.Body.data := by
    show r.Body.data.take 1048576 = r.Body.data
    exact List.take_of_length_le hlen
  rw [hdata] at hD
  exact ⟨hlen, ws0, val, rest, hD, hw0, hwr, hv, hacc⟩

/-- C7 (amended) at the body `{"City": "Paris"}`. -/
theorem C7_success_shape_witness :
    (firstDecode (post (str "\x7b\"City\": \"Paris\"\x7d"))).2.2 = none ∧
      (post (str "\x7b\"City\": \"Paris\"\x7d")).Body.data.length ≤ 1048576 ∧
      ∃ (ws0 : List Nat) (val : JValue) (ws1 : List Nat),
        (post (str "\x7b\"City\": \"Paris\"\x7d")).Body.data = ws0 ++ (val.render ++ ws1) ∧
        isWhite ws0 = true ∧ isWhite ws1 = true ∧ val.valid = true ∧
        val.accepted locationStringType = true :=
  ⟨by decide,
    C7_success_shape (post (str "\x7b\"City\": \"Paris\"\x7d")) ioEOF (by decide) (by decide) rfl⟩

/-! ## String values, unknown members and unfinished values -/

theorem encodeRune_scalar (r : Nat) (h : isScalar r = true) : encodeRune r = utf8 r := by
  simp only [isScalar, Bool.or_eq_true, Bool.and_eq_true, decide_eq_true_eq] at h
  unfold encodeRune utf8
  split_ifs <;> first | rfl | omega

theorem utf8_small (r : Nat) (h : r < 0x80) : utf8 r = [r] := by simp [utf8, h]

/-- The encoding of a scalar value from U+0080 on is a sequence that `utf8Size`
accepts whole. -/
theorem utf8Size_utf8 (r : Nat) (hs : isScalar r = true) (h : 0x80 ≤ r) (rest : List Nat) :
    ∃ b0 tl, utf8 r = b0 :: tl ∧ 0x80 ≤ b0 ∧ (∀ b ∈ tl, 0x80 ≤ b) ∧
      utf8Size (b0 :: (tl ++ rest)) = tl.length + 1 := by
  simp only [isScalar, Bool.or_eq_true, Bool.and_eq_true, decide_eq_true_eq] at hs
  have h0 : ¬ r < 0x80 := by omega
  by_cases h1 : r < 0x800
  · refine ⟨0xC0 + r / 0x40, [0x80 + r % 0x40], by simp [utf8, h0, h1], by omega,
      by simp, ?_⟩
    have a1 : ¬ (0xC0 + r / 0x40 < 0x80) := by omega
    have a2 : 0xC2 ≤ 0xC0 + r / 0x40 ∧ 0xC0 + r / 0x40 ≤ 0xDF := by omega
    have a3 : isCont (0x80 + r % 0x40) = true := by simp [isCont]; omega
    simp [utf8Size, a1, a2, a3]
  · by_cases h2 : r < 0x10000
    · refine ⟨0xE0 + r / 0x1000, [0x80 + r / 0x40 % 0x40, 0x80 + r % 0x40],
        by simp [utf8, h0, h1, h2], by omega, by simp, ?_⟩
      have a1 : ¬ (0xE0 + r / 0x1000 < 0x80) := by omega
      have a2 : ¬ (0xC2 ≤ 0xE0 + r / 0x1000 ∧ 0xE0 + r / 0x1000 ≤ 0xDF) := by omega
      have a3 : 0xE0 ≤ 0xE0 + r / 0x1000 ∧ 0xE0 + r / 0x1000 ≤ 0xEF := by omega
      have a4 : (if 0xE0 + r / 0x1000 = 0xE0 then 0xA0 else 0x80) ≤ 0x80 + r / 0x40 % 0x40 ∧
          0x80 + r / 0x40 % 0x40 ≤ (if 0xE0 + r / 0x1000 = 0xED then 0x9F else 0xBF) ∧
          isCont (0x80 + r % 0x40) = true := by
        refine ⟨?_, ?_, by simp [isCont]; omega⟩
        · split_ifs <;> omega
        · split_ifs <;> omega
      simp only [utf8Size, List.cons_append, List.nil_append, if_neg a1, if_neg a2, if_pos a3,
        if_pos a4, List.length_cons, List.length_nil]
    · refine ⟨0xF0 + r / 0x40000, [0x80 + r / 0x1000 % 0x40, 0x80 + r / 0x40 % 0x40,
          0x80 + r % 0x40], by simp [utf8, h0, h1, h2], by omega, by simp, ?_⟩
      have a1 : ¬ (0xF0 + r / 0x40000 < 0x80) := by omega
      have a2 : ¬ (0xC2 ≤ 0xF0 + r / 0x40000 ∧ 0xF0 + r / 0x40000 ≤ 0xDF) := by omega
      have a3 : ¬ (0xE0 ≤ 0xF0 + r / 0x40000 ∧ 0xF0 + r / 0x40000 ≤ 0xEF) := by omega
      have a5 : 0xF0 ≤ 0xF0 + r / 0x40000 ∧ 0xF0 + r / 0x40000 ≤ 0xF4 := by omega
      have a4 : (if 0xF0 + r / 0x40000 = 0xF0 then 0x90 else 0x80) ≤ 0x80 + r / 0x1000 % 0x40 ∧
          0x80 + r / 0x1000 % 0x40 ≤ (if 0xF0 + r / 0x40000 = 0xF4 then 0x8F else 0xBF) ∧
          isCont (0x80 + r / 0x40 % 0x40) = true ∧ isCont (0x80 + r % 0x40) = true := by
        refine ⟨?_, ?_, by simp [isCont]; omega, by simp [isCont]; omega⟩
        · split_ifs <;> omega
        · split_ifs <;> omega
      simp only [utf8Size, List.cons_append, List.nil_append, if_neg a1, if_neg a2, if_neg a3,
        if_pos a5, if_pos a4, List.length_cons, List.length_nil]

/-- A byte from 0x80 on that begins no encoding of a scalar value is one for which
`utf8Size` is 0. -/
theorem utf8Size_stray (c : Nat) (rest : List Nat) (hc : 0x80 ≤ c)
    (h : ∀ r, isScalar r = true → ¬ (utf8 r <+: c :: rest)) : utf8Size (c :: rest) = 0 := by
  have h0 : ¬ c < 0x80 := by omega
  have hcont : ∀ b, isCont b = true → 0x80 ≤ b ∧ b ≤ 0xBF := by
    intro b hb; simp [isCont] at hb; omega
  unfold utf8Size
  dsimp only
  rw [if_neg h0]
  by_cases h1 : 0xC2 ≤ c ∧ c ≤ 0xDF
  · rw [if_pos h1]
    cases rest with
    | nil => rfl
    | cons b1 r =>
      by_cases hb : isCont b1 = true
      · exfalso
        have := hcont b1 hb
        refine h ((c - 0xC0) * 64 + (b1 - 0x80)) (by simp [isScalar]; omega) ⟨r, ?_⟩
        have e1 : ¬ ((c - 0xC0) * 64 + (b1 - 0x80) < 0x80) := by omega
        have e2 : (c - 0xC0) * 64 + (b1 - 0x80) < 0x800 := by omega
        have x1 : 0xC0 + ((c - 0xC0) * 64 + (b1 - 0x80)) / 0x40 = c := by omega
        have x2 : 0x80 + ((c - 0xC0) * 64 + (b1 - 0x80)) % 0x40 = b1 := by omega
        simp only [utf8, if_neg e1, if_pos e2, List.cons_append, List.nil_append, x1, x2]
      · simp only [hb]; rfl
  · rw [if_neg h1]
    by_cases h2 : 0xE0 ≤ c ∧ c ≤ 0xEF
    · rw [if_pos h2]
      match rest with
      | [] => rfl
      | [_] => rfl
      | b1 :: b2 :: r =>
        by_cases h4 : (if c = 0xE0 then 0xA0 else 0x80) ≤ b1 ∧
            b1 ≤ (if c = 0xED then 0x9F else 0xBF) ∧ isCont b2 = true
        · exfalso
          have hb2 := hcont b2 h4.2.2
          have hlo := h4.1
          have hhi := h4.2.1
          have hb1 : 0x80 ≤ b1 ∧ b1 ≤ 0xBF ∧ (c = 0xE0 → 0xA0 ≤ b1) ∧ (c = 0xED → b1 ≤ 0x9F) := by
            split_ifs at hlo hhi <;> omega
          refine h ((c - 0xE0) * 4096 + (b1 - 0x80) * 64 + (b2 - 0x80))
            (by simp [isScalar]; omega) ⟨r, ?_⟩
          have e1 : ¬ ((c - 0xE0) * 4096 + (b1 - 0x80) * 64 + (b2 - 0x80) < 0x80) := by omega
          have e2 : ¬ ((c - 0xE0) * 4096 + (b1 - 0x80) * 64 + (b2 - 0x80) < 0x800) := by omega
          have e3 : (c - 0xE0) * 4096 + (b1 - 0x80) * 64 + (b2 - 0x80) < 0x10000 := by omega
          have x1 : 0xE0 + ((c - 0xE0) * 4096 + (b1 - 0x80) * 64 + (b2 - 0x80)) / 0x1000 = c := by
            omega
          have x2 : 0x80 + ((c - 0xE0) * 4096 + (b1 - 0x80) * 64 + (b2 - 0x80)) / 0x40 % 0x40
              = b1 := by omega
          have x3 : 0x80 + ((c - 0xE0) * 4096 + (b1 - 0x80) * 64 + (b2 - 0x80)) % 0x40 = b2 := by
            omega
          simp only [utf8, if_neg e1, if_neg e2, if_pos e3, List.cons_append, List.nil_append,
            x1, x2, x3]
        · exact if_neg h4
    · rw [if_neg h2]
      by_cases h3 : 0xF0 ≤ c ∧ c ≤ 0xF4
      · rw [if_pos h3]
        match rest with
        | [] => rfl
        | [_] => rfl
        | [_, _] => rfl
        | b1 :: b2 :: b3 :: r =>
          by_cases h4 : (if c = 0xF0 then 0x90 else 0x80) ≤ b1 ∧
              b1 ≤ (if c = 0xF4 then 0x8F else 0xBF) ∧ isCont b2 = true ∧ isCont b3 = true
          · exfalso
            have hb2 := hcont b2 h4.2.2.1
            have hb3 := hcont b3 h4.2.2.2
            have hlo := h4.1
            have hhi := h4.2.1
            have hb1 : 0x80 ≤ b1 ∧ b1 ≤ 0xBF ∧ (c = 0xF0 → 0x90 ≤ b1) ∧ (c = 0xF4 → b1 ≤ 0x8F) := by
              split_ifs at hlo hhi <;> omega
            refine h ((c - 0xF0) * 262144 + (b1 - 0x80) * 4096 + (b2 - 0x80) * 64 + (b3 - 0x80))
              (by simp [isScalar]; omega) ⟨r, ?_⟩
            have e1 : ¬ ((c - 0xF0) * 262144 + (b1 - 0x80) * 4096 + (b2 - 0x80) * 64 + (b3 - 0x80)
                < 0x80) := by omega
            have e2 : ¬ ((c - 0xF0) * 262144 + (b1 - 0x80) * 4096 + (b2 - 0x80) * 64 + (b3 - 0x80)
                < 0x800) := by omega
            have e3 : ¬ ((c - 0xF0) * 262144 + (b1 - 0x80) * 4096 + (b2 - 0x80) * 64 + (b3 - 0x80)
                < 0x10000) := by omega
            have x1 : 0xF0 + ((c - 0xF0) * 262144 + (b1 - 0x80) * 4096 + (b2 - 0x80) * 64
                + (b3 - 0x80)) / 0x40000 = c := by omega
            have x2 : 0x80 + ((c - 0xF0) * 262144 + (b1 - 0x80) * 4096 + (b2 - 0x80) * 64
                + (b3 - 0x80)) / 0x1000 % 0x40 = b1 := by omega
            have x3 : 0x80 + ((c - 0xF0) * 262144 + (b1 - 0x80) * 4096 + (b2 - 0x80) * 64
                + (b3 - 0x80)) / 0x40 % 0x40 = b2 := by omega
            have x4 : 0x80 + ((c - 0xF0) * 262144 + (b1 - 0x80) * 4096 + (b2 - 0x80) * 64
                + (b3 - 0x80)) % 0x40 = b3 := by omega
            simp only [utf8, if_neg e1, if_neg e2, if_neg e3, List.cons_append, List.nil_append,
              x1, x2, x3, x4]
          · exact if_neg h4
      · exact if_neg h3

theorem isHex_isHexDigit (c : Nat) : isHex c = isHexDigit c := by
  simp only [isHex, isHexDigit]
  cases decide (48 ≤ c) && decide (c ≤ 57) <;> cases decide (97 ≤ c) && decide (c ≤ 102) <;>
    cases decide (65 ≤ c) && decide (c ≤ 70) <;> rfl

theorem hexVal_hexValue (c : Nat) (h : isHexDigit c = true) : hexVal c = some (hexValue c) := by
  simp only [isHexDigit, Bool.or_eq_true, Bool.and_eq_true, decide_eq_true_eq] at h
  unfold hexVal hexValue
  split_ifs <;> first | rfl | omega

theorem hexValue_lt (c : Nat) (h : isHexDigit c = true) : hexValue c < 16 := by
  simp only [isHexDigit, Bool.or_eq_true, Bool.and_eq_true, decide_eq_true_eq] at h
  unfold hexValue
  split_ifs <;> omega

theorem hex4_lt (a b c d : Nat) (ha : isHexDigit a = true) (hb : isHexDigit b = true)
    (hc : isHexDigit c = true) (hd : isHexDigit d = true) : hex4 a b c d < 65536 := by
  have := hexValue_lt a ha
  have := hexValue_lt b hb
  have := hexValue_lt c hc
  have := hexValue_lt d hd
  unfold hex4
  omega

theorem getu4_hex4 (a b c d : Nat) (r : List Nat) (ha : isHexDigit a = true)
    (hb : isHexDigit b = true) (hc : isHexDigit c = true) (hd : isHexDigit d = true) :
    getu4 (92 :: 117 :: a :: b :: c :: d :: r) = some (hex4 a b c d) := by
  simp only [getu4, hexVal_hexValue a ha, hexVal_hexValue b hb, hexVal_hexValue c hc,
    hexVal_hexValue d hd, hex4, Option.some.injEq]
  ring

theorem unquoteLoop_skip (pre rest : List Nat) :
    unquoteLoop pre.length (pre ++ rest) = unquoteLoop 0 rest := by
  induction pre with
  | nil => rfl
  | cons c pre ih => simpa [unquoteLoop_succ] using ih

theorem unquoteLoop_ascii (c : Nat) (rest : List Nat) (h1 : 0x20 ≤ c) (h2 : c ≠ 34)
    (h3 : c ≠ 92) (h4 : c < 0x80) :
    unquoteLoop 0 (c :: rest) = (unquoteLoop 0 rest).map ([c] ++ ·) := by
  have h5 : ¬ (c = 34 ∨ c < 32) := by omega
  rw [unquoteLoop_zero, if_neg h3, if_neg h5, if_pos h4]

theorem unquoteLoop_multi (b0 : Nat) (tl rest : List Nat) (hb0 : 0x80 ≤ b0)
    (hsz : utf8Size (b0 :: (tl ++ rest)) = tl.length + 1) :
    unquoteLoop 0 (b0 :: (tl ++ rest)) = (unquoteLoop 0 rest).map ((b0 :: tl) ++ ·) := by
  have h3 : ¬ b0 = 92 := by omega
  have h5 : ¬ (b0 = 34 ∨ b0 < 32) := by omega
  have h4 : ¬ b0 < 0x80 := by omega
  have h6 : ¬ (tl.length + 1 = 0) := by omega
  rw [unquoteLoop_zero, if_neg h3, if_neg h5, if_neg h4]
  simp only [hsz, if_neg h6, Nat.add_sub_cancel, unquoteLoop_skip, List.take_succ_cons,
    List.take_left]

theorem unquoteLoop_stray (c : Nat) (rest : List Nat) (hc : 0x80 ≤ c)
    (hsz : utf8Size (c :: rest) = 0) :
    unquoteLoop 0 (c :: rest) = (unquoteLoop 0 rest).map (encodeRune 0xFFFD ++ ·) := by
  have h3 : ¬ c = 92 := by omega
  have h5 : ¬ (c = 34 ∨ c < 32) := by omega
  have h4 : ¬ c < 0x80 := by omega
  rw [unquoteLoop_zero, if_neg h3, if_neg h5, if_neg h4]
  simp only [hsz, if_true]

theorem unquoteLoop_esc (e : Nat) (rest : List Nat) (he : (StrItem.esc e).ok = true) :
    unquoteLoop 0 (92 :: e :: rest) = (unquoteLoop 0 rest).map ([escaped e] ++ ·) := by
  simp only [StrItem.ok, Bool.or_eq_true, beq_iff_eq] at he
  have he' : e = 34 ∨ e = 92 ∨ e = 47 ∨ e = 98 ∨ e = 102 ∨ e = 110 ∨ e = 114 ∨ e = 116 := by
    omega
  rw [unquoteLoop_zero]
  rcases he' with h | h | h | h | h | h | h | h <;> subst h <;>
    simp [unquoteLoop_succ, escaped]

theorem unquoteLoop_uni (a b c d : Nat) (rest : List Nat) (ha : isHexDigit a = true)
    (hb : isHexDigit b = true) (hc : isHexDigit c = true) (hd : isHexDigit d = true)
    (hs : isSurrogate (hex4 a b c d) = false) :
    unquoteLoop 0 (92 :: 117 :: a :: b :: c :: d :: rest)
      = (unquoteLoop 0 rest).map (encodeRune (hex4 a b c d) ++ ·) := by
  rw [unquoteLoop_zero]
  simp only [ite_true, List.cons_ne_nil, OfNat.ofNat_ne_one, false_or, or_self,
    OfNat.ofNat_eq_ofNat, Nat.reduceEqDiff, ite_false, getu4_hex4 a b c d rest ha hb hc hd,
    unquoteLoop_succ, hs, Bool.false_eq_true]

theorem unquoteLoop_pair (a b c d : Nat) (rest : List Nat) (rr1 : Nat)
    (ha : isHexDigit a = true)
    (hb : isHexDigit b = true) (hc : isHexDigit c = true) (hd : isHexDigit d = true)
    (hs : isSurrogate (hex4 a b c d) = true) (hg : getu4 rest = some rr1)
    (hdec : utf16DecodeRune (hex4 a b c d) rr1 ≠ 0xFFFD) :
    unquoteLoop 0 (92 :: 117 :: a :: b :: c :: d :: rest)
      = (unquoteLoop 6 rest).map (encodeRune (utf16DecodeRune (hex4 a b c d) rr1) ++ ·) := by
  rw [unquoteLoop_zero]
  simp only [ite_true, List.cons_ne_nil, OfNat.ofNat_ne_one, false_or, or_self,
    OfNat.ofNat_eq_ofNat, Nat.reduceEqDiff, ite_false, getu4_hex4 a b c d rest ha hb hc hd,
    List.drop_succ_cons, List.drop_zero, unquoteLoop_succ, hs, hg, hdec, ne_eq,
    not_false_eq_true]

theorem unquoteLoop_lone (a b c d : Nat) (rest : List Nat)
    (ha : isHexDigit a = true)
    (hb : isHexDigit b = true) (hc : isHexDigit c = true) (hd : isHexDigit d = true)
    (hs : isSurrogate (hex4 a b c d) = true)
    (hg : ∀ rr1, getu4 rest = some rr1 → utf16DecodeRune (hex4 a b c d) rr1 = 0xFFFD) :
    unquoteLoop 0 (92 :: 117 :: a :: b :: c :: d :: rest)
      = (unquoteLoop 0 rest).map (encodeRune 0xFFFD ++ ·) := by
  rw [unquoteLoop_zero]
  cases hq : getu4 rest with
  | none =>
    simp only [ite_true, List.cons_ne_nil, OfNat.ofNat_ne_one, false_or, or_self,
      OfNat.ofNat_eq_ofNat, Nat.reduceEqDiff, ite_false, getu4_hex4 a b c d rest ha hb hc hd,
      List.drop_succ_cons, List.drop_zero, unquoteLoop_succ, hs, hq, ne_eq,
      not_true_eq_false]
  | some rr1 =>
    simp only [ite_true, List.cons_ne_nil, OfNat.ofNat_ne_one, false_or, or_self,
      OfNat.ofNat_eq_ofNat, Nat.reduceEqDiff, ite_false, getu4_hex4 a b c d rest ha hb hc hd,
      List.drop_succ_cons, List.drop_zero, unquoteLoop_succ, hs, hq, hg rr1 hq, ne_eq,
      not_true_eq_false]

theorem next_not_low (rest : List StrItem) (hw : wellFormed rest) (hn : startsLow rest = false)
    (rr1 : Nat) (hg : getu4 (rest.flatMap StrItem.text) = some rr1) :
    ¬ (0xDC00 ≤ rr1 ∧ rr1 < 0xE000) := by
  obtain ⟨a, b, c, d, r, hs⟩ := getu4_some_iff _ _ hg
  cases rest with
  | nil => simp at hs
  | cons x rest' =>
    cases x with
    | char r0 =>
      simp only [wellFormed, StrItem.ok, Bool.and_eq_true, decide_eq_true_eq, bne_iff_ne] at hw
      obtain ⟨⟨⟨⟨h1, h2⟩, h3⟩, h4⟩, -⟩ := hw
      by_cases h80 : r0 < 0x80
      · simp [StrItem.text, utf8_small r0 h80] at hs; omega
      · obtain ⟨b0, tl, hu, hb0, -, -⟩ := utf8Size_utf8 r0 h4 (by omega) []
        simp [StrItem.text, hu] at hs; omega
    | esc e =>
      simp only [wellFormed, StrItem.ok, Bool.or_eq_true, beq_iff_eq] at hw
      simp [StrItem.text] at hs
      omega
    | uni a' b' c' d' =>
      simp only [wellFormed, StrItem.ok, Bool.and_eq_true] at hw
      obtain ⟨⟨⟨⟨⟨ha, hb⟩, hc⟩, hd⟩, hsc⟩, -⟩ := hw
      simp only [List.flatMap_cons, StrItem.text, List.cons_append, List.nil_append] at hg
      rw [getu4_hex4 _ _ _ _ _ ha hb hc hd] at hg
      simp only [isScalar, Bool.or_eq_true, Bool.and_eq_true, decide_eq_true_eq] at hsc
      simp only [Option.some.injEq] at hg
      omega
    | pair a' b' c' d' e f g h =>
      simp only [wellFormed, StrItem.ok, Bool.and_eq_true, decide_eq_true_eq] at hw
      obtain ⟨⟨⟨⟨⟨⟨⟨⟨⟨⟨⟨⟨ha, hb⟩, hc⟩, hd⟩, -⟩, -⟩, -⟩, -⟩, h1⟩, h2⟩, -⟩, -⟩, -⟩ := hw
      simp only [List.flatMap_cons, StrItem.text, List.cons_append, List.nil_append] at hg
      rw [getu4_hex4 _ _ _ _ _ ha hb hc hd] at hg
      simp only [Option.some.injEq] at hg
      omega
    | lone a' b' c' d' =>
      simp only [wellFormed, StrItem.ok, Bool.and_eq_true] at hw
      obtain ⟨⟨⟨⟨⟨ha, hb⟩, hc⟩, hd⟩, -⟩, -, -⟩ := hw
      simp only [List.flatMap_cons, StrItem.text, List.cons_append, List.nil_append] at hg
      rw [getu4_hex4 _ _ _ _ _ ha hb hc hd] at hg
      simp only [Option.some.injEq] at hg
      simp only [startsLow, decide_eq_false_iff_not] at hn
      omega
    | stray c0 =>
      simp only [wellFormed, StrItem.ok, decide_eq_true_eq] at hw
      simp [StrItem.text] at hs
      omega

/-- The unquoting loop of the decoder gives the string that the items of a
well-formed string literal stand for. -/
theorem unquoteLoop_denote :
    ∀ items : List StrItem, wellFormed items →
      unquoteLoop 0 (items.flatMap StrItem.text) = some (denote items) := by
  intro items
  induction items with
  | nil => intro _; rfl
  | cons x rest ih =>
    intro hw
    have hden : denote (x :: rest) = x.value ++ denote rest := by simp [denote]
    rw [hden, List.flatMap_cons]
    cases x with
    | char r0 =>
      simp only [wellFormed, StrItem.ok, Bool.and_eq_true, decide_eq_true_eq, bne_iff_ne] at hw
      obtain ⟨⟨⟨⟨h1, h2⟩, h3⟩, h4⟩, hrest⟩ := hw
      by_cases h80 : r0 < 0x80
      · simp only [StrItem.text, StrItem.value, utf8_small r0 h80, List.singleton_append]
        rw [unquoteLoop_ascii r0 _ h1 h2 h3 h80, ih hrest]
        rfl
      · obtain ⟨b0, tl, hu, hb0, -, hsz⟩ := utf8Size_utf8 r0 h4 (by omega)
          (rest.flatMap StrItem.text)
        simp only [StrItem.text, StrItem.value, hu, List.cons_append]
        rw [unquoteLoop_multi b0 tl _ hb0 hsz, ih hrest]
        rfl
    | esc e =>
      simp only [wellFormed] at hw
      simp only [StrItem.text, StrItem.value, List.cons_append, List.nil_append]
      rw [unquoteLoop_esc e _ hw.1, ih hw.2]
      rfl
    | uni a b c d =>
      simp only [wellFormed] at hw
      obtain ⟨hok, hrest⟩ := hw
      have hok' := hok
      simp only [StrItem.ok, Bool.and_eq_true] at hok'
      obtain ⟨⟨⟨⟨ha, hb⟩, hc⟩, hd⟩, hsc⟩ := hok'
      have hns : isSurrogate (hex4 a b c d) = false := by
        simp only [isScalar, Bool.or_eq_true, Bool.and_eq_true, decide_eq_true_eq] at hsc
        simp only [isSurrogate, Bool.and_eq_false_iff, decide_eq_false_iff_not]
        omega
      simp only [StrItem.text, StrItem.value, List.cons_append, List.nil_append]
      rw [unquoteLoop_uni a b c d _ ha hb hc hd hns, ih hrest, encodeRune_scalar _ hsc]
      rfl
    | pair a b c d e f g h =>
      simp only [wellFormed] at hw
      obtain ⟨hok, hrest⟩ := hw
      have hok' := hok
      simp only [StrItem.ok, Bool.and_eq_true, decide_eq_true_eq] at hok'
      obtain ⟨⟨⟨⟨⟨⟨⟨⟨⟨⟨⟨ha, hb⟩, hc⟩, hd⟩, he⟩, hf⟩, hg⟩, hh⟩, h1⟩, h2⟩, h3⟩, h4⟩ := hok'
      have hs : isSurrogate (hex4 a b c d) = true := by
        simp only [isSurrogate, Bool.and_eq_true, decide_eq_true_eq]; omega
      have hdec : utf16DecodeRune (hex4 a b c d) (hex4 e f g h)
          = 0x10000 + (hex4 a b c d - 0xD800) * 0x400 + (hex4 e f g h - 0xDC00) := by
        have hcond : 0xD800 ≤ hex4 a b c d ∧ hex4 a b c d < 0xDC00 ∧ 0xDC00 ≤ hex4 e f g h ∧
            hex4 e f g h < 0xE000 := ⟨h1, h2, h3, h4⟩
        simp only [utf16DecodeRune, if_pos hcond]
        omega
      have hsc : isScalar (0x10000 + (hex4 a b c d - 0xD800) * 0x400 + (hex4 e f g h - 0xDC00))
          = true := by
        simp only [isScalar, Bool.or_eq_true, Bool.and_eq_true, decide_eq_true_eq]; omega
      simp only [StrItem.text, StrItem.value, List.cons_append, List.nil_append]
      rw [unquoteLoop_pair a b c d _ (hex4 e f g h) ha hb hc hd hs
        (getu4_hex4 e f g h _ he hf hg hh) (by rw [hdec]; omega), hdec,
        encodeRune_scalar _ hsc]
      have hskip := unquoteLoop_skip [92, 117, e, f, g, h] (rest.flatMap StrItem.text)
      simp only [List.length_cons, List.length_nil, List.cons_append, List.nil_append] at hskip
      rw [hskip, ih hrest]
      rfl
    | lone a b c d =>
      simp only [wellFormed] at hw
      obtain ⟨hok, hctx, hrest⟩ := hw
      have hok' := hok
      simp only [StrItem.ok, Bool.and_eq_true, Bool.not_eq_true'] at hok'
      obtain ⟨⟨⟨⟨ha, hb⟩, hc⟩, hd⟩, hsc⟩ := hok'
      have hlt := hex4_lt a b c d ha hb hc hd
      have hsur : 0xD800 ≤ hex4 a b c d ∧ hex4 a b c d < 0xE000 := by
        simp only [isScalar, Bool.or_eq_false_iff, Bool.and_eq_false_iff,
          decide_eq_false_iff_not] at hsc
        omega
      have hs : isSurrogate (hex4 a b c d) = true := by
        simp only [isSurrogate, Bool.and_eq_true, decide_eq_true_eq]; omega
      have hg : ∀ rr1, getu4 (rest.flatMap StrItem.text) = some rr1 →
          utf16DecodeRune (hex4 a b c d) rr1 = 0xFFFD := by
        intro rr1 hq
        unfold utf16DecodeRune
        rw [if_neg]
        intro hcon
        have hnl : startsLow rest = false := by
          cases hsl : startsLow rest with
          | false => rfl
          | true => exact absurd ⟨hcon.2.1, hsl⟩ hctx
        exact next_not_low rest hrest hnl rr1 hq ⟨hcon.2.2.1, hcon.2.2.2⟩
      simp only [StrItem.text, StrItem.value, List.cons_append, List.nil_append]
      rw [unquoteLoop_lone a b c d _ ha hb hc hd hs hg, ih hrest,
        encodeRune_scalar 0xFFFD (by decide)]
      rfl
    | stray c =>
      simp only [wellFormed, StrItem.ok, decide_eq_true_eq] at hw
      obtain ⟨hc, hctx, hrest⟩ := hw
      simp only [StrItem.text, StrItem.value, List.cons_append, List.nil_append]
      rw [unquoteLoop_stray c _ hc (utf8Size_stray c _ hc hctx), ih hrest,
        encodeRune_scalar 0xFFFD (by decide)]
      rfl

theorem chars_text (items : List StrItem) :
    (items.flatMap StrItem.chars).flatMap JChar.text = items.flatMap StrItem.text := by
  have hraw : ∀ bs : List Nat, (bs.map JChar.raw).flatMap JChar.text = bs := by
    intro bs
    induction bs with
    | nil => rfl
    | cons b bs ih => simp [JChar.text, ih]
  induction items with
  | nil => rfl
  | cons x rest ih =>
    simp only [List.flatMap_cons, List.flatMap_append, ih]
    cases x <;> simp [StrItem.chars, StrItem.text, JChar.text, hraw]

theorem stringText_chars (items : List StrItem) :
    stringText (items.flatMap StrItem.chars) = quoted items := by
  simp [stringText, quoted, chars_text]

theorem wellFormed_tail (x : StrItem) (rest : List StrItem) (h : wellFormed (x :: rest)) :
    x.ok = true ∧ wellFormed rest := by
  cases x <;> simp only [wellFormed] at h
  · exact h
  · exact h
  · exact h
  · exact h
  · exact ⟨h.1, h.2.2⟩
  · exact ⟨h.1, h.2.2⟩

theorem validChars_chars (items : List StrItem) (hw : wellFormed items) :
    validChars (items.flatMap StrItem.chars) = true := by
  induction items with
  | nil => rfl
  | cons x rest ih =>
    obtain ⟨hok, hrest⟩ := wellFormed_tail x rest hw
    have hr := ih hrest
    simp only [validChars, List.flatMap_cons, List.all_append, Bool.and_eq_true] at hr ⊢
    refine ⟨?_, hr⟩
    cases x with
    | char r0 =>
      simp only [StrItem.ok, Bool.and_eq_true, decide_eq_true_eq, bne_iff_ne] at hok
      obtain ⟨⟨⟨h1, h2⟩, h3⟩, h4⟩ := hok
      by_cases h80 : r0 < 0x80
      · simp [StrItem.chars, utf8_small r0 h80, JChar.valid, h1, h2, h3]
      · obtain ⟨b0, tl, hu, hb0, htl, -⟩ := utf8Size_utf8 r0 h4 (by omega) []
        have hall : ∀ bs : List Nat, (∀ b ∈ bs, 0x80 ≤ b) →
            (bs.map JChar.raw).all JChar.valid = true := by
          intro bs
          induction bs with
          | nil => intro _; rfl
          | cons b bs ihb =>
            intro hbs
            have hb := hbs b (by simp)
            simp only [List.map_cons, List.all_cons, Bool.and_eq_true]
            exact ⟨by simp [JChar.valid]; omega, ihb (fun x hx => hbs x (by simp [hx]))⟩
        simp only [StrItem.chars, hu]
        exact hall (b0 :: tl) (by
          intro b hb
          rcases List.mem_cons.mp hb with h | h
          · omega
          · exact htl b h)
    | esc e => simpa [StrItem.chars, JChar.valid, StrItem.ok] using hok
    | uni a b c d =>
      simp only [StrItem.ok, Bool.and_eq_true] at hok
      simp [StrItem.chars, JChar.valid, isHex_isHexDigit, hok.1.1.1.1, hok.1.1.1.2, hok.1.1.2,
        hok.1.2]
    | pair a b c d e f g h =>
      simp only [StrItem.ok, Bool.and_eq_true, decide_eq_true_eq] at hok
      obtain ⟨⟨⟨⟨⟨⟨⟨⟨⟨⟨⟨ha, hb⟩, hc⟩, hd⟩, he⟩, hf⟩, hg⟩, hh⟩, -⟩, -⟩, -⟩, -⟩ := hok
      simp [StrItem.chars, JChar.valid, isHex_isHexDigit, ha, hb, hc, hd, he, hf, hg, hh]
    | lone a b c d =>
      simp only [StrItem.ok, Bool.and_eq_true] at hok
      simp [StrItem.chars, JChar.valid, isHex_isHexDigit, hok.1.1.1.1, hok.1.1.1.2, hok.1.1.2,
        hok.1.2]
    | stray c =>
      simp only [StrItem.ok, decide_eq_true_eq] at hok
      simp [StrItem.chars, JChar.valid]; omega

/-- The string that the decoder makes of a well-formed string literal is the
string that its items stand for. -/
theorem stringValue_chars (items : List StrItem) (hw : wellFormed items) :
    stringValue (items.flatMap StrItem.chars) = denote items := by
  have h1 := unquoteBytes_stringText _ (validChars_chars items hw)
  have h2 : unquoteBytes (stringText (items.flatMap StrItem.chars)) = some (denote items) := by
    rw [stringText_chars]
    unfold unquoteBytes
    have hlast : (quoted items).getLast? = some 34 := by
      unfold quoted
      exact List.getLast?_concat _
    have hlen : ¬ ((quoted items).length < 2 ∨ (quoted items).head? ≠ some 34
        ∨ (quoted items).getLast? ≠ some 34) := by
      rw [hlast]
      simp [quoted]
    rw [if_neg hlen]
    have hbody : (quoted items).tail.dropLast = items.flatMap StrItem.text := by
      simp [quoted]
    rw [hbody]
    exact unquoteLoop_denote items hw
  rw [h1] at h2
  exact Option.some.inj h2

/-- C1: a body of at most 1,048,576 bytes that consists of one JSON object whose
only member has the name `City` and a string as its value, with optional white
space around the object and between its tokens, is decoded into a
`locationString` whose `City` is the string that the string literal stands for
(its characters, with every escape replaced by the character it names); the
first `Decode` returns nil, the second returns `io.EOF`, no failure kind applies
and nothing but the `Content-Type` header is written, so the status stays the
implicit 200. -/
theorem C1_single_city_object (w : ResponseWriter) (r : Request) (ws1 wsA : List Nat)
    (key : List StrItem) (wsB wsC : List Nat) (cs : List StrItem) (wsD ws6 : List Nat)
    (hbody : r.Body.data
      = ws1 ++ [123] ++ wsA ++ quoted key ++ wsB ++ [58] ++ wsC ++ quoted cs ++ wsD ++ [125]
          ++ ws6)
    (hcomplete : r.Body.err = ioEOF)
    (hlen : r.Body.data.length ≤ 1048576)
    (hws : isWhite ws1 = true ∧ isWhite wsA = true ∧ isWhite wsB = true ∧ isWhite wsC = true ∧
      isWhite wsD = true ∧ isWhite ws6 = true)
    (hkey : wellFormed key) (hname : denote key = str "City") (hcs : wellFormed cs) :
    (firstDecode r).2.2 = none ∧
      locationString.ofValue (firstDecode r).2.1 = { City := denote cs } ∧
      (secondDecode r).2.2 = some ioEOF ∧
      failureKind r = none ∧
      getCloudflare w r
        = { w := w.HeaderSet (str "Content-Type") (str "application/json"), log := [] } ∧
      (getCloudflare ResponseWriter.new r).w.status = 200 ∧
      (getCloudflare ResponseWriter.new r).w.body = [] := by
  obtain ⟨hws1, hwsA, hwsB, hwsC, hwsD, hws6⟩ := hws
  have hbody' : r.Body.data
      = ws1 ++ ((JValue.object (.one wsA (key.flatMap StrItem.chars) wsB wsC
          (.string (cs.flatMap StrItem.chars)) wsD)).render ++ ws6) := by
    rw [hbody]
    simp [JValue.render, JMembers.render, stringText_chars]
  have hvalid : (JMembers.one wsA (key.flatMap StrItem.chars) wsB wsC
      (.string (cs.flatMap StrItem.chars)) wsD).valid = true := by
    simp [JMembers.valid, JValue.valid, hwsA, hwsB, hwsC, hwsD, validChars_chars key hkey,
      validChars_chars cs hcs]
  have hname' : stringValue (key.flatMap StrItem.chars) = str "City" := by
    rw [stringValue_chars key hkey, hname]
  obtain ⟨h1, h2, h3⟩ := firstDecode_object r ws1 _ ws6 hbody' hlen hws1 hvalid
    (by simp [JMembers.depth, JValue.depth, maxNestingDepth])
  have hdec : (firstDecode r).2
      = (locationString.toValue { City := denote cs }, none) := by
    rw [h1]
    have hl : lookupField locationStringType (str "City") = some (str "City") := by decide
    simp only [JMembers.decode, memberDecode, hname', hl, targetStore, storeField, targetError,
      fieldError, typeErrorKind, firstErr, stringValue_chars cs hcs]
    rfl
  have hsecond : (secondDecode r).2.2 = some ioEOF := by
    have := Decode_white (firstDecode r).1 emptyStructType [] h3 (by rw [h2]; exact hws6)
      (by rw [h2, hcomplete]; rfl)
    rw [h2] at this
    rw [secondDecode, this, hcomplete]
  have hfirst : (firstDecode r).2.2 = none := by rw [hdec]
  have hget : ∀ w, getCloudflare w r
      = { w := w.HeaderSet (str "Content-Type") (str "application/json"), log := [] } := by
    intro w
    simp [getCloudflare, hfirst, hsecond, ioEOF]
  refine ⟨hfirst, by rw [hdec]; rfl, hsecond, ?_, hget w, ?_, ?_⟩
  · simp [failureKind, hfirst, hsecond, ioEOF]
  · rw [hget]; rfl
  · rw [hget]; rfl

/-- C1 at a body whose string literal holds a `\u` escape, the escape `\n`, an
unescaped `é` and the surrogate pair of U+1F600: `City` is `Parïs`, a line feed,
`é` and U+1F600, in UTF-8. -/
theorem C1_single_city_object_witness :
    (post (str "\x7b\"City\": \"Par\\u00efs\\n" ++ [0xC3, 0xA9] ++ str "\\ud83d\\uDE00\" \x7d\n")).Body.data.length
        ≤ 1048576 ∧
      (secondDecode
        (post (str "\x7b\"City\": \"Par\\u00efs\\n" ++ [0xC3, 0xA9] ++ str "\\ud83d\\uDE00\" \x7d\n"))).2.2
        = some ioEOF ∧
      locationString.ofValue
        (firstDecode
          (post (str "\x7b\"City\": \"Par\\u00efs\\n" ++ [0xC3, 0xA9]
            ++ str "\\ud83d\\uDE00\" \x7d\n"))).2.1
        = { City := str "Par" ++ [0xC3, 0xAF] ++ str "s\n" ++ [0xC3, 0xA9, 0xF0, 0x9F, 0x98, 0x80] } :=
  have h := C1_single_city_object ResponseWriter.new
    (post (str "\x7b\"City\": \"Par\\u00efs\\n" ++ [0xC3, 0xA9] ++ str "\\ud83d\\uDE00\" \x7d\n"))
    [] [] [.char 67, .char 105, .char 116, .char 121] [] [32]
    [.char 80, .char 97, .char 114, .uni 48 48 101 102, .char 115, .esc 110, .char 0xE9,
      .pair 100 56 51 100 68 69 48 48] [32] [10]
    (by decide) rfl (by decide) (by decide)
    (by simp [wellFormed, StrItem.ok, isScalar]) (by decide)
    (by simp [wellFormed, StrItem.ok, isScalar, isHexDigit, hex4, hexValue])
  ⟨by decide, h.2.2.1, h.2.1⟩

theorem foldName_ascii_target :
    ∀ (k T : List Nat), (∀ x ∈ T, x < 0x80 ∧ x ≠ 83 ∧ x ≠ 75) →
      (foldName k = T ↔ k.map upperASCII = T) := by
  intro k
  induction k using foldName.induct with
  | case1 =>
    intro T _
    simp [foldName]
  | case2 rest ih =>
    intro T hT
    rw [foldName]
    constructor
    · intro h
      subst h
      have := hT 83 (by simp)
      omega
    · intro h
      simp only [List.map_cons] at h
      subst h
      have := hT (upperASCII 0xC5) (by simp)
      simp [upperASCII] at this
  | case3 rest ih =>
    intro T hT
    rw [foldName]
    constructor
    · intro h
      subst h
      have := hT 75 (by simp)
      omega
    · intro h
      simp only [List.map_cons] at h
      subst h
      have := hT (upperASCII 0xE2) (by simp)
      simp [upperASCII] at this
  | case4 c rest h1 h2 ih =>
    intro T hT
    rw [foldName]
    · cases T with
      | nil => simp
      | cons t T' =>
        simp only [List.map_cons, List.cons.injEq, upperASCII]
        rw [ih T' (fun x hx => hT x (by simp [hx]))]
    · exact h1
    · exact h2

/-- The field that the decoder chooses for a member name of `locationString`:
`City` for the spellings of `City`, none for every other name. -/
theorem lookupField_locationString (k : List Nat) :
    lookupField locationStringType k = if isCityName k = true then some (str "City") else none := by
  have hT : ∀ x ∈ str "CITY", x < 0x80 ∧ x ≠ 83 ∧ x ≠ 75 := by decide
  have hfold := foldName_ascii_target k (str "CITY") hT
  have hfc : foldName (str "City") = str "CITY" := by decide
  by_cases hk : k = str "City"
  · subst hk; decide
  · have h1 : (str "City" == k) = false := by
      simp only [beq_eq_false_iff_ne, ne_eq]
      exact fun h => hk h.symm
    unfold lookupField
    simp only [locationStringType, List.find?_cons, h1, List.find?_nil, hfc]
    by_cases hc : isCityName k = true
    · have hm : k.map upperASCII = str "CITY" := by simpa [isCityName] using hc
      have hf : foldName k = str "CITY" := hfold.mpr hm
      simp [hc, hf]
    · have hm : ¬ k.map upperASCII = str "CITY" := by simpa [isCityName] using hc
      have hf : ¬ foldName k = str "CITY" := fun h => hm (hfold.mp h)
      have hb : (str "CITY" == foldName k) = false := by
        simp only [beq_eq_false_iff_ne, ne_eq]
        exact fun h => hf h.symm
      simp [hc, hb]

theorem consMembers_render (pre : List CityMember) (ms : JMembers) :
    (consMembers pre ms).render = pre.flatMap CityMember.text ++ ms.render := by
  induction pre with
  | nil => rfl
  | cons m pre ih =>
    simp [consMembers, JMembers.render, ih, CityMember.text, stringText_chars]

theorem consMembers_valid (pre : List CityMember) (ms : JMembers)
    (hpre : ∀ m ∈ pre, m.ok) (hms : ms.valid = true) : (consMembers pre ms).valid = true := by
  induction pre with
  | nil => exact hms
  | cons m pre ih =>
    obtain ⟨h1, h2, -, h4, h5, h6, -, h8⟩ := hpre m (by simp)
    have := ih (fun x hx => hpre x (by simp [hx]))
    simp [consMembers, JMembers.valid, h1, h4, h5, h6, h8, validChars_chars m.key h2, this]

theorem consMembers_depth (pre : List CityMember) (ms : JMembers)
    (hpre : ∀ m ∈ pre, m.ok) : (consMembers pre ms).depth = ms.depth := by
  induction pre with
  | nil => rfl
  | cons m pre ih =>
    obtain ⟨-, -, -, -, -, -, h7, -⟩ := hpre m (by simp)
    have := ih (fun x hx => hpre x (by simp [hx]))
    have hd : m.v.depth = 0 := by
      cases hv : m.v <;> simp [hv, JValue.plain] at h7 <;> rfl
    simp [consMembers, JMembers.depth, hd, this]

theorem consMembers_firstUnknown (pre : List CityMember) (ms : JMembers)
    (hpre : ∀ m ∈ pre, m.ok) :
    (consMembers pre ms).firstUnknown locationStringType = ms.firstUnknown locationStringType := by
  induction pre with
  | nil => rfl
  | cons m pre ih =>
    obtain ⟨-, h2, h3, -, -, -, h7, -⟩ := hpre m (by simp)
    have := ih (fun x hx => hpre x (by simp [hx]))
    have hl : lookupField locationStringType (stringValue (m.key.flatMap StrItem.chars))
        = some (str "City") := by
      rw [stringValue_chars m.key h2, lookupField_locationString, if_pos h3]
    have hk : (typeErrorKind m.v).isNone = true := by
      cases hv : m.v <;> simp [hv, JValue.plain] at h7 <;> rfl
    simp only [consMembers, JMembers.firstUnknown, hl, hk, if_true, this]

theorem denote_map_char (name : List Nat) (h : ∀ c ∈ name, c ≤ 0x7E) :
    denote (name.map StrItem.char) = name := by
  induction name with
  | nil => rfl
  | cons c name ih =>
    have hc := h c (by simp)
    have := ih (fun x hx => h x (by simp [hx]))
    simp only [denote, List.map_cons, List.flatMap_cons, StrItem.value] at this ⊢
    rw [this, utf8_small c (by omega)]
    rfl

theorem wellFormed_map_char (name : List Nat) (h : wellFormed (name.map StrItem.char)) :
    ∀ c ∈ name, 0x20 ≤ c ∧ c ≠ 34 ∧ c ≠ 92 := by
  induction name with
  | nil => intro c hc; simp at hc
  | cons a name ih =>
    simp only [List.map_cons, wellFormed, StrItem.ok, Bool.and_eq_true, decide_eq_true_eq,
      bne_iff_ne] at h
    obtain ⟨⟨⟨⟨h1, h2⟩, h3⟩, -⟩, hrest⟩ := h
    intro c hc
    rcases List.mem_cons.mp hc with rfl | hc
    · exact ⟨h1, h2, h3⟩
    · exact ih hrest c hc

/-- What `strconv.Quote` makes of printable ASCII characters other than `"` and
`\`: the characters between two quotation marks. -/
theorem strconvQuote_printable (name : List Nat)
    (h : ∀ c ∈ name, 0x20 ≤ c ∧ c ≤ 0x7E ∧ c ≠ 34 ∧ c ≠ 92) :
    strconvQuote name = [34] ++ name ++ [34] := by
  have hloop : quoteLoop 0 name = name := by
    induction name with
    | nil => rfl
    | cons c name ih =>
      obtain ⟨h1, h2, h3, h4⟩ := h c (by simp)
      have := ih (fun x hx => h x (by simp [hx]))
      have hq : ¬ (c = 34 ∨ c = 92) := by omega
      have hp : IsPrint c = true := by
        have h5 : c ≤ 0xFF := by omega
        simp only [IsPrint, if_pos h5, Bool.or_eq_true, Bool.and_eq_true, decide_eq_true_eq]
        exact Or.inl ⟨h1, h2⟩
      have he : encodeRune c = [c] := by simp [encodeRune]; omega
      rw [quoteLoop, if_pos (by omega), this]
      simp only [appendEscapedRune, if_neg hq, hp, if_true, he]
      rfl
  rw [strconvQuote, hloop]

/-- C5, amended: when a body begins (after optional white space) with a well-formed
JSON object that ends within the first 1,048,576 bytes and is nested at most
10,000 deep, and in that object a member whose name is no spelling of `City`
comes after none but members that have a spelling of `City` as their name and a
string or `null` as their value, then the result is UnknownField: the first
`Decode` fails with an error whose text begins with `json: unknown field `, the
status is 400, and the message is `Request body contains and unknown field `
followed by the rest of that text. For a name of printable ASCII characters
that is written without escapes, that rest is the name between two quotation
marks. -/
theorem C5_first_error_unknown_field (w : ResponseWriter) (r : Request) (ws0 : List Nat)
    (before : List CityMember) (wsA : List Nat) (key : List StrItem) (wsB wsC : List Nat)
    (v : JValue) (wsD after rest : List Nat)
    (hbody : r.Body.data
      = ws0 ++ [123] ++ before.flatMap CityMember.text
          ++ (wsA ++ quoted key ++ wsB ++ [58] ++ wsC ++ v.render ++ wsD) ++ after ++ [125]
          ++ rest)
    (hfit : (ws0 ++ [123] ++ before.flatMap CityMember.text
          ++ (wsA ++ quoted key ++ wsB ++ [58] ++ wsC ++ v.render ++ wsD) ++ after
          ++ [125]).length ≤ 1048576)
    (hws : isWhite ws0 = true ∧ isWhite wsA = true ∧ isWhite wsB = true ∧ isWhite wsC = true ∧
      isWhite wsD = true)
    (hbefore : ∀ m ∈ before, m.ok)
    (hkey : wellFormed key) (hunknown : isCityName (denote key) = false)
    (hv : v.valid = true) (hvd : v.depth + 1 ≤ maxNestingDepth)
    (hafter : after = [] ∨
      ∃ ms : JMembers, ms.valid = true ∧ ms.depth + 1 ≤ maxNestingDepth ∧ after = 44 :: ms.render) :
    failureKind r = some .UnknownField ∧
      (getCloudflare ResponseWriter.new r).w.status = 400 ∧
      (∃ e : GoError, (firstDecode r).2.2 = some e ∧
        HasPrefix e.text (str "json: unknown field ") = true ∧
        getCloudflare w r
          = { w := httpError (w.HeaderSet (str "Content-Type") (str "application/json"))
                (str "Request body contains and unknown field "
                  ++ TrimPrefix e.text (str "json: unknown field ")) 400,
              log := [] }) ∧
      (∀ name : List Nat, key = name.map StrItem.char → (∀ c ∈ name, c ≤ 0x7E) →
        (firstDecode r).2.2
            = some (errorString (str "json: unknown field " ++ [34] ++ name ++ [34])) ∧
          (getCloudflare ResponseWriter.new r).w.body
            = str "Request body contains and unknown field " ++ [34] ++ name ++ [34, 10]) := by
  obtain ⟨hws0, hwsA, hwsB, hwsC, hwsD⟩ := hws
  have hkv : validChars (key.flatMap StrItem.chars) = true := validChars_chars key hkey
  have hlook2 : lookupField locationStringType (denote key) = none := by
    rw [lookupField_locationString, hunknown]
    rfl
  have hms : ∃ ms : JMembers,
      (JValue.object ms).render
        = [123] ++ before.flatMap CityMember.text
          ++ (wsA ++ quoted key ++ wsB ++ [58] ++ wsC ++ v.render ++ wsD) ++ after ++ [125] ∧
      ms.valid = true ∧ ms.depth + 1 ≤ maxNestingDepth ∧
      ms.firstUnknown locationStringType = some (denote key) := by
    rcases hafter with ha | ⟨ms', hv', hd', ha⟩
    · refine ⟨consMembers before (.one wsA (key.flatMap StrItem.chars) wsB wsC v wsD), ?_, ?_, ?_,
        ?_⟩
      · simp [JValue.render, consMembers_render, JMembers.render, stringText_chars, ha]
      · exact consMembers_valid _ _ hbefore
          (by simp [JMembers.valid, hwsA, hwsB, hwsC, hwsD, hkv, hv])
      · rw [consMembers_depth _ _ hbefore]; simpa [JMembers.depth] using hvd
      · rw [consMembers_firstUnknown _ _ hbefore]
        simp only [JMembers.firstUnknown, stringValue_chars key hkey, hlook2]
    · refine ⟨consMembers before (.cons wsA (key.flatMap StrItem.chars) wsB wsC v wsD ms'), ?_, ?_,
        ?_, ?_⟩
      · simp [JValue.render, consMembers_render, JMembers.render, stringText_chars, ha]
      · exact consMembers_valid _ _ hbefore
          (by simp [JMembers.valid, hwsA, hwsB, hwsC, hwsD, hkv, hv, hv'])
      · rw [consMembers_depth _ _ hbefore]
        simp only [JMembers.depth]
        omega
      · rw [consMembers_firstUnknown _ _ hbefore]
        simp only [JMembers.firstUnknown, stringValue_chars key hkey, hlook2]
  obtain ⟨ms, hrender, hvalid, hdepth, hfirst⟩ := hms
  have hdata : r.Body.data = ws0 ++ ((JValue.object ms).render ++ rest) := by
    rw [hbody, hrender]
    simp only [List.append_assoc]
  have hfit' : ws0.length + (JValue.object ms).render.length ≤ 1048576 := by
    rw [hrender]
    simp only [List.length_append] at hfit ⊢
    omega
  have h1 := firstDecode_object_head r ws0 ms rest hdata hfit' hws0 hvalid hdepth
  have hfirstDecode : (firstDecode r).2.2 = some (unknownFieldError (denote key)) := by
    rw [h1]
    exact JMembers.decode_firstUnknown locationStringType (denote key) ms _ _ hfirst
  have htext : (unknownFieldError (denote key)).text
      = str "json: unknown field " ++ strconvQuote (denote key) := rfl
  have hget : ∀ w, getCloudflare w r
      = { w := httpError (w.HeaderSet (str "Content-Type") (str "application/json"))
              (str "Request body contains and unknown field "
                ++ TrimPrefix (unknownFieldError (denote key)).text
                    (str "json: unknown field ")) 400,
          log := [] } := by
    intro w
    simp only [getCloudflare, hfirstDecode, decodeErrorResponse_eq_branch,
      classify_unknownFieldError, branchOutcome]
  refine ⟨?_, ?_, ⟨_, hfirstDecode, ?_, hget w⟩, ?_⟩
  · simp [failureKind, hfirstDecode, classify_unknownFieldError]
  · rw [hget]; rfl
  · rw [htext, HasPrefix_append]
  · intro name hname hascii
    have hwf := wellFormed_map_char name (hname ▸ hkey)
    have hden : denote key = name := by rw [hname]; exact denote_map_char name hascii
    have hq : strconvQuote name = [34] ++ name ++ [34] :=
      strconvQuote_printable name (fun c hc => ⟨(hwf c hc).1, hascii c hc, (hwf c hc).2⟩)
    refine ⟨?_, ?_⟩
    · rw [hfirstDecode, hden, unknownFieldError, hq]
      simp only [List.append_assoc]
    · rw [hget, htext, TrimPrefix_append, hden, hq]
      simp [httpError, ResponseWriter.body, ResponseWriter.Write, ResponseWriter.WriteHeader,
        ResponseWriter.HeaderSet, ResponseWriter.HeaderDel, ResponseWriter.new]

/-- C5 (amended) at the body `{"city": null, "Country": "France", "n": true} x`. -/
theorem C5_first_error_unknown_field_witness :
    (getCloudflare ResponseWriter.new
        (post (str "\x7b\"city\": null, \"Country\": \"France\", \"n\": true\x7d x"))).w.status
        = 400 ∧
      (getCloudflare ResponseWriter.new
        (post (str "\x7b\"city\": null, \"Country\": \"France\", \"n\": true\x7d x"))).w.body
        = str "Request body contains and unknown field \"Country\"\n" :=
  have h := C5_first_error_unknown_field ResponseWriter.new
    (post (str "\x7b\"city\": null, \"Country\": \"France\", \"n\": true\x7d x")) []
    [{ ws1 := [], key := [.char 99, .char 105, .char 116, .char 121], ws2 := [], ws3 := [32],
       v := .null, ws4 := [] }]
    [32] [.char 67, .char 111, .char 117, .char 110, .char 116, .char 114, .char 121] [] [32]
    (.string [.raw 70, .raw 114, .raw 97, .raw 110, .raw 99, .raw 101]) []
    (44 :: (JMembers.one [32] [.raw 110] [] [32] .jtrue []).render) (str " x")
    (by decide) (by decide) (by decide)
    (by
      intro m hm
      rw [List.mem_singleton] at hm
      subst hm
      exact ⟨by decide, by simp [wellFormed, StrItem.ok, isScalar], by decide, by decide,
        by decide, by decide, by decide, by decide⟩)
    (by simp [wellFormed, StrItem.ok, isScalar]) (by decide) (by decide) (by decide)
    (Or.inr ⟨_, by decide, by decide, rfl⟩)
  ⟨h.2.1, (h.2.2.2 (str "Country") (by decide) (by decide)).2⟩

theorem Quiet_dropLast (f : Nat → Nat) (k : Nat) (l : List Nat) (s : scanner)
    (h : Quiet f k s l) : Quiet f k s l.dropLast := by
  by_cases hl : l = []
  · subst hl; trivial
  · rw [← List.dropLast_append_getLast hl, Quiet_append] at h
    exact h.1

/-- The scanner steps through a well-formed top-level value, up to its last byte,
without an error and without finding the end of the value. -/
theorem Quiet_top (v : JValue) (hv : v.valid = true) (hd : v.depth ≤ maxNestingDepth)
    (s : scanner) (hs : St s stateBeginValue []) : Quiet (· + 1) 0 s v.render.dropLast := by
  cases v with
  | null =>
    exact Quiet_dropLast _ _ _ _
      (Quiet_keyword (· + 1) 0 [] (by simp) s stateBeginValue (Or.inl rfl) hs _ (Or.inl rfl)).1
  | jtrue =>
    exact Quiet_dropLast _ _ _ _
      (Quiet_keyword (· + 1) 0 [] (by simp) s stateBeginValue (Or.inl rfl) hs _
        (Or.inr (Or.inl rfl))).1
  | jfalse =>
    exact Quiet_dropLast _ _ _ _
      (Quiet_keyword (· + 1) 0 [] (by simp) s stateBeginValue (Or.inl rfl) hs _
        (Or.inr (Or.inr rfl))).1
  | number n =>
    exact Quiet_dropLast _ _ _ _
      (Quiet_number (· + 1) 0 [] (by simp) n (by simpa [JValue.valid] using hv) s stateBeginValue
        (Or.inl rfl) hs).1
  | string cs =>
    exact Quiet_dropLast _ _ _ _
      (Quiet_stringText (· + 1) 0 [] (by simp) cs (by simpa [JValue.valid, validChars] using hv)
        s stateBeginValue (Or.inl rfl) hs).1
  | emptyArray ws =>
    have h1 := open_array (· + 1) 0 [] (by simp) (by simp [maxNestingDepth]) s stateBeginValue
      (Or.inl rfl) hs
    have h2 := Quiet_ws_begin (· + 1) 0 [parseArrayValue] (by simp) stateBeginValueOrEmpty
      (by simp) ws (by simpa [JValue.valid] using hv) _ h1.2.1
    have htext : (JValue.emptyArray ws).render.dropLast = 91 :: ws := by
      simp only [JValue.render, List.singleton_append]
      exact List.dropLast_concat
    rw [htext]
    exact ⟨h1.1, h2.1⟩
  | emptyObject ws =>
    have h1 := open_object (· + 1) 0 [] (by simp) (by simp [maxNestingDepth]) s stateBeginValue
      (Or.inl rfl) hs
    have h2 := Quiet_ws_begin (· + 1) 0 [parseObjectKey] (by simp) stateBeginStringOrEmpty
      (by simp) ws (by simpa [JValue.valid] using hv) _ h1.2.1
    have htext : (JValue.emptyObject ws).render.dropLast = 123 :: ws := by
      simp only [JValue.render, List.singleton_append]
      exact List.dropLast_concat
    rw [htext]
    exact ⟨h1.1, h2.1⟩
  | array es =>
    have h1 := open_array (· + 1) 0 [] (by simp) (by simp [maxNestingDepth]) s stateBeginValue
      (Or.inl rfl) hs
    have h2 := Quiet_elems (· + 1) 0 es (by simpa [JValue.valid] using hv) [] (by simp)
      (by simp [JValue.depth] at hd ⊢; omega) _ stateBeginValueOrEmpty (Or.inr rfl) h1.2.1
    have htext : (JValue.array es).render.dropLast = 91 :: es.render := by
      simp only [JValue.render, List.singleton_append]
      exact List.dropLast_concat
    rw [htext]
    exact ⟨h1.1, h2.1⟩
  | object ms =>
    have h1 := open_object (· + 1) 0 [] (by simp) (by simp [maxNestingDepth]) s stateBeginValue
      (Or.inl rfl) hs
    have h2 := Quiet_members (· + 1) 0 ms (by simpa [JValue.valid] using hv) [] (by simp)
      (by simp [JValue.depth] at hd ⊢; omega) _ stateBeginStringOrEmpty (Or.inr rfl) h1.2.1
    have htext : (JValue.object ms).render.dropLast = 123 :: ms.render := by
      simp only [JValue.render, List.singleton_append]
      exact List.dropLast_concat
    rw [htext]
    exact ⟨h1.1, h2.1⟩

/-- The loop of `readValue` over white space and the beginning of a well-formed
value that is not complete: every byte is scanned, and the error of the reader
is returned when it is not `io.EOF`. -/
theorem readValueLoop_head (err : GoError) (all ws p q : List Nat) (v : JValue)
    (he : err.eqEOF = false) (hws : isWhite ws = true) (hv : v.valid = true)
    (hd : v.depth ≤ maxNestingDepth) (hp : v.render = p ++ q) (hq : q ≠ [])
    (s : scanner) (hs : St s stateBeginValue []) :
    (readValueLoop err all s (ws ++ p) 0).2.2 = some err := by
  have h1 := Quiet_ws_begin (· + 1) 0 [] (by simp) stateBeginValue (Or.inl rfl) ws hws s hs
  have h2 := Quiet_top v hv hd _ h1.2
  have hpre : v.render.dropLast = p ++ q.dropLast := by
    rw [hp, List.dropLast_append_of_ne_nil p hq]
  rw [hpre, Quiet_append] at h2
  have hquiet : Quiet (· + 1) 0 s (ws ++ p) := by
    rw [Quiet_append]
    exact ⟨h1.1, h2.1⟩
  have := readValueLoop_quiet err all (ws ++ p) [] s 0 hquiet
  rw [List.append_nil] at this
  rw [this, readValueLoop]
  simp [he]

/-- C4, amended: for every body longer than 1,048,576 bytes whose first
1,048,576 bytes are, after optional white space, the beginning of a well-formed
JSON value that is nested at most 10,000 deep and is not complete within them,
the first `Decode` fails with the error of the size cap, the result is
TooLarge, and the response has status 413 with the message
"Request body must not be larger than 1MB". -/
theorem C4_unfinished_value_too_large (w : ResponseWriter) (r : Request)
    (ws p q : List Nat) (v : JValue)
    (hlong : 1048576 < r.Body.data.length)
    (hhead : r.Body.data.take 1048576 = ws ++ p)
    (hws : isWhite ws = true) (hv : v.valid = true) (hd : v.depth ≤ maxNestingDepth)
    (hp : v.render = p ++ q) (hq : q ≠ []) :
    (firstDecode r).2.2 = some MaxBytesError ∧
      failureKind r = some .TooLarge ∧
      getCloudflare w r
        = { w := httpError (w.HeaderSet (str "Content-Type") (str "application/json"))
              (str "Request body must not be larger than 1MB") 413,
            log := [] } ∧
      (getCloudflare ResponseWriter.new r).w.status = 413 ∧
      (getCloudflare ResponseWriter.new r).w.body
        = str "Request body must not be larger than 1MB\n" := by
  have hrv : ((requestDecoder r).readValue).2.2 = some MaxBytesError := by
    have := readValueLoop_head MaxBytesError (r.Body.data.take 1048576) ws p q v rfl hws hv hd hp
      hq scanner.new.reset (St_reset _)
    rw [← hhead] at this
    simpa [Decoder.readValue, requestDecoder, NewDecoder, Decoder.DisallowUnknownFields,
      MaxBytesReader, hlong] using this
  have hfirstDecode : (firstDecode r).2.2 = some MaxBytesError := by
    unfold firstDecode Decoder.Decode
    have herr : (requestDecoder r).err = none := rfl
    simp only [herr, hrv]
  have hget : ∀ w, getCloudflare w r
      = { w := httpError (w.HeaderSet (str "Content-Type") (str "application/json"))
              (str "Request body must not be larger than 1MB") 413,
          log := [] } := by
    intro w
    simp only [getCloudflare, hfirstDecode, decodeErrorResponse_eq_branch,
      classify_MaxBytesError, branchOutcome]
  refine ⟨hfirstDecode, ?_, hget w, ?_, ?_⟩
  · simp [failureKind, hfirstDecode, classify_MaxBytesError]
  · rw [hget]; rfl
  · rw [hget]; decide

theorem flatMap_text_replicate (n c : Nat) :
    (List.replicate n (JChar.raw c)).flatMap JChar.text = List.replicate n c := by
  induction n with
  | zero => rfl
  | succ n ih => simp only [List.replicate_succ, List.flatMap_cons, ih, JChar.text]; rfl

theorem validChars_replicate (n c : Nat) (h : (JChar.raw c).valid = true) :
    validChars (List.replicate n (JChar.raw c)) = true := by
  induction n with
  | zero => rfl
  | succ n ih =>
    simp only [validChars, List.replicate_succ, List.all_cons, Bool.and_eq_true] at ih ⊢
    exact ⟨h, ih⟩

/-- A body that is the object `{"City": "aa…` with a string literal that is still
open when the size cap is reached. -/
theorem openString_head (n m : Nat) (hn : 10 + n = 1048576) :
    (str "\x7b\"City\": \"" ++ List.replicate n 97 ++ List.replicate m 97).take 1048576
        = [] ++ (str "\x7b\"City\": \"" ++ List.replicate n 97) ∧
      (JValue.object (.one [] [.raw 67, .raw 105, .raw 116, .raw 121] [] [32]
          (.string (List.replicate n (.raw 97))) [])).render
        = (str "\x7b\"City\": \"" ++ List.replicate n 97) ++ [34, 125] ∧
      (JValue.object (.one [] [.raw 67, .raw 105, .raw 116, .raw 121] [] [32]
          (.string (List.replicate n (.raw 97))) [])).valid = true := by
  refine ⟨?_, ?_, ?_⟩
  · rw [List.nil_append]
    apply List.take_left'
    rw [List.length_append, List.length_replicate]
    exact hn
  · have hs : str "\x7b\"City\": \"" = [123, 34, 67, 105, 116, 121, 34, 58, 32, 34] := by decide
    rw [hs]
    simp [JValue.render, JMembers.render, stringText, flatMap_text_replicate, JChar.text]
  · simp only [JValue.valid, JMembers.valid, validChars_replicate n 97 (by decide),
      Bool.and_true]
    rfl

/-- C4 (amended) at the body of 1,048,583 bytes that begins `{"City": "aaa` and
goes on with the letter `a` to its end. -/
theorem C4_unfinished_value_too_large_witness :
    1048576 < (post (str "\x7b\"City\": \"" ++ List.replicate 1048566 97
        ++ List.replicate 7 97)).Body.data.length ∧
      (getCloudflare ResponseWriter.new (post (str "\x7b\"City\": \"" ++ List.replicate 1048566 97
        ++ List.replicate 7 97))).w.status = 413 :=
  have hlong : 1048576 < (post (str "\x7b\"City\": \"" ++ List.replicate 1048566 97
      ++ List.replicate 7 97)).Body.data.length := by
    show 1048576 < (str "\x7b\"City\": \"" ++ List.replicate 1048566 97
      ++ List.replicate 7 97).length
    rw [List.length_append, List.length_append, List.length_replicate, List.length_replicate]
    decide
  have h := openString_head 1048566 7 (by decide)
  ⟨hlong,
    (C4_unfinished_value_too_large ResponseWriter.new _ [] _ [34, 125] _ hlong h.1 rfl h.2.2
      (by simp [JValue.depth, JMembers.depth, maxNestingDepth]) h.2.1 (by simp)).2.2.2.1⟩

end CloudflareGo
